import Mathlib

/-!
# uC/DHCPc : a shallow embedding of `Source/dhcp-c.c` and its properties

Conventions of the embedding.

* A byte pointer of the C code is a `Mem` (offset from the pointer to byte value); pointer
  arithmetic is arithmetic on offsets.  The memory past a buffer exists and is read or written
  by the model exactly where the C code reads or writes it.
* `CPU_INT08U`, `CPU_INT16U` and `CPU_INT32U` values are naturals, reduced modulo `2^8`, `2^16`
  and `2^32` wherever the C code can wrap.
* A function returning through `*perr` returns its error code as part of its result.
* Loops are structural recursions on a fuel argument; totality lemmas show the fuel used by
  the callers is sufficient.
* The code is read with `NET_IPv4_MODULE_EN` defined.  The globals of `dhcp-c.c` form the
  record `Client`; what the network stack, the OS port and the servers answer is read from the
  lists of `Env`, one answer per call, and the calls made are recorded in a trace.
* A state handler receives the interface record through a pointer; in the model it receives
  the record and returns it, and `DHCPc_MsgRxHandler` stores it back in the list.
-/

namespace DHCPc

/-! ## Message layout constants -/

/-- Modelled from the spec: `DHCP_MSG_HDR_SIZE` of `dhcp-c.h`, the size of the fixed header
(the magic cookie sits at offset 236). -/
def DHCP_MSG_HDR_SIZE : Nat := 236

/-- Modelled from the spec: `DHCP_MAGIC_COOKIE_SIZE` of `dhcp-c.h` (4-byte magic cookie). -/
def DHCP_MAGIC_COOKIE_SIZE : Nat := 4

/-- Modelled from the spec: `DHCP_MAGIC_COOKIE` of `dhcp-c.h` in network order, the bytes
`0x63 0x82 0x53 0x63` (99, 130, 83, 99). -/
def DHCP_MAGIC_COOKIE : List Nat := [0x63, 0x82, 0x53, 0x63]

/-- Modelled from the spec: `DHCP_OPT_FIELD_CODE_LEN` of `dhcp-c.h` (option code: 1 byte). -/
def DHCP_OPT_FIELD_CODE_LEN : Nat := 1

/-- Modelled from the spec: `DHCP_OPT_FIELD_HDR_LEN` of `dhcp-c.h` (code byte + length byte). -/
def DHCP_OPT_FIELD_HDR_LEN : Nat := 2

/-- Modelled from the spec: `DHCP_OPT_PAD` of `dhcp-c.h` (option code 0). -/
def DHCP_OPT_PAD : Nat := 0

/-- Modelled from the spec: `DHCP_OPT_END` of `dhcp-c.h` (option code 255). -/
def DHCP_OPT_END : Nat := 255

/-- Memory addressed from a byte pointer: offset to byte. -/
abbrev Mem := Nat → Nat

/-- The memory whose first bytes are `l` and whose other bytes are `0`. -/
def memOfList (l : List Nat) : Mem := fun i => l.getD i 0

/-- The `n` bytes of `mem` starting at offset `p`. -/
def memBytes (mem : Mem) (p n : Nat) : List Nat := (List.range n).map (fun j => mem (p + j))

/-- `Mem_Cmp(p1, p2, size)` where the second operand holds the bytes `l`. -/
def Mem_Cmp (mem : Mem) (p : Nat) (l : List Nat) : Bool := decide (memBytes mem p l.length = l)

/-! ## Enumerations and records of `dhcp-c.h` -/

/-- Modelled from the spec: `DHCPc_STATE` of `dhcp-c.h`, the client states of the spec's data
model. -/
inductive DHCPc_STATE where
  | DHCP_STATE_NONE | DHCP_STATE_INIT | DHCP_STATE_SELECTING | DHCP_STATE_REQUESTING
  | DHCP_STATE_BOUND | DHCP_STATE_RENEWING | DHCP_STATE_REBINDING | DHCP_STATE_INIT_REBOOT
  | DHCP_STATE_LOCAL_LINK | DHCP_STATE_STOPPING
  deriving DecidableEq, Repr

/-- Modelled from the spec: `DHCPc_STATUS` of `dhcp-c.h`, the lease status values. -/
inductive DHCPc_STATUS where
  | DHCP_STATUS_NONE | DHCP_STATUS_CFG_IN_PROGRESS | DHCP_STATUS_CFGD | DHCP_STATUS_CFGD_NO_TMR
  | DHCP_STATUS_CFGD_LOCAL_LINK | DHCP_STATUS_FAIL
  deriving DecidableEq, Repr

/-- Modelled from the spec: `DHCPc_ERR` of `dhcp-c.h`; one constructor per error code named in
`dhcp-c.c` (the numeric values are not used by the code). -/
inductive DHCPc_ERR where
  | DHCPc_ERR_NONE | DHCPc_ERR_NONE_NO_TMR | DHCPc_ERR_NONE_LOCAL_LINK
  | DHCPc_ERR_ADDR_USED | DHCPc_ERR_ADDR_VALIDATE | DHCPc_ERR_COMM_NONE_AVAIL
  | DHCPc_ERR_IF_CFG | DHCPc_ERR_IF_CFG_STATE | DHCPc_ERR_IF_INFO_IF_USED
  | DHCPc_ERR_IF_INFO_NONE_AVAIL | DHCPc_ERR_IF_INVALID | DHCPc_ERR_IF_NOT_CFG
  | DHCPc_ERR_IF_NOT_MANAGED | DHCPc_ERR_IF_OPT_NONE | DHCPc_ERR_INIT_INCOMPLETE
  | DHCPc_ERR_INIT_SOCK | DHCPc_ERR_INVALID_HW_ADDR | DHCPc_ERR_INVALID_MSG
  | DHCPc_ERR_INVALID_MSG_SIZE | DHCPc_ERR_LOCAL_LINK | DHCPc_ERR_MSG_NONE_AVAIL
  | DHCPc_ERR_MSG_Q | DHCPc_ERR_NULL_PTR | DHCPc_ERR_OPT_BUF_SIZE
  | DHCPc_ERR_PARAM_REQ_TBL_SIZE | DHCPc_ERR_RX | DHCPc_ERR_RX_MSG_TYPE | DHCPc_ERR_RX_NAK
  | DHCPc_ERR_RX_OVF | DHCPc_ERR_TMR_CFG | DHCPc_ERR_TMR_INVALID_MSG
  | DHCPc_ERR_TMR_NONE_AVAIL | DHCPc_ERR_TX | DHCPc_OS_ERR_LOCK
  deriving DecidableEq, Repr

/-- Modelled from the spec: `DHCPc_COMM_MSG` of `dhcp-c.h`, the command kinds. -/
inductive DHCPc_COMM_MSG where
  | DHCPc_COMM_MSG_NONE | DHCPc_COMM_MSG_START | DHCPc_COMM_MSG_STOP
  | DHCPc_COMM_MSG_T1_EXPIRED | DHCPc_COMM_MSG_T2_EXPIRED | DHCPc_COMM_MSG_LEASE_EXPIRED
  deriving DecidableEq, Repr

open DHCPc_STATE DHCPc_STATUS DHCPc_ERR DHCPc_COMM_MSG

/-- Modelled from the spec: message type codes of option 53 (`dhcp-c.h`). -/
def DHCP_MSG_DISCOVER : Nat := 1
/-- Modelled from the spec: message type code of OFFER. -/
def DHCP_MSG_OFFER : Nat := 2
/-- Modelled from the spec: message type code of REQUEST. -/
def DHCP_MSG_REQUEST : Nat := 3
/-- Modelled from the spec: message type code of DECLINE. -/
def DHCP_MSG_DECLINE : Nat := 4
/-- Modelled from the spec: message type code of ACK. -/
def DHCP_MSG_ACK : Nat := 5
/-- Modelled from the spec: message type code of NAK. -/
def DHCP_MSG_NAK : Nat := 6
/-- Modelled from the spec: message type code of RELEASE. -/
def DHCP_MSG_RELEASE : Nat := 7

/-- Modelled from the spec: option codes of `dhcp-c.h` (table of options used). -/
def DHCP_OPT_SUBNET_MASK : Nat := 1
/-- Modelled from the spec: the TIME_OFFSET option named among the system defaults; its code
(2, RFC 2132) is not in the spec's table. -/
def DHCP_OPT_TIME_OFFSET : Nat := 2
/-- Modelled from the spec: option code of ROUTER. -/
def DHCP_OPT_ROUTER : Nat := 3
/-- Modelled from the spec: option code of DNS. -/
def DHCP_OPT_DOMAIN_NAME_SERVER : Nat := 6
/-- Modelled from the spec: option code of HOST_NAME. -/
def DHCP_OPT_HOST_NAME : Nat := 12
/-- Modelled from the spec: option code of REQUESTED_IP_ADDRESS. -/
def DHCP_OPT_REQUESTED_IP_ADDRESS : Nat := 50
/-- Modelled from the spec: option code of IP_ADDRESS_LEASE_TIME. -/
def DHCP_OPT_IP_ADDRESS_LEASE_TIME : Nat := 51
/-- Modelled from the spec: option code of DHCP_MESSAGE_TYPE. -/
def DHCP_OPT_DHCP_MESSAGE_TYPE : Nat := 53
/-- Modelled from the spec: option code of SERVER_IDENTIFIER. -/
def DHCP_OPT_SERVER_IDENTIFIER : Nat := 54
/-- Modelled from the spec: option code of PARAMETER_REQUEST_LIST. -/
def DHCP_OPT_PARAMETER_REQUEST_LIST : Nat := 55
/-- Modelled from the spec: option code of RENEWAL_TIME_VALUE. -/
def DHCP_OPT_RENEWAL_TIME_VALUE : Nat := 58
/-- Modelled from the spec: option code of REBINDING_TIME_VALUE. -/
def DHCP_OPT_REBINDING_TIME_VALUE : Nat := 59

/-- Modelled from the spec: `DHCP_MSG_BUF_SIZE` of `dhcp-c.h` (576-byte message buffer). -/
def DHCP_MSG_BUF_SIZE : Nat := 576
/-- Modelled from the spec: `DHCP_MSG_TX_MIN_LEN` of `dhcp-c.h` (messages padded to 300 bytes). -/
def DHCP_MSG_TX_MIN_LEN : Nat := 300
/-- Modelled from the spec: `DHCP_OP_REQUEST` of `dhcp-c.h` (`op = 1`). -/
def DHCP_OP_REQUEST : Nat := 1
/-- Modelled from the spec: `DHCP_OP_REPLY` of `dhcp-c.h` (`op = 2`). -/
def DHCP_OP_REPLY : Nat := 2
/-- Modelled from the spec: `DHCP_HTYPE_ETHER` of `dhcp-c.h` (`htype = 1`). -/
def DHCP_HTYPE_ETHER : Nat := 1
/-- Modelled from the spec: `NET_IF_ETHER_ADDR_SIZE` of the network stack (6-byte address). -/
def NET_IF_ETHER_ADDR_SIZE : Nat := 6
/-- Modelled from the spec: `DHCP_FLAG_BROADCAST` of `dhcp-c.h`, the BROADCAST bit of `flags`. -/
def DHCP_FLAG_BROADCAST : Nat := 0x8000
/-- Modelled from the spec: `DHCP_LEASE_INFINITE` of `dhcp-c.h` (`0xFFFFFFFF`). -/
def DHCP_LEASE_INFINITE : Nat := 0xFFFFFFFF

/-- Modelled from the spec: byte offsets of the members of `DHCP_MSG_HDR` (`dhcp-c.h`), after
the header layout `op(1) htype(1) hlen(1) hops(1) xid(4) secs(2) flags(2) ciaddr(4) yiaddr(4)
siaddr(4) giaddr(4) chaddr(16) sname(64) file(128)`. -/
structure HdrOff where
  op : Nat := 0
  htype : Nat := 1
  hlen : Nat := 2
  hops : Nat := 3
  xid : Nat := 4
  secs : Nat := 8
  flags : Nat := 10
  ciaddr : Nat := 12
  yiaddr : Nat := 16
  siaddr : Nat := 20
  giaddr : Nat := 24
  chaddr : Nat := 28
  sname : Nat := 44
  file : Nat := 108

/-- The offsets of `DHCP_MSG_HDR`. -/
def hdr : HdrOff := {}

/-- Compile-time configuration (`dhcp-c_cfg.h`, `cpu_cfg.h`). -/
structure DHCPc_CFG where
  DHCPc_CFG_ARG_CHK_DBG_EN : Bool
  DHCPc_CFG_ARG_CHK_EXT_EN : Bool
  DHCPc_CFG_BROADCAST_BIT_EN : Bool
  DHCPc_CFG_ADDR_VALIDATE_EN : Bool
  DHCPc_CFG_DYN_LOCAL_LINK_ADDR_EN : Bool
  CPU_CFG_NAME_EN : Bool
  DHCPc_CFG_PARAM_REQ_TBL_SIZE : Nat
  DHCPc_CFG_MAX_NBR_IF : Nat
  DHCPc_CFG_LOCAL_LINK_MAX_RETRY : Nat
  DHCPc_CFG_NEGO_RETRY_CNT : Nat
  DHCPc_CFG_DISCOVER_RETRY_CNT : Nat
  DHCPc_CFG_REQUEST_RETRY_CNT : Nat
  /-- `NET_ARP_MODULE_EN` is defined -/
  NET_ARP_MODULE_EN : Bool
  /-- sizes of the object tables of `dhcp-c.h` -/
  DHCPc_NBR_IF_INFO : Nat
  DHCPc_NBR_MSG_BUF : Nat
  DHCPc_NBR_COMM : Nat
  DHCPc_NBR_TMR : Nat
  /-- timing and size constants of `dhcp-c.h` -/
  DHCPc_TMR_PERIOD_SEC : Nat
  DHCP_MIN_RETX_TIME_S : Nat
  DHCP_INIT_DLY_MS : Nat
  DHCP_ADDR_VALIDATE_WAIT_TIME_MS : Nat
  DHCP_RELEASE_DLY_S : Nat
  DHCPc_BACKOFF_DLY_INITIAL_MS : Nat
  DHCPc_BACKOFF_DLY_MAX_MS : Nat
  DHCPc_BACKOFF_DLY_SCALAR : Nat
  DHCP_MSG_RX_MIN_LEN : Nat

/-- The configuration of `Cfg/Template/dhcp-c_cfg.h`, with the broadcast bit, the CPU name and
ARP enabled.  Modelled from the spec: the constants of `dhcp-c.h`, which is not among the
sources (1 Hz timer tick, 300 s minimum retransmission time, 10 s delay before a new
negotiation, back-off from 4000 ms doubling up to 64000 ms, 240-byte minimum reply); the table
sizes, the probe wait and the release delay, which the spec does not give, are sample values. -/
def templateCfg : DHCPc_CFG where
  DHCPc_CFG_ARG_CHK_DBG_EN := false
  DHCPc_CFG_ARG_CHK_EXT_EN := true
  DHCPc_CFG_BROADCAST_BIT_EN := true
  DHCPc_CFG_ADDR_VALIDATE_EN := true
  DHCPc_CFG_DYN_LOCAL_LINK_ADDR_EN := true
  CPU_CFG_NAME_EN := true
  DHCPc_CFG_PARAM_REQ_TBL_SIZE := 5
  DHCPc_CFG_MAX_NBR_IF := 1
  DHCPc_CFG_LOCAL_LINK_MAX_RETRY := 3
  DHCPc_CFG_NEGO_RETRY_CNT := 3
  DHCPc_CFG_DISCOVER_RETRY_CNT := 3
  DHCPc_CFG_REQUEST_RETRY_CNT := 3
  NET_ARP_MODULE_EN := true
  DHCPc_NBR_IF_INFO := 1
  DHCPc_NBR_MSG_BUF := 3
  DHCPc_NBR_COMM := 3
  DHCPc_NBR_TMR := 1
  DHCPc_TMR_PERIOD_SEC := 1
  DHCP_MIN_RETX_TIME_S := 300
  DHCP_INIT_DLY_MS := 10000
  DHCP_ADDR_VALIDATE_WAIT_TIME_MS := 3000
  DHCP_RELEASE_DLY_S := 1
  DHCPc_BACKOFF_DLY_INITIAL_MS := 4000
  DHCPc_BACKOFF_DLY_MAX_MS := 64000
  DHCPc_BACKOFF_DLY_SCALAR := 2
  DHCP_MSG_RX_MIN_LEN := 240

/-- `DHCPc_MSG`: a message of the message table.  `MsgBuf` is the memory from `&MsgBuf[0]` on. -/
structure DHCPc_MSG where
  ID : Nat
  MsgBuf : Mem
  MsgLen : Nat

/-- `DHCPc_IF_INFO`: an interface record.  The list links (`PrevPtr`, `NextPtr`) are the position
of the record in the list that holds it.  `ServerID` is the 32-bit value whose network-order
bytes are the bytes of the field; `Tmr` is the identifier of the armed timer. -/
structure DHCPc_IF_INFO where
  ID : Nat
  IF_Nbr : Nat
  ServerID : Nat
  ParamReqTbl : Mem
  ParamReqQty : Nat
  MsgPtr : Option DHCPc_MSG
  ClientState : DHCPc_STATE
  LeaseStatus : DHCPc_STATUS
  LastErr : DHCPc_ERR
  TransactionID : Nat
  NegoStartTime : Nat
  TmrExpirationTime : Nat
  LeaseTime_sec : Nat
  T1_Time_sec : Nat
  T2_Time_sec : Nat
  Tmr : Option Nat
  Used : Bool

/-! ## Memory primitives (`lib_mem`, `net_util`) -/

/-- `Mem_Clr(p, size)`. -/
def Mem_Clr (mem : Mem) (p size : Nat) : Mem :=
  fun i => if p ≤ i ∧ i < p + size then 0 else mem i

/-- `Mem_Set(p, val, size)`. -/
def Mem_Set (mem : Mem) (p val size : Nat) : Mem :=
  fun i => if p ≤ i ∧ i < p + size then val else mem i

/-- `Mem_Copy(p, src, size)` where the `size` source bytes are `src`; also a plain store of the
bytes `src` at `p`. -/
def Mem_Copy (mem : Mem) (p : Nat) (src : List Nat) : Mem :=
  fun i => if p ≤ i ∧ i < p + src.length then src.getD (i - p) 0 else mem i

/-- Network-order (big-endian) bytes of a 32-bit value. -/
def be32 (v : Nat) : List Nat := [v / 2 ^ 24 % 256, v / 2 ^ 16 % 256, v / 2 ^ 8 % 256, v % 256]

/-- Network-order (big-endian) bytes of a 16-bit value. -/
def be16 (v : Nat) : List Nat := [v / 2 ^ 8 % 256, v % 256]

/-- `NET_UTIL_VAL_COPY_GET_NET_32`: the 32-bit value held in network order at `p`. -/
def getNet32 (mem : Mem) (p : Nat) : Nat :=
  ((mem p % 256) * 2 ^ 24 + (mem (p + 1) % 256) * 2 ^ 16 + (mem (p + 2) % 256) * 2 ^ 8
    + mem (p + 3) % 256)

/-- A write cursor: the buffer and the pointer `popt` (an offset in the buffer). -/
structure Wr where
  mem : Mem
  popt : Nat

/-- `*popt++ = v`. -/
def Wr.put8 (w : Wr) (v : Nat) : Wr := ⟨Mem_Copy w.mem w.popt [v], w.popt + 1⟩

/-- A copy of the bytes `l` to `popt`, followed by `popt += len`. -/
def Wr.copy (w : Wr) (l : List Nat) : Wr := ⟨Mem_Copy w.mem w.popt l, w.popt + l.length⟩

/-! ## `DHCPc_TxMsgPrepare` -/

/-- `DHCPc_ReqParam[]`, the parameters the client always requests. -/
def DHCPc_ReqParam : List Nat :=
  [DHCP_OPT_SUBNET_MASK, DHCP_OPT_ROUTER, DHCP_OPT_DOMAIN_NAME_SERVER, DHCP_OPT_TIME_OFFSET]

/-- The locals set by the first `switch` of `DHCPc_TxMsgPrepare`. -/
structure TxSel where
  flag : Nat
  get_local_addr : Bool
  wr_req_ip_addr : Bool
  wr_server_id : Bool
  req_param : Bool
  deriving DecidableEq, Repr

/-- The first `switch` of `DHCPc_TxMsgPrepare` ("GET SPECIFIC FIELDS & OPT VAL"); `none` is the
`default` case (unsupported message). -/
def txSel (cfg : DHCPc_CFG) (msg_type : Nat) (ClientState : DHCPc_STATE) : Option TxSel :=
  let bcast := if cfg.DHCPc_CFG_BROADCAST_BIT_EN then DHCP_FLAG_BROADCAST else 0
  if msg_type = DHCP_MSG_DISCOVER then
    some ⟨bcast, false, false, false, true⟩
  else if msg_type = DHCP_MSG_REQUEST then
    match ClientState with
    | DHCP_STATE_SELECTING => some ⟨bcast, false, true, true, true⟩
    | DHCP_STATE_INIT_REBOOT => some ⟨bcast, false, true, false, true⟩
    | DHCP_STATE_BOUND => some ⟨bcast, true, false, false, true⟩
    | DHCP_STATE_RENEWING => some ⟨bcast, true, false, false, true⟩
    | DHCP_STATE_REBINDING => some ⟨bcast, true, false, false, true⟩
    | _ => some ⟨bcast, false, false, false, true⟩
  else if msg_type = DHCP_MSG_DECLINE then
    some ⟨0, false, true, true, false⟩
  else if msg_type = DHCP_MSG_RELEASE then
    some ⟨0, true, false, true, false⟩
  else
    none

/-- The memory at `&pif_info->MsgPtr->MsgBuf[0]`; `null_mem` is the memory found there when
`MsgPtr` is NULL. -/
def lastRxBuf (null_mem : Mem) (pif_info : DHCPc_IF_INFO) : Mem :=
  match pif_info.MsgPtr with
  | some m => m.MsgBuf
  | none => null_mem

/-- Result of `DHCPc_TxMsgPrepare`: the returned size, `*perr` and the message buffer. -/
structure TxPrep where
  msg_size : Nat
  err : DHCPc_ERR
  buf : Mem

/-- The host name seen by `DHCPc_TxMsgPrepare`: `cpu_name` is the string given by `CPU_NameGet`
(`none` when it fails); there is none when `CPU_CFG_NAME_EN` is disabled. -/
def txHostName (cfg : DHCPc_CFG) (cpu_name : Option (List Nat)) : Option (List Nat) :=
  if cfg.CPU_CFG_NAME_EN = true then cpu_name else none

/-- "Requested IP address" block of `DHCPc_TxMsgPrepare`. -/
def txOptReqIp (null_mem : Mem) (pif_info : DHCPc_IF_INFO) (sel : TxSel) (w : Wr) : Wr :=
  if sel.wr_req_ip_addr = true then
    ((w.put8 DHCP_OPT_REQUESTED_IP_ADDRESS).put8 4).copy
      (memBytes (lastRxBuf null_mem pif_info) hdr.yiaddr 4)
  else w

/-- "Server ID" block of `DHCPc_TxMsgPrepare`. -/
def txOptServerId (pif_info : DHCPc_IF_INFO) (sel : TxSel) (w : Wr) : Wr :=
  if sel.wr_server_id = true then
    ((w.put8 DHCP_OPT_SERVER_IDENTIFIER).put8 4).copy (be32 pif_info.ServerID)
  else w

/-- "Host name" block of `DHCPc_TxMsgPrepare`; `host_name` is the host name of `txHostName`. -/
def txOptHostName (host_name : Option (List Nat)) (w : Wr) : Wr :=
  match host_name with
  | some name =>
      if name.length > 0 then
        ((w.put8 DHCP_OPT_HOST_NAME).put8 (name.length % 256)).copy name
      else w
  | none => w

/-- "Req'd param" block of `DHCPc_TxMsgPrepare`. -/
def txOptReqParam (pif_info : DHCPc_IF_INFO) (sel : TxSel) (w : Wr) : Wr :=
  if sel.req_param = true then
    let w := w.put8 DHCP_OPT_PARAMETER_REQUEST_LIST
    let w := w.put8 ((pif_info.ParamReqQty + DHCPc_ReqParam.length) % 256)
    let w := w.copy DHCPc_ReqParam
    if pif_info.ParamReqQty > 0 then
      w.copy (memBytes pif_info.ParamReqTbl 0 pif_info.ParamReqQty)
    else w
  else w

/-- The option writes of `DHCPc_TxMsgPrepare` ("SETTING DHCP MSG OPT"), from the magic cookie to
END. -/
def txWriteOpts (null_mem : Mem) (host_name : Option (List Nat)) (pif_info : DHCPc_IF_INFO)
    (msg_type : Nat) (sel : TxSel) (w : Wr) : Wr :=
  let w := w.copy DHCP_MAGIC_COOKIE
  let w := w.put8 DHCP_OPT_DHCP_MESSAGE_TYPE
  let w := w.put8 1
  let w := w.put8 (msg_type % 256)
  let w := txOptReqIp null_mem pif_info sel w
  let w := txOptServerId pif_info sel w
  let w := txOptHostName host_name w
  let w := txOptReqParam pif_info sel w
  w.put8 DHCP_OPT_END

/-- The header writes of `DHCPc_TxMsgPrepare` ("SETTING DHCP MSG HDR") on the cleared buffer.
`NET_UTIL_VAL_SET_NET_32(&pmsg_hdr->secs, 0)` stores four bytes from the `secs` member on. -/
def txWriteHdr (pif_info : DHCPc_IF_INFO) (flag : Nat) (ciaddr : List Nat) (paddr_hw : Mem)
    (m : Mem) : Mem :=
  let m := Mem_Copy m hdr.op [DHCP_OP_REQUEST]
  let m := Mem_Copy m hdr.htype [DHCP_HTYPE_ETHER]
  let m := Mem_Copy m hdr.hlen [NET_IF_ETHER_ADDR_SIZE]
  let m := Mem_Copy m hdr.hops [0]
  let m := Mem_Copy m hdr.xid (be32 pif_info.TransactionID)
  let m := Mem_Copy m hdr.secs (be32 0)
  let m := Mem_Copy m hdr.flags (be16 flag)
  let m := Mem_Copy m hdr.ciaddr ciaddr
  let m := Mem_Copy m hdr.yiaddr (be32 0)
  let m := Mem_Copy m hdr.siaddr (be32 0)
  let m := Mem_Copy m hdr.giaddr (be32 0)
  Mem_Copy m hdr.chaddr (memBytes paddr_hw 0 NET_IF_ETHER_ADDR_SIZE)

/-- `DHCPc_TxMsgPrepare(pif_info, msg_type, paddr_hw, addr_hw_len, pmsg_buf, msg_buf_size, perr)`.
Returns the result and the record with `NegoStartTime` set to `tick`, the value of
`DHCPc_OS_TimeGet_tick()`. -/
def DHCPc_TxMsgPrepare (cfg : DHCPc_CFG) (null_mem : Mem) (cpu_name : Option (List Nat))
    (tick : Nat) (pif_info : DHCPc_IF_INFO) (msg_type : Nat) (paddr_hw : Mem)
    (addr_hw_len : Nat) (pmsg_buf : Mem) (msg_buf_size : Nat) : TxPrep × DHCPc_IF_INFO :=
  if cfg.DHCPc_CFG_ARG_CHK_DBG_EN = true ∧ addr_hw_len ≠ NET_IF_ETHER_ADDR_SIZE then
    (⟨0, DHCPc_ERR_INVALID_HW_ADDR, pmsg_buf⟩, pif_info)
  else if cfg.DHCPc_CFG_ARG_CHK_DBG_EN = true ∧ msg_buf_size < DHCP_MSG_BUF_SIZE then
    (⟨0, DHCPc_ERR_INVALID_MSG_SIZE, pmsg_buf⟩, pif_info)
  else
    match txSel cfg msg_type pif_info.ClientState with
    | none => (⟨0, DHCPc_ERR_INVALID_MSG, pmsg_buf⟩, pif_info)
    | some sel =>
      let ciaddr :=
        if sel.get_local_addr = true then memBytes (lastRxBuf null_mem pif_info) hdr.yiaddr 4
        else be32 0
      let m := Mem_Clr pmsg_buf 0 msg_buf_size
      let m := txWriteHdr pif_info sel.flag ciaddr paddr_hw m
      let w := txWriteOpts null_mem (txHostName cfg cpu_name) pif_info msg_type sel
        ⟨m, DHCP_MSG_HDR_SIZE⟩
      let opt_len := (w.popt - DHCP_MSG_HDR_SIZE) % 65536
      let padded := decide (opt_len < DHCP_MSG_TX_MIN_LEN - DHCP_MSG_HDR_SIZE)
      let m := if padded = true then
          Mem_Set w.mem w.popt DHCP_OPT_PAD ((DHCP_MSG_TX_MIN_LEN - DHCP_MSG_HDR_SIZE) - opt_len)
        else w.mem
      let opt_len := if padded = true then DHCP_MSG_TX_MIN_LEN - DHCP_MSG_HDR_SIZE else opt_len
      (⟨(DHCP_MSG_HDR_SIZE + opt_len) % 65536, DHCPc_ERR_NONE, m⟩,
        { pif_info with NegoStartTime := tick })

/-! ## `DHCPc_MsgGetOpt` -/

/-- Outcome of the option search loop of `DHCPc_MsgGetOpt`. -/
inductive Srch where
  /-- the fuel of the model ran out before the loop ended -/
  | fuelOut : Srch
  /-- the loop ended with `opt_found == DEF_NO` -/
  | notFound : Srch
  /-- the loop ended with `opt_found == DEF_YES` and `popt` at the given offset -/
  | found (popt : Nat) : Srch
  deriving DecidableEq, Repr

/-- The `while` loop of `DHCPc_MsgGetOpt`, from the state `opt_found = DEF_NO`, `popt`.
The loop runs while `*popt != DHCP_OPT_END` and `popt <= pend_msg`. -/
def srchOpt (opt_code : Nat) (pmsg_buf : Mem) (pend_msg : Nat) : Nat → Nat → Srch
  | 0, _ => Srch.fuelOut
  | fuel + 1, popt =>
    if pmsg_buf popt ≠ DHCP_OPT_END ∧ popt ≤ pend_msg then
      if pmsg_buf popt = opt_code then
        Srch.found popt
      else if pmsg_buf popt = DHCP_OPT_PAD then
        srchOpt opt_code pmsg_buf pend_msg fuel (popt + 1)
      else
        srchOpt opt_code pmsg_buf pend_msg fuel
          (popt + (pmsg_buf (popt + DHCP_OPT_FIELD_CODE_LEN) + DHCP_OPT_FIELD_HDR_LEN))
    else
      Srch.notFound

/-- The tail of `DHCPc_MsgGetOpt`: NULL when `opt_found != DEF_YES`, else the pointer
`popt + DHCP_OPT_FIELD_HDR_LEN` together with `*popt_val_len = *(popt + DHCP_OPT_FIELD_CODE_LEN)`. -/
def srchVal (pmsg_buf : Mem) : Srch → Option (Nat × Nat)
  | Srch.found popt =>
      some (popt + DHCP_OPT_FIELD_HDR_LEN, pmsg_buf (popt + DHCP_OPT_FIELD_CODE_LEN))
  | _ => none

/-- `DHCPc_MsgGetOpt(opt_code, pmsg_buf, msg_buf_size, popt_val_len)`.
The result `some (popt_val, len)` is the returned pointer (as an offset from `pmsg_buf`) with
the value stored in `*popt_val_len`; `none` is the NULL return, with `*popt_val_len = 0`. -/
def DHCPc_MsgGetOpt (opt_code : Nat) (pmsg_buf : Mem) (msg_buf_size : Nat) : Option (Nat × Nat) :=
  if Mem_Cmp pmsg_buf DHCP_MSG_HDR_SIZE DHCP_MAGIC_COOKIE = true then
    srchVal pmsg_buf (srchOpt opt_code pmsg_buf msg_buf_size (msg_buf_size + 2)
      (DHCP_MSG_HDR_SIZE + DHCP_MAGIC_COOKIE_SIZE))
  else
    none

/-- The bytes designated by a result of `DHCPc_MsgGetOpt`: `len` bytes from the returned
pointer. -/
def optValBytes (pmsg_buf : Mem) (r : Option (Nat × Nat)) : Option (List Nat) :=
  r.map (fun x => memBytes pmsg_buf x.1 x.2)

/-! ### Reference reading of an option stream -/

/-- One item of an option stream: a PAD byte or a code/length/value option. -/
inductive OptItem where
  | pad : OptItem
  | opt (code : Nat) (val : List Nat) : OptItem
  deriving DecidableEq, Repr

/-- Wire bytes of one item. -/
def OptItem.encode : OptItem → List Nat
  | OptItem.pad => [DHCP_OPT_PAD]
  | OptItem.opt code val => code :: val.length :: val

/-- Wire bytes of a sequence of items. -/
def encodeItems : List OptItem → List Nat
  | [] => []
  | it :: rest => it.encode ++ encodeItems rest

/-- An option item is proper when its code is neither PAD nor END. -/
def OptItem.proper : OptItem → Prop
  | OptItem.pad => True
  | OptItem.opt code _ => code ≠ DHCP_OPT_PAD ∧ code ≠ DHCP_OPT_END

instance (it : OptItem) : Decidable it.proper := by
  cases it <;> simp only [OptItem.proper] <;> infer_instance

/-- Value of the first option of the sequence whose code is `c`. -/
def firstOpt (c : Nat) : List OptItem → Option (List Nat)
  | [] => none
  | OptItem.pad :: rest => firstOpt c rest
  | OptItem.opt code val :: rest => if code = c then some val else firstOpt c rest

/-- The bytes of `mem` from offset `p` on are `l`. -/
def memHas (mem : Mem) (p : Nat) (l : List Nat) : Prop :=
  ∀ i, i < l.length → mem (p + i) = l.getD i 0

instance (mem : Mem) (p : Nat) (l : List Nat) : Decidable (memHas mem p l) := by
  unfold memHas; infer_instance

/-! ### Reference layout of the options written by `DHCPc_TxMsgPrepare` -/

/-- Bytes of the "Requested IP address" block. -/
def reqIpBytes (null_mem : Mem) (pif_info : DHCPc_IF_INFO) (sel : TxSel) : List Nat :=
  if sel.wr_req_ip_addr = true then
    DHCP_OPT_REQUESTED_IP_ADDRESS :: 4 :: memBytes (lastRxBuf null_mem pif_info) hdr.yiaddr 4
  else []

/-- Bytes of the "Server ID" block. -/
def serverIdBytes (pif_info : DHCPc_IF_INFO) (sel : TxSel) : List Nat :=
  if sel.wr_server_id = true then DHCP_OPT_SERVER_IDENTIFIER :: 4 :: be32 pif_info.ServerID
  else []

/-- Bytes of the "Host name" block. -/
def hostNameBytes (host_name : Option (List Nat)) : List Nat :=
  match host_name with
  | some name =>
      if name.length > 0 then DHCP_OPT_HOST_NAME :: (name.length % 256) :: name else []
  | none => []

/-- Bytes of the "Req'd param" block. -/
def reqParamBytes (pif_info : DHCPc_IF_INFO) (sel : TxSel) : List Nat :=
  if sel.req_param = true then
    DHCP_OPT_PARAMETER_REQUEST_LIST :: ((pif_info.ParamReqQty + DHCPc_ReqParam.length) % 256)
      :: (DHCPc_ReqParam ++ memBytes pif_info.ParamReqTbl 0 pif_info.ParamReqQty)
  else []

/-- The option bytes between the magic cookie and END, block by block: DHCP-MESSAGE-TYPE, then
REQUESTED-IP-ADDRESS, SERVER-IDENTIFIER, HOST-NAME and PARAMETER-REQUEST-LIST when selected. -/
def txOptBytes (null_mem : Mem) (host_name : Option (List Nat)) (pif_info : DHCPc_IF_INFO)
    (msg_type : Nat) (sel : TxSel) : List Nat :=
  [DHCP_OPT_DHCP_MESSAGE_TYPE, 1, msg_type % 256] ++ reqIpBytes null_mem pif_info sel
    ++ serverIdBytes pif_info sel ++ hostNameBytes host_name ++ reqParamBytes pif_info sel

/-- The "Host name" block as items. -/
def hostNameItems (host_name : Option (List Nat)) : List OptItem :=
  match host_name with
  | some name => if name.length > 0 then [OptItem.opt DHCP_OPT_HOST_NAME name] else []
  | none => []

/-- The same options as a sequence of items. -/
def txOptItems (null_mem : Mem) (host_name : Option (List Nat)) (pif_info : DHCPc_IF_INFO)
    (msg_type : Nat) (sel : TxSel) : List OptItem :=
  [OptItem.opt DHCP_OPT_DHCP_MESSAGE_TYPE [msg_type % 256]]
  ++ (if sel.wr_req_ip_addr = true then
        [OptItem.opt DHCP_OPT_REQUESTED_IP_ADDRESS
          (memBytes (lastRxBuf null_mem pif_info) hdr.yiaddr 4)]
      else [])
  ++ (if sel.wr_server_id = true then
        [OptItem.opt DHCP_OPT_SERVER_IDENTIFIER (be32 pif_info.ServerID)]
      else [])
  ++ hostNameItems host_name
  ++ (if sel.req_param = true then
        [OptItem.opt DHCP_OPT_PARAMETER_REQUEST_LIST
          (DHCPc_ReqParam ++ memBytes pif_info.ParamReqTbl 0 pif_info.ParamReqQty)]
      else [])

/-- What a write cursor has done since it started at `base` on the memory `m0`: it stands
right after the bytes `acc`, which it wrote from `base` on, and changed nothing else. -/
def Wr.wrote (m0 : Mem) (base : Nat) (acc : List Nat) (w : Wr) : Prop :=
  w.popt = base + acc.length ∧ memHas w.mem base acc ∧
    ∀ i, (i < base ∨ base + acc.length ≤ i) → w.mem i = m0 i

/-! ## Client state, environment and trace -/

/-- `DHCPc_COMM`: a communication object, the command posted to the DHCPc task. -/
structure DHCPc_COMM where
  ID : Nat
  IF_Nbr : Nat
  CommMsg : DHCPc_COMM_MSG
  deriving DecidableEq, Repr

/-- `DHCPc_TMR`: a timer of the timer list; `Obj` is the communication object it posts. -/
structure DHCPc_TMR where
  ID : Nat
  Obj : Option DHCPc_COMM
  TmrVal : Nat
  deriving DecidableEq, Repr

/-- What one call of `NetApp_SockRx` delivers: a datagram, a buffer overflow or another
receive error (timeout included). -/
inductive RxEvent where
  | data (bytes : List Nat) : RxEvent
  | ovf : RxEvent
  | err : RxEvent
  deriving DecidableEq, Repr

/-- Outcome of `NetARP_CacheGetAddrHW`: `NET_ARP_ERR_CACHE_NOT_FOUND`, a pending cache
(`NET_ARP_ERR_CACHE_PEND`, `NET_CACHE_ERR_PEND`), `NET_ARP_ERR_NONE` (address resolved) or any
other error. -/
inductive ArpGet where
  | notFound : ArpGet
  | pend : ArpGet
  | resolved : ArpGet
  | err : ArpGet
  deriving DecidableEq, Repr

/-- The answers of the collaborators of the client (network stack, OS), in the order in which
the calls are made.  When a list is exhausted the call fails (`false`, `none`, `err`) and the
tick counter reads `0`. -/
structure Env where
  /-- `NetIF_IsEnCfgd` -/
  if_en : List Bool
  /-- `NetIF_AddrHW_Get`: the hardware address, `none` on error -/
  hw_addr : List (Option (List Nat))
  /-- `DHCPc_InitSock(...) != NET_SOCK_BSD_ERR_OPEN` -/
  sock : List Bool
  /-- `NetIPv4_CfgAddrAddDynamicStart` succeeded -/
  dyn_start : List Bool
  /-- `NetIPv4_CfgAddrAddDynamic` returned `DEF_OK` -/
  addr_add : List Bool
  /-- `NetIPv4_CfgAddrRemoveAll` succeeded -/
  rem_all : List Bool
  /-- `NetApp_SockTx` succeeded -/
  tx : List Bool
  /-- `NetApp_SockRx` -/
  rx : List RxEvent
  /-- `NetARP_CacheProbeAddrOnNet` succeeded -/
  arp_probe : List Bool
  /-- `NetARP_CacheGetAddrHW` -/
  arp_get : List ArpGet
  /-- `NetARP_TxReqGratuitous` succeeded -/
  arp_grat : List Bool
  /-- `DHCPc_OS_TimeGet_tick` -/
  tick : List Nat
  /-- `DHCPc_OS_Lock` acquired the lock -/
  lock : List Bool
  /-- `DHCPc_OS_MsgPost` queued the message -/
  post : List Bool
  /-- `CPU_NameGet`: the host name, `none` on error -/
  cpu_name : Option (List Nat)
  /-- tick rate of the OS port (`OSCfg_TickRate_Hz`, `OS_TICKS_PER_SEC`) -/
  tick_rate : Nat
  /-- the `DHCPc_MSG` found at address 0, read where the code dereferences a NULL `MsgPtr` -/
  null_msg : DHCPc_MSG
  /-- the memory that follows a message buffer in the message table -/
  raw_mem : Mem
  /-- the value an uninitialised `DHCPc_ERR` local of the DHCPc task holds -/
  stack_err : DHCPc_ERR

/-- Calls to collaborators and other observable steps, in program order. -/
inductive Event where
  | dly (ms : Nat) : Event
  | sockOpen (ip_addr_local if_nbr : Nat) (ok : Bool) : Event
  | sockClose : Event
  | rxQSize (min : Bool) : Event
  | tx (addr_remote : Nat) (data : List Nat) (ok : Bool) : Event
  | rx (ev : RxEvent) : Event
  | dynStart (if_nbr : Nat) (ok : Bool) : Event
  | dynStop (if_nbr : Nat) : Event
  | addrAdd (if_nbr host mask gateway : Nat) (ok : Bool) : Event
  | removeAll (if_nbr : Nat) (ok : Bool) : Event
  | arpProbe (addr_target : Nat) (ok : Bool) : Event
  | arpGet (if_nbr addr_target : Nat) (res : ArpGet) : Event
  | arpGratuitous (addr : Nat) (ok : Bool) : Event
  | post (comm : DHCPc_COMM) (ok : Bool) : Event
  deriving DecidableEq, Repr

/-- The global variables of `dhcp-c.c`, the message queue of the DHCPc task, the environment
that remains and the trace of what happened so far (most recent event last).  A pool is the
list of the identifiers of its free objects, head first; the message and communication object
lists, which the code never walks, are lists of identifiers. -/
structure Client where
  DHCPc_InitDone : Bool
  DHCPc_InfoPoolPtr : List Nat
  DHCPc_InfoListHead : List DHCPc_IF_INFO
  DHCPc_MsgPoolPtr : List Nat
  DHCPc_MsgListHead : List Nat
  DHCPc_CommPoolPtr : List Nat
  DHCPc_CommListHead : List Nat
  DHCPc_TmrPoolPtr : List Nat
  DHCPc_TmrListHead : List DHCPc_TMR
  MsgQ : List DHCPc_COMM
  env : Env
  trace : List Event

/-- Records an event. -/
def Client.log (w : Client) (e : Event) : Client := { w with trace := w.trace ++ [e] }

/-- `NetIF_IsEnCfgd(if_nbr, &err_net)`. -/
def NetIF_IsEnCfgd (w : Client) : Bool × Client :=
  (w.env.if_en.headD false, { w with env := { w.env with if_en := w.env.if_en.tail } })

/-- `NetIF_AddrHW_Get(if_nbr, &addr_hw[0], &addr_hw_len, &err_net)`: `some addr` when
`err_net == NET_IF_ERR_NONE`, the length of `addr` being `addr_hw_len`. -/
def NetIF_AddrHW_Get (w : Client) : Option (List Nat) × Client :=
  (w.env.hw_addr.headD none, { w with env := { w.env with hw_addr := w.env.hw_addr.tail } })

/-- `DHCPc_OS_TimeGet_tick()`. -/
def DHCPc_OS_TimeGet_tick (w : Client) : Nat × Client :=
  (w.env.tick.headD 0 % 2 ^ 32, { w with env := { w.env with tick := w.env.tick.tail } })

/-- `DHCPc_OS_TimeCalcElapsed_sec(time_start, time_stop)` of the OS ports. -/
def DHCPc_OS_TimeCalcElapsed_sec (tick_rate time_start time_stop : Nat) : Nat :=
  if tick_rate > 0 then
    let time_delta_tick :=
      if time_start ≤ time_stop then time_stop - time_start
      else (((0xFFFFFFFF - time_start) + 1) + time_stop) % 2 ^ 32
    time_delta_tick / tick_rate
  else 0

/-- `DHCPc_OS_Lock(perr)`: `true` when the lock is acquired. -/
def DHCPc_OS_Lock (w : Client) : Bool × Client :=
  (w.env.lock.headD false, { w with env := { w.env with lock := w.env.lock.tail } })

/-- `DHCPc_OS_MsgPost(pmsg, perr)`: on success the object joins the queue of the DHCPc task. -/
def DHCPc_OS_MsgPost (w : Client) (pcomm : DHCPc_COMM) : Bool × Client :=
  let ok := w.env.post.headD false
  let w := { w with env := { w.env with post := w.env.post.tail } }
  let w := w.log (Event.post pcomm ok)
  (ok, if ok = true then { w with MsgQ := w.MsgQ ++ [pcomm] } else w)

/-- `KAL_Dly(ms)`. -/
def KAL_Dly (w : Client) (ms : Nat) : Client := w.log (Event.dly ms)

/-! ## Interface records -/

/-- `DHCPc_IF_InfoGetCfgd(if_nbr)`: the first record of the list whose interface number is
`if_nbr`. -/
def DHCPc_IF_InfoGetCfgd (w : Client) (if_nbr : Nat) : Option DHCPc_IF_INFO :=
  w.DHCPc_InfoListHead.find? (fun r => decide (r.IF_Nbr = if_nbr))

/-- Modelled from the spec: `NET_IF_NBR_NONE` of the network stack, the number of no interface
(taken as a parameter of the model through this constant). -/
def NET_IF_NBR_NONE : Nat := 0xFF

/-- `DHCPc_IF_InfoClr(pif_info)` on the record of identifier `id`. -/
def DHCPc_IF_InfoClr (cfg : DHCPc_CFG) (raw : Mem) (id : Nat) : DHCPc_IF_INFO where
  ID := id
  IF_Nbr := NET_IF_NBR_NONE
  ServerID := 0
  ParamReqTbl := Mem_Clr raw 0 cfg.DHCPc_CFG_PARAM_REQ_TBL_SIZE
  ParamReqQty := 0
  MsgPtr := none
  ClientState := DHCP_STATE_NONE
  LeaseStatus := DHCP_STATUS_NONE
  LastErr := DHCPc_ERR_NONE
  TransactionID := 0
  NegoStartTime := 0
  TmrExpirationTime := 0
  LeaseTime_sec := 0
  T1_Time_sec := 0
  T2_Time_sec := 0
  Tmr := none
  Used := false

/-- `DHCPc_IF_InfoGet(if_nbr, perr)`: the new record is inserted at the head of the list. -/
def DHCPc_IF_InfoGet (cfg : DHCPc_CFG) (w : Client) (if_nbr : Nat) :
    Option DHCPc_IF_INFO × DHCPc_ERR × Client :=
  match DHCPc_IF_InfoGetCfgd w if_nbr with
  | some _ => (none, DHCPc_ERR_IF_INFO_IF_USED, w)
  | none =>
    let h := NetIF_AddrHW_Get w
    let w := h.2
    match h.1 with
    | none => (none, DHCPc_ERR_INVALID_HW_ADDR, w)
    | some addr_hw =>
      if addr_hw.length ≠ NET_IF_ETHER_ADDR_SIZE then (none, DHCPc_ERR_INVALID_HW_ADDR, w)
      else
        let transaction_id_base :=
          ((addr_hw.getD 3 0 % 256) * 2 ^ 24 + (addr_hw.getD 4 0 % 256) * 2 ^ 16
            + (addr_hw.getD 5 0 % 256) * 2 ^ 8) % 2 ^ 32
        match w.DHCPc_InfoPoolPtr with
        | [] => (none, DHCPc_ERR_IF_INFO_NONE_AVAIL, w)
        | id :: pool =>
          let pif_info := { DHCPc_IF_InfoClr cfg w.env.raw_mem id with
            IF_Nbr := if_nbr
            LeaseStatus := DHCP_STATUS_CFG_IN_PROGRESS
            TransactionID := transaction_id_base
            Used := true }
          (some pif_info, DHCPc_ERR_NONE,
            { w with DHCPc_InfoPoolPtr := pool
                     DHCPc_InfoListHead := pif_info :: w.DHCPc_InfoListHead })

/-- `DHCPc_IF_InfoFree(pif_info)`: the record (designated by its identifier) leaves the list
and returns to the pool.  With `DHCPc_CFG_ARG_CHK_DBG_EN` a record that is not in use is left
alone. -/
def DHCPc_IF_InfoFree (cfg : DHCPc_CFG) (w : Client) (pif_info : DHCPc_IF_INFO) : Client :=
  if cfg.DHCPc_CFG_ARG_CHK_DBG_EN = true ∧ pif_info.Used ≠ true then w
  else
    { w with DHCPc_InfoListHead := w.DHCPc_InfoListHead.filter (fun r => r.ID ≠ pif_info.ID)
             DHCPc_InfoPoolPtr := pif_info.ID :: w.DHCPc_InfoPoolPtr }

/-- Stores the record `pif_info` back at its place in the list (writes through the pointer
`pif_info`). -/
def Client.setInfo (w : Client) (pif_info : DHCPc_IF_INFO) : Client :=
  { w with DHCPc_InfoListHead :=
      w.DHCPc_InfoListHead.map (fun r => if r.ID = pif_info.ID then pif_info else r) }

/-! ## Messages, communication objects and timers -/

/-- `DHCPc_MsgGet(perr)`. -/
def DHCPc_MsgGet (w : Client) : Option DHCPc_MSG × DHCPc_ERR × Client :=
  match w.DHCPc_MsgPoolPtr with
  | [] => (none, DHCPc_ERR_MSG_NONE_AVAIL, w)
  | id :: pool =>
    (some { ID := id, MsgBuf := Mem_Clr w.env.raw_mem 0 DHCP_MSG_BUF_SIZE, MsgLen := 0 },
      DHCPc_ERR_NONE,
      { w with DHCPc_MsgPoolPtr := pool, DHCPc_MsgListHead := id :: w.DHCPc_MsgListHead })

/-- `DHCPc_MsgFree(pmsg)`.  A message is flagged as used exactly while it is in the message
list; with `DHCPc_CFG_ARG_CHK_DBG_EN` a message that is not in use is left alone. -/
def DHCPc_MsgFree (cfg : DHCPc_CFG) (w : Client) (pmsg : DHCPc_MSG) : Client :=
  if cfg.DHCPc_CFG_ARG_CHK_DBG_EN = true ∧ pmsg.ID ∉ w.DHCPc_MsgListHead then w
  else
    { w with DHCPc_MsgListHead := w.DHCPc_MsgListHead.filter (fun i => i ≠ pmsg.ID)
             DHCPc_MsgPoolPtr := pmsg.ID :: w.DHCPc_MsgPoolPtr }

/-- `DHCPc_CommGet(if_nbr, comm_msg, perr)`. -/
def DHCPc_CommGet (w : Client) (if_nbr : Nat) (comm_msg : DHCPc_COMM_MSG) :
    Option DHCPc_COMM × DHCPc_ERR × Client :=
  match w.DHCPc_CommPoolPtr with
  | [] => (none, DHCPc_ERR_COMM_NONE_AVAIL, w)
  | id :: pool =>
    (some { ID := id, IF_Nbr := if_nbr, CommMsg := comm_msg }, DHCPc_ERR_NONE,
      { w with DHCPc_CommPoolPtr := pool, DHCPc_CommListHead := id :: w.DHCPc_CommListHead })

/-- `DHCPc_CommFree(pcomm)`.  A communication object is flagged as used exactly while it is in
the list; with `DHCPc_CFG_ARG_CHK_DBG_EN` an object that is not in use is left alone. -/
def DHCPc_CommFree (cfg : DHCPc_CFG) (w : Client) (pcomm : DHCPc_COMM) : Client :=
  if cfg.DHCPc_CFG_ARG_CHK_DBG_EN = true ∧ pcomm.ID ∉ w.DHCPc_CommListHead then w
  else
    { w with DHCPc_CommListHead := w.DHCPc_CommListHead.filter (fun i => i ≠ pcomm.ID)
             DHCPc_CommPoolPtr := pcomm.ID :: w.DHCPc_CommPoolPtr }

/-- `DHCPc_TmrGet(pobj, time_tick, perr)`: the timer is inserted at the head of the timer
list. -/
def DHCPc_TmrGet (w : Client) (pobj : DHCPc_COMM) (time_tick : Nat) :
    Option Nat × DHCPc_ERR × Client :=
  match w.DHCPc_TmrPoolPtr with
  | [] => (none, DHCPc_ERR_TMR_NONE_AVAIL, w)
  | id :: pool =>
    (some id, DHCPc_ERR_NONE,
      { w with DHCPc_TmrPoolPtr := pool
               DHCPc_TmrListHead :=
                 { ID := id, Obj := some pobj, TmrVal := time_tick } :: w.DHCPc_TmrListHead })

/-- `DHCPc_TmrFree(ptmr)`, the timer being designated by its identifier.  A timer is flagged
as used exactly while it is in the timer list; with `DHCPc_CFG_ARG_CHK_DBG_EN` a timer that is
not in use is left alone. -/
def DHCPc_TmrFree (cfg : DHCPc_CFG) (w : Client) (ptmr : Nat) : Client :=
  if cfg.DHCPc_CFG_ARG_CHK_DBG_EN = true ∧ ptmr ∉ w.DHCPc_TmrListHead.map (fun t => t.ID) then w
  else
    { w with DHCPc_TmrListHead := w.DHCPc_TmrListHead.filter (fun t => t.ID ≠ ptmr)
             DHCPc_TmrPoolPtr := ptmr :: w.DHCPc_TmrPoolPtr }

/-- `DHCPc_TmrCfg(pif_info, tmr_msg, time_sec, perr)`. -/
def DHCPc_TmrCfg (cfg : DHCPc_CFG) (w : Client) (pif_info : DHCPc_IF_INFO)
    (tmr_msg : DHCPc_COMM_MSG)
    (time_sec : Nat) : DHCPc_ERR × DHCPc_IF_INFO × Client :=
  match tmr_msg with
  | DHCPc_COMM_MSG_NONE => (DHCPc_ERR_TMR_INVALID_MSG, pif_info, w)
  | DHCPc_COMM_MSG_STOP => (DHCPc_ERR_TMR_INVALID_MSG, pif_info, w)
  | _ =>
    if time_sec = DHCP_LEASE_INFINITE then (DHCPc_ERR_NONE, pif_info, w)
    else
      let c := DHCPc_CommGet w pif_info.IF_Nbr tmr_msg
      match c.1 with
      | some pcomm =>
        let time_tick := time_sec / cfg.DHCPc_TMR_PERIOD_SEC
        let t := DHCPc_TmrGet c.2.2 pcomm time_tick
        match t.1 with
        | some ptmr => (DHCPc_ERR_NONE, { pif_info with Tmr := some ptmr }, t.2.2)
        | none => (t.2.1, { pif_info with Tmr := none }, DHCPc_CommFree cfg t.2.2 pcomm)
      | none => (c.2.1, pif_info, c.2.2)

/-! ## Lease times -/

/-- The message designated by `pif_info->MsgPtr`. -/
def lastRxMsg (w : Client) (pif_info : DHCPc_IF_INFO) : DHCPc_MSG :=
  match pif_info.MsgPtr with
  | some m => m
  | none => w.env.null_msg

/-- Reads the 32-bit network-order value of option `opt_code` of the message, when
`DHCPc_MsgGetOpt` finds the option (`NET_UTIL_VAL_COPY_GET_NET_32(&val, popt)`). -/
def msgOpt32 (opt_code : Nat) (pmsg : DHCPc_MSG) : Option Nat :=
  (DHCPc_MsgGetOpt opt_code pmsg.MsgBuf pmsg.MsgLen).map (fun r => getNet32 pmsg.MsgBuf r.1)

/-- Modelled from the spec: `(CPU_INT32U)(time_lease * DHCP_T1_LEASE_FRACTION)` with the
fraction 0.5 of `dhcp-c.h`; the product is exact and the conversion truncates. -/
def leaseT1Dflt (time_lease : Nat) : Nat := time_lease / 2

/-- Modelled from the spec: `(CPU_INT32U)(time_lease * DHCP_T2_LEASE_FRACTION)` with the
fraction 0.875 of `dhcp-c.h`; the product is exact and the conversion truncates. -/
def leaseT2Dflt (time_lease : Nat) : Nat := time_lease * 7 / 8

/-- `DHCPc_LeaseTimeCalc(pif_info, perr)`. -/
def DHCPc_LeaseTimeCalc (cfg : DHCPc_CFG) (w : Client) (pif_info : DHCPc_IF_INFO) :
    DHCPc_ERR × DHCPc_IF_INFO × Client :=
  let pmsg := lastRxMsg w pif_info
  let time_lease := (msgOpt32 DHCP_OPT_IP_ADDRESS_LEASE_TIME pmsg).getD DHCP_LEASE_INFINITE
  if time_lease = DHCP_LEASE_INFINITE then
    (DHCPc_ERR_NONE,
      { pif_info with LeaseTime_sec := DHCP_LEASE_INFINITE
                      T1_Time_sec := DHCP_LEASE_INFINITE
                      T2_Time_sec := DHCP_LEASE_INFINITE }, w)
  else
    let time_t1 := (msgOpt32 DHCP_OPT_RENEWAL_TIME_VALUE pmsg).getD (leaseT1Dflt time_lease)
    let time_t2 := (msgOpt32 DHCP_OPT_REBINDING_TIME_VALUE pmsg).getD (leaseT2Dflt time_lease)
    let tk := DHCPc_OS_TimeGet_tick w
    let time_nego_sec :=
      DHCPc_OS_TimeCalcElapsed_sec w.env.tick_rate pif_info.NegoStartTime tk.1
    let time_t1 := if time_t1 > time_nego_sec then time_t1 - time_nego_sec else time_t1
    let time_t2 := if time_t2 > time_nego_sec then time_t2 - time_nego_sec else time_t2
    let time_lease := if time_lease > time_nego_sec then time_lease - time_nego_sec else time_lease
    let pif_info := { pif_info with T1_Time_sec := time_t1
                                    T2_Time_sec := time_t2
                                    LeaseTime_sec := time_lease }
    let r := DHCPc_TmrCfg cfg tk.2 pif_info DHCPc_COMM_MSG_T1_EXPIRED pif_info.T1_Time_sec
    (if r.1 ≠ DHCPc_ERR_NONE then DHCPc_ERR_TMR_CFG else DHCPc_ERR_NONE, r.2.1, r.2.2)

/-- "Dec time elapsed since tmr expired" of `DHCPc_LeaseTimeUpdate`. -/
def decElapsed (time_sec time_nego_sec : Nat) : Nat :=
  if time_sec > time_nego_sec then time_sec - time_nego_sec else time_sec

/-- "Dec expired tmr time from other times" of `DHCPc_LeaseTimeUpdate`. -/
def decExpired (time_sec expired_sec : Nat) : Nat :=
  if time_sec > expired_sec then time_sec - expired_sec else 0

/-- The timer configuration that ends `DHCPc_LeaseTimeUpdate`. -/
def leaseTmrCfg (cfg : DHCPc_CFG) (w : Client) (pif_info : DHCPc_IF_INFO)
    (tmr_msg : DHCPc_COMM_MSG) (tmr_val_sec : Nat) : DHCPc_ERR × DHCPc_IF_INFO × Client :=
  let r := DHCPc_TmrCfg cfg w pif_info tmr_msg tmr_val_sec
  (if r.1 ≠ DHCPc_ERR_NONE then DHCPc_ERR_TMR_CFG else DHCPc_ERR_NONE, r.2.1, r.2.2)

/-- `DHCPc_LeaseTimeUpdate(pif_info, exp_tmr_msg, perr)`. -/
def DHCPc_LeaseTimeUpdate (cfg : DHCPc_CFG) (w : Client) (pif_info : DHCPc_IF_INFO)
    (exp_tmr_msg : DHCPc_COMM_MSG) : DHCPc_ERR × DHCPc_IF_INFO × Client :=
  let tk := DHCPc_OS_TimeGet_tick w
  let w := tk.2
  let time_nego_sec :=
    DHCPc_OS_TimeCalcElapsed_sec w.env.tick_rate pif_info.NegoStartTime tk.1
  match exp_tmr_msg with
  | DHCPc_COMM_MSG_T1_EXPIRED =>
    let lease := decElapsed (decExpired pif_info.LeaseTime_sec pif_info.T1_Time_sec)
      time_nego_sec
    let t2 := decElapsed (decExpired pif_info.T2_Time_sec pif_info.T1_Time_sec) time_nego_sec
    if t2 > 2 * cfg.DHCP_MIN_RETX_TIME_S then
      leaseTmrCfg cfg w
        { pif_info with LeaseTime_sec := lease, T2_Time_sec := t2, T1_Time_sec := t2 / 2 }
        DHCPc_COMM_MSG_T1_EXPIRED (t2 / 2)
    else
      leaseTmrCfg cfg w
        { pif_info with LeaseTime_sec := lease, T2_Time_sec := t2, T1_Time_sec := 0 }
        DHCPc_COMM_MSG_T2_EXPIRED t2
  | DHCPc_COMM_MSG_T2_EXPIRED =>
    let lease := decElapsed (decExpired pif_info.LeaseTime_sec pif_info.T2_Time_sec)
      time_nego_sec
    let t2 := decElapsed 0 time_nego_sec
    if lease > 2 * cfg.DHCP_MIN_RETX_TIME_S then
      leaseTmrCfg cfg w
        { pif_info with LeaseTime_sec := lease, T2_Time_sec := lease / 2, T1_Time_sec := 0 }
        DHCPc_COMM_MSG_T2_EXPIRED (lease / 2)
    else
      leaseTmrCfg cfg w
        { pif_info with LeaseTime_sec := lease, T2_Time_sec := t2, T1_Time_sec := 0 }
        DHCPc_COMM_MSG_LEASE_EXPIRED lease
  | _ => (DHCPc_ERR_TMR_INVALID_MSG, pif_info, w)

/-! ## Addresses -/

/-- Modelled from the spec: `NET_IPv4_ADDR_NONE` / `NET_IPv4_ADDR_THIS_HOST` of the network
stack (0.0.0.0). -/
def NET_IPv4_ADDR_NONE : Nat := 0

/-- Modelled from the spec: `NET_IPv4_ADDR_BROADCAST` of the network stack (255.255.255.255). -/
def NET_IPv4_ADDR_BROADCAST : Nat := 0xFFFFFFFF

/-- `DHCPc_AddrValidate(if_nbr, addr_target, dly_ms, perr)`. -/
def DHCPc_AddrValidate (cfg : DHCPc_CFG) (w : Client) (if_nbr addr_target dly_ms : Nat) :
    DHCPc_ERR × Client :=
  if cfg.NET_ARP_MODULE_EN = true then
    let ok := w.env.arp_probe.headD false
    let w := { w with env := { w.env with arp_probe := w.env.arp_probe.tail } }
    let w := w.log (Event.arpProbe addr_target ok)
    if ok = true then
      let w := KAL_Dly w dly_ms
      let res := w.env.arp_get.headD ArpGet.err
      let w := { w with env := { w.env with arp_get := w.env.arp_get.tail } }
      let w := w.log (Event.arpGet if_nbr addr_target res)
      match res with
      | ArpGet.notFound => (DHCPc_ERR_NONE, w)
      | ArpGet.pend => (DHCPc_ERR_NONE, w)
      | ArpGet.resolved => (DHCPc_ERR_ADDR_USED, w)
      | ArpGet.err => (DHCPc_ERR_ADDR_VALIDATE, w)
    else (DHCPc_ERR_ADDR_VALIDATE, w)
  else (DHCPc_ERR_ADDR_VALIDATE, w)

/-- `NetIPv4_CfgAddrAddDynamic(if_nbr, addr_host, addr_subnet_mask, addr_dflt_gateway, &err)`. -/
def NetIPv4_CfgAddrAddDynamic (w : Client) (if_nbr host mask gateway : Nat) : Bool × Client :=
  let ok := w.env.addr_add.headD false
  let w := { w with env := { w.env with addr_add := w.env.addr_add.tail } }
  (ok, w.log (Event.addrAdd if_nbr host mask gateway ok))

/-- `DHCPc_AddrCfg(pif_info, perr)`. -/
def DHCPc_AddrCfg (w : Client) (pif_info : DHCPc_IF_INFO) : DHCPc_ERR × Client :=
  let pmsg := lastRxMsg w pif_info
  let addr_host := getNet32 pmsg.MsgBuf hdr.yiaddr
  let addr_subnet_mask := (msgOpt32 DHCP_OPT_SUBNET_MASK pmsg).getD NET_IPv4_ADDR_NONE
  let addr_dflt_gateway := (msgOpt32 DHCP_OPT_ROUTER pmsg).getD NET_IPv4_ADDR_NONE
  let a :=
    NetIPv4_CfgAddrAddDynamic w pif_info.IF_Nbr addr_host addr_subnet_mask addr_dflt_gateway
  (if a.1 = true then DHCPc_ERR_NONE else DHCPc_ERR_IF_CFG, a.2)

/-- Modelled from the spec: `NET_IPv4_ADDR_LOCAL_LINK_HOST_MIN` (169.254.1.0). -/
def NET_IPv4_ADDR_LOCAL_LINK_HOST_MIN : Nat := 0xA9FE0100
/-- Modelled from the spec: `NET_IPv4_ADDR_LOCAL_LINK_HOST_MAX` (169.254.254.255). -/
def NET_IPv4_ADDR_LOCAL_LINK_HOST_MAX : Nat := 0xA9FEFEFF
/-- Modelled from the spec: `NET_IPv4_ADDR_LOCAL_LINK_MASK` (255.255.0.0). -/
def NET_IPv4_ADDR_LOCAL_LINK_MASK : Nat := 0xFFFF0000
/-- Modelled from the spec: `DHCP_LOCAL_LINK_MAX_CONFLICTS` (10). -/
def DHCP_LOCAL_LINK_MAX_CONFLICTS : Nat := 10
/-- Modelled from the spec: `DHCP_LOCAL_LINK_RATE_LIMIT_INTERVAL_S` (60 s). -/
def DHCP_LOCAL_LINK_RATE_LIMIT_INTERVAL_S : Nat := 60
/-- Modelled from the spec: `DHCP_LOCAL_LINK_PROBE_WAIT_S` (1 s). -/
def DHCP_LOCAL_LINK_PROBE_WAIT_S : Nat := 1
/-- Modelled from the spec: `DHCP_LOCAL_LINK_ANNOUNCE_WAIT_S` (2 s). -/
def DHCP_LOCAL_LINK_ANNOUNCE_WAIT_S : Nat := 2
/-- Modelled from the spec: `DHCP_LOCAL_LINK_ANNOUNCE_NUM` (2 announcements). -/
def DHCP_LOCAL_LINK_ANNOUNCE_NUM : Nat := 2
/-- Modelled from the spec: `DHCP_LOCAL_LINK_ANNOUNCE_INTERVAL_S` (2 s). -/
def DHCP_LOCAL_LINK_ANNOUNCE_INTERVAL_S : Nat := 2

/-- `DHCPc_AddrLocalLinkGet(paddr_hw, addr_hw_len)`. -/
def DHCPc_AddrLocalLinkGet (w : Client) (paddr_hw : List Nat) (addr_hw_len : Nat) :
    Nat × Client :=
  let seed_hw_addr :=
    (((paddr_hw.getD (addr_hw_len - 2) 0 % 256) * 2 ^ 24) % 2 ^ 32) |||
      (((paddr_hw.getD (addr_hw_len - 1) 0 % 256) * 2 ^ 16) % 2 ^ 32)
  let tk := DHCPc_OS_TimeGet_tick w
  let seed_time := tk.1 &&& 0x0000FFFF
  let random := seed_time ||| seed_hw_addr
  ((NET_IPv4_ADDR_LOCAL_LINK_HOST_MIN +
      random % (NET_IPv4_ADDR_LOCAL_LINK_HOST_MAX - NET_IPv4_ADDR_LOCAL_LINK_HOST_MIN + 1))
      % 2 ^ 32, tk.2)

/-- The address search loop of `DHCPc_AddrLocalLinkCfg`; `n` bounds the iterations left
(`nbr_conflicts <= DHCPc_CFG_LOCAL_LINK_MAX_RETRY`).  Returns `*perr` and `addr_host`. -/
def localLinkSrch (cfg : DHCPc_CFG) (pif_info : DHCPc_IF_INFO) (paddr_hw : List Nat)
    (addr_hw_len : Nat) : Nat → Nat → DHCPc_ERR → Nat → Client → DHCPc_ERR × Nat × Client
  | 0, _, perr, addr_host, w => (perr, addr_host, w)
  | n + 1, nbr_conflicts, _, _, w =>
    let w := if nbr_conflicts > DHCP_LOCAL_LINK_MAX_CONFLICTS then
        KAL_Dly w (DHCP_LOCAL_LINK_RATE_LIMIT_INTERVAL_S * 1000) else w
    let g := DHCPc_AddrLocalLinkGet w paddr_hw addr_hw_len
    let addr_host := g.1
    let w := KAL_Dly g.2 (DHCP_LOCAL_LINK_PROBE_WAIT_S * 1000)
    let v := DHCPc_AddrValidate cfg w pif_info.IF_Nbr addr_host
      (DHCP_LOCAL_LINK_ANNOUNCE_WAIT_S * 1000)
    match v.1 with
    | DHCPc_ERR_NONE => (v.1, addr_host, v.2)
    | DHCPc_ERR_ADDR_USED =>
        localLinkSrch cfg pif_info paddr_hw addr_hw_len n (nbr_conflicts + 1) v.1 addr_host v.2
    | _ => (v.1, addr_host, v.2)

/-- The announce loop of `DHCPc_AddrLocalLinkCfg`. -/
def localLinkAnnounce (addr : Nat) : Nat → Client → Client
  | 0, w => w
  | n + 1, w =>
    let ok := w.env.arp_grat.headD false
    let w := { w with env := { w.env with arp_grat := w.env.arp_grat.tail } }
    let w := w.log (Event.arpGratuitous addr ok)
    if ok = true then
      localLinkAnnounce addr n (KAL_Dly w (DHCP_LOCAL_LINK_ANNOUNCE_INTERVAL_S * 1000))
    else w

/-- `DHCPc_AddrLocalLinkCfg(pif_info, paddr_hw, addr_hw_len, perr)`; `perr0` is the value
`*perr` holds on entry. -/
def DHCPc_AddrLocalLinkCfg (cfg : DHCPc_CFG) (w : Client) (pif_info : DHCPc_IF_INFO)
    (paddr_hw : List Nat) (addr_hw_len : Nat) (perr0 : DHCPc_ERR) : DHCPc_ERR × Client :=
  let s := localLinkSrch cfg pif_info paddr_hw addr_hw_len
    (cfg.DHCPc_CFG_LOCAL_LINK_MAX_RETRY + 1) 0 perr0 0 w
  if s.1 ≠ DHCPc_ERR_NONE then (s.1, s.2.2)
  else
    let a := NetIPv4_CfgAddrAddDynamic s.2.2 pif_info.IF_Nbr s.2.1
      NET_IPv4_ADDR_LOCAL_LINK_MASK NET_IPv4_ADDR_NONE
    if a.1 ≠ true then (DHCPc_ERR_IF_CFG, a.2)
    else (DHCPc_ERR_NONE, localLinkAnnounce s.2.1 DHCP_LOCAL_LINK_ANNOUNCE_NUM a.2)

/-! ## Transmission and reception -/

/-- `DHCPc_CalcBackOff(timeout_ms)`. -/
def DHCPc_CalcBackOff (cfg : DHCPc_CFG) (timeout_ms : Nat) : Nat :=
  let timeout_calcd :=
    if timeout_ms = 0 then cfg.DHCPc_BACKOFF_DLY_INITIAL_MS % 2 ^ 32
    else
      let t :=
        if timeout_ms < cfg.DHCPc_BACKOFF_DLY_MAX_MS % 2 ^ 32 then
          (timeout_ms * (cfg.DHCPc_BACKOFF_DLY_SCALAR % 2 ^ 32)) % 2 ^ 32
        else cfg.DHCPc_BACKOFF_DLY_MAX_MS % 2 ^ 32
      min t (cfg.DHCPc_BACKOFF_DLY_MAX_MS % 2 ^ 32)
  timeout_calcd % 2 ^ 16

/-- `DHCPc_Tx(sock_id, pdata_buf, data_buf_len, paddr_remote, addr_remote_len, perr)`. -/
def DHCPc_Tx (w : Client) (data : List Nat) (addr_remote : Nat) : DHCPc_ERR × Client :=
  let ok := w.env.tx.headD false
  let w := { w with env := { w.env with tx := w.env.tx.tail } }
  (if ok = true then DHCPc_ERR_NONE else DHCPc_ERR_TX, w.log (Event.tx addr_remote data ok))

/-- `DHCPc_Rx(sock_id, pdata_buf, data_buf_len, ...)` when `NetApp_SockRx` delivers `ev`
(`none`: nothing before the timeout).  Returns the received length, `*perr` and the buffer. -/
def DHCPc_Rx (ev : Option RxEvent) (pdata_buf : Mem) (data_buf_len : Nat) :
    Nat × DHCPc_ERR × Mem :=
  match ev with
  | some (RxEvent.data bytes) =>
      ((bytes.take data_buf_len).length, DHCPc_ERR_NONE,
        Mem_Copy pdata_buf 0 (bytes.take data_buf_len))
  | some RxEvent.ovf => (data_buf_len, DHCPc_ERR_RX_OVF, pdata_buf)
  | _ => (0, DHCPc_ERR_RX, pdata_buf)

/-- The locals of the receive loop of `DHCPc_RxReply`. -/
structure RxFlags where
  remote_match : Bool
  opcode_reply : Bool
  addr_hw_match : Bool
  transaction_id_match : Bool
  deriving DecidableEq, Repr

/-- The validation of one received message in `DHCPc_RxReply` ("VALIDATE MSG"). -/
def rxValidate (cfg : DHCPc_CFG) (pif_info : DHCPc_IF_INFO) (server_id : Nat)
    (paddr_hw : List Nat) (pmsg_buf : Mem) (rx_msg_len : Nat) (f : RxFlags) : RxFlags :=
  if rx_msg_len ≥ cfg.DHCP_MSG_RX_MIN_LEN then
    { opcode_reply := decide (pmsg_buf hdr.op = DHCP_OP_REPLY)
      addr_hw_match := Mem_Cmp pmsg_buf hdr.chaddr (paddr_hw.take NET_IF_ETHER_ADDR_SIZE)
      transaction_id_match := decide (getNet32 pmsg_buf hdr.xid = pif_info.TransactionID)
      remote_match :=
        if server_id ≠ NET_IPv4_ADDR_NONE then
          match DHCPc_MsgGetOpt DHCP_OPT_SERVER_IDENTIFIER pmsg_buf rx_msg_len with
          | none => false
          | some r => decide (getNet32 pmsg_buf r.1 = server_id)
        else true }
  else f

/-- The receive loop of `DHCPc_RxReply`, over the events `NetApp_SockRx` will deliver.
Returns `*perr`, `rx_msg_len`, the buffer and the events left. -/
def rxReplyLoop (cfg : DHCPc_CFG) (pif_info : DHCPc_IF_INFO) (server_id : Nat)
    (paddr_hw : List Nat) (pmsg_buf_len : Nat) :
    List RxEvent → RxFlags → Mem → List Event → DHCPc_ERR × Nat × Mem × List RxEvent × List Event
  | [], _, pmsg_buf, tr =>
    let x := DHCPc_Rx none pmsg_buf pmsg_buf_len
    (x.2.1, x.1, x.2.2, [], tr)
  | ev :: rest, f, pmsg_buf, tr =>
    let x := DHCPc_Rx (some ev) pmsg_buf pmsg_buf_len
    let tr := tr ++ [Event.rx ev]
    if x.2.1 = DHCPc_ERR_NONE then
      let f := rxValidate cfg pif_info server_id paddr_hw x.2.2 x.1 f
      if f.remote_match = true ∧ f.opcode_reply = true ∧ f.addr_hw_match = true
          ∧ f.transaction_id_match = true then
        (x.2.1, x.1, x.2.2, rest, tr)
      else rxReplyLoop cfg pif_info server_id paddr_hw pmsg_buf_len rest f x.2.2 tr
    else (x.2.1, x.1, x.2.2, rest, tr)

/-- Modelled from the spec: `DHCP_MSG_NONE` of `dhcp-c.h`, the type of no message. -/
def DHCP_MSG_NONE : Nat := 0

/-- Result of `DHCPc_RxReply`: the returned message type, `*perr`, the buffer and
`*pmsg_buf_len`. -/
structure RxReply where
  msg_type : Nat
  err : DHCPc_ERR
  buf : Mem
  len : Nat

/-- `DHCPc_RxReply(sock_id, pif_info, server_id, paddr_hw, addr_hw_len, pmsg_buf, pmsg_buf_len,
perr)`. -/
def DHCPc_RxReply (cfg : DHCPc_CFG) (w : Client) (pif_info : DHCPc_IF_INFO) (server_id : Nat)
    (paddr_hw : List Nat) (addr_hw_len : Nat) (pmsg_buf : Mem) (pmsg_buf_len : Nat) :
    RxReply × Client :=
  if cfg.DHCPc_CFG_ARG_CHK_DBG_EN = true ∧ pmsg_buf_len < cfg.DHCP_MSG_RX_MIN_LEN then
    (⟨DHCP_MSG_NONE, DHCPc_ERR_INVALID_MSG_SIZE, pmsg_buf, 0⟩, w)
  else if cfg.DHCPc_CFG_ARG_CHK_DBG_EN = true ∧ addr_hw_len ≠ NET_IF_ETHER_ADDR_SIZE then
    (⟨DHCP_MSG_NONE, DHCPc_ERR_INVALID_HW_ADDR, pmsg_buf, 0⟩, w)
  else
    let x := rxReplyLoop cfg pif_info server_id paddr_hw pmsg_buf_len w.env.rx
      ⟨false, false, false, false⟩ pmsg_buf w.trace
    let perr := x.1
    let rx_msg_len := x.2.1
    let pmsg_buf := x.2.2.1
    let w := { w with env := { w.env with rx := x.2.2.2.1 }, trace := x.2.2.2.2 }
    if perr ≠ DHCPc_ERR_NONE then (⟨DHCP_MSG_NONE, perr, pmsg_buf, 0⟩, w)
    else
      match DHCPc_MsgGetOpt DHCP_OPT_DHCP_MESSAGE_TYPE pmsg_buf rx_msg_len with
      | none => (⟨DHCP_MSG_NONE, DHCPc_ERR_RX_MSG_TYPE, pmsg_buf, 0⟩, w)
      | some r => (⟨pmsg_buf r.1 % 256, DHCPc_ERR_NONE, pmsg_buf, rx_msg_len⟩, w)

/-! ## DISCOVER, REQUEST, DECLINE and RELEASE exchanges -/

/-- The call of `DHCPc_TxMsgPrepare` on the buffer of `pmsg`, in the client state `w`. -/
def txPrepare (cfg : DHCPc_CFG) (w : Client) (pif_info : DHCPc_IF_INFO) (msg_type : Nat)
    (paddr_hw : List Nat) (addr_hw_len : Nat) (pmsg : DHCPc_MSG) :
    TxPrep × DHCPc_IF_INFO × Client :=
  let tk := DHCPc_OS_TimeGet_tick w
  let r := DHCPc_TxMsgPrepare cfg w.env.null_msg.MsgBuf w.env.cpu_name tk.1 pif_info msg_type
    (memOfList paddr_hw) addr_hw_len pmsg.MsgBuf DHCP_MSG_BUF_SIZE
  (r.1, r.2, if r.1.err = DHCPc_ERR_NONE then tk.2 else w)

/-- "Close Rx Q before delay", `KAL_Dly(dly_ms)`, "Re-configure Rx Q size": the back-off delay
of `DHCPc_Discover` and `DHCPc_Req`. -/
def backOffDly (w : Client) (dly_ms : Nat) : Client :=
  (KAL_Dly (w.log (Event.rxQSize true)) dly_ms).log (Event.rxQSize false)

/-- State at the end of a reply-wait loop: `*perr`, whether the exchange is done, the message,
the client state, and whether the fuel of the model ran out. -/
structure RxWait where
  err : DHCPc_ERR
  done : Bool
  pmsg : DHCPc_MSG
  w : Client
  fuel_out : Bool

/-- The loop `while (rx_done != DEF_YES)` of `DHCPc_Discover`. -/
def discoverRx (cfg : DHCPc_CFG) (pif_info : DHCPc_IF_INFO) (paddr_hw : List Nat)
    (addr_hw_len : Nat) : Nat → Client → DHCPc_MSG → RxWait
  | 0, w, pmsg => ⟨DHCPc_ERR_RX, false, pmsg, w, true⟩
  | fuel + 1, w, pmsg =>
    let r := DHCPc_RxReply cfg w pif_info NET_IPv4_ADDR_NONE paddr_hw addr_hw_len pmsg.MsgBuf
      DHCP_MSG_BUF_SIZE
    let pmsg : DHCPc_MSG := ⟨pmsg.ID, r.1.buf, r.1.len⟩
    if r.1.err = DHCPc_ERR_NONE then
      if r.1.msg_type = DHCP_MSG_OFFER then ⟨DHCPc_ERR_NONE, true, pmsg, r.2, false⟩
      else discoverRx cfg pif_info paddr_hw addr_hw_len fuel r.2 pmsg
    else ⟨r.1.err, false, pmsg, r.2, false⟩

/-- State at the end of the retry loop of an exchange: whether the function returned from
inside the loop, `*perr`, the record, the message and the client state. -/
structure Xchg where
  returned : Bool
  err : DHCPc_ERR
  pif_info : DHCPc_IF_INFO
  pmsg : DHCPc_MSG
  w : Client

/-- The retry loop of `DHCPc_Discover`; `n` is `DHCPc_CFG_DISCOVER_RETRY_CNT` less
`discover_retry_cnt`. -/
def discoverLoop (cfg : DHCPc_CFG) (paddr_hw : List Nat) (addr_hw_len : Nat) :
    Nat → Bool → Nat → DHCPc_ERR → DHCPc_IF_INFO → DHCPc_MSG → Client → Xchg
  | 0, _, _, perr, pif_info, pmsg, w => ⟨false, perr, pif_info, pmsg, w⟩
  | n + 1, discover_dly, dly_ms, _, pif_info, pmsg, w =>
    let dly_ms := if discover_dly = true then DHCPc_CalcBackOff cfg dly_ms else dly_ms
    let w := if discover_dly = true then backOffDly w dly_ms else w
    let pif_info := { pif_info with TransactionID := (pif_info.TransactionID + 1) % 2 ^ 32 }
    let r := txPrepare cfg w pif_info DHCP_MSG_DISCOVER paddr_hw addr_hw_len pmsg
    if r.1.err ≠ DHCPc_ERR_NONE then
      ⟨true, r.1.err, r.2.1, pmsg, DHCPc_MsgFree cfg r.2.2 pmsg⟩
    else
      let pmsg : DHCPc_MSG := ⟨pmsg.ID, r.1.buf, pmsg.MsgLen⟩
      let t := DHCPc_Tx r.2.2 (memBytes r.1.buf 0 r.1.msg_size) NET_IPv4_ADDR_BROADCAST
      if t.1 ≠ DHCPc_ERR_NONE then ⟨false, t.1, r.2.1, pmsg, t.2⟩
      else
        let x := discoverRx cfg r.2.1 paddr_hw addr_hw_len (t.2.env.rx.length + 1) t.2 pmsg
        if x.done = true then ⟨false, x.err, r.2.1, x.pmsg, x.w⟩
        else discoverLoop cfg paddr_hw addr_hw_len n true dly_ms x.err r.2.1 x.pmsg x.w

/-- "COPY OFFER IN IF INFO STRUCT" / "COPY ACK IN IF INFO STRUCT": the previous message is
freed and `MsgPtr` set to `pmsg`. -/
def storeMsg (cfg : DHCPc_CFG) (w : Client) (pif_info : DHCPc_IF_INFO) (pmsg : DHCPc_MSG) :
    DHCPc_IF_INFO × Client :=
  ({ pif_info with MsgPtr := some pmsg },
    match pif_info.MsgPtr with
    | some old => DHCPc_MsgFree cfg w old
    | none => w)

/-- `DHCPc_Discover(sock_id, pif_info, paddr_hw, addr_hw_len, perr)`. -/
def DHCPc_Discover (cfg : DHCPc_CFG) (w : Client) (pif_info : DHCPc_IF_INFO)
    (paddr_hw : List Nat) (addr_hw_len : Nat) : DHCPc_ERR × DHCPc_IF_INFO × Client :=
  if cfg.DHCPc_CFG_ARG_CHK_DBG_EN = true ∧ addr_hw_len ≠ NET_IF_ETHER_ADDR_SIZE then
    (DHCPc_ERR_INVALID_HW_ADDR, pif_info, w)
  else
    let g := DHCPc_MsgGet w
    match g.1 with
    | none => (g.2.1, pif_info, g.2.2)
    | some pmsg =>
      let x := discoverLoop cfg paddr_hw addr_hw_len cfg.DHCPc_CFG_DISCOVER_RETRY_CNT false 0
        DHCPc_ERR_NONE pif_info pmsg g.2.2
      if x.returned = true then (x.err, x.pif_info, x.w)
      else if x.err ≠ DHCPc_ERR_NONE then (x.err, x.pif_info, DHCPc_MsgFree cfg x.w x.pmsg)
      else
        let s := storeMsg cfg x.w x.pif_info x.pmsg
        match msgOpt32 DHCP_OPT_SERVER_IDENTIFIER x.pmsg with
        | some id => (DHCPc_ERR_NONE, { s.1 with ServerID := id }, s.2)
        | none => (DHCPc_ERR_NONE, s.1, s.2)

/-- The loop `while (rx_done != DEF_YES)` of `DHCPc_Req`. -/
def reqRx (cfg : DHCPc_CFG) (pif_info : DHCPc_IF_INFO) (paddr_hw : List Nat)
    (addr_hw_len : Nat) : Nat → Client → DHCPc_MSG → RxWait
  | 0, w, pmsg => ⟨DHCPc_ERR_RX, false, pmsg, w, true⟩
  | fuel + 1, w, pmsg =>
    let r := DHCPc_RxReply cfg w pif_info NET_IPv4_ADDR_NONE paddr_hw addr_hw_len pmsg.MsgBuf
      DHCP_MSG_BUF_SIZE
    let pmsg : DHCPc_MSG := ⟨pmsg.ID, r.1.buf, r.1.len⟩
    if r.1.err = DHCPc_ERR_NONE then
      if r.1.msg_type = DHCP_MSG_ACK then ⟨DHCPc_ERR_NONE, true, pmsg, r.2, false⟩
      else if r.1.msg_type = DHCP_MSG_NAK then ⟨DHCPc_ERR_RX_NAK, true, pmsg, r.2, false⟩
      else reqRx cfg pif_info paddr_hw addr_hw_len fuel r.2 pmsg
    else ⟨r.1.err, false, pmsg, r.2, false⟩

/-- The retry loop of `DHCPc_Req`; `n` is `DHCPc_CFG_REQUEST_RETRY_CNT` less
`request_retry_cnt`. -/
def reqLoop (cfg : DHCPc_CFG) (paddr_hw : List Nat) (addr_hw_len : Nat) :
    Nat → Bool → Nat → DHCPc_ERR → DHCPc_IF_INFO → DHCPc_MSG → Client → Xchg
  | 0, _, _, perr, pif_info, pmsg, w => ⟨false, perr, pif_info, pmsg, w⟩
  | n + 1, request_dly, dly_ms, _, pif_info, pmsg, w =>
    let dly_ms := if request_dly = true then DHCPc_CalcBackOff cfg dly_ms else dly_ms
    let w := if request_dly = true then backOffDly w dly_ms else w
    let r := txPrepare cfg w pif_info DHCP_MSG_REQUEST paddr_hw addr_hw_len pmsg
    if r.1.err ≠ DHCPc_ERR_NONE then
      ⟨true, r.1.err, r.2.1, pmsg, DHCPc_MsgFree cfg r.2.2 pmsg⟩
    else
      let pmsg : DHCPc_MSG := ⟨pmsg.ID, r.1.buf, pmsg.MsgLen⟩
      let addr_server_ip :=
        if pif_info.ClientState = DHCP_STATE_RENEWING then pif_info.ServerID
        else NET_IPv4_ADDR_BROADCAST
      let t := DHCPc_Tx r.2.2 (memBytes r.1.buf 0 r.1.msg_size) addr_server_ip
      if t.1 ≠ DHCPc_ERR_NONE then ⟨false, t.1, r.2.1, pmsg, t.2⟩
      else
        let x := reqRx cfg r.2.1 paddr_hw addr_hw_len (t.2.env.rx.length + 1) t.2 pmsg
        if x.done = true then ⟨false, x.err, r.2.1, x.pmsg, x.w⟩
        else reqLoop cfg paddr_hw addr_hw_len n true dly_ms x.err r.2.1 x.pmsg x.w

/-- `DHCPc_Req(sock_id, pif_info, paddr_hw, addr_hw_len, perr)`. -/
def DHCPc_Req (cfg : DHCPc_CFG) (w : Client) (pif_info : DHCPc_IF_INFO)
    (paddr_hw : List Nat) (addr_hw_len : Nat) : DHCPc_ERR × DHCPc_IF_INFO × Client :=
  if cfg.DHCPc_CFG_ARG_CHK_DBG_EN = true ∧ addr_hw_len ≠ NET_IF_ETHER_ADDR_SIZE then
    (DHCPc_ERR_INVALID_HW_ADDR, pif_info, w)
  else
    let g := DHCPc_MsgGet w
    match g.1 with
    | none => (g.2.1, pif_info, g.2.2)
    | some pmsg =>
      let x := reqLoop cfg paddr_hw addr_hw_len cfg.DHCPc_CFG_REQUEST_RETRY_CNT false 0
        DHCPc_ERR_NONE pif_info pmsg g.2.2
      if x.returned = true then (x.err, x.pif_info, x.w)
      else if x.err ≠ DHCPc_ERR_NONE then (x.err, x.pif_info, DHCPc_MsgFree cfg x.w x.pmsg)
      else
        let s := storeMsg cfg x.w x.pif_info x.pmsg
        (DHCPc_ERR_NONE, s.1, s.2)

/-- `DHCPc_DeclineRelease(sock_id, pif_info, msg_type, paddr_hw, addr_hw_len, perr)`. -/
def DHCPc_DeclineRelease (cfg : DHCPc_CFG) (w : Client) (pif_info : DHCPc_IF_INFO)
    (msg_type : Nat) (paddr_hw : List Nat) (addr_hw_len : Nat) :
    DHCPc_ERR × DHCPc_IF_INFO × Client :=
  if cfg.DHCPc_CFG_ARG_CHK_DBG_EN = true ∧ addr_hw_len ≠ NET_IF_ETHER_ADDR_SIZE then
    (DHCPc_ERR_INVALID_HW_ADDR, pif_info, w)
  else if msg_type ≠ DHCP_MSG_DECLINE ∧ msg_type ≠ DHCP_MSG_RELEASE then
    (DHCPc_ERR_INVALID_MSG, pif_info, w)
  else
    let addr_ip_server :=
      if msg_type = DHCP_MSG_DECLINE then NET_IPv4_ADDR_BROADCAST else pif_info.ServerID
    let g := DHCPc_MsgGet w
    match g.1 with
    | none => (g.2.1, pif_info, g.2.2)
    | some pmsg =>
      let r := txPrepare cfg g.2.2 pif_info msg_type paddr_hw addr_hw_len pmsg
      if r.1.err ≠ DHCPc_ERR_NONE then (r.1.err, r.2.1, DHCPc_MsgFree cfg r.2.2 pmsg)
      else
        let t := DHCPc_Tx r.2.2 (memBytes r.1.buf 0 r.1.msg_size) addr_ip_server
        (t.1, r.2.1, DHCPc_MsgFree cfg t.2 pmsg)

/-! ## State handlers -/

/-- `NET_IPv4_ADDR_THIS_HOST` -/
def NET_IPv4_ADDR_THIS_HOST : Nat := 0

/-- `DHCPc_InitSock(ip_addr_local, if_nbr)`: `true` when a socket was opened, configured and
bound. -/
def DHCPc_InitSock (w : Client) (ip_addr_local if_nbr : Nat) : Bool × Client :=
  let ok := w.env.sock.headD false
  let w := { w with env := { w.env with sock := w.env.sock.tail } }
  (ok, w.log (Event.sockOpen ip_addr_local if_nbr ok))

/-- `NetApp_SockClose(sock_id, 0, &err_net)`. -/
def NetApp_SockClose (w : Client) : Client := w.log Event.sockClose

/-- `NetIPv4_CfgAddrAddDynamicStart(if_nbr, &err_net)`: `true` when
`err_net == NET_IPv4_ERR_NONE`. -/
def NetIPv4_CfgAddrAddDynamicStart (w : Client) (if_nbr : Nat) : Bool × Client :=
  let ok := w.env.dyn_start.headD false
  let w := { w with env := { w.env with dyn_start := w.env.dyn_start.tail } }
  (ok, w.log (Event.dynStart if_nbr ok))

/-- `NetIPv4_CfgAddrAddDynamicStop(if_nbr, &err_net)`. -/
def NetIPv4_CfgAddrAddDynamicStop (w : Client) (if_nbr : Nat) : Client :=
  w.log (Event.dynStop if_nbr)

/-- `NetIPv4_CfgAddrRemoveAll(if_nbr, &err_net)`: `true` when `err_net == NET_IPv4_ERR_NONE`. -/
def NetIPv4_CfgAddrRemoveAll (w : Client) (if_nbr : Nat) : Bool × Client :=
  let ok := w.env.rem_all.headD false
  let w := { w with env := { w.env with rem_all := w.env.rem_all.tail } }
  (ok, w.log (Event.removeAll if_nbr ok))

/-- `NET_UTIL_VAL_COPY_32(&addr, &pmsg_hdr->yiaddr)` on the message `pif_info->MsgPtr`: the
four octets of `yiaddr`, kept in the order of the message. -/
def msgYiaddr (w : Client) (pif_info : DHCPc_IF_INFO) : Nat :=
  getNet32 (lastRxMsg w pif_info).MsgBuf hdr.yiaddr

/-- Sets `pif_info->ClientState`. -/
def setState (pif_info : DHCPc_IF_INFO) (s : DHCPc_STATE) : DHCPc_IF_INFO :=
  { pif_info with ClientState := s }

/-- The negotiation loop of `DHCPc_InitStateHandler`; `n` is `DHCPc_CFG_NEGO_RETRY_CNT` less
`nego_retry_cnt`, `perr` the current value of `*perr`. -/
def negoLoop (cfg : DHCPc_CFG) (if_nbr : Nat) (addr_hw : List Nat) (addr_hw_len : Nat) :
    Nat → Bool → DHCPc_ERR → DHCPc_IF_INFO → Client → DHCPc_ERR × DHCPc_IF_INFO × Client
  | 0, _, perr, pif_info, w => (perr, pif_info, w)
  | n + 1, nego_dly, _, pif_info, w =>
    let pif_info := setState pif_info DHCP_STATE_INIT
    let w := if nego_dly = true then KAL_Dly w cfg.DHCP_INIT_DLY_MS else w
    let d := DHCPc_Discover cfg w pif_info addr_hw addr_hw_len
    if d.1 ≠ DHCPc_ERR_NONE then negoLoop cfg if_nbr addr_hw addr_hw_len n true d.1 d.2.1 d.2.2
    else
      let q := DHCPc_Req cfg d.2.2 (setState d.2.1 DHCP_STATE_SELECTING) addr_hw addr_hw_len
      match q.1 with
      | DHCPc_ERR_NONE =>
        if cfg.DHCPc_CFG_ADDR_VALIDATE_EN = true then
          let proposed_addr := msgYiaddr q.2.2 q.2.1
          let v := DHCPc_AddrValidate cfg q.2.2 if_nbr proposed_addr
            cfg.DHCP_ADDR_VALIDATE_WAIT_TIME_MS
          match v.1 with
          | DHCPc_ERR_NONE => (v.1, q.2.1, v.2)
          | DHCPc_ERR_ADDR_VALIDATE => (v.1, q.2.1, v.2)
          | _ =>
            let dr := DHCPc_DeclineRelease cfg v.2 q.2.1 DHCP_MSG_DECLINE addr_hw addr_hw_len
            negoLoop cfg if_nbr addr_hw addr_hw_len n true dr.1 dr.2.1 dr.2.2
        else (DHCPc_ERR_NONE, q.2.1, q.2.2)
      | DHCPc_ERR_RX_NAK =>
        negoLoop cfg if_nbr addr_hw addr_hw_len n true DHCPc_ERR_RX_NAK q.2.1 q.2.2
      | _ => (q.1, q.2.1, q.2.2)

/-- "CFG IF WITH NEGO'D LEASE" of `DHCPc_InitStateHandler`: what follows the negotiation loop
and the closing of the socket, `perr` being the value of `*perr` at that point. -/
def initCfgIF (cfg : DHCPc_CFG) (w : Client) (pif_info : DHCPc_IF_INFO) (addr_hw : List Nat)
    (addr_hw_len : Nat) (perr : DHCPc_ERR) : DHCPc_ERR × DHCPc_IF_INFO × Client :=
  let if_nbr := pif_info.IF_Nbr
  match perr with
  | DHCPc_ERR_NONE =>
    let a := DHCPc_AddrCfg w pif_info
    if a.1 = DHCPc_ERR_NONE then
      let l := DHCPc_LeaseTimeCalc cfg a.2 pif_info
      (if l.1 ≠ DHCPc_ERR_NONE then DHCPc_ERR_NONE_NO_TMR else DHCPc_ERR_NONE,
        setState l.2.1 DHCP_STATE_BOUND, l.2.2)
    else
      (a.1, setState pif_info DHCP_STATE_NONE, NetIPv4_CfgAddrAddDynamicStop a.2 if_nbr)
  | _ =>
    if cfg.DHCPc_CFG_DYN_LOCAL_LINK_ADDR_EN = true then
      let l := DHCPc_AddrLocalLinkCfg cfg w pif_info addr_hw addr_hw_len perr
      if l.1 = DHCPc_ERR_NONE then
        (DHCPc_ERR_NONE_LOCAL_LINK, setState pif_info DHCP_STATE_LOCAL_LINK, l.2)
      else
        (DHCPc_ERR_LOCAL_LINK, setState pif_info DHCP_STATE_NONE,
          NetIPv4_CfgAddrAddDynamicStop l.2 if_nbr)
    else
      (perr, setState pif_info DHCP_STATE_NONE, NetIPv4_CfgAddrAddDynamicStop w if_nbr)

/-- State of `DHCPc_InitStateHandler` when it reaches "CFG IF WITH NEGO'D LEASE": the hardware
address, `*perr`, the record and the globals. -/
structure Nego where
  addr_hw : List Nat
  err : DHCPc_ERR
  pif_info : DHCPc_IF_INFO
  w : Client

/-- `DHCPc_InitStateHandler` up to the closing of the socket: `Sum.inl` holds what the handler
leaves when it returns before the negotiation, `Sum.inr` its state once the negotiation loop has
ended and the socket is closed.  `perr0` is the value `*perr` holds on entry. -/
def initNego (cfg : DHCPc_CFG) (w : Client) (pif_info : DHCPc_IF_INFO) (perr0 : DHCPc_ERR) :
    (DHCPc_ERR × DHCPc_IF_INFO × Client) ⊕ Nego :=
  let if_nbr := pif_info.IF_Nbr
  let e := NetIF_IsEnCfgd w
  if e.1 ≠ true then Sum.inl (DHCPc_ERR_IF_INVALID, pif_info, e.2)
  else
    let h := NetIF_AddrHW_Get e.2
    match h.1 with
    | none => Sum.inl (DHCPc_ERR_INVALID_HW_ADDR, pif_info, h.2)
    | some addr_hw =>
      if addr_hw.length ≠ NET_IF_ETHER_ADDR_SIZE then
        Sum.inl (DHCPc_ERR_INVALID_HW_ADDR, pif_info, h.2)
      else
        let s := DHCPc_InitSock h.2 NET_IPv4_ADDR_THIS_HOST if_nbr
        if s.1 ≠ true then Sum.inl (DHCPc_ERR_INIT_SOCK, pif_info, s.2)
        else
          let y := NetIPv4_CfgAddrAddDynamicStart s.2 if_nbr
          if y.1 ≠ true then Sum.inl (DHCPc_ERR_IF_CFG_STATE, pif_info, y.2)
          else
            let g := negoLoop cfg if_nbr addr_hw addr_hw.length cfg.DHCPc_CFG_NEGO_RETRY_CNT
              false perr0 pif_info y.2
            Sum.inr ⟨addr_hw, g.1, g.2.1, NetApp_SockClose g.2.2⟩

/-- `DHCPc_InitStateHandler(pif_info, perr)`; `perr0` is the value `*perr` holds on entry. -/
def DHCPc_InitStateHandler (cfg : DHCPc_CFG) (w : Client) (pif_info : DHCPc_IF_INFO)
    (perr0 : DHCPc_ERR) : DHCPc_ERR × DHCPc_IF_INFO × Client :=
  match initNego cfg w pif_info perr0 with
  | Sum.inl r => r
  | Sum.inr s => initCfgIF cfg s.w s.pif_info s.addr_hw s.addr_hw.length s.err

/-- The part of `DHCPc_RenewRebindStateHandler` that follows the setting of the client
state. -/
def renewRebind (cfg : DHCPc_CFG) (w : Client) (pif_info : DHCPc_IF_INFO)
    (exp_tmr_msg : DHCPc_COMM_MSG) : DHCPc_ERR × DHCPc_IF_INFO × Client :=
  let if_nbr := pif_info.IF_Nbr
  let e := NetIF_IsEnCfgd w
  if e.1 ≠ true then (DHCPc_ERR_IF_INVALID, pif_info, e.2)
  else
    let h := NetIF_AddrHW_Get e.2
    match h.1 with
    | none => (DHCPc_ERR_INVALID_HW_ADDR, pif_info, h.2)
    | some addr_hw =>
      if addr_hw.length ≠ NET_IF_ETHER_ADDR_SIZE then (DHCPc_ERR_INVALID_HW_ADDR, pif_info, h.2)
      else
        let addr_host :=
          if cfg.DHCPc_CFG_BROADCAST_BIT_EN = true then NET_IPv4_ADDR_THIS_HOST
          else msgYiaddr h.2 pif_info
        let s := DHCPc_InitSock h.2 addr_host if_nbr
        if s.1 ≠ true then
          let u := DHCPc_LeaseTimeUpdate cfg s.2 pif_info exp_tmr_msg
          (if u.1 = DHCPc_ERR_NONE then DHCPc_ERR_INIT_SOCK else DHCPc_ERR_NONE_NO_TMR,
            u.2.1, u.2.2)
        else
          let q := DHCPc_Req cfg s.2 pif_info addr_hw addr_hw.length
          let w := NetApp_SockClose q.2.2
          let l :=
            if q.1 = DHCPc_ERR_NONE then DHCPc_LeaseTimeCalc cfg w q.2.1
            else DHCPc_LeaseTimeUpdate cfg w q.2.1 exp_tmr_msg
          (if l.1 ≠ DHCPc_ERR_NONE then DHCPc_ERR_NONE_NO_TMR else DHCPc_ERR_NONE,
            setState l.2.1 DHCP_STATE_BOUND, l.2.2)

/-- `DHCPc_RenewRebindStateHandler(pif_info, exp_tmr_msg, perr)`. -/
def DHCPc_RenewRebindStateHandler (cfg : DHCPc_CFG) (w : Client) (pif_info : DHCPc_IF_INFO)
    (exp_tmr_msg : DHCPc_COMM_MSG) : DHCPc_ERR × DHCPc_IF_INFO × Client :=
  match exp_tmr_msg with
  | DHCPc_COMM_MSG_T1_EXPIRED =>
    renewRebind cfg w (setState pif_info DHCP_STATE_RENEWING) exp_tmr_msg
  | DHCPc_COMM_MSG_T2_EXPIRED =>
    renewRebind cfg w (setState pif_info DHCP_STATE_REBINDING) exp_tmr_msg
  | _ => (DHCPc_ERR_INVALID_MSG, pif_info, w)

/-- "TX RELEASE" of `DHCPc_StopStateHandler`, for a client state that asks for it. -/
def stopRelease (cfg : DHCPc_CFG) (w : Client) (pif_info : DHCPc_IF_INFO) :
    DHCPc_IF_INFO × Client :=
  let h := NetIF_AddrHW_Get w
  match h.1 with
  | none => (pif_info, h.2)
  | some addr_hw =>
    if addr_hw.length ≠ NET_IF_ETHER_ADDR_SIZE then (pif_info, h.2)
    else
      let s := DHCPc_InitSock h.2 (msgYiaddr h.2 pif_info) pif_info.IF_Nbr
      if s.1 ≠ true then (pif_info, s.2)
      else
        let r := DHCPc_DeclineRelease cfg s.2 pif_info DHCP_MSG_RELEASE addr_hw addr_hw.length
        (r.2.1, NetApp_SockClose (KAL_Dly r.2.2 (cfg.DHCP_RELEASE_DLY_S * 1000)))

/-- "FREE IF'S DATA OBJ" of `DHCPc_StopStateHandler`: the lease timer and its communication
object, then the stored message. -/
def stopFree (cfg : DHCPc_CFG) (w : Client) (pif_info : DHCPc_IF_INFO) :
    DHCPc_IF_INFO × Client :=
  let t : DHCPc_IF_INFO × Client :=
    match pif_info.Tmr with
    | none => (pif_info, w)
    | some ptmr =>
      let w :=
        match (w.DHCPc_TmrListHead.find? (fun t => decide (t.ID = ptmr))).bind (fun t => t.Obj) with
        | some pcomm => DHCPc_CommFree cfg w pcomm
        | none => w
      ({ pif_info with Tmr := none }, DHCPc_TmrFree cfg w ptmr)
  match pif_info.MsgPtr with
  | some pmsg => (t.1, DHCPc_MsgFree cfg t.2 pmsg)
  | none => t

/-- `DHCPc_StopStateHandler(pif_info, perr)`. -/
def DHCPc_StopStateHandler (cfg : DHCPc_CFG) (w : Client) (pif_info : DHCPc_IF_INFO) :
    DHCPc_ERR × Client :=
  let if_nbr := pif_info.IF_Nbr
  let client_state := pif_info.ClientState
  let pif_info := setState pif_info DHCP_STATE_STOPPING
  let tx_decline : Bool :=
    match client_state with
    | DHCP_STATE_REQUESTING => true
    | DHCP_STATE_BOUND => true
    | DHCP_STATE_RENEWING => true
    | DHCP_STATE_REBINDING => true
    | _ => false
  let r := if tx_decline = true then stopRelease cfg w pif_info else (pif_info, w)
  let f := stopFree cfg r.2 r.1
  let w := DHCPc_IF_InfoFree cfg f.2 f.1
  let x := NetIPv4_CfgAddrRemoveAll w if_nbr
  (if x.1 ≠ true then DHCPc_ERR_IF_CFG else DHCPc_ERR_NONE, x.2)

/-- The lease status `DHCPc_MsgRxHandler` stores after `DHCPc_InitStateHandler` returned
`err`. -/
def initStatus (pif_info : DHCPc_IF_INFO) (err : DHCPc_ERR) : DHCPc_IF_INFO :=
  match err with
  | DHCPc_ERR_NONE => { pif_info with LeaseStatus := DHCP_STATUS_CFGD }
  | DHCPc_ERR_NONE_NO_TMR => { pif_info with LeaseStatus := DHCP_STATUS_CFGD_NO_TMR }
  | DHCPc_ERR_NONE_LOCAL_LINK => { pif_info with LeaseStatus := DHCP_STATUS_CFGD_LOCAL_LINK }
  | _ => { pif_info with LeaseStatus := DHCP_STATUS_FAIL, LastErr := err }

/-- The lease status `DHCPc_MsgRxHandler` stores after `DHCPc_RenewRebindStateHandler`
returned `err`. -/
def renewStatus (pif_info : DHCPc_IF_INFO) (err : DHCPc_ERR) : DHCPc_IF_INFO :=
  match err with
  | DHCPc_ERR_NONE => pif_info
  | DHCPc_ERR_INIT_SOCK => pif_info
  | DHCPc_ERR_NONE_NO_TMR => { pif_info with LeaseStatus := DHCP_STATUS_CFGD_NO_TMR }
  | _ => { pif_info with LeaseStatus := DHCP_STATUS_FAIL, LastErr := err }

/-- `DHCPc_MsgRxHandler(pcomm)`.  The handlers work on the record through its pointer; here
they work on a copy, stored back in the list when the handler returns. -/
def DHCPc_MsgRxHandler (cfg : DHCPc_CFG) (w : Client) (pcomm : DHCPc_COMM) : Client :=
  let if_nbr := pcomm.IF_Nbr
  let msg := pcomm.CommMsg
  let w := DHCPc_CommFree cfg w pcomm
  match DHCPc_IF_InfoGetCfgd w if_nbr with
  | none => w
  | some pif_info =>
    match msg with
    | DHCPc_COMM_MSG_START =>
      let r := DHCPc_InitStateHandler cfg w
        { pif_info with LeaseStatus := DHCP_STATUS_CFG_IN_PROGRESS } w.env.stack_err
      r.2.2.setInfo (initStatus r.2.1 r.1)
    | DHCPc_COMM_MSG_LEASE_EXPIRED =>
      let r := DHCPc_InitStateHandler cfg w
        { pif_info with LeaseStatus := DHCP_STATUS_CFG_IN_PROGRESS } w.env.stack_err
      r.2.2.setInfo (initStatus r.2.1 r.1)
    | DHCPc_COMM_MSG_T1_EXPIRED =>
      let r := DHCPc_RenewRebindStateHandler cfg w pif_info msg
      r.2.2.setInfo (renewStatus r.2.1 r.1)
    | DHCPc_COMM_MSG_T2_EXPIRED =>
      let r := DHCPc_RenewRebindStateHandler cfg w pif_info msg
      r.2.2.setInfo (renewStatus r.2.1 r.1)
    | DHCPc_COMM_MSG_STOP => (DHCPc_StopStateHandler cfg w pif_info).2
    | DHCPc_COMM_MSG_NONE => w

/-! ## Application interface and tasks -/

/-- A pool as the `...Init` functions leave it: objects `0 .. n - 1` of the table, each pushed
at the head in turn. -/
def initPool (n : Nat) : List Nat := (List.range n).reverse

/-- The globals once `DHCPc_Init` has returned `DHCPc_ERR_NONE`: the four pools full, the four
lists empty, `DHCPc_InitDone` set. -/
def DHCPc_Init (cfg : DHCPc_CFG) (env : Env) : Client where
  DHCPc_InitDone := true
  DHCPc_InfoPoolPtr := initPool cfg.DHCPc_NBR_IF_INFO
  DHCPc_InfoListHead := []
  DHCPc_MsgPoolPtr := initPool cfg.DHCPc_NBR_MSG_BUF
  DHCPc_MsgListHead := []
  DHCPc_CommPoolPtr := initPool cfg.DHCPc_NBR_COMM
  DHCPc_CommListHead := []
  DHCPc_TmrPoolPtr := initPool cfg.DHCPc_NBR_TMR
  DHCPc_TmrListHead := []
  MsgQ := []
  env := env
  trace := []

/-- What `DHCPc_Start` does once it holds the lock. -/
def startLocked (cfg : DHCPc_CFG) (w : Client) (if_nbr : Nat) (preq_param_tbl : Option Mem)
    (req_param_tbl_qty : Nat) : DHCPc_ERR × Client :=
  let g := DHCPc_IF_InfoGet cfg w if_nbr
  match g.1 with
  | none => (g.2.1, g.2.2)
  | some pif_info =>
    let pif_info := { pif_info with
      ClientState := DHCP_STATE_INIT
      ParamReqTbl := (Mem_Copy pif_info.ParamReqTbl 0
        (memBytes (preq_param_tbl.getD w.env.null_msg.MsgBuf) 0 req_param_tbl_qty))
      ParamReqQty := req_param_tbl_qty }
    let c := DHCPc_CommGet (g.2.2.setInfo pif_info) if_nbr DHCPc_COMM_MSG_START
    match c.1 with
    | none => (c.2.1, DHCPc_IF_InfoFree cfg c.2.2 pif_info)
    | some pcomm =>
      let p := DHCPc_OS_MsgPost c.2.2 pcomm
      if p.1 ≠ true then
        (DHCPc_ERR_MSG_Q, DHCPc_IF_InfoFree cfg (DHCPc_CommFree cfg p.2 pcomm) pif_info)
      else (DHCPc_ERR_NONE, p.2)

/-- `DHCPc_Start(if_nbr, preq_param_tbl, req_param_tbl_qty, perr)`, `none` being the NULL
table pointer. -/
def DHCPc_Start (cfg : DHCPc_CFG) (w : Client) (if_nbr : Nat) (preq_param_tbl : Option Mem)
    (req_param_tbl_qty : Nat) : DHCPc_ERR × Client :=
  if cfg.DHCPc_CFG_ARG_CHK_EXT_EN = true ∧ req_param_tbl_qty > 0 ∧ preq_param_tbl.isNone = true
  then (DHCPc_ERR_NULL_PTR, w)
  else if w.DHCPc_InitDone ≠ true then (DHCPc_ERR_INIT_INCOMPLETE, w)
  else
    let e := NetIF_IsEnCfgd w
    if e.1 ≠ true then (DHCPc_ERR_IF_INVALID, e.2)
    else if req_param_tbl_qty > cfg.DHCPc_CFG_PARAM_REQ_TBL_SIZE then
      (DHCPc_ERR_PARAM_REQ_TBL_SIZE, e.2)
    else
      let l := DHCPc_OS_Lock e.2
      if l.1 ≠ true then (DHCPc_OS_ERR_LOCK, l.2)
      else startLocked cfg l.2 if_nbr preq_param_tbl req_param_tbl_qty

/-- `DHCPc_Stop(if_nbr, perr)`. -/
def DHCPc_Stop (cfg : DHCPc_CFG) (w : Client) (if_nbr : Nat) : DHCPc_ERR × Client :=
  if w.DHCPc_InitDone ≠ true then (DHCPc_ERR_INIT_INCOMPLETE, w)
  else
    let l := DHCPc_OS_Lock w
    if l.1 ≠ true then (DHCPc_OS_ERR_LOCK, l.2)
    else
      match DHCPc_IF_InfoGetCfgd l.2 if_nbr with
      | none => (DHCPc_ERR_IF_NOT_MANAGED, l.2)
      | some _ =>
        let c := DHCPc_CommGet l.2 if_nbr DHCPc_COMM_MSG_STOP
        match c.1 with
        | none => (c.2.1, c.2.2)
        | some pcomm =>
          let p := DHCPc_OS_MsgPost c.2.2 pcomm
          if p.1 ≠ true then (DHCPc_ERR_MSG_Q, DHCPc_CommFree cfg p.2 pcomm)
          else (DHCPc_ERR_NONE, p.2)

/-- `DHCPc_ChkStatus(if_nbr, perr_last)`: the status returned and `*perr_last`. -/
def DHCPc_ChkStatus (w : Client) (if_nbr : Nat) : DHCPc_STATUS × DHCPc_ERR :=
  if w.DHCPc_InitDone ≠ true then (DHCP_STATUS_NONE, DHCPc_ERR_INIT_INCOMPLETE)
  else
    match DHCPc_IF_InfoGetCfgd w if_nbr with
    | some pif_info => (pif_info.LeaseStatus, pif_info.LastErr)
    | none => (DHCP_STATUS_NONE, DHCPc_ERR_IF_NOT_MANAGED)

/-- What `DHCPc_GetOptVal` leaves behind: `*perr`, the caller's buffer and `*pval_buf_len`. -/
structure OptVal where
  err : DHCPc_ERR
  val_buf : Mem
  val_buf_len : Nat

/-- `DHCPc_GetOptVal(if_nbr, opt_code, pval_buf, pval_buf_len, perr)`; `none` is a NULL
`pval_buf`, respectively a NULL `pval_buf_len`, whose place is taken in the result by
`null_buf` and 0. -/
def DHCPc_GetOptVal (cfg : DHCPc_CFG) (w : Client) (if_nbr opt_code : Nat)
    (pval_buf : Option Mem) (pval_buf_len : Option Nat) (null_buf : Mem) : OptVal × Client :=
  let val_buf := pval_buf.getD null_buf
  let val_buf_len := pval_buf_len.getD 0
  if cfg.DHCPc_CFG_ARG_CHK_EXT_EN = true ∧ (pval_buf.isNone = true ∨ pval_buf_len.isNone = true)
  then (⟨DHCPc_ERR_NULL_PTR, val_buf, val_buf_len⟩, w)
  else if w.DHCPc_InitDone ≠ true then (⟨DHCPc_ERR_INIT_INCOMPLETE, val_buf, val_buf_len⟩, w)
  else
    let l := DHCPc_OS_Lock w
    if l.1 ≠ true then (⟨DHCPc_OS_ERR_LOCK, val_buf, val_buf_len⟩, l.2)
    else
      match DHCPc_IF_InfoGetCfgd l.2 if_nbr with
      | none => (⟨DHCPc_ERR_IF_NOT_MANAGED, val_buf, val_buf_len⟩, l.2)
      | some pif_info =>
        if pif_info.LeaseStatus ≠ DHCP_STATUS_CFGD then
          (⟨DHCPc_ERR_IF_NOT_CFG, val_buf, val_buf_len⟩, l.2)
        else
          match pif_info.MsgPtr with
          | none => (⟨DHCPc_ERR_IF_NOT_CFG, val_buf, val_buf_len⟩, l.2)
          | some pmsg =>
            match DHCPc_MsgGetOpt opt_code pmsg.MsgBuf pmsg.MsgLen with
            | none => (⟨DHCPc_ERR_IF_OPT_NONE, val_buf, val_buf_len⟩, l.2)
            | some (popt_val, opt_val_len) =>
              if opt_val_len > val_buf_len then
                (⟨DHCPc_ERR_OPT_BUF_SIZE, val_buf, val_buf_len⟩, l.2)
              else
                (⟨DHCPc_ERR_NONE, Mem_Copy val_buf 0 (memBytes pmsg.MsgBuf popt_val opt_val_len),
                  opt_val_len⟩, l.2)

/-- One turn of the loop of `DHCPc_TaskHandler`: the message at the head of the queue is taken
and, when the lock is acquired, handled.  With an empty queue the task waits. -/
def DHCPc_TaskHandler (cfg : DHCPc_CFG) (w : Client) : Client :=
  match w.MsgQ with
  | [] => w
  | pcomm :: q =>
    let l := DHCPc_OS_Lock { w with MsgQ := q }
    if l.1 ≠ true then l.2 else DHCPc_MsgRxHandler cfg l.2 pcomm

/-- The body of the timer list loop of `DHCPc_TmrTaskHandler` for the timer `ptmr`.  When no
record is found for the interface of the timer, the write to `pif_info->Tmr` through the NULL
pointer is taken to leave the globals alone; a timer without object, which `DHCPc_TmrGet` never
creates, is only freed. -/
def tmrHandle (cfg : DHCPc_CFG) (w : Client) (ptmr : DHCPc_TMR) : Client :=
  if ptmr.TmrVal > 1 then
    { w with DHCPc_TmrListHead := (w.DHCPc_TmrListHead.map
        (fun t => if t.ID = ptmr.ID then DHCPc_TMR.mk t.ID t.Obj (t.TmrVal - 1) else t)) }
  else
    match ptmr.Obj with
    | none => DHCPc_TmrFree cfg w ptmr.ID
    | some pcomm =>
      match DHCPc_IF_InfoGetCfgd w pcomm.IF_Nbr with
      | some pif_info =>
        let tk := DHCPc_OS_TimeGet_tick w
        let w := DHCPc_TmrFree cfg tk.2 ptmr.ID
        (DHCPc_OS_MsgPost (w.setInfo { pif_info with TmrExpirationTime := tk.1, Tmr := none })
          pcomm).2
      | none => (DHCPc_OS_MsgPost (DHCPc_TmrFree cfg w ptmr.ID) pcomm).2

/-- One turn of the loop of `DHCPc_TmrTaskHandler`: one timer tick. -/
def DHCPc_TmrTaskHandler (cfg : DHCPc_CFG) (w : Client) : Client :=
  let l := DHCPc_OS_Lock w
  if l.1 ≠ true then l.2 else l.2.DHCPc_TmrListHead.foldl (tmrHandle cfg) l.2

/-! ### Concrete messages used as test inputs -/

/-- A message buffer: 236 header bytes `hdr`-filled with zeros, the magic cookie, then `opts`. -/
def msgOfOpts (opts : List Nat) : List Nat :=
  List.replicate DHCP_MSG_HDR_SIZE 0 ++ DHCP_MAGIC_COOKIE ++ opts

/-- A well-formed reply: PAD, DHCP-MESSAGE-TYPE = 5, SUBNET-MASK = 255.255.255.0, a second
SUBNET-MASK option, END, and a ROUTER option placed after END. -/
def sampleItems : List OptItem :=
  [OptItem.pad, OptItem.opt 53 [5], OptItem.opt 1 [255, 255, 255, 0], OptItem.opt 1 [255, 0, 0, 0]]

/-- Memory holding `sampleItems`, END and a trailing ROUTER option. -/
def sampleMem : Mem :=
  memOfList (msgOfOpts (encodeItems sampleItems ++ [DHCP_OPT_END] ++ [3, 4, 192, 0, 2, 1]))

/-- A 244-byte datagram (cookie, then a DNS option whose length byte says 200) followed by what
the receive buffer still holds past the datagram. -/
def overrunMem : Mem :=
  memOfList (msgOfOpts [6, 200, 198, 51] ++ [100, 53, 255, 255])

/-- A 244-byte datagram without END (cookie, four PAD bytes) followed by stale buffer content that
looks like a DHCP-MESSAGE-TYPE option. -/
def noEndMem : Mem :=
  memOfList (msgOfOpts [0, 0, 0, 0] ++ [53, 1, 5, 255])

/-- Memory that holds only zero bytes. -/
def zeroMem : Mem := fun _ => 0

/-- A hardware address buffer. -/
def sampleHw : Mem := memOfList [0x00, 0x1A, 0x2B, 0x3C, 0x4D, 0x5E]

/-- An OFFER: `op = 2`, `yiaddr = 192.0.2.50`, server identifier 192.0.2.1. -/
def sampleOffer : DHCPc_MSG where
  ID := 0
  MsgBuf := memOfList ([2, 1, 6, 0] ++ List.replicate 12 0 ++ [192, 0, 2, 50]
    ++ List.replicate 216 0 ++ DHCP_MAGIC_COOKIE ++ [53, 1, 2, 54, 4, 192, 0, 2, 1, 255])
  MsgLen := 300

/-- An interface record in SELECTING state holding `sampleOffer`, with two parameters
requested by the application. -/
def sampleIf : DHCPc_IF_INFO where
  ID := 0
  IF_Nbr := 1
  ServerID := 0xC0000201
  ParamReqTbl := memOfList [15, 42, 0, 0, 0]
  ParamReqQty := 2
  MsgPtr := some sampleOffer
  ClientState := DHCP_STATE_SELECTING
  LeaseStatus := DHCP_STATUS_CFG_IN_PROGRESS
  LastErr := DHCPc_ERR_NONE
  TransactionID := 0x3C4D5E01
  NegoStartTime := 0
  TmrExpirationTime := 0
  LeaseTime_sec := 0
  T1_Time_sec := 0
  T2_Time_sec := 0
  Tmr := none
  Used := true

/-- The REQUEST built for `sampleIf`. -/
def sampleReq : TxPrep :=
  (DHCPc_TxMsgPrepare templateCfg zeroMem (some [117, 67]) 7 sampleIf DHCP_MSG_REQUEST sampleHw
    NET_IF_ETHER_ADDR_SIZE zeroMem DHCP_MSG_BUF_SIZE).1

/-! ### Concrete environments used as test inputs -/

/-- The hardware address of the test interface. -/
def hwAddr : List Nat := [0x00, 0x1A, 0x2B, 0x3C, 0x4D, 0x5E]

/-- A reply of a server to the test interface: `op = 2`, transaction identifier `xid`,
`yiaddr = 192.0.2.50`, the hardware address `hwAddr`, the magic cookie, a DHCP-MESSAGE-TYPE
option of value `msg_type`, the options `opts` and END. -/
def serverBytes (msg_type xid : Nat) (opts : List Nat) : List Nat :=
  [2, 1, 6, 0] ++ be32 xid ++ List.replicate 8 0 ++ [192, 0, 2, 50]
    ++ List.replicate 8 0 ++ hwAddr ++ List.replicate 202 0 ++ DHCP_MAGIC_COOKIE
    ++ [53, 1, msg_type] ++ opts ++ [255]

/-- The datagram `serverBytes msg_type xid opts` as delivered by `NetApp_SockRx`. -/
def serverMsg (msg_type xid : Nat) (opts : List Nat) : RxEvent :=
  RxEvent.data (serverBytes msg_type xid opts)

/-- Options of the test server: SERVER-IDENTIFIER 192.0.2.1, SUBNET-MASK 255.255.255.0,
ROUTER 192.0.2.1. -/
def serverOpts : List Nat := [54, 4, 192, 0, 2, 1, 1, 4, 255, 255, 255, 0, 3, 4, 192, 0, 2, 1]

/-- An environment in which nothing is left to happen: every list of answers is empty. -/
def quietEnv : Env where
  if_en := []
  hw_addr := []
  sock := []
  dyn_start := []
  addr_add := []
  rem_all := []
  tx := []
  rx := []
  arp_probe := []
  arp_get := []
  arp_grat := []
  tick := []
  lock := []
  post := []
  cpu_name := none
  tick_rate := 1000
  null_msg := ⟨0, zeroMem, 0⟩
  raw_mem := zeroMem
  stack_err := DHCPc_ERR_NONE

/-- The record `DHCPc_Start` creates for interface 1 with no requested parameter. -/
def startedIf : DHCPc_IF_INFO :=
  { DHCPc_IF_InfoClr templateCfg zeroMem 0 with
    IF_Nbr := 1
    LeaseStatus := DHCP_STATUS_CFG_IN_PROGRESS
    TransactionID := 0x3C4D5E00
    ClientState := DHCP_STATE_INIT
    Used := true }

/-- The client after `DHCPc_Init` and `DHCPc_Start(1, NULL, 0, &err)`, the START command
taken from the queue, in the environment `env`. -/
def startedClient (env : Env) : Client :=
  { DHCPc_Init templateCfg env with
    DHCPc_InfoPoolPtr := []
    DHCPc_InfoListHead := [startedIf] }

/-- The lease of the test server: 600 seconds. -/
def leaseOpt : List Nat := [51, 4, 0, 0, 2, 88]

/-- Three negotiation rounds, in each of which the server offers and acknowledges
192.0.2.50, the ARP probe finds the address in use and the DECLINE is transmitted. -/
def usedEnv : Env :=
  { quietEnv with
    if_en := [true]
    hw_addr := [some hwAddr]
    sock := [true]
    dyn_start := [true]
    addr_add := [true]
    tx := List.replicate 9 true
    rx := [serverMsg DHCP_MSG_OFFER 0x3C4D5E01 serverOpts,
           serverMsg DHCP_MSG_ACK 0x3C4D5E01 (serverOpts ++ leaseOpt),
           serverMsg DHCP_MSG_OFFER 0x3C4D5E02 serverOpts,
           serverMsg DHCP_MSG_ACK 0x3C4D5E02 (serverOpts ++ leaseOpt),
           serverMsg DHCP_MSG_OFFER 0x3C4D5E03 serverOpts,
           serverMsg DHCP_MSG_ACK 0x3C4D5E03 (serverOpts ++ leaseOpt)]
    arp_probe := [true, true, true]
    arp_get := [ArpGet.resolved, ArpGet.resolved, ArpGet.resolved] }


/-- The environment `usedEnv` seen from the application: `DHCPc_Start` too finds the interface
enabled, reads its hardware address, takes the lock and posts its command. -/
def usedApiEnv : Env :=
  { usedEnv with
    if_en := [true, true]
    hw_addr := [some hwAddr, some hwAddr]
    lock := [true, true]
    post := [true] }

/-- One negotiation round in which the server acknowledges 192.0.2.50 with the options
`ack_opts` and the ARP probe finds no owner of the address; the lock can be taken three
times. -/
def freeEnv (ack_opts : List Nat) : Env :=
  { quietEnv with
    if_en := [true, true]
    hw_addr := [some hwAddr, some hwAddr]
    lock := [true, true, true]
    post := [true]
    sock := [true]
    dyn_start := [true]
    addr_add := [true]
    tx := [true, true]
    rx := [serverMsg DHCP_MSG_OFFER 0x3C4D5E01 serverOpts,
           serverMsg DHCP_MSG_ACK 0x3C4D5E01 (serverOpts ++ ack_opts)]
    arp_probe := [true]
    arp_get := [ArpGet.notFound] }

/-- The client after `DHCPc_Init`, `DHCPc_Start(1, NULL, 0, &err)` and the turn of the DHCPc
task that handles the START command, in the environment `env`. -/
def runStart (env : Env) : Client :=
  DHCPc_TaskHandler templateCfg
    (DHCPc_Start templateCfg (DHCPc_Init templateCfg env) 1 none 0).2

/-- A lease time of 600 seconds: option 51 with value 600. -/
def leaseOpt600 : List Nat := [51, 4, 0, 0, 2, 88]

/-- The client configured by the test server with a lease of 600 seconds. -/
def cfgdClient : Client := runStart (freeEnv leaseOpt600)

/-- The client after `DHCPc_Init` and `DHCPc_Start(1, NULL, 0, &err)`. -/
def startedOnce : Client :=
  (DHCPc_Start templateCfg (DHCPc_Init templateCfg (freeEnv leaseOpt600)) 1 none 0).2

/-- The START command `DHCPc_Start` posts in `startedOnce`. -/
def startComm : DHCPc_COMM := ⟨2, 1, DHCPc_COMM_MSG_START⟩

/-- An infinite lease time: option 51 with value 0xFFFFFFFF. -/
def leaseInfOpt : List Nat := [51, 4, 255, 255, 255, 255]

/-- The record of interface 1 holding an ACK with the options `ack_opts`. -/
def ackIf (ack_opts : List Nat) : DHCPc_IF_INFO :=
  { startedIf with
    MsgPtr := some ⟨0, memOfList (serverBytes DHCP_MSG_ACK 0x3C4D5E01 (serverOpts ++ ack_opts)),
      (serverBytes DHCP_MSG_ACK 0x3C4D5E01 (serverOpts ++ ack_opts)).length⟩
    TransactionID := 0x3C4D5E01
    ClientState := DHCP_STATE_SELECTING }

/-- The record after `DHCPc_LeaseTimeCalc` on an ACK with a lease time of 800 seconds and no
T1 or T2 option, 500 seconds (500000 ticks at 1000 Hz) after the REQUEST was prepared. -/
def lateCalc : DHCPc_IF_INFO :=
  (DHCPc_LeaseTimeCalc templateCfg (startedClient { quietEnv with tick := [500000] })
    (ackIf [51, 4, 0, 0, 3, 32])).2.1

/-- The record after `DHCPc_LeaseTimeCalc` on an ACK with a lease time of 100 seconds and a
RENEWAL-TIME-VALUE option of 1000 seconds, no time having elapsed. -/
def longT1Calc : DHCPc_IF_INFO :=
  (DHCPc_LeaseTimeCalc templateCfg (startedClient quietEnv)
    (ackIf [51, 4, 0, 0, 0, 100, 58, 4, 0, 0, 3, 232])).2.1

/-- The lease times (`LeaseTime_sec`, `T2_Time_sec`, `T1_Time_sec`) of interface 1 after
`DHCPc_Init`, `DHCPc_Start` and the handling of the START command in the environment `env`. -/
def negotiatedTimes (env : Env) : Option (Nat × Nat × Nat) :=
  (DHCPc_IF_InfoGetCfgd (runStart env) 1).map
    (fun p => (p.LeaseTime_sec, p.T2_Time_sec, p.T1_Time_sec))

/-- The events of a trace that report an ARP lookup or the configuration of an address. -/
def probeOrCfg : Event → Bool
  | Event.arpGet _ _ _ => true
  | Event.addrAdd _ _ _ _ _ => true
  | _ => false

/-! ### Values read by `DHCPc_LeaseTimeCalc` -/

/-- The local `time_lease` of `DHCPc_LeaseTimeCalc` after "GET LEASE TIME FROM ACK". -/
def time_lease (w : Client) (pif_info : DHCPc_IF_INFO) : Nat :=
  (msgOpt32 DHCP_OPT_IP_ADDRESS_LEASE_TIME (lastRxMsg w pif_info)).getD DHCP_LEASE_INFINITE

/-- The local `time_t1` of `DHCPc_LeaseTimeCalc` after "Get renewal time". -/
def time_t1 (w : Client) (pif_info : DHCPc_IF_INFO) : Nat :=
  (msgOpt32 DHCP_OPT_RENEWAL_TIME_VALUE (lastRxMsg w pif_info)).getD
    (leaseT1Dflt (time_lease w pif_info))

/-- The local `time_t2` of `DHCPc_LeaseTimeCalc` after "Get rebinding time". -/
def time_t2 (w : Client) (pif_info : DHCPc_IF_INFO) : Nat :=
  (msgOpt32 DHCP_OPT_REBINDING_TIME_VALUE (lastRxMsg w pif_info)).getD
    (leaseT2Dflt (time_lease w pif_info))

/-- The local `time_nego_sec` of `DHCPc_LeaseTimeCalc`. -/
def time_nego_sec (w : Client) (pif_info : DHCPc_IF_INFO) : Nat :=
  DHCPc_OS_TimeCalcElapsed_sec w.env.tick_rate pif_info.NegoStartTime
    (DHCPc_OS_TimeGet_tick w).1

/-! ### Reachable states -/

/-- The part of the globals that holds the interface records: the list, the pool and
`DHCPc_InitDone`. -/
def infoPart (w : Client) : List DHCPc_IF_INFO × List Nat × Bool :=
  (w.DHCPc_InfoListHead, w.DHCPc_InfoPoolPtr, w.DHCPc_InitDone)

/-- What identifies a record: its place in the table and its interface number. -/
def key (p : DHCPc_IF_INFO) : Nat × Nat := (p.ID, p.IF_Nbr)

/-- The fields of a record that the state handlers leave alone. -/
def kept (p : DHCPc_IF_INFO) : Nat × Nat × DHCPc_STATUS × DHCPc_ERR × Nat :=
  (p.ID, p.IF_Nbr, p.LeaseStatus, p.LastErr, p.ParamReqQty)

/-- The error codes other than the two `DHCPc_InitStateHandler` sets itself once an address is
configured. -/
def negoErr (e : DHCPc_ERR) : Prop :=
  e ≠ DHCPc_ERR_NONE_NO_TMR ∧ e ≠ DHCPc_ERR_NONE_LOCAL_LINK

/-- The invariant of the interface records: no two records of the list share a place in the
table or an interface number, the pool holds no place twice and none that the list uses, and
`DHCPc_InitDone` is set. -/
def InfoInv (ip : List DHCPc_IF_INFO × List Nat × Bool) : Prop :=
  (ip.1.map (fun r => r.ID)).Nodup ∧ (ip.1.map (fun r => r.IF_Nbr)).Nodup ∧ ip.2.1.Nodup
    ∧ (∀ r ∈ ip.1, r.ID ∉ ip.2.1) ∧ ip.2.2 = true

/-- The states the client can be in: what `DHCPc_Init` leaves, followed by any sequence of
calls of `DHCPc_Start` and `DHCPc_Stop`, turns of the two tasks, commands dispatched by
`DHCPc_MsgRxHandler` and changes of the environment. -/
inductive Reach (cfg : DHCPc_CFG) : Client → Prop where
  | init (env : Env) : Reach cfg (DHCPc_Init cfg env)
  | start (w : Client) (if_nbr : Nat) (preq_param_tbl : Option Mem) (req_param_tbl_qty : Nat) :
      Reach cfg w → Reach cfg (DHCPc_Start cfg w if_nbr preq_param_tbl req_param_tbl_qty).2
  | stop (w : Client) (if_nbr : Nat) : Reach cfg w → Reach cfg (DHCPc_Stop cfg w if_nbr).2
  | task (w : Client) : Reach cfg w → Reach cfg (DHCPc_TaskHandler cfg w)
  | tmrTask (w : Client) : Reach cfg w → Reach cfg (DHCPc_TmrTaskHandler cfg w)
  | dispatch (w : Client) (pcomm : DHCPc_COMM) :
      Reach cfg w → Reach cfg (DHCPc_MsgRxHandler cfg w pcomm)
  | env (w : Client) (e : Env) : Reach cfg w → Reach cfg { w with env := e }

/-! ### The retransmission schedule of a trace -/

/-- One entry of a retransmission schedule: a transmission (`none`) or a delay of `ms`
milliseconds (`some ms`); the other events have no entry. -/
def schedEntry : Event → Option (Option Nat)
  | Event.tx _ _ _ => some none
  | Event.dly ms => some (some ms)
  | _ => none

/-- The retransmission schedule recorded in a trace: the transmissions and the delays, in
order. -/
def sched (tr : List Event) : List (Option Nat) := tr.filterMap schedEntry

/-- The schedule of `n` attempts of which the first follows a delay of `ms` milliseconds (0 at
the start of an exchange): a transmission, then for each further attempt the back-off delay
computed from the previous one and a transmission. -/
def backOffSched (cfg : DHCPc_CFG) : Nat → Nat → List (Option Nat)
  | 0, _ => []
  | n + 1, ms =>
    none :: (if n = 0 then []
      else some (DHCPc_CalcBackOff cfg ms) :: backOffSched cfg n (DHCPc_CalcBackOff cfg ms))

/-- The delays obtained by iterating `DHCPc_CalcBackOff` from 0: element `n` is the value
after `n` calls. -/
def backOffSeq (cfg : DHCPc_CFG) : Nat → Nat
  | 0 => 0
  | n + 1 => DHCPc_CalcBackOff cfg (backOffSeq cfg n)

/-- A server that never answers: every transmission succeeds and nothing is received. -/
def silentEnv : Env := { quietEnv with tx := List.replicate 9 true }

/-- A lease time of 100 seconds with a RENEWAL-TIME-VALUE option of 0xFFFFFFFF. -/
def leaseInfT1Opt : List Nat := [51, 4, 0, 0, 0, 100, 58, 4, 255, 255, 255, 255]


/-- The record as `DHCPc_LeaseTimeCalc` has updated it, for a finite lease time, when it calls
`DHCPc_TmrCfg`: each of the three values read is stored less the negotiation time when it
exceeds that time and unchanged when it does not. -/
def calcTimes (w : Client) (pif_info : DHCPc_IF_INFO) : DHCPc_IF_INFO :=
  { pif_info with
    T1_Time_sec :=
      if time_t1 w pif_info > time_nego_sec w pif_info then
        time_t1 w pif_info - time_nego_sec w pif_info
      else time_t1 w pif_info
    T2_Time_sec :=
      if time_t2 w pif_info > time_nego_sec w pif_info then
        time_t2 w pif_info - time_nego_sec w pif_info
      else time_t2 w pif_info
    LeaseTime_sec :=
      if time_lease w pif_info > time_nego_sec w pif_info then
        time_lease w pif_info - time_nego_sec w pif_info
      else time_lease w pif_info }

/-- The remaining time to T2 that `DHCPc_LeaseTimeUpdate` computes when T1 has expired: T2 less
the expired T1 (0 when T2 is not larger), less the time elapsed since the timer expired when
that is smaller. -/
def remT2 (w : Client) (pif_info : DHCPc_IF_INFO) : Nat :=
  decElapsed (decExpired pif_info.T2_Time_sec pif_info.T1_Time_sec) (time_nego_sec w pif_info)

/-- The remaining lease time that `DHCPc_LeaseTimeUpdate` computes when the timer `exp` has
expired (`T1_Time_sec` for T1_EXPIRED, `T2_Time_sec` for T2_EXPIRED). -/
def remLease (w : Client) (pif_info : DHCPc_IF_INFO) (exp : Nat) : Nat :=
  decElapsed (decExpired pif_info.LeaseTime_sec exp) (time_nego_sec w pif_info)

/-- The record of interface 1 bound to a lease with the given times, in the client state
`s`. -/
def leasedIf (s : DHCPc_STATE) (t1 t2 lease : Nat) : DHCPc_IF_INFO :=
  { ackIf leaseOpt600 with
    ClientState := s, T1_Time_sec := t1, T2_Time_sec := t2, LeaseTime_sec := lease
    LeaseStatus := DHCP_STATUS_CFGD }

/-- The part of the globals that holds the timers: the timer list and the timer pool. -/
def tmrPart (w : Client) : List DHCPc_TMR × List Nat :=
  (w.DHCPc_TmrListHead, w.DHCPc_TmrPoolPtr)

/-- The timer of a record and its three lease times. -/
def timing (p : DHCPc_IF_INFO) : Option Nat × Nat × Nat × Nat :=
  (p.Tmr, p.LeaseTime_sec, p.T1_Time_sec, p.T2_Time_sec)

/-- The state of `DHCPc_InitStateHandler` at "CFG IF WITH NEGO'D LEASE", when the handler gets
there. -/
def negoOf (cfg : DHCPc_CFG) (w : Client) (pif_info : DHCPc_IF_INFO) (perr0 : DHCPc_ERR) :
    Option Nego :=
  match initNego cfg w pif_info perr0 with
  | Sum.inr s => some s
  | Sum.inl _ => none

/-- The client after `DHCPc_Init` and `DHCPc_Start(1, NULL, 0, &err)`, the server being about
to acknowledge with the options `ack_opts`. -/
def startedWith (ack_opts : List Nat) : Client :=
  (DHCPc_Start templateCfg (DHCPc_Init templateCfg (freeEnv ack_opts)) 1 none 0).2

/-- The state `DHCPc_InitStateHandler` reaches at "CFG IF WITH NEGO'D LEASE" when the START
command of `startedWith ack_opts` is dispatched. -/
def startedNego (ack_opts : List Nat) : Option Nego :=
  (DHCPc_IF_InfoGetCfgd (startedWith ack_opts) 1).bind (fun p =>
    negoOf templateCfg (DHCPc_CommFree templateCfg (startedWith ack_opts) startComm)
      { p with LeaseStatus := DHCP_STATUS_CFG_IN_PROGRESS }
      (startedWith ack_opts).env.stack_err)

/-- The environment `freeEnv` with an ACK that carries exactly the options `ack_opts` after
the message type. -/
def ackEnv (ack_opts : List Nat) : Env :=
  { freeEnv [] with
    rx := [serverMsg DHCP_MSG_OFFER 0x3C4D5E01 serverOpts,
           serverMsg DHCP_MSG_ACK 0x3C4D5E01 ack_opts] }

/-- Options of an ACK without SUBNET-MASK: SERVER-IDENTIFIER 192.0.2.1, ROUTER 192.0.2.1 and a
lease time of 600 seconds. -/
def noMaskOpts : List Nat := [54, 4, 192, 0, 2, 1, 3, 4, 192, 0, 2, 1, 51, 4, 0, 0, 2, 88]

/-- Options of an ACK whose SUBNET-MASK option has length 0: SERVER-IDENTIFIER 192.0.2.1, the
empty SUBNET-MASK and a lease time of 600 seconds. -/
def emptyMaskOpts : List Nat := [54, 4, 192, 0, 2, 1, 1, 0, 51, 4, 0, 0, 2, 88]

/-- The `xid` field of a transmitted datagram: bytes 4 to 7. -/
def xidBytes (data : List Nat) : List Nat := (data.drop hdr.xid).take 4

/-- The transaction identifiers of the datagrams transmitted in a trace, in order. -/
def txXids (tr : List Event) : List (List Nat) :=
  tr.filterMap (fun e => match e with
    | Event.tx _ data _ => some (xidBytes data)
    | _ => none)

/-- The DHCP message type (the value of the option that follows the magic cookie) and the
transaction identifier of the datagrams transmitted in a trace, in order. -/
def txKinds (tr : List Event) : List (Nat × List Nat) :=
  tr.filterMap (fun e => match e with
    | Event.tx _ data _ => some (data.getD 242 0, xidBytes data)
    | _ => none)

/-- The transaction identifiers `t + 1, ..., t + k` modulo 2^32, in network order. -/
def nextXids (t k : Nat) : List (List Nat) :=
  (List.range k).map (fun i => be32 ((t + (i + 1)) % 2 ^ 32))

/-- The record of interface 1 with the transaction identifier 0xFFFFFFFF. -/
def lastXidIf : DHCPc_IF_INFO := { startedIf with TransactionID := 0xFFFFFFFF }

/-- The timers that a tick leaves in the timer list: those with a value above 1, each with
its value one less. -/
def tickKeep (l : List DHCPc_TMR) : List DHCPc_TMR :=
  (l.filter (fun t => decide (t.TmrVal > 1))).map (fun t => ⟨t.ID, t.Obj, t.TmrVal - 1⟩)

/-- The timers that expire in a tick: those with a value of at most 1. -/
def tickExpired (l : List DHCPc_TMR) : List DHCPc_TMR :=
  l.filter (fun t => decide (¬ t.TmrVal > 1))

/-- The communication objects handed to `DHCPc_OS_MsgPost` in a trace, in order. -/
def posts (tr : List Event) : List DHCPc_COMM :=
  tr.filterMap (fun e => match e with
    | Event.post c _ => some c
    | _ => none)

/-- The client after `k` consecutive turns of the timer task. -/
def tmrTicks (cfg : DHCPc_CFG) : Nat → Client → Client
  | 0, w => w
  | k + 1, w => tmrTicks cfg k (DHCPc_TmrTaskHandler cfg w)

/-- The environment `freeEnv` with a lease time of 4 seconds (T1 after 2 seconds), in which
the lock can be taken eight times and four commands can be posted. -/
def tickEnv : Env :=
  { freeEnv [51, 4, 0, 0, 0, 4] with
    lock := List.replicate 8 true
    post := List.replicate 4 true }

/-- The client configured by the test server with a lease of 4 seconds: timer 0 is armed with
2 ticks and posts T1_EXPIRED for interface 1. -/
def armedClient : Client := runStart tickEnv

/-! ### Datagrams as the network delivers them -/

/-- The part of a datagram that `DHCPc_Rx` stores in a message buffer: its first
`DHCP_MSG_BUF_SIZE` bytes. -/
def rxBytes (bytes : List Nat) : List Nat := bytes.take DHCP_MSG_BUF_SIZE

/-- Whether the datagram `b` passes the header checks of `DHCPc_RxReply` for the hardware
address `hw` and the transaction identifier `xid`: its `op` is REPLY, its `chaddr` starts with
the first 6 bytes of `hw` and its `xid` field holds `xid`. -/
def hdrOk (hw : List Nat) (xid : Nat) (b : List Nat) : Bool :=
  decide (memOfList b hdr.op = DHCP_OP_REPLY)
    && Mem_Cmp (memOfList b) hdr.chaddr (hw.take NET_IF_ETHER_ADDR_SIZE)
    && decide (getNet32 (memOfList b) hdr.xid = xid)

/-- Whether an exchange that uses the transaction identifiers `xids` gets no reply from the
event `ev` of `NetApp_SockRx`: a receive error, an overflow, a datagram shorter than
`DHCP_MSG_RX_MIN_LEN`, or a datagram that holds the whole header up to `chaddr` and fails the
header checks for each of the identifiers. -/
def quiet (cfg : DHCPc_CFG) (hw : List Nat) (xids : List Nat) : RxEvent → Bool
  | RxEvent.data bytes =>
    decide ((rxBytes bytes).length < cfg.DHCP_MSG_RX_MIN_LEN)
      || (decide (hdr.chaddr + NET_IF_ETHER_ADDR_SIZE ≤ (rxBytes bytes).length)
          && xids.all (fun x => !hdrOk hw x (rxBytes bytes)))
  | _ => true

/-- The transaction identifiers of the next `n` DISCOVER messages of a record whose identifier
is `t`: `t + 1, ..., t + n` modulo 2^32. -/
def nextXidVals (t n : Nat) : List Nat :=
  (List.range n).map (fun i => (t + (i + 1)) % 2 ^ 32)

/-- The datagram `b` is well formed with the options `items`: the magic cookie is at offset
236 and is followed by the items, each with a code other than PAD and END, and by END, all
inside the datagram. -/
def dgramHas (b : List Nat) (items : List OptItem) : Prop :=
  (∀ it ∈ items, it.proper) ∧
  (b.drop DHCP_MSG_HDR_SIZE).take (DHCP_MAGIC_COOKIE_SIZE + (encodeItems items).length + 1)
    = DHCP_MAGIC_COOKIE ++ encodeItems items ++ [DHCP_OPT_END]

instance (b : List Nat) (items : List OptItem) : Decidable (dgramHas b items) := by
  unfold dgramHas; infer_instance

/-- The DHCP message type that the options `items` carry: the value of the first
DHCP-MESSAGE-TYPE option, when that value is one byte. -/
def typeOf (items : List OptItem) : Option Nat :=
  match firstOpt DHCP_OPT_DHCP_MESSAGE_TYPE items with
  | some [t] => if t < 256 then some t else none
  | _ => none

/-- The server identifier that the options `items` carry: the 32-bit value, in network order,
of the first SERVER-IDENTIFIER option, when that option has at least 4 bytes. -/
def serverIdOf (items : List OptItem) : Option Nat :=
  match firstOpt DHCP_OPT_SERVER_IDENTIFIER items with
  | some v => if 4 ≤ v.length then some (getNet32 (memOfList v) 0) else none
  | none => none

/-- The message `m` is well formed with the options `items`: the datagram it holds, the first
`MsgLen` bytes of its buffer, is. -/
def msgHas (m : DHCPc_MSG) (items : List OptItem) : Prop :=
  dgramHas (memBytes m.MsgBuf 0 m.MsgLen) items

instance (m : DHCPc_MSG) (items : List OptItem) : Decidable (msgHas m items) := by
  unfold msgHas; infer_instance

/-- Whether the flags of the receive loop of `DHCPc_RxReply` all hold. -/
def RxFlags.all (f : RxFlags) : Prop :=
  f.remote_match = true ∧ f.opcode_reply = true ∧ f.addr_hw_match = true
    ∧ f.transaction_id_match = true

/-- Whether `DHCPc_MsgGetOpt` finds in the message a DHCP-MESSAGE-TYPE option whose first value
byte is `DHCP_MSG_ACK`: the test by which `DHCPc_RxReply` and `DHCPc_Req` take a received
message for an ACK.  It is about what the decoder reads, which may lie past the message. -/
def readsAck (m : DHCPc_MSG) : Bool :=
  match DHCPc_MsgGetOpt DHCP_OPT_DHCP_MESSAGE_TYPE m.MsgBuf m.MsgLen with
  | some r => decide (m.MsgBuf r.1 % 256 = DHCP_MSG_ACK)
  | none => false

/-- The message `m` is an ACK whenever it is well formed: for every sequence of options with
which it is well formed (the options closed by END inside the message), the sequence carries a
DHCP-MESSAGE-TYPE option, and the first value byte of the first such option, if it has one, is
`DHCP_MSG_ACK`. -/
def ackWhenFormed (m : DHCPc_MSG) : Prop :=
  ∀ items, msgHas m items →
    ∃ v, firstOpt DHCP_OPT_DHCP_MESSAGE_TYPE items = some v ∧
      ∀ t, v.head? = some t → t % 256 = DHCP_MSG_ACK

/-- The record stores a message, and that message is an ACK whenever it is well formed. -/
def storesAckWhenFormed (p : DHCPc_IF_INFO) : Prop :=
  ∃ m, p.MsgPtr = some m ∧ ackWhenFormed m

/-- What a handler has done to the timers of a record `p` when it has armed at most one timer,
of `sec` seconds: either the timer list is the list `tl` it found, or the list is `tl` with
one more timer at its head, which is the timer of the record, holds a command for the interface
of the record and counts `sec / DHCPc_TMR_PERIOD_SEC` ticks. -/
def armedOne (cfg : DHCPc_CFG) (tl : List DHCPc_TMR) (p : DHCPc_IF_INFO) (w : Client)
    (sec : Nat) : Prop :=
  w.DHCPc_TmrListHead = tl ∨
  ∃ tm c msg, w.DHCPc_TmrListHead
      = ⟨tm, some ⟨c, p.IF_Nbr, msg⟩, sec / cfg.DHCPc_TMR_PERIOD_SEC⟩ :: tl ∧
    p.Tmr = some tm

/-- The timers of the timer list whose command names interface `i`. -/
def timersFor (w : Client) (i : Nat) : List DHCPc_TMR :=
  w.DHCPc_TmrListHead.filter (fun t =>
    match t.Obj with
    | some c => decide (c.IF_Nbr = i)
    | none => false)

/-- At most one timer is armed for the record `p`: no timer of the list names its interface, or
exactly one does, which is the timer the record refers to and counts `sec` seconds down. -/
def armedFor (cfg : DHCPc_CFG) (p : DHCPc_IF_INFO) (w : Client) (sec : Nat) : Prop :=
  timersFor w p.IF_Nbr = [] ∨
    ∃ t : DHCPc_TMR, timersFor w p.IF_Nbr = [t] ∧ p.Tmr = some t.ID ∧
      t.TmrVal = sec / cfg.DHCPc_TMR_PERIOD_SEC

/-- The environment `tickEnv` in which the interface, its hardware address and a socket are
there for a second exchange and three more datagrams can be sent, all left unanswered. -/
def renewEnv : Env :=
  { tickEnv with
    if_en := [true, true, true]
    hw_addr := [some hwAddr, some hwAddr, some hwAddr]
    sock := [true, true]
    tx := List.replicate 5 true }

/-- The client configured in `renewEnv` with a lease of 4 seconds (T1 after 2 seconds, T2
after 3), after the two ticks that make T1 expire and the turn of the DHCPc task that handles
T1_EXPIRED with a REQUEST left unanswered. -/
def renewFailed : Client :=
  DHCPc_TaskHandler templateCfg (tmrTicks templateCfg 2 (runStart renewEnv))

/-- An environment for three negotiations of interface 1, each answered with a lease of
4 seconds (T1 after 2 seconds, T2 after 3), the six datagrams sent between the first and the
second being left unanswered: the interface is enabled, its hardware address known, the sockets
open, the datagrams are sent, the lock is acquired and the commands are posted. -/
def raceEnv : Env :=
  { freeEnv [51, 4, 0, 0, 0, 4] with
    if_en := List.replicate 7 true
    hw_addr := List.replicate 9 (some hwAddr)
    lock := List.replicate 15 true
    post := List.replicate 7 true
    sock := List.replicate 7 true
    dyn_start := [true, true, true]
    addr_add := [true, true, true]
    rem_all := [true, true]
    tx := List.replicate 14 true
    rx := [serverMsg DHCP_MSG_OFFER 0x3C4D5E01 serverOpts,
           serverMsg DHCP_MSG_ACK 0x3C4D5E01 (serverOpts ++ [51, 4, 0, 0, 0, 4]),
           RxEvent.err, RxEvent.err, RxEvent.err, RxEvent.err, RxEvent.err, RxEvent.err,
           serverMsg DHCP_MSG_OFFER 0x3C4D5E01 serverOpts,
           serverMsg DHCP_MSG_ACK 0x3C4D5E01 (serverOpts ++ [51, 4, 0, 0, 0, 4]),
           serverMsg DHCP_MSG_OFFER 0x3C4D5E02 serverOpts,
           serverMsg DHCP_MSG_ACK 0x3C4D5E02 (serverOpts ++ [51, 4, 0, 0, 0, 4])]
    arp_probe := [true, true, true]
    arp_get := [ArpGet.notFound, ArpGet.notFound, ArpGet.notFound] }

/-- Interface 1 is configured with a lease of 4 seconds; T1 expires after two ticks and the
renewal is left unanswered, T2 expires after one more tick and the rebinding is left
unanswered: the timer of the interface counts the last second of the lease. -/
def raceLease : Client :=
  DHCPc_TaskHandler templateCfg (DHCPc_TmrTaskHandler templateCfg
    (DHCPc_TaskHandler templateCfg (tmrTicks templateCfg 2 (runStart raceEnv))))

/-- The application calls `DHCPc_Stop(1)`, and the next tick makes the timer expire before the
DHCPc task has handled the STOP command: the queue holds STOP, then LEASE_EXPIRED. -/
def raceExpired : Client :=
  DHCPc_TmrTaskHandler templateCfg (DHCPc_Stop templateCfg raceLease 1).2

/-- The DHCPc task handles STOP, the application calls `DHCPc_Start(1)` again, and the DHCPc
task handles LEASE_EXPIRED, left in the queue, on the record of the new START. -/
def raceStale : Client :=
  DHCPc_TaskHandler templateCfg
    (DHCPc_Start templateCfg (DHCPc_TaskHandler templateCfg raceExpired) 1 none 0).2

/-- The DHCPc task handles the START command and the application calls `DHCPc_Stop(1)`: the
state in which `DHCPc_StopStateHandler` is about to run for interface 1. -/
def raceStop : Client :=
  (DHCPc_Stop templateCfg (DHCPc_TaskHandler templateCfg raceStale) 1).2

/-- The DHCPc task has handled the STOP command: `DHCPc_StopStateHandler` has run. -/
def raceStopped : Client := DHCPc_TaskHandler templateCfg raceStop

/-- The link-local candidate as a function of the last two octets `o1`, `o2` of the hardware
address and of the low 16 bits `t` of the tick, computed over the natural numbers (no
reduction modulo 2^32). -/
def localLinkCandidate (o1 o2 t : Nat) : Nat :=
  NET_IPv4_ADDR_LOCAL_LINK_HOST_MIN +
    (t ||| (o1 * 2 ^ 24 ||| o2 * 2 ^ 16)) %
      (NET_IPv4_ADDR_LOCAL_LINK_HOST_MAX - NET_IPv4_ADDR_LOCAL_LINK_HOST_MIN + 1)

/-- The step at which the OS calls of `DHCPc_Init` fail, if any: `DHCPc_OS_Init`, one of
`DHCPc_OS_TmrInit` and `DHCPc_OS_TaskInit` (called by `DHCPc_TmrInit`), one of
`DHCPc_OS_InitSignal` and `DHCPc_OS_TmrStart`, or none. -/
inductive InitOS where
  | osInit : InitOS
  | tmrInit : InitOS
  | signal : InitOS
  | ok : InitOS
  deriving DecidableEq, Repr

/-- `DHCPc_Init()` called on the globals `w`: `true` when it returns `DHCPc_ERR_NONE`, and the
globals it leaves.  `DHCPc_IF_InfoInit`, `DHCPc_MsgInit` and `DHCPc_CommInit` push every object
of their table on the pool and clear the list head, whatever pool and list held; `DHCPc_TmrInit`
does the same once the OS timer and tasks are created.  The message queue, which belongs to the
OS, is left as it is. -/
def DHCPc_InitOn (cfg : DHCPc_CFG) (w : Client) (os : InitOS) : Bool × Client :=
  let w := { w with DHCPc_InitDone := false }
  let w := { w with DHCPc_InfoPoolPtr := initPool cfg.DHCPc_NBR_IF_INFO
                    DHCPc_InfoListHead := [] }
  let w := { w with DHCPc_MsgPoolPtr := initPool cfg.DHCPc_NBR_MSG_BUF
                    DHCPc_MsgListHead := [] }
  let w := { w with DHCPc_CommPoolPtr := initPool cfg.DHCPc_NBR_COMM
                    DHCPc_CommListHead := [] }
  match os with
  | InitOS.osInit => (false, w)
  | InitOS.tmrInit => (false, w)
  | InitOS.signal =>
    (false, { w with DHCPc_TmrPoolPtr := initPool cfg.DHCPc_NBR_TMR
                     DHCPc_TmrListHead := []
                     DHCPc_InitDone := false })
  | InitOS.ok =>
    (true, { w with DHCPc_TmrPoolPtr := initPool cfg.DHCPc_NBR_TMR
                    DHCPc_TmrListHead := []
                    DHCPc_InitDone := true })

/-- The globals the claim of a second `DHCPc_Init` speaks of: the interface records, the
record, message, command and timer pools, the timer list and `DHCPc_InitDone`. -/
def initPart (w : Client) :
    List DHCPc_IF_INFO × List Nat × List Nat × List Nat × List Nat × List DHCPc_TMR × Bool :=
  (w.DHCPc_InfoListHead, w.DHCPc_InfoPoolPtr, w.DHCPc_MsgPoolPtr, w.DHCPc_CommPoolPtr,
    w.DHCPc_TmrPoolPtr, w.DHCPc_TmrListHead, w.DHCPc_InitDone)

/-- The record of a lease of 10 seconds with T1 after 2 and T2 after 6 seconds, in the state
RENEWING, and the client 5 seconds after its last message was prepared. -/
def shortLeaseIf : DHCPc_IF_INFO := leasedIf DHCP_STATE_RENEWING 2 6 10

/-- The client 5 seconds (5000 ticks of 1 ms) after tick 0. -/
def fiveSecLater : Client := startedClient { quietEnv with tick := [5000] }

/-- The client state `DHCPc_RenewRebindStateHandler` sets for the expired timer `m`. -/
def renewState (m : DHCPc_COMM_MSG) : DHCPc_STATE :=
  match m with
  | DHCPc_COMM_MSG_T2_EXPIRED => DHCP_STATE_REBINDING
  | _ => DHCP_STATE_RENEWING

/-- The REQUEST exchange of `DHCPc_RenewRebindStateHandler`, when the handler gets there (the
interface is enabled, its hardware address is read and the socket is opened): what `DHCPc_Req`
returns, the record it leaves and the globals once the socket is closed. -/
def renewReqOf (cfg : DHCPc_CFG) (w : Client) (pif_info : DHCPc_IF_INFO) :
    Option (DHCPc_ERR × DHCPc_IF_INFO × Client) :=
  let if_nbr := pif_info.IF_Nbr
  let e := NetIF_IsEnCfgd w
  if e.1 ≠ true then none
  else
    let h := NetIF_AddrHW_Get e.2
    match h.1 with
    | none => none
    | some addr_hw =>
      if addr_hw.length ≠ NET_IF_ETHER_ADDR_SIZE then none
      else
        let addr_host :=
          if cfg.DHCPc_CFG_BROADCAST_BIT_EN = true then NET_IPv4_ADDR_THIS_HOST
          else msgYiaddr h.2 pif_info
        let s := DHCPc_InitSock h.2 addr_host if_nbr
        if s.1 ≠ true then none
        else
          let q := DHCPc_Req cfg s.2 pif_info addr_hw addr_hw.length
          some (q.1, q.2.1, NetApp_SockClose q.2.2)

/-- The client configured in `renewEnv` with a lease of 4 seconds after the two ticks that make
T1 expire: the queue of the DHCPc task holds T1_EXPIRED for interface 1. -/
def renewDue : Client := tmrTicks templateCfg 2 (runStart renewEnv)

/-- The globals when the DHCPc task, having taken T1_EXPIRED from the queue of `renewDue` and
acquired the lock, calls `DHCPc_MsgRxHandler`. -/
def renewDueLocked : Client := (DHCPc_OS_Lock { renewDue with MsgQ := [] }).2

/-- The T1_EXPIRED command that the timer task posted in `renewDue`. -/
def renewComm : DHCPc_COMM := ⟨2, 1, DHCPc_COMM_MSG_T1_EXPIRED⟩

/-- The REQUEST exchange that `DHCPc_MsgRxHandler` performs for `renewComm` on
`renewDueLocked`: its error code, the record and the globals. -/
def renewDueReq : Option (DHCPc_ERR × DHCPc_IF_INFO × Client) :=
  (DHCPc_IF_InfoGetCfgd renewDueLocked 1).bind (fun p =>
    renewReqOf templateCfg (DHCPc_CommFree templateCfg renewDueLocked renewComm)
      (setState p DHCP_STATE_RENEWING))

/-- An environment in which the interface is enabled, the lock is acquired and the hardware
address is read, but the queue of the DHCPc task takes no command. -/
def fullQueueEnv : Env :=
  { quietEnv with
    if_en := [true]
    hw_addr := [some hwAddr]
    lock := [true] }

/-- The client `raceStopped` one tick later, the lock being acquired: the timer left in the
list is about to expire. -/
def raceTick : Client :=
  DHCPc_TmrTaskHandler templateCfg
    { raceStopped with env := { quietEnv with lock := [true, true], post := [true] } }

/-- One round of the negotiation loop of `DHCPc_InitStateHandler` that the server answers with
a NAK: the record and the globals after `DHCPc_Discover` returned no error and `DHCPc_Req`
returned `DHCPc_ERR_RX_NAK`, `none` when the round goes otherwise.  `d` is `nego_dly`. -/
def nakRound (cfg : DHCPc_CFG) (addr_hw : List Nat) (addr_hw_len : Nat) (d : Bool)
    (pif_info : DHCPc_IF_INFO) (w : Client) : Option (DHCPc_IF_INFO × Client) :=
  let w := if d = true then KAL_Dly w cfg.DHCP_INIT_DLY_MS else w
  let x := DHCPc_Discover cfg w (setState pif_info DHCP_STATE_INIT) addr_hw addr_hw_len
  if x.1 ≠ DHCPc_ERR_NONE then none
  else
    let q := DHCPc_Req cfg x.2.2 (setState x.2.1 DHCP_STATE_SELECTING) addr_hw addr_hw_len
    if q.1 = DHCPc_ERR_RX_NAK then some (q.2.1, q.2.2) else none

/-- The record and the globals after `n` consecutive rounds each answered with a NAK, the first
of them delayed when `d`, the others always; `none` when one of the rounds goes otherwise. -/
def nakRounds (cfg : DHCPc_CFG) (addr_hw : List Nat) (addr_hw_len : Nat) :
    Nat → Bool → DHCPc_IF_INFO → Client → Option (DHCPc_IF_INFO × Client)
  | 0, _, pif_info, w => some (pif_info, w)
  | n + 1, d, pif_info, w =>
    match nakRound cfg addr_hw addr_hw_len d pif_info w with
    | none => none
    | some s => nakRounds cfg addr_hw addr_hw_len n true s.1 s.2

/-- The schedule of consecutive rounds: the schedules of the rounds, with a delay of `dly_ms`
milliseconds before each round after the first. -/
def joinRounds (dly_ms : Nat) : List (List (Option Nat)) → List (Option Nat)
  | [] => []
  | [r] => r
  | r :: rs => r ++ some dly_ms :: joinRounds dly_ms rs

/-- The schedule of one round: the transmissions and back-off delays of a DISCOVER exchange
followed by those of a REQUEST exchange. -/
def roundSched (cfg : DHCPc_CFG) (r : List (Option Nat)) : Prop :=
  ∃ l1 l2, r = l1 ++ l2 ∧ l1 <+: backOffSched cfg cfg.DHCPc_CFG_DISCOVER_RETRY_CNT 0 ∧
    l2 <+: backOffSched cfg cfg.DHCPc_CFG_REQUEST_RETRY_CNT 0

/-- The hardware address and the globals with which `DHCPc_InitStateHandler` enters its
negotiation loop, when it gets there: the interface is enabled, its hardware address is read,
the socket is opened and the dynamic configuration is started. -/
def negoStart (w : Client) (pif_info : DHCPc_IF_INFO) :
    Option (List Nat × Client) :=
  let if_nbr := pif_info.IF_Nbr
  let e := NetIF_IsEnCfgd w
  if e.1 ≠ true then none
  else
    let h := NetIF_AddrHW_Get e.2
    match h.1 with
    | none => none
    | some addr_hw =>
      if addr_hw.length ≠ NET_IF_ETHER_ADDR_SIZE then none
      else
        let s := DHCPc_InitSock h.2 NET_IPv4_ADDR_THIS_HOST if_nbr
        if s.1 ≠ true then none
        else
          let y := NetIPv4_CfgAddrAddDynamicStart s.2 if_nbr
          if y.1 ≠ true then none else some (addr_hw, y.2)

/-- The template configuration with the link-local configuration disabled. -/
def nakCfg : DHCPc_CFG := { templateCfg with DHCPc_CFG_DYN_LOCAL_LINK_ADDR_EN := false }

/-- Three negotiation rounds in each of which the server offers 192.0.2.50 and answers the
REQUEST with a NAK; `DHCPc_Start` finds the interface enabled, reads its hardware address,
takes the lock and posts its command. -/
def nakEnv : Env :=
  { quietEnv with
    if_en := [true, true]
    hw_addr := [some hwAddr, some hwAddr]
    lock := [true, true]
    post := [true]
    sock := [true]
    dyn_start := [true]
    tx := List.replicate 6 true
    rx := [serverMsg DHCP_MSG_OFFER 0x3C4D5E01 serverOpts,
           serverMsg DHCP_MSG_NAK 0x3C4D5E01 serverOpts,
           serverMsg DHCP_MSG_OFFER 0x3C4D5E02 serverOpts,
           serverMsg DHCP_MSG_NAK 0x3C4D5E02 serverOpts,
           serverMsg DHCP_MSG_OFFER 0x3C4D5E03 serverOpts,
           serverMsg DHCP_MSG_NAK 0x3C4D5E03 serverOpts] }

/-- The client after `DHCPc_Init` and `DHCPc_Start(1, NULL, 0, &err)` in `nakEnv`. -/
def nakStarted : Client := (DHCPc_Start nakCfg (DHCPc_Init nakCfg nakEnv) 1 none 0).2

/-- The hardware address and the globals with which the INIT handler enters its negotiation
loop for the START command of `nakStarted`. -/
def nakStart : Option (List Nat × Client) :=
  (DHCPc_IF_InfoGetCfgd nakStarted 1).bind (fun p =>
    negoStart (DHCPc_CommFree nakCfg nakStarted startComm)
      { p with LeaseStatus := DHCP_STATUS_CFG_IN_PROGRESS })

/-- The three NAK rounds of the negotiation of `nakStarted`. -/
def nakRun : Option (DHCPc_IF_INFO × Client) :=
  (DHCPc_IF_InfoGetCfgd nakStarted 1).bind (fun p =>
    nakStart.bind (fun hx =>
      nakRounds nakCfg hx.1 hx.1.length nakCfg.DHCPc_CFG_NEGO_RETRY_CNT false
        { p with LeaseStatus := DHCP_STATUS_CFG_IN_PROGRESS } hx.2))

/-- The message pool and the list of the messages in use. -/
def msgPart (w : Client) : List Nat × List Nat := (w.DHCPc_MsgPoolPtr, w.DHCPc_MsgListHead)

/-- Whether a call of `NetApp_SockRx` delivers no datagram: a buffer overflow or another
receive error (timeout included). -/
def rxFailed : RxEvent → Bool
  | RxEvent.data _ => false
  | _ => true

/-- The DHCP message types (the value of the option that follows the magic cookie) of the
datagrams transmitted in a trace, in order. -/
def txTypes (tr : List Event) : List Nat :=
  tr.filterMap (fun e => match e with
    | Event.tx _ data _ => some (data.getD 242 0)
    | _ => none)

/-- A reply of a server to the test interface that ends with the magic cookie: `op = 2`,
transaction identifier `xid`, `yiaddr = 192.0.2.50`, the hardware address `hwAddr` and the
magic cookie, 240 bytes without any option. -/
def bareReply (xid : Nat) : List Nat :=
  [2, 1, 6, 0] ++ be32 xid ++ List.replicate 8 0 ++ [192, 0, 2, 50]
    ++ List.replicate 8 0 ++ hwAddr ++ List.replicate 202 0 ++ DHCP_MAGIC_COOKIE

/-- The record of interface 1 during its first exchange: transaction identifier 0x3C4D5E01. -/
def firstXidIf : DHCPc_IF_INFO := { startedIf with TransactionID := 0x3C4D5E01 }

/-- Two datagrams are received: an ACK of the test server with the transaction identifier
0x3C4D5E00, which is not the one of the record, then a reply of 240 bytes with the identifier of
the record and no option. -/
def staleTypeEnv : Env :=
  { quietEnv with
    rx := [serverMsg DHCP_MSG_ACK 0x3C4D5E00 serverOpts, RxEvent.data (bareReply 0x3C4D5E01)] }

/-- The call of `DHCPc_RxReply` made in `staleTypeEnv` for the record `firstXidIf`, without
server filter, on a cleared message buffer. -/
def staleTypeRx : RxReply × Client :=
  DHCPc_RxReply templateCfg (startedClient staleTypeEnv) firstXidIf NET_IPv4_ADDR_NONE hwAddr
    NET_IF_ETHER_ADDR_SIZE zeroMem DHCP_MSG_BUF_SIZE

/-- The negotiation of `freeEnv` in which the ACK of the server carries the transaction
identifier 0x3C4D5E00, which is not the one of the record, and is followed by a reply of 240
bytes with the identifier of the record and no option. -/
def staleRunEnv : Env :=
  { freeEnv [] with
    rx := [serverMsg DHCP_MSG_OFFER 0x3C4D5E01 serverOpts,
           serverMsg DHCP_MSG_ACK 0x3C4D5E00 (serverOpts ++ leaseOpt600),
           RxEvent.data (bareReply 0x3C4D5E01)] }

/-- The options of an OFFER or ACK of the test server with the options `serverOpts`: the
message type `t`, SERVER-IDENTIFIER 192.0.2.1, SUBNET-MASK 255.255.255.0 and ROUTER
192.0.2.1. -/
def serverItems (t : Nat) : List OptItem :=
  [OptItem.opt 53 [t], OptItem.opt 54 [192, 0, 2, 1], OptItem.opt 1 [255, 255, 255, 0],
    OptItem.opt 3 [192, 0, 2, 1]]

/-- The options of the ACK of the test server with a lease time of 600 seconds. -/
def ackItems600 : List OptItem := serverItems DHCP_MSG_ACK ++ [OptItem.opt 51 [0, 0, 2, 88]]

/-- Every transmission succeeds; an OFFER for another transaction is received, then a receive
error, then a datagram of 3 bytes, then nothing. -/
def strayEnv : Env :=
  { quietEnv with
    tx := List.replicate 9 true
    rx := [serverMsg DHCP_MSG_OFFER 0x3C4D5E09 serverOpts, RxEvent.err,
           RxEvent.data [2, 1, 6]] }

/-- Two transmissions succeed; an OFFER for another transaction is received, then a receive
error, then the OFFER of the test server for the second DISCOVER, then an ACK. -/
def lateOfferEnv : Env :=
  { quietEnv with
    tx := [true, true]
    rx := [serverMsg DHCP_MSG_OFFER 0x3C4D5E09 serverOpts, RxEvent.err,
           serverMsg DHCP_MSG_OFFER 0x3C4D5E02 serverOpts,
           serverMsg DHCP_MSG_ACK 0x3C4D5E02 serverOpts] }

/-- The template configuration with the initial back-off delay that Note (1) of
`DHCPc_CalcBackOff` states: "2 seconds instead of the proposed 4 seconds". -/
def noteCfg : DHCPc_CFG := { templateCfg with DHCPc_BACKOFF_DLY_INITIAL_MS := 2000 }

/-- The ACK of 243 bytes of the test server for the transaction 0x3C4D5E01: the header, the
magic cookie and the DHCP-MESSAGE-TYPE option, without any other option and without END. -/
def shortAck : List Nat := bareReply 0x3C4D5E01 ++ [53, 1, DHCP_MSG_ACK]

/-- The negotiation of `freeEnv` in which, after the OFFER, an ACK for another transaction that
carries the SUBNET-MASK 255.255.255.0 right after its message type is received and skipped, and
then the ACK `shortAck`. -/
def staleMaskEnv : Env :=
  { freeEnv [] with
    rx := [serverMsg DHCP_MSG_OFFER 0x3C4D5E01 serverOpts,
           serverMsg DHCP_MSG_ACK 0x3C4D5E00 [1, 4, 255, 255, 255, 0],
           RxEvent.data shortAck] }

/-- The globals on which `DHCPc_MsgRxHandler` calls `DHCPc_RenewRebindStateHandler` for
`renewComm`: `renewDueLocked` with the command structure freed. -/
def renewEntry : Client := DHCPc_CommFree templateCfg renewDueLocked renewComm

/-- The record of interface 1 in `renewDueLocked`, which `DHCPc_MsgRxHandler` passes to
`DHCPc_RenewRebindStateHandler`. -/
def renewIf : DHCPc_IF_INFO := (DHCPc_IF_InfoGetCfgd renewDueLocked 1).getD startedIf

/-! ## Theorems -/

/-! ### Option search -/

theorem srchOpt_fuel (c : Nat) (mem : Mem) (pend : Nat) :
    ∀ (fuel popt : Nat), 1 ≤ fuel → pend + 2 ≤ popt + fuel →
      srchOpt c mem pend fuel popt ≠ Srch.fuelOut := by
  intro fuel
  induction fuel with
  | zero => intro popt h; omega
  | succ n ih =>
    intro popt _ h
    unfold srchOpt
    split
    · rename_i hc
      split
      · simp
      · split
        · exact ih _ (by omega) (by omega)
        · exact ih _ (by omega) (by simp only [DHCP_OPT_FIELD_HDR_LEN]; omega)
    · simp

theorem memHas_append (mem : Mem) (p : Nat) (a b : List Nat) (h : memHas mem p (a ++ b)) :
    memHas mem p a ∧ memHas mem (p + a.length) b := by
  constructor
  · intro i hi
    have := h i (by simp; omega)
    rw [this, List.getD_append _ _ _ _ hi]
  · intro i hi
    have := h (a.length + i) (by simp; omega)
    rw [← Nat.add_assoc] at this
    rw [this, List.getD_append_right _ _ _ _ (by omega)]
    simp

theorem memBytes_of_memHas (mem : Mem) (p : Nat) (l : List Nat) (h : memHas mem p l) :
    memBytes mem p l.length = l := by
  apply List.ext_getElem
  · simp [memBytes]
  · intro i h1 h2
    simp only [memBytes, List.getElem_map, List.getElem_range]
    rw [h i h2, List.getD_eq_getElem _ _ h2]

theorem srchOpt_items (c : Nat) (mem : Mem) (pend : Nat) (hc0 : c ≠ DHCP_OPT_PAD) :
    ∀ (items : List OptItem) (fuel p : Nat),
      (∀ it ∈ items, it.proper) →
      memHas mem p (encodeItems items ++ [DHCP_OPT_END]) →
      p + (encodeItems items).length ≤ pend →
      items.length < fuel →
      optValBytes mem (srchVal mem (srchOpt c mem pend fuel p)) = firstOpt c items := by
  intro items
  induction items with
  | nil =>
    intro fuel p _ hmem _ hf
    obtain ⟨n, rfl⟩ : ∃ n, fuel = n + 1 := ⟨fuel - 1, by simp at hf; omega⟩
    have h0 := hmem 0 (by simp [encodeItems])
    simp [encodeItems] at h0
    simp [srchOpt, h0, srchVal, optValBytes, firstOpt]
  | cons it rest ih =>
    intro fuel p hp hmem hlen hf
    obtain ⟨n, rfl⟩ : ∃ n, fuel = n + 1 := ⟨fuel - 1, by simp at hf; omega⟩
    have hrest : ∀ x ∈ rest, x.proper := fun x hx => hp x (List.mem_cons_of_mem _ hx)
    have hit : it.proper := hp it (List.mem_cons_self _ _)
    simp only [encodeItems, List.append_assoc] at hmem hlen
    obtain ⟨hhead, htail⟩ := memHas_append _ _ _ _ hmem
    simp only [List.length_cons, Nat.add_lt_add_iff_right] at hf
    cases it with
    | pad =>
      have h0 := hhead 0 (by simp [OptItem.encode])
      simp [OptItem.encode] at h0 htail hlen
      have hne : ¬ (DHCP_OPT_PAD = c) := fun h => hc0 h.symm
      have hpe : DHCP_OPT_PAD ≠ DHCP_OPT_END := by decide
      rw [srchOpt, h0]
      simp only [hne, hpe, ne_eq, not_false_eq_true, true_and, if_true, if_false]
      rw [if_pos (by omega)]
      simpa [firstOpt] using ih n (p + 1) hrest htail (by omega) hf
    | opt k v =>
      obtain ⟨hk0, hk255⟩ := hit
      have h0 := hhead 0 (by simp [OptItem.encode])
      have h1 := hhead 1 (by simp [OptItem.encode])
      simp [OptItem.encode] at h0 h1 htail hlen
      rw [srchOpt, h0]
      simp only [hk255, hk0, ne_eq, not_false_eq_true, true_and, if_false]
      rw [if_pos (by omega)]
      by_cases hkc : k = c
      · have hv : memHas mem (p + 2) v := by
          have := (memHas_append mem p [k, v.length] v (by simpa [OptItem.encode] using hhead)).2
          simpa using this
        simp [hkc, firstOpt, srchVal, optValBytes, DHCP_OPT_FIELD_HDR_LEN,
          DHCP_OPT_FIELD_CODE_LEN, h1, memBytes_of_memHas _ _ _ hv]
      · simp only [hkc, if_false, firstOpt, DHCP_OPT_FIELD_CODE_LEN, DHCP_OPT_FIELD_HDR_LEN, h1]
        exact ih n _ hrest (by simpa [Nat.add_assoc, Nat.add_comm, Nat.add_left_comm] using htail)
          (by omega) hf

/-- Decoding of a well-formed option area by `DHCPc_MsgGetOpt`. -/
theorem MsgGetOpt_items (c : Nat) (mem : Mem) (msg_buf_size : Nat)
    (items : List OptItem)
    (hc : c ≠ DHCP_OPT_PAD)
    (hitems : ∀ it ∈ items, it.proper)
    (hopts : memHas mem 240 (encodeItems items ++ [DHCP_OPT_END]))
    (hend : 240 + (encodeItems items).length < msg_buf_size) :
    (memBytes mem 236 4 = DHCP_MAGIC_COOKIE →
        optValBytes mem (DHCPc_MsgGetOpt c mem msg_buf_size) = firstOpt c items) ∧
    (memBytes mem 236 4 ≠ DHCP_MAGIC_COOKIE → DHCPc_MsgGetOpt c mem msg_buf_size = none) := by
  constructor
  · intro hck
    have hcmp : Mem_Cmp mem DHCP_MSG_HDR_SIZE DHCP_MAGIC_COOKIE = true := by
      simpa [Mem_Cmp, DHCP_MSG_HDR_SIZE, DHCP_MAGIC_COOKIE] using hck
    simp only [DHCPc_MsgGetOpt, hcmp, if_true]
    have hl : items.length ≤ (encodeItems items).length := by
      clear hitems hopts hend
      induction items with
      | nil => simp
      | cons it rest ih =>
        cases it <;> simp [encodeItems, OptItem.encode] <;> omega
    exact srchOpt_items c mem msg_buf_size hc items _ _ hitems hopts
      (by simp only [DHCP_MSG_HDR_SIZE, DHCP_MAGIC_COOKIE_SIZE]; omega) (by omega)
  · intro hck
    have hcmp : ¬ (Mem_Cmp mem DHCP_MSG_HDR_SIZE DHCP_MAGIC_COOKIE = true) := by
      simpa [Mem_Cmp, DHCP_MSG_HDR_SIZE, DHCP_MAGIC_COOKIE] using hck
    simp [DHCPc_MsgGetOpt, hcmp]

/-- C1. On a buffer whose option area (from offset 240) is a well-formed stream of PAD bytes and
code/length/value options closed by END before `msg_buf_size`, and for a code `c` other than
PAD: when the magic cookie is at offset 236, the pointer and length returned by
`DHCPc_MsgGetOpt` designate exactly the value of the first option with code `c` before END, and
the result is NULL when there is none; when the cookie is not there the result is NULL.  Nothing
is assumed of the bytes after END, so options placed there are never returned. -/
theorem C1_MsgGetOpt_first_option (c : Nat) (mem : Mem) (msg_buf_size : Nat)
    (items : List OptItem)
    (hc : c ≠ DHCP_OPT_PAD)
    (hitems : ∀ it ∈ items, it.proper)
    (hopts : memHas mem 240 (encodeItems items ++ [DHCP_OPT_END]))
    (hend : 240 + (encodeItems items).length < msg_buf_size) :
    (memBytes mem 236 4 = DHCP_MAGIC_COOKIE →
        optValBytes mem (DHCPc_MsgGetOpt c mem msg_buf_size) = firstOpt c items) ∧
    (memBytes mem 236 4 ≠ DHCP_MAGIC_COOKIE → DHCPc_MsgGetOpt c mem msg_buf_size = none) :=
  MsgGetOpt_items c mem msg_buf_size items hc hitems hopts hend

/-- Witness of C1: on `sampleMem` the SUBNET-MASK search returns the first of the two
SUBNET-MASK options. -/
theorem C1_MsgGetOpt_first_option_witness :
    optValBytes sampleMem (DHCPc_MsgGetOpt 1 sampleMem 300) = some [255, 255, 255, 0] :=
  (C1_MsgGetOpt_first_option 1 sampleMem 300 sampleItems (by decide) (by decide) (by decide)
    (by decide)).1 (by decide)

/-- C2 (evaluation of the code at two failing inputs).  On a 244-byte datagram whose DNS option
carries the length byte 200, `DHCPc_MsgGetOpt` returns the pointer 242 with length 200, a value
that ends at offset 442; on a 244-byte datagram without END it steps to offset 244, one past the
datagram, and returns the bytes found there. -/
theorem C2_MsgGetOpt_reads_past_buffer :
    DHCPc_MsgGetOpt 6 overrunMem 244 = some (242, 200) ∧
    DHCPc_MsgGetOpt 53 noEndMem 244 = some (246, 1) := by
  constructor <;> decide

/-! ### Message construction -/

theorem memBytes_length (mem : Mem) (p n : Nat) : (memBytes mem p n).length = n := by
  simp [memBytes]

theorem memBytes_congr (m1 m2 : Mem) (p n : Nat) (h : ∀ i, p ≤ i → i < p + n → m1 i = m2 i) :
    memBytes m1 p n = memBytes m2 p n := by
  apply List.ext_getElem
  · simp [memBytes]
  · intro i h1 _
    simp only [memBytes_length] at h1
    simp only [memBytes, List.getElem_map, List.getElem_range]
    exact h _ (by omega) (by omega)

theorem memHas_of_memBytes (mem : Mem) (p : Nat) (l : List Nat)
    (h : memBytes mem p l.length = l) : memHas mem p l := by
  intro i hi
  have : (memBytes mem p l.length).getD i 0 = l.getD i 0 := by rw [h]
  rw [← this, List.getD_eq_getElem _ _ (by simpa [memBytes] using hi)]
  simp [memBytes]

/-! ### Datagrams and messages by their contents -/

theorem memBytes_getD (m : Mem) (p n i : Nat) (h : i < n) :
    (memBytes m p n).getD i 0 = m (p + i) := by
  unfold memBytes
  rw [List.getD_eq_getElem?_getD, List.getElem?_map, List.getElem?_range h]
  rfl

/-- A buffer into which `b` was copied at offset 0 reads like `b` below the length of `b`. -/
theorem Mem_Copy_agree (buf : Mem) (b : List Nat) (i : Nat) (h : i < b.length) :
    Mem_Copy buf 0 b i = memOfList b i := by
  simp [Mem_Copy, memOfList, h]

theorem memBytes_agree (m1 m2 : Mem) (n p k : Nat) (h : ∀ i, i < n → m1 i = m2 i)
    (hk : p + k ≤ n) : memBytes m1 p k = memBytes m2 p k :=
  memBytes_congr m1 m2 p k (fun i _ h2 => h i (by omega))

theorem getNet32_agree (m1 m2 : Mem) (n p : Nat) (h : ∀ i, i < n → m1 i = m2 i)
    (hk : p + 4 ≤ n) : getNet32 m1 p = getNet32 m2 p := by
  unfold getNet32
  rw [h p (by omega), h (p + 1) (by omega), h (p + 2) (by omega), h (p + 3) (by omega)]

theorem Mem_Cmp_agree (m1 m2 : Mem) (n p : Nat) (l : List Nat) (h : ∀ i, i < n → m1 i = m2 i)
    (hk : p + l.length ≤ n) : Mem_Cmp m1 p l = Mem_Cmp m2 p l := by
  unfold Mem_Cmp
  rw [memBytes_agree m1 m2 n p l.length h hk]

/-- What a well-formed datagram gives in a buffer that reads like it: the magic cookie, the
options and END in place, END inside the datagram. -/
theorem dgramHas_mem (mem : Mem) (b : List Nat) (items : List OptItem)
    (hag : ∀ i, i < b.length → mem i = b.getD i 0) (hd : dgramHas b items) :
    memBytes mem 236 4 = DHCP_MAGIC_COOKIE ∧
    memHas mem 240 (encodeItems items ++ [DHCP_OPT_END]) ∧
    240 + (encodeItems items).length < b.length := by
  obtain ⟨-, hd⟩ := hd
  have hlen : ((b.drop DHCP_MSG_HDR_SIZE).take
      (DHCP_MAGIC_COOKIE_SIZE + (encodeItems items).length + 1)).length
      = 4 + (encodeItems items).length + 1 := by
    rw [hd]; simp [DHCP_MAGIC_COOKIE]; omega
  simp only [List.length_take, List.length_drop, DHCP_MSG_HDR_SIZE, DHCP_MAGIC_COOKIE_SIZE]
    at hlen
  have hb : 236 + (4 + (encodeItems items).length + 1) ≤ b.length := by omega
  have hget : ∀ i, i < 4 + (encodeItems items).length + 1 →
      mem (236 + i) = (DHCP_MAGIC_COOKIE ++ encodeItems items ++ [DHCP_OPT_END]).getD i 0 := by
    intro i hi
    rw [hag _ (by omega), ← hd]
    simp only [List.getD_eq_getElem?_getD, List.getElem?_take, DHCP_MSG_HDR_SIZE,
      DHCP_MAGIC_COOKIE_SIZE, List.getElem?_drop]
    rw [if_pos hi]
  have hall : memHas mem 236 (DHCP_MAGIC_COOKIE ++ (encodeItems items ++ [DHCP_OPT_END])) := by
    intro i hi
    rw [← List.append_assoc]
    have hi2 : i < 4 + (encodeItems items).length + 1 := by
      simp [DHCP_MAGIC_COOKIE] at hi; omega
    exact hget i hi2
  obtain ⟨h1, h2⟩ := memHas_append _ _ _ _ hall
  exact ⟨memBytes_of_memHas mem 236 DHCP_MAGIC_COOKIE h1, h2, by omega⟩

/-- Decoding of a well-formed datagram by `DHCPc_MsgGetOpt`, in a buffer that reads like the
datagram: the result designates the value of the first option with the code `c`. -/
theorem dgram_decode (mem : Mem) (b : List Nat) (items : List OptItem) (c : Nat)
    (hc : c ≠ DHCP_OPT_PAD) (hag : ∀ i, i < b.length → mem i = b.getD i 0)
    (hd : dgramHas b items) :
    optValBytes mem (DHCPc_MsgGetOpt c mem b.length) = firstOpt c items := by
  obtain ⟨h1, h2, h3⟩ := dgramHas_mem mem b items hag hd
  exact (MsgGetOpt_items c mem b.length items hc hd.1 h2 h3).1 h1

/-- The type that `DHCPc_RxReply` reads in a well-formed datagram is the type the datagram
carries. -/
theorem dgram_type (mem : Mem) (b : List Nat) (items : List OptItem) (t : Nat)
    (hag : ∀ i, i < b.length → mem i = b.getD i 0) (hd : dgramHas b items)
    (ht : typeOf items = some t) :
    ∃ r, DHCPc_MsgGetOpt DHCP_OPT_DHCP_MESSAGE_TYPE mem b.length = some r ∧
      mem r.1 % 256 = t := by
  have h := dgram_decode mem b items DHCP_OPT_DHCP_MESSAGE_TYPE (by decide) hag hd
  unfold typeOf at ht
  cases hfo : firstOpt DHCP_OPT_DHCP_MESSAGE_TYPE items with
  | none => rw [hfo] at ht; simp at ht
  | some v =>
    rw [hfo] at ht h
    match v, ht with
    | [u], ht =>
      simp only at ht
      have hu : u < 256 ∧ u = t := by
        by_cases hlt : u < 256
        · rw [if_pos hlt] at ht; exact ⟨hlt, by simpa using ht⟩
        · rw [if_neg hlt] at ht; cases ht
      cases hr : DHCPc_MsgGetOpt DHCP_OPT_DHCP_MESSAGE_TYPE mem b.length with
      | none => rw [hr] at h; simp [optValBytes] at h
      | some r =>
        rw [hr] at h
        simp only [optValBytes, Option.map_some', Option.some.injEq] at h
        have hl : r.2 = 1 := by
          have := congrArg List.length h
          simpa [memBytes] using this
        rw [hl] at h
        have h0 : mem r.1 = u := by
          have := memBytes_getD mem r.1 1 0 (by omega)
          rw [h] at this
          simpa using this.symm
        exact ⟨r, rfl, by rw [h0, ← hu.2]; exact Nat.mod_eq_of_lt hu.1⟩
    | [], ht => simp at ht
    | _ :: _ :: _, ht => simp at ht

/-- A message buffer reads like the datagram it holds below the length of the message. -/
theorem msg_agree (m : DHCPc_MSG) (i : Nat) (h : i < (memBytes m.MsgBuf 0 m.MsgLen).length) :
    m.MsgBuf i = (memBytes m.MsgBuf 0 m.MsgLen).getD i 0 := by
  rw [memBytes_length] at h
  rw [memBytes_getD _ _ _ _ h, Nat.zero_add]

/-- Decoding of a well-formed message by `DHCPc_MsgGetOpt`: the result designates the value of
the first option with the code `c`. -/
theorem msg_decode (m : DHCPc_MSG) (items : List OptItem) (c : Nat) (hc : c ≠ DHCP_OPT_PAD)
    (h : msgHas m items) :
    optValBytes m.MsgBuf (DHCPc_MsgGetOpt c m.MsgBuf m.MsgLen) = firstOpt c items := by
  have := dgram_decode m.MsgBuf (memBytes m.MsgBuf 0 m.MsgLen) items c hc (msg_agree m) h
  rwa [memBytes_length] at this

/-- A message in which `DHCPc_MsgGetOpt` reads the type ACK is an ACK when it is well
formed. -/
theorem readsAck_formed (m : DHCPc_MSG) (h : readsAck m = true) : ackWhenFormed m := by
  intro items hm
  have hd := msg_decode m items DHCP_OPT_DHCP_MESSAGE_TYPE (by decide) hm
  unfold readsAck at h
  cases hr : DHCPc_MsgGetOpt DHCP_OPT_DHCP_MESSAGE_TYPE m.MsgBuf m.MsgLen with
  | none => rw [hr] at h; simp at h
  | some r =>
    rw [hr] at h hd
    simp only [optValBytes, Option.map_some'] at hd
    simp only [decide_eq_true_eq] at h
    refine ⟨_, hd.symm, ?_⟩
    intro t ht
    cases hn : r.2 with
    | zero => rw [hn] at ht; simp [memBytes] at ht
    | succ k =>
      have h0 := memBytes_getD m.MsgBuf r.1 r.2 0 (by omega)
      rw [List.getD_eq_getElem?_getD, ← List.head?_eq_getElem?, ht] at h0
      simp only [Option.getD_some, Nat.add_zero] at h0
      rw [h0]; exact h

theorem wrote_start (m0 : Mem) (base : Nat) : Wr.wrote m0 base [] ⟨m0, base⟩ := by
  refine ⟨by simp, ?_, fun _ _ => rfl⟩
  intro i hi
  simp at hi

theorem wrote_copy (m0 : Mem) (base : Nat) (acc l : List Nat) (w : Wr)
    (h : Wr.wrote m0 base acc w) : Wr.wrote m0 base (acc ++ l) (w.copy l) := by
  obtain ⟨hp, hm, hf⟩ := h
  refine ⟨by simp [Wr.copy, hp, Nat.add_assoc], ?_, ?_⟩
  · intro i hi
    simp only [List.length_append] at hi
    by_cases hia : i < acc.length
    · have : ¬ (w.popt ≤ base + i ∧ base + i < w.popt + l.length) := by omega
      simp only [Wr.copy, Mem_Copy, this, if_false]
      rw [hm i hia, List.getD_append _ _ _ _ hia]
    · have : w.popt ≤ base + i ∧ base + i < w.popt + l.length := by omega
      simp only [Wr.copy, Mem_Copy, this, and_self, if_true]
      rw [List.getD_append_right _ _ _ _ (by omega)]
      congr 1
      omega
  · intro i hi
    simp only [List.length_append] at hi
    have : ¬ (w.popt ≤ i ∧ i < w.popt + l.length) := by omega
    simp only [Wr.copy, Mem_Copy, this, if_false]
    exact hf i (by omega)

theorem wrote_put8 (m0 : Mem) (base : Nat) (acc : List Nat) (v : Nat) (w : Wr)
    (h : Wr.wrote m0 base acc w) : Wr.wrote m0 base (acc ++ [v]) (w.put8 v) :=
  wrote_copy m0 base acc [v] w h

theorem wrote_congr (m0 : Mem) (base : Nat) (acc acc2 : List Nat) (w : Wr)
    (h : Wr.wrote m0 base acc w) (e : acc = acc2) : Wr.wrote m0 base acc2 w := e ▸ h

theorem txOptReqIp_wrote (null_mem : Mem) (pif_info : DHCPc_IF_INFO) (sel : TxSel) (m0 : Mem)
    (base : Nat) (acc : List Nat) (w : Wr) (h : Wr.wrote m0 base acc w) :
    Wr.wrote m0 base (acc ++ reqIpBytes null_mem pif_info sel)
      (txOptReqIp null_mem pif_info sel w) := by
  unfold txOptReqIp reqIpBytes
  split
  · exact wrote_congr _ _ _ _ _ (wrote_copy _ _ _ _ _ (wrote_put8 _ _ _ 4 _
      (wrote_put8 _ _ _ DHCP_OPT_REQUESTED_IP_ADDRESS _ h))) (by simp)
  · simpa using h

theorem txOptServerId_wrote (pif_info : DHCPc_IF_INFO) (sel : TxSel) (m0 : Mem)
    (base : Nat) (acc : List Nat) (w : Wr) (h : Wr.wrote m0 base acc w) :
    Wr.wrote m0 base (acc ++ serverIdBytes pif_info sel) (txOptServerId pif_info sel w) := by
  unfold txOptServerId serverIdBytes
  split
  · exact wrote_congr _ _ _ _ _ (wrote_copy _ _ _ _ _ (wrote_put8 _ _ _ 4 _
      (wrote_put8 _ _ _ DHCP_OPT_SERVER_IDENTIFIER _ h))) (by simp)
  · simpa using h

theorem txOptHostName_wrote (host_name : Option (List Nat)) (m0 : Mem)
    (base : Nat) (acc : List Nat) (w : Wr) (h : Wr.wrote m0 base acc w) :
    Wr.wrote m0 base (acc ++ hostNameBytes host_name) (txOptHostName host_name w) := by
  unfold txOptHostName hostNameBytes
  cases host_name with
  | none => simpa using h
  | some name =>
    simp only
    split
    · exact wrote_congr _ _ _ _ _ (wrote_copy _ _ _ name _ (wrote_put8 _ _ _ (name.length % 256) _
        (wrote_put8 _ _ _ DHCP_OPT_HOST_NAME _ h))) (by simp)
    · simpa using h

theorem txOptReqParam_wrote (pif_info : DHCPc_IF_INFO) (sel : TxSel) (m0 : Mem)
    (base : Nat) (acc : List Nat) (w : Wr) (h : Wr.wrote m0 base acc w) :
    Wr.wrote m0 base (acc ++ reqParamBytes pif_info sel) (txOptReqParam pif_info sel w) := by
  unfold txOptReqParam reqParamBytes
  split
  · have h3 := wrote_copy _ _ _ DHCPc_ReqParam _ (wrote_put8 _ _ _
      ((pif_info.ParamReqQty + DHCPc_ReqParam.length) % 256) _
      (wrote_put8 _ _ _ DHCP_OPT_PARAMETER_REQUEST_LIST _ h))
    simp only
    split
    · exact wrote_congr _ _ _ _ _ (wrote_copy _ _ _ _ _ h3) (by simp)
    · rename_i hq
      have hq0 : pif_info.ParamReqQty = 0 := by omega
      exact wrote_congr _ _ _ _ _ h3 (by simp [hq0, memBytes])
  · simpa using h

theorem txWriteOpts_wrote (null_mem : Mem) (host_name : Option (List Nat))
    (pif_info : DHCPc_IF_INFO) (msg_type : Nat) (sel : TxSel) (m0 : Mem) (base : Nat) :
    Wr.wrote m0 base
      (DHCP_MAGIC_COOKIE ++ txOptBytes null_mem host_name pif_info msg_type sel ++ [DHCP_OPT_END])
      (txWriteOpts null_mem host_name pif_info msg_type sel ⟨m0, base⟩) := by
  have h0 := wrote_start m0 base
  have h1 := wrote_put8 _ _ _ (msg_type % 256) _ (wrote_put8 _ _ _ 1 _
    (wrote_put8 _ _ _ DHCP_OPT_DHCP_MESSAGE_TYPE _ (wrote_copy _ _ _ DHCP_MAGIC_COOKIE _ h0)))
  have h2 := txOptReqParam_wrote pif_info sel _ _ _ _ (txOptHostName_wrote host_name _ _ _ _
    (txOptServerId_wrote pif_info sel _ _ _ _ (txOptReqIp_wrote null_mem pif_info sel _ _ _ _ h1)))
  exact wrote_congr _ _ _ _ _ (wrote_put8 _ _ _ DHCP_OPT_END _ h2)
    (by simp [txOptBytes, List.append_assoc])

theorem txSel_isSome (cfg : DHCPc_CFG) (msg_type : Nat) (st : DHCPc_STATE)
    (ht : msg_type = DHCP_MSG_DISCOVER ∨ msg_type = DHCP_MSG_REQUEST ∨
      msg_type = DHCP_MSG_DECLINE ∨ msg_type = DHCP_MSG_RELEASE) :
    ∃ sel, txSel cfg msg_type st = some sel := by
  rcases ht with h | h | h | h <;> subst h <;> cases st <;>
    simp [txSel, DHCP_MSG_DISCOVER, DHCP_MSG_REQUEST, DHCP_MSG_DECLINE, DHCP_MSG_RELEASE]

theorem txOptBytes_length_le (null_mem : Mem) (host_name : Option (List Nat))
    (pif_info : DHCPc_IF_INFO) (msg_type : Nat) (sel : TxSel)
    (hname : ∀ n, host_name = some n → n.length ≤ 255) (hqty : pif_info.ParamReqQty ≤ 255) :
    3 ≤ (txOptBytes null_mem host_name pif_info msg_type sel).length ∧
    (txOptBytes null_mem host_name pif_info msg_type sel).length ≤ 600 := by
  have h1 : (reqIpBytes null_mem pif_info sel).length ≤ 6 := by
    unfold reqIpBytes; split
    · simp [memBytes]
    · simp
  have h2 : (serverIdBytes pif_info sel).length ≤ 6 := by
    unfold serverIdBytes; split
    · simp [be32]
    · simp
  have h3 : (hostNameBytes host_name).length ≤ 257 := by
    unfold hostNameBytes
    cases host_name with
    | none => simp
    | some n =>
      have := hname n rfl
      simp only
      split <;> simp <;> omega
  have h4 : (reqParamBytes pif_info sel).length ≤ 261 := by
    unfold reqParamBytes; split <;> simp [memBytes, DHCPc_ReqParam] <;> omega
  simp only [txOptBytes, List.length_append, List.length_cons, List.length_nil]
  omega

theorem txWriteHdr_zero (pif_info : DHCPc_IF_INFO) (flag : Nat) (ciaddr : List Nat)
    (paddr_hw : Mem) (m : Mem) (hc : ciaddr.length = 4) (i : Nat) (hi : 34 ≤ i) :
    txWriteHdr pif_info flag ciaddr paddr_hw m i = m i := by
  simp only [txWriteHdr, Mem_Copy, hdr, be32, be16, hc, memBytes_length, List.length_cons,
    List.length_nil, NET_IF_ETHER_ADDR_SIZE]
  repeat rw [if_neg (by omega)]

/-- Layout of the buffer built by `DHCPc_TxMsgPrepare` for a supported message type. -/
theorem TxMsgPrepare_layout (cfg : DHCPc_CFG) (null_mem : Mem)
    (cpu_name : Option (List Nat)) (tick : Nat) (pif_info : DHCPc_IF_INFO) (msg_type : Nat)
    (paddr_hw pmsg_buf : Mem) (msg_buf_size : Nat)
    (ht : msg_type = DHCP_MSG_DISCOVER ∨ msg_type = DHCP_MSG_REQUEST ∨
      msg_type = DHCP_MSG_DECLINE ∨ msg_type = DHCP_MSG_RELEASE)
    (hsize : DHCP_MSG_BUF_SIZE ≤ msg_buf_size)
    (hname : ∀ n, cpu_name = some n → n.length ≤ 255)
    (hqty : pif_info.ParamReqQty ≤ 255) :
    ∃ sel, txSel cfg msg_type pif_info.ClientState = some sel ∧
      ∃ opts, opts = txOptBytes null_mem (txHostName cfg cpu_name) pif_info msg_type sel ∧
      let r := (DHCPc_TxMsgPrepare cfg null_mem cpu_name tick pif_info msg_type paddr_hw
        NET_IF_ETHER_ADDR_SIZE pmsg_buf msg_buf_size).1
      r.err = DHCPc_ERR_NONE ∧
      memBytes r.buf 0 4 = [1, 1, 6, 0] ∧
      memBytes r.buf 4 4 = be32 pif_info.TransactionID ∧
      memBytes r.buf 8 2 = [0, 0] ∧
      memBytes r.buf 10 2 = be16 sel.flag ∧
      memBytes r.buf 12 4 = (if sel.get_local_addr = true then
        memBytes (lastRxBuf null_mem pif_info) hdr.yiaddr 4 else be32 0) ∧
      memBytes r.buf 16 12 = List.replicate 12 0 ∧
      memBytes r.buf 28 16 = memBytes paddr_hw 0 6 ++ List.replicate 10 0 ∧
      memBytes r.buf 44 192 = List.replicate 192 0 ∧
      r.msg_size = max 300 (236 + (4 + opts.length + 1)) ∧
      opts.take 3 = [DHCP_OPT_DHCP_MESSAGE_TYPE, 1, msg_type] ∧
      memBytes r.buf 236 (r.msg_size - 236) =
        DHCP_MAGIC_COOKIE ++ opts ++ [DHCP_OPT_END]
          ++ List.replicate (r.msg_size - (236 + (4 + opts.length + 1))) DHCP_OPT_PAD := by
  obtain ⟨sel, hsel⟩ := txSel_isSome cfg msg_type pif_info.ClientState ht
  refine ⟨sel, hsel, _, rfl, ?_⟩
  have hname2 : ∀ n, txHostName cfg cpu_name = some n → n.length ≤ 255 := by
    intro n hn
    unfold txHostName at hn
    split at hn
    · exact hname n hn
    · simp at hn
  obtain ⟨hlen3, hlen⟩ := txOptBytes_length_le null_mem (txHostName cfg cpu_name) pif_info msg_type
    sel hname2 hqty
  have hmt : msg_type % 256 = msg_type := by
    rcases ht with h | h | h | h <;> subst h <;> decide
  have e1 : ¬ (cfg.DHCPc_CFG_ARG_CHK_DBG_EN = true ∧
      NET_IF_ETHER_ADDR_SIZE ≠ NET_IF_ETHER_ADDR_SIZE) := by simp
  have e2 : ¬ (cfg.DHCPc_CFG_ARG_CHK_DBG_EN = true ∧ msg_buf_size < DHCP_MSG_BUF_SIZE) := by
    omega
  simp only [DHCPc_TxMsgPrepare, if_neg e1, if_neg e2, hsel]
  generalize hci : (if sel.get_local_addr = true then
      memBytes (lastRxBuf null_mem pif_info) hdr.yiaddr 4 else be32 0) = ciaddr
  have hcl : ciaddr.length = 4 := by
    rw [← hci]; split <;> simp [memBytes, be32]
  generalize hhm : txWriteHdr pif_info sel.flag ciaddr paddr_hw (Mem_Clr pmsg_buf 0 msg_buf_size)
    = hm
  obtain ⟨hp, hmem, hframe⟩ := txWriteOpts_wrote null_mem (txHostName cfg cpu_name) pif_info
    msg_type sel hm DHCP_MSG_HDR_SIZE
  generalize txWriteOpts null_mem (txHostName cfg cpu_name) pif_info msg_type sel
    ⟨hm, DHCP_MSG_HDR_SIZE⟩ = w at hp hmem hframe
  generalize hopts : txOptBytes null_mem (txHostName cfg cpu_name) pif_info msg_type sel = opts
    at hp hmem hframe hlen hlen3
  simp only [List.length_append, List.length_cons, List.length_nil, DHCP_MAGIC_COOKIE,
    DHCP_MSG_HDR_SIZE] at hp
  have hL : (w.popt - 236) % 65536 = 4 + opts.length + 1 := by
    rw [hp]; omega
  simp only [DHCP_MSG_TX_MIN_LEN, DHCP_MSG_HDR_SIZE, decide_eq_true_eq, hL]
  simp only [DHCP_MSG_BUF_SIZE] at hsize
  -- the header bytes written by `txWriteHdr`
  have H1 : memBytes hm 0 4 = [1, 1, 6, 0] := by
    rw [← hhm]
    simp [memBytes, List.range, List.range.loop, txWriteHdr, Mem_Copy, hdr, hcl, be32, be16,
      DHCP_OP_REQUEST, DHCP_HTYPE_ETHER, NET_IF_ETHER_ADDR_SIZE]
  have H2 : memBytes hm 4 4 = be32 pif_info.TransactionID := by
    rw [← hhm]
    simp [memBytes, List.range, List.range.loop, txWriteHdr, Mem_Copy, hdr, hcl, be32, be16,
      DHCP_OP_REQUEST, DHCP_HTYPE_ETHER, NET_IF_ETHER_ADDR_SIZE]
  have H3 : memBytes hm 8 2 = [0, 0] := by
    rw [← hhm]
    simp [memBytes, List.range, List.range.loop, txWriteHdr, Mem_Copy, hdr, hcl, be32, be16,
      DHCP_OP_REQUEST, DHCP_HTYPE_ETHER, NET_IF_ETHER_ADDR_SIZE]
  have H7 : memBytes hm 10 2 = be16 sel.flag := by
    rw [← hhm]
    simp [memBytes, List.range, List.range.loop, txWriteHdr, Mem_Copy, hdr, hcl, be32, be16,
      DHCP_OP_REQUEST, DHCP_HTYPE_ETHER, NET_IF_ETHER_ADDR_SIZE]
  have H8 : memBytes hm 12 4 = ciaddr := by
    rw [← hhm]
    have : memBytes (txWriteHdr pif_info sel.flag ciaddr paddr_hw
        (Mem_Clr pmsg_buf 0 msg_buf_size)) 12 ciaddr.length = ciaddr := by
      apply memBytes_of_memHas
      intro i hi
      simp only [txWriteHdr, Mem_Copy, hdr, be32, be16, hcl, memBytes_length, List.length_cons,
        List.length_nil, NET_IF_ETHER_ADDR_SIZE]
      rw [if_neg (by omega), if_neg (by omega), if_neg (by omega), if_neg (by omega),
        if_pos (by omega), Nat.add_sub_cancel_left]
    rw [hcl] at this
    exact this
  have H4 : memBytes hm 16 12 = List.replicate 12 0 := by
    rw [← hhm]
    simp [memBytes, List.range, List.range.loop, txWriteHdr, Mem_Copy, hdr, hcl, be32, be16,
      DHCP_OP_REQUEST, DHCP_HTYPE_ETHER, NET_IF_ETHER_ADDR_SIZE, List.replicate]
  have H5 : memBytes hm 28 16 = memBytes paddr_hw 0 6 ++ List.replicate 10 0 := by
    rw [← hhm]
    simp [memBytes, List.range, List.range.loop, txWriteHdr, Mem_Copy, Mem_Clr, hdr, hcl, be32,
      be16, DHCP_OP_REQUEST, DHCP_HTYPE_ETHER, NET_IF_ETHER_ADDR_SIZE, List.replicate]
    omega
  have H6 : memBytes hm 44 192 = List.replicate 192 0 := by
    rw [← hhm]
    apply List.ext_getElem
    · rw [memBytes_length, List.length_replicate]
    · intro i h1 _
      simp only [memBytes_length] at h1
      simp only [memBytes, List.getElem_map, List.getElem_range, List.getElem_replicate]
      rw [txWriteHdr_zero _ _ _ _ _ hcl _ (by omega)]
      simp only [Mem_Clr]
      rw [if_pos (by omega)]
  have hlen2 : (DHCP_MAGIC_COOKIE ++ opts ++ [DHCP_OPT_END]).length = 4 + opts.length + 1 := by
    simp only [DHCP_MAGIC_COOKIE, List.length_append, List.length_cons, List.length_nil]
  have hmem2 : memHas w.mem 236 (DHCP_MAGIC_COOKIE ++ opts ++ [DHCP_OPT_END]) := hmem
  have hlowN : ∀ i, i < 236 → w.mem i = hm i := fun i hi =>
    hframe i (Or.inl (by simpa [DHCP_MSG_HDR_SIZE] using hi))
  have htake : List.take 3 opts = [DHCP_OPT_DHCP_MESSAGE_TYPE, 1, msg_type] := by
    rw [← hopts]
    simp [txOptBytes, hmt]
  by_cases hs : 4 + opts.length + 1 < 300 - 236
  · have hlowS : ∀ i, i < 236 →
        Mem_Set w.mem w.popt DHCP_OPT_PAD (300 - 236 - (4 + opts.length + 1)) i = hm i := by
      intro i hi
      simp only [Mem_Set]
      rw [if_neg (by omega)]
      exact hlowN i hi
    have hhdr : ∀ p n, p + n ≤ 236 →
        memBytes (Mem_Set w.mem w.popt DHCP_OPT_PAD (300 - 236 - (4 + opts.length + 1))) p n
          = memBytes hm p n :=
      fun p n hpn => memBytes_congr _ _ _ _ (fun i _ h2 => hlowS i (by omega))
    have hmod : (236 + (300 - 236)) % 65536 = 300 := by decide
    simp only [hs, if_true, hmod]
    refine ⟨trivial, ?_, ?_, ?_, ?_, ?_, ?_, ?_, ?_, ?_, htake, ?_⟩
    · rw [hhdr 0 4 (by omega), H1]
    · rw [hhdr 4 4 (by omega), H2]
    · rw [hhdr 8 2 (by omega), H3]
    · rw [hhdr 10 2 (by omega), H7]
    · rw [hhdr 12 4 (by omega), H8]
    · rw [hhdr 16 12 (by omega), H4]
    · rw [hhdr 28 16 (by omega), H5]
    · rw [hhdr 44 192 (by omega), H6]
    · omega
    · have e : 300 - 236 = (DHCP_MAGIC_COOKIE ++ opts ++ [DHCP_OPT_END]
          ++ List.replicate (300 - (236 + (4 + opts.length + 1))) DHCP_OPT_PAD).length := by
        rw [List.length_append, hlen2, List.length_replicate]; omega
      have hmh : memHas (Mem_Set w.mem w.popt DHCP_OPT_PAD (300 - 236 - (4 + opts.length + 1)))
          236 (DHCP_MAGIC_COOKIE ++ opts ++ [DHCP_OPT_END]
          ++ List.replicate (300 - (236 + (4 + opts.length + 1))) DHCP_OPT_PAD) := by
        intro i hi
        rw [← e] at hi
        by_cases hi2 : i < 4 + opts.length + 1
        · simp only [Mem_Set]
          rw [if_neg (by omega), hmem2 i (by omega),
            List.getD_append (DHCP_MAGIC_COOKIE ++ opts ++ [DHCP_OPT_END]) _ 0 i (by omega)]
        · simp only [Mem_Set]
          rw [if_pos (by omega),
            List.getD_append_right (DHCP_MAGIC_COOKIE ++ opts ++ [DHCP_OPT_END]) _ 0 i (by omega)]
          rw [List.getD_eq_getElem _ _ (by rw [List.length_replicate]; omega)]
          simp
      have := memBytes_of_memHas _ _ _ hmh
      rw [← e] at this
      exact this
  · have hhdr : ∀ p n, p + n ≤ 236 → memBytes w.mem p n = memBytes hm p n :=
      fun p n hpn => memBytes_congr _ _ _ _ (fun i _ h2 => hlowN i (by omega))
    have hmod : (236 + (4 + opts.length + 1)) % 65536 = 236 + (4 + opts.length + 1) := by omega
    simp only [hs, if_false, hmod]
    refine ⟨trivial, ?_, ?_, ?_, ?_, ?_, ?_, ?_, ?_, ?_, htake, ?_⟩
    · rw [hhdr 0 4 (by omega), H1]
    · rw [hhdr 4 4 (by omega), H2]
    · rw [hhdr 8 2 (by omega), H3]
    · rw [hhdr 10 2 (by omega), H7]
    · rw [hhdr 12 4 (by omega), H8]
    · rw [hhdr 16 12 (by omega), H4]
    · rw [hhdr 28 16 (by omega), H5]
    · rw [hhdr 44 192 (by omega), H6]
    · omega
    · have e : 236 + (4 + opts.length + 1) - 236 =
          (DHCP_MAGIC_COOKIE ++ opts ++ [DHCP_OPT_END]).length := by
        rw [hlen2]; omega
      rw [e]
      simp only [Nat.sub_self, List.replicate_zero, List.append_nil]
      exact memBytes_of_memHas _ _ _ hmem2

/-- C3. For every record, hardware address and message type among DISCOVER, REQUEST, DECLINE
and RELEASE (buffer of at least `DHCP_MSG_BUF_SIZE` bytes, host name and requested-parameter
count fitting a byte), `DHCPc_TxMsgPrepare` succeeds and the buffer holds: `op = 1`,
`htype = 1`, `hlen = 6`, `hops = 0`; `xid` = `TransactionID` in big-endian; `secs = 0`; `yiaddr`,
`siaddr`, `giaddr` zero; `chaddr` = the 6 address bytes then 10 zero bytes; `sname` and `file`
zero (`flags` and `ciaddr` are the kind-dependent fields selected by `txSel`); from offset 236 the magic cookie, the options (DHCP-MESSAGE-TYPE first), END, and PAD
bytes up to the returned size, which is `max 300 (236 + cookie-through-END bytes)`. -/
theorem C3_TxMsgPrepare_reference_encoding (cfg : DHCPc_CFG) (null_mem : Mem)
    (cpu_name : Option (List Nat)) (tick : Nat) (pif_info : DHCPc_IF_INFO) (msg_type : Nat)
    (paddr_hw pmsg_buf : Mem) (msg_buf_size : Nat)
    (ht : msg_type = DHCP_MSG_DISCOVER ∨ msg_type = DHCP_MSG_REQUEST ∨
      msg_type = DHCP_MSG_DECLINE ∨ msg_type = DHCP_MSG_RELEASE)
    (hsize : DHCP_MSG_BUF_SIZE ≤ msg_buf_size)
    (hname : ∀ n, cpu_name = some n → n.length ≤ 255)
    (hqty : pif_info.ParamReqQty ≤ 255) :
    ∃ sel, txSel cfg msg_type pif_info.ClientState = some sel ∧
      ∃ opts, opts = txOptBytes null_mem (txHostName cfg cpu_name) pif_info msg_type sel ∧
      let r := (DHCPc_TxMsgPrepare cfg null_mem cpu_name tick pif_info msg_type paddr_hw
        NET_IF_ETHER_ADDR_SIZE pmsg_buf msg_buf_size).1
      r.err = DHCPc_ERR_NONE ∧
      memBytes r.buf 0 4 = [1, 1, 6, 0] ∧
      memBytes r.buf 4 4 = be32 pif_info.TransactionID ∧
      memBytes r.buf 8 2 = [0, 0] ∧
      memBytes r.buf 10 2 = be16 sel.flag ∧
      memBytes r.buf 12 4 = (if sel.get_local_addr = true then
        memBytes (lastRxBuf null_mem pif_info) hdr.yiaddr 4 else be32 0) ∧
      memBytes r.buf 16 12 = List.replicate 12 0 ∧
      memBytes r.buf 28 16 = memBytes paddr_hw 0 6 ++ List.replicate 10 0 ∧
      memBytes r.buf 44 192 = List.replicate 192 0 ∧
      r.msg_size = max 300 (236 + (4 + opts.length + 1)) ∧
      opts.take 3 = [DHCP_OPT_DHCP_MESSAGE_TYPE, 1, msg_type] ∧
      memBytes r.buf 236 (r.msg_size - 236) =
        DHCP_MAGIC_COOKIE ++ opts ++ [DHCP_OPT_END]
          ++ List.replicate (r.msg_size - (236 + (4 + opts.length + 1))) DHCP_OPT_PAD :=
  TxMsgPrepare_layout cfg null_mem cpu_name tick pif_info msg_type paddr_hw pmsg_buf msg_buf_size
    ht hsize hname hqty

/-- Witness of C3: the REQUEST built for `sampleIf` succeeds with the fixed header fields and
the transaction identifier in big-endian. -/
theorem C3_TxMsgPrepare_reference_encoding_witness :
    sampleReq.err = DHCPc_ERR_NONE ∧ memBytes sampleReq.buf 0 4 = [1, 1, 6, 0] ∧
      memBytes sampleReq.buf 4 4 = be32 sampleIf.TransactionID := by
  obtain ⟨sel, -, opts, -, h⟩ := C3_TxMsgPrepare_reference_encoding templateCfg zeroMem
    (some [117, 67]) 7 sampleIf DHCP_MSG_REQUEST sampleHw zeroMem DHCP_MSG_BUF_SIZE
    (Or.inr (Or.inl rfl)) (Nat.le_refl _) (by intro n hn; cases hn; decide) (by decide)
  exact ⟨h.1, h.2.1, h.2.2.1⟩

theorem encodeItems_append (a b : List OptItem) :
    encodeItems (a ++ b) = encodeItems a ++ encodeItems b := by
  induction a with
  | nil => simp [encodeItems]
  | cons x xs ih => simp [encodeItems, ih]

theorem encode_txOptItems (null_mem : Mem) (host_name : Option (List Nat))
    (pif_info : DHCPc_IF_INFO) (msg_type : Nat) (sel : TxSel)
    (hname : ∀ n, host_name = some n → n.length ≤ 255)
    (hq4 : 4 + pif_info.ParamReqQty ≤ 255) :
    encodeItems (txOptItems null_mem host_name pif_info msg_type sel)
      = txOptBytes null_mem host_name pif_info msg_type sel := by
  have hq : (pif_info.ParamReqQty + 4) % 256 = 4 + pif_info.ParamReqQty := by omega
  have b1 : encodeItems [OptItem.opt DHCP_OPT_DHCP_MESSAGE_TYPE [msg_type % 256]]
      = [DHCP_OPT_DHCP_MESSAGE_TYPE, 1, msg_type % 256] := by
    simp [encodeItems, OptItem.encode]
  have b2 : encodeItems (if sel.wr_req_ip_addr = true then
        [OptItem.opt DHCP_OPT_REQUESTED_IP_ADDRESS
          (memBytes (lastRxBuf null_mem pif_info) hdr.yiaddr 4)] else [])
      = reqIpBytes null_mem pif_info sel := by
    unfold reqIpBytes
    split
    · simp [encodeItems, OptItem.encode, memBytes_length]
    · simp [encodeItems]
  have b3 : encodeItems (if sel.wr_server_id = true then
        [OptItem.opt DHCP_OPT_SERVER_IDENTIFIER (be32 pif_info.ServerID)] else [])
      = serverIdBytes pif_info sel := by
    unfold serverIdBytes
    split
    · simp [encodeItems, OptItem.encode, be32]
    · simp [encodeItems]
  have b4 : encodeItems (hostNameItems host_name) = hostNameBytes host_name := by
    unfold hostNameBytes hostNameItems
    cases host_name with
    | none => simp [encodeItems]
    | some n =>
      have := hname n rfl
      simp only
      split
      · simp only [encodeItems, OptItem.encode, List.append_nil]
        rw [Nat.mod_eq_of_lt (by omega)]
      · simp [encodeItems]
  have b5 : encodeItems (if sel.req_param = true then
        [OptItem.opt DHCP_OPT_PARAMETER_REQUEST_LIST
          (DHCPc_ReqParam ++ memBytes pif_info.ParamReqTbl 0 pif_info.ParamReqQty)] else [])
      = reqParamBytes pif_info sel := by
    unfold reqParamBytes
    split
    · simp only [encodeItems, OptItem.encode, List.append_nil, List.length_append,
        memBytes_length]
      rw [show DHCPc_ReqParam.length = 4 from rfl, hq]
    · simp [encodeItems]
  simp only [txOptItems, txOptBytes, encodeItems_append]
  rw [b1, b2, b3, b4, b5]

theorem proper_txOptItems (null_mem : Mem) (host_name : Option (List Nat))
    (pif_info : DHCPc_IF_INFO) (msg_type : Nat) (sel : TxSel) :
    ∀ it ∈ txOptItems null_mem host_name pif_info msg_type sel, it.proper := by
  intro it hit
  simp only [txOptItems, List.mem_append] at hit
  rcases hit with (((h | h) | h) | h) | h
  · simp at h; subst h; simp [OptItem.proper]; decide
  · split at h
    · simp at h; subst h; simp [OptItem.proper]; decide
    · simp at h
  · split at h
    · simp at h; subst h; simp [OptItem.proper]; decide
    · simp at h
  · unfold hostNameItems at h
    cases host_name with
    | none => simp at h
    | some n =>
      simp only at h
      split at h
      · simp at h; subst h; simp [OptItem.proper]; decide
      · simp at h
  · split at h
    · simp at h; subst h; simp [OptItem.proper]; decide
    · simp at h

/-- Decoding of the buffer built by `DHCPc_TxMsgPrepare`: every search returns the first option
of that code among the options written. -/
theorem TxMsgPrepare_decode (cfg : DHCPc_CFG) (null_mem : Mem)
    (cpu_name : Option (List Nat)) (tick : Nat) (pif_info : DHCPc_IF_INFO) (msg_type : Nat)
    (paddr_hw pmsg_buf : Mem) (msg_buf_size : Nat)
    (ht : msg_type = DHCP_MSG_DISCOVER ∨ msg_type = DHCP_MSG_REQUEST ∨
      msg_type = DHCP_MSG_DECLINE ∨ msg_type = DHCP_MSG_RELEASE)
    (hsize : DHCP_MSG_BUF_SIZE ≤ msg_buf_size)
    (hname : ∀ n, cpu_name = some n → n.length ≤ 255)
    (hq4 : 4 + pif_info.ParamReqQty ≤ 255) :
    ∃ sel, txSel cfg msg_type pif_info.ClientState = some sel ∧
      ∀ c, c ≠ DHCP_OPT_PAD →
        optValBytes (DHCPc_TxMsgPrepare cfg null_mem cpu_name tick pif_info msg_type paddr_hw
            NET_IF_ETHER_ADDR_SIZE pmsg_buf msg_buf_size).1.buf
          (DHCPc_MsgGetOpt c (DHCPc_TxMsgPrepare cfg null_mem cpu_name tick pif_info msg_type
            paddr_hw NET_IF_ETHER_ADDR_SIZE pmsg_buf msg_buf_size).1.buf
            (DHCPc_TxMsgPrepare cfg null_mem cpu_name tick pif_info msg_type paddr_hw
            NET_IF_ETHER_ADDR_SIZE pmsg_buf msg_buf_size).1.msg_size)
        = firstOpt c (txOptItems null_mem (txHostName cfg cpu_name) pif_info msg_type sel) := by
  obtain ⟨sel, hsel, opts, hopts, h⟩ := TxMsgPrepare_layout cfg null_mem cpu_name tick pif_info
    msg_type paddr_hw pmsg_buf msg_buf_size ht hsize hname (by omega)
  refine ⟨sel, hsel, ?_⟩
  intro c hc
  have hname2 : ∀ n, txHostName cfg cpu_name = some n → n.length ≤ 255 := by
    intro n hn
    unfold txHostName at hn
    split at hn
    · exact hname n hn
    · simp at hn
  generalize (DHCPc_TxMsgPrepare cfg null_mem cpu_name tick pif_info msg_type paddr_hw
    NET_IF_ETHER_ADDR_SIZE pmsg_buf msg_buf_size).1 = r at h
  obtain ⟨-, -, -, -, -, -, -, -, -, hsz, -, hbytes⟩ := h
  have henc := encode_txOptItems null_mem (txHostName cfg cpu_name) pif_info msg_type sel hname2 hq4
  rw [← hopts] at henc
  have hlen : (DHCP_MAGIC_COOKIE ++ opts ++ [DHCP_OPT_END]
      ++ List.replicate (r.msg_size - (236 + (4 + opts.length + 1))) DHCP_OPT_PAD).length
      = r.msg_size - 236 := by
    simp only [List.length_append, List.length_replicate, DHCP_MAGIC_COOKIE, List.length_cons,
      List.length_nil]
    omega
  rw [← hlen] at hbytes
  have hall := memHas_of_memBytes _ _ _ hbytes
  rw [List.append_assoc, List.append_assoc] at hall
  obtain ⟨hck, hrest⟩ := memHas_append _ _ _ _ hall
  rw [← List.append_assoc] at hrest
  obtain ⟨hopt, -⟩ := memHas_append _ _ _ _ hrest
  have hck4 : memBytes r.buf 236 4 = DHCP_MAGIC_COOKIE := memBytes_of_memHas _ _ _ hck
  rw [← henc] at hopt
  have := (MsgGetOpt_items c r.buf r.msg_size _ hc
    (proper_txOptItems null_mem (txHostName cfg cpu_name) pif_info msg_type sel) hopt
    (by rw [henc, hsz]; omega)).1 hck4
  exact this

theorem firstOpt_append (c : Nat) (a b : List OptItem) :
    firstOpt c (a ++ b) = (firstOpt c a).orElse (fun _ => firstOpt c b) := by
  induction a with
  | nil => simp [firstOpt]
  | cons x xs ih =>
    cases x with
    | pad => simpa [firstOpt] using ih
    | opt k v =>
      by_cases hk : k = c
      · simp [firstOpt, hk]
      · simpa [firstOpt, hk] using ih

theorem firstOpt_hostName (c : Nat) (host_name : Option (List Nat))
    (hc : c ≠ DHCP_OPT_HOST_NAME) : firstOpt c (hostNameItems host_name) = none := by
  unfold hostNameItems
  cases host_name with
  | none => simp [firstOpt]
  | some n =>
    simp only
    split
    · simp [firstOpt, Ne.symm hc]
    · simp [firstOpt]

theorem firstOpt_txOptItems (null_mem : Mem) (host_name : Option (List Nat))
    (pif_info : DHCPc_IF_INFO) (msg_type : Nat) (sel : TxSel) (c : Nat)
    (hc : c ≠ DHCP_OPT_HOST_NAME) :
    firstOpt c (txOptItems null_mem host_name pif_info msg_type sel) =
      if c = DHCP_OPT_DHCP_MESSAGE_TYPE then some [msg_type % 256]
      else if c = DHCP_OPT_REQUESTED_IP_ADDRESS ∧ sel.wr_req_ip_addr = true then
        some (memBytes (lastRxBuf null_mem pif_info) hdr.yiaddr 4)
      else if c = DHCP_OPT_SERVER_IDENTIFIER ∧ sel.wr_server_id = true then
        some (be32 pif_info.ServerID)
      else if c = DHCP_OPT_PARAMETER_REQUEST_LIST ∧ sel.req_param = true then
        some (DHCPc_ReqParam ++ memBytes pif_info.ParamReqTbl 0 pif_info.ParamReqQty)
      else none := by
  simp only [txOptItems, firstOpt_append, firstOpt_hostName c host_name hc]
  rcases sel with ⟨f, b1, b2, b3, b4⟩
  by_cases h53 : c = DHCP_OPT_DHCP_MESSAGE_TYPE
  · subst h53
    simp [firstOpt]
  · by_cases h50 : c = DHCP_OPT_REQUESTED_IP_ADDRESS
    · subst h50
      cases b2 <;> cases b3 <;> cases b4 <;>
        simp [firstOpt, DHCP_OPT_DHCP_MESSAGE_TYPE, DHCP_OPT_REQUESTED_IP_ADDRESS,
          DHCP_OPT_SERVER_IDENTIFIER, DHCP_OPT_PARAMETER_REQUEST_LIST]
    · by_cases h54 : c = DHCP_OPT_SERVER_IDENTIFIER
      · subst h54
        cases b2 <;> cases b3 <;> cases b4 <;>
          simp [firstOpt, DHCP_OPT_DHCP_MESSAGE_TYPE, DHCP_OPT_REQUESTED_IP_ADDRESS,
            DHCP_OPT_SERVER_IDENTIFIER, DHCP_OPT_PARAMETER_REQUEST_LIST]
      · by_cases h55 : c = DHCP_OPT_PARAMETER_REQUEST_LIST
        · subst h55
          cases b2 <;> cases b3 <;> cases b4 <;>
            simp [firstOpt, DHCP_OPT_DHCP_MESSAGE_TYPE, DHCP_OPT_REQUESTED_IP_ADDRESS,
              DHCP_OPT_SERVER_IDENTIFIER, DHCP_OPT_PARAMETER_REQUEST_LIST]
        · cases b2 <;> cases b3 <;> cases b4 <;>
            simp [firstOpt, h53, h50, h54, h55, Ne.symm h53, Ne.symm h50, Ne.symm h54,
              Ne.symm h55]

theorem optValBytes_len (mem : Mem) (r : Option (Nat × Nat)) (l : List Nat)
    (h : optValBytes mem r = some l) : r.map Prod.snd = some l.length := by
  cases r with
  | none => simp [optValBytes] at h
  | some x =>
    simp only [optValBytes, Option.map_some', Option.some.injEq] at h
    simp [← h, memBytes]

theorem optValBytes_none (mem : Mem) (r : Option (Nat × Nat))
    (h : optValBytes mem r = none) : r = none := by
  cases r with
  | none => rfl
  | some x => simp [optValBytes] at h

theorem txSel_req_param (cfg : DHCPc_CFG) (msg_type : Nat) (st : DHCPc_STATE) (sel : TxSel)
    (ht : msg_type = DHCP_MSG_DISCOVER ∨ msg_type = DHCP_MSG_REQUEST ∨
      msg_type = DHCP_MSG_DECLINE ∨ msg_type = DHCP_MSG_RELEASE)
    (hsel : txSel cfg msg_type st = some sel) :
    (sel.req_param = true ↔ (msg_type = DHCP_MSG_DISCOVER ∨ msg_type = DHCP_MSG_REQUEST)) ∧
    (sel.wr_req_ip_addr = true ↔ (msg_type = DHCP_MSG_DECLINE ∨ (msg_type = DHCP_MSG_REQUEST ∧
      (st = DHCP_STATE_SELECTING ∨ st = DHCP_STATE_INIT_REBOOT)))) ∧
    (sel.wr_server_id = true ↔ (msg_type = DHCP_MSG_DECLINE ∨ msg_type = DHCP_MSG_RELEASE ∨
      (msg_type = DHCP_MSG_REQUEST ∧ st = DHCP_STATE_SELECTING))) ∧
    (sel.get_local_addr = true ↔ (msg_type = DHCP_MSG_RELEASE ∨ (msg_type = DHCP_MSG_REQUEST ∧
      (st = DHCP_STATE_BOUND ∨ st = DHCP_STATE_RENEWING ∨ st = DHCP_STATE_REBINDING)))) := by
  rcases ht with h | h | h | h <;> subst h <;> cases st <;>
    simp [txSel, DHCP_MSG_DISCOVER, DHCP_MSG_REQUEST, DHCP_MSG_DECLINE, DHCP_MSG_RELEASE]
      at hsel <;> subst hsel <;>
    simp [DHCP_MSG_DISCOVER, DHCP_MSG_REQUEST, DHCP_MSG_DECLINE, DHCP_MSG_RELEASE]

/-- C4. Decoding undoes encoding: on the buffer and size produced by `DHCPc_TxMsgPrepare` for
DISCOVER, REQUEST, DECLINE or RELEASE (with `4 + ParamReqQty <= 255`), `DHCPc_MsgGetOpt` returns
for DHCP-MESSAGE-TYPE the one byte `msg_type`; for PARAMETER-REQUEST-LIST (DISCOVER, REQUEST)
the `4 + ParamReqQty` bytes SUBNET_MASK, ROUTER, DNS, TIME_OFFSET followed by the application's
codes in order; for REQUESTED-IP-ADDRESS and SERVER-IDENTIFIER, when written, the `yiaddr` bytes
of the last stored message and the bytes of `ServerID`; and NULL for an option that was not
written. -/
theorem C4_MsgGetOpt_of_TxMsgPrepare (cfg : DHCPc_CFG) (null_mem : Mem)
    (cpu_name : Option (List Nat)) (tick : Nat) (pif_info : DHCPc_IF_INFO) (msg_type : Nat)
    (paddr_hw pmsg_buf : Mem) (msg_buf_size : Nat)
    (ht : msg_type = DHCP_MSG_DISCOVER ∨ msg_type = DHCP_MSG_REQUEST ∨
      msg_type = DHCP_MSG_DECLINE ∨ msg_type = DHCP_MSG_RELEASE)
    (hsize : DHCP_MSG_BUF_SIZE ≤ msg_buf_size)
    (hname : ∀ n, cpu_name = some n → n.length ≤ 255)
    (hq4 : 4 + pif_info.ParamReqQty ≤ 255) :
    ∃ sel, txSel cfg msg_type pif_info.ClientState = some sel ∧
      ∀ r, r = (DHCPc_TxMsgPrepare cfg null_mem cpu_name tick pif_info msg_type paddr_hw
        NET_IF_ETHER_ADDR_SIZE pmsg_buf msg_buf_size).1 →
      optValBytes r.buf (DHCPc_MsgGetOpt DHCP_OPT_DHCP_MESSAGE_TYPE r.buf r.msg_size)
        = some [msg_type] ∧
      ((msg_type = DHCP_MSG_DISCOVER ∨ msg_type = DHCP_MSG_REQUEST) →
        optValBytes r.buf (DHCPc_MsgGetOpt DHCP_OPT_PARAMETER_REQUEST_LIST r.buf r.msg_size)
          = some ([DHCP_OPT_SUBNET_MASK, DHCP_OPT_ROUTER, DHCP_OPT_DOMAIN_NAME_SERVER,
              DHCP_OPT_TIME_OFFSET] ++ memBytes pif_info.ParamReqTbl 0 pif_info.ParamReqQty) ∧
        (DHCPc_MsgGetOpt DHCP_OPT_PARAMETER_REQUEST_LIST r.buf r.msg_size).map Prod.snd
          = some (4 + pif_info.ParamReqQty)) ∧
      (sel.wr_req_ip_addr = true →
        optValBytes r.buf (DHCPc_MsgGetOpt DHCP_OPT_REQUESTED_IP_ADDRESS r.buf r.msg_size)
          = some (memBytes (lastRxBuf null_mem pif_info) hdr.yiaddr 4)) ∧
      (sel.wr_server_id = true →
        optValBytes r.buf (DHCPc_MsgGetOpt DHCP_OPT_SERVER_IDENTIFIER r.buf r.msg_size)
          = some (be32 pif_info.ServerID)) ∧
      (sel.wr_req_ip_addr = false →
        DHCPc_MsgGetOpt DHCP_OPT_REQUESTED_IP_ADDRESS r.buf r.msg_size = none) ∧
      (sel.wr_server_id = false →
        DHCPc_MsgGetOpt DHCP_OPT_SERVER_IDENTIFIER r.buf r.msg_size = none) ∧
      (sel.req_param = false →
        DHCPc_MsgGetOpt DHCP_OPT_PARAMETER_REQUEST_LIST r.buf r.msg_size = none) ∧
      (∀ c, c ≠ DHCP_OPT_PAD → c ∉ [DHCP_OPT_DHCP_MESSAGE_TYPE, DHCP_OPT_REQUESTED_IP_ADDRESS,
          DHCP_OPT_SERVER_IDENTIFIER, DHCP_OPT_HOST_NAME, DHCP_OPT_PARAMETER_REQUEST_LIST] →
        DHCPc_MsgGetOpt c r.buf r.msg_size = none) := by
  obtain ⟨sel, hsel, hdec⟩ := TxMsgPrepare_decode cfg null_mem cpu_name tick pif_info msg_type
    paddr_hw pmsg_buf msg_buf_size ht hsize hname hq4
  obtain ⟨hrp, -, -, -⟩ := txSel_req_param cfg msg_type pif_info.ClientState sel ht hsel
  have hmt : msg_type % 256 = msg_type := by
    rcases ht with h | h | h | h <;> subst h <;> decide
  refine ⟨sel, hsel, ?_⟩
  intro r hr
  rw [← hr] at hdec
  have hf := fun c (hc : c ≠ DHCP_OPT_HOST_NAME) =>
    firstOpt_txOptItems null_mem (txHostName cfg cpu_name) pif_info msg_type sel c hc
  refine ⟨?_, ?_, ?_, ?_, ?_, ?_, ?_, ?_⟩
  · rw [hdec _ (by decide), hf _ (by decide)]
    simp [hmt]
  · intro hk
    have hreq := hrp.2 hk
    have h55 : optValBytes r.buf (DHCPc_MsgGetOpt DHCP_OPT_PARAMETER_REQUEST_LIST r.buf r.msg_size)
        = some (DHCPc_ReqParam ++ memBytes pif_info.ParamReqTbl 0 pif_info.ParamReqQty) := by
      rw [hdec _ (by decide), hf _ (by decide)]
      simp [hreq, DHCP_OPT_PARAMETER_REQUEST_LIST, DHCP_OPT_DHCP_MESSAGE_TYPE,
        DHCP_OPT_REQUESTED_IP_ADDRESS, DHCP_OPT_SERVER_IDENTIFIER]
    refine ⟨h55, ?_⟩
    have := optValBytes_len _ _ _ h55
    rw [this, List.length_append, memBytes_length]
    rfl
  · intro hw
    rw [hdec _ (by decide), hf _ (by decide)]
    simp [hw, DHCP_OPT_PARAMETER_REQUEST_LIST, DHCP_OPT_DHCP_MESSAGE_TYPE,
      DHCP_OPT_REQUESTED_IP_ADDRESS, DHCP_OPT_SERVER_IDENTIFIER]
  · intro hw
    rw [hdec _ (by decide), hf _ (by decide)]
    simp [hw, DHCP_OPT_PARAMETER_REQUEST_LIST, DHCP_OPT_DHCP_MESSAGE_TYPE,
      DHCP_OPT_REQUESTED_IP_ADDRESS, DHCP_OPT_SERVER_IDENTIFIER]
  · intro hw
    apply optValBytes_none r.buf
    rw [hdec _ (by decide), hf _ (by decide)]
    simp [hw, DHCP_OPT_PARAMETER_REQUEST_LIST, DHCP_OPT_DHCP_MESSAGE_TYPE,
      DHCP_OPT_REQUESTED_IP_ADDRESS, DHCP_OPT_SERVER_IDENTIFIER]
  · intro hw
    apply optValBytes_none r.buf
    rw [hdec _ (by decide), hf _ (by decide)]
    simp [hw, DHCP_OPT_PARAMETER_REQUEST_LIST, DHCP_OPT_DHCP_MESSAGE_TYPE,
      DHCP_OPT_REQUESTED_IP_ADDRESS, DHCP_OPT_SERVER_IDENTIFIER]
  · intro hw
    apply optValBytes_none r.buf
    rw [hdec _ (by decide), hf _ (by decide)]
    simp [hw, DHCP_OPT_PARAMETER_REQUEST_LIST, DHCP_OPT_DHCP_MESSAGE_TYPE,
      DHCP_OPT_REQUESTED_IP_ADDRESS, DHCP_OPT_SERVER_IDENTIFIER]
  · intro c hc hnot
    simp only [List.mem_cons, List.mem_singleton, List.not_mem_nil, or_false, not_or] at hnot
    obtain ⟨h1, h2, h3, h4, h5⟩ := hnot
    apply optValBytes_none r.buf
    rw [hdec _ hc, hf _ h4]
    simp [h1, h2, h3, h5]

/-- Witness of C4: the REQUEST built for `sampleIf` (SELECTING) decodes to message type 3. -/
theorem C4_MsgGetOpt_of_TxMsgPrepare_witness :
    optValBytes sampleReq.buf (DHCPc_MsgGetOpt DHCP_OPT_DHCP_MESSAGE_TYPE sampleReq.buf
      sampleReq.msg_size) = some [DHCP_MSG_REQUEST] := by
  obtain ⟨sel, -, h⟩ := C4_MsgGetOpt_of_TxMsgPrepare templateCfg zeroMem (some [117, 67]) 7
    sampleIf DHCP_MSG_REQUEST sampleHw zeroMem DHCP_MSG_BUF_SIZE (Or.inr (Or.inl rfl))
    (Nat.le_refl _) (by intro n hn; cases hn; decide) (by decide)
  exact (h sampleReq rfl).1

/-- C5. Kind-dependent fields chosen by `DHCPc_TxMsgPrepare`: `ciaddr` (header bytes 12..15) is
the `yiaddr` of the last stored server message for RELEASE and for a REQUEST built in RENEWING
or REBINDING, and zero for DISCOVER, DECLINE and a REQUEST built in SELECTING or INIT_REBOOT;
the option area holds the REQUESTED-IP-ADDRESS block exactly for DECLINE and for a REQUEST in
SELECTING or INIT_REBOOT, the SERVER-IDENTIFIER block exactly for DECLINE, RELEASE and a
REQUEST in SELECTING, and the PARAMETER-REQUEST-LIST block exactly for DISCOVER and REQUEST. -/
theorem C5_TxMsgPrepare_kind_fields (cfg : DHCPc_CFG) (null_mem : Mem)
    (cpu_name : Option (List Nat)) (tick : Nat) (pif_info : DHCPc_IF_INFO) (msg_type : Nat)
    (paddr_hw pmsg_buf : Mem) (msg_buf_size : Nat)
    (ht : msg_type = DHCP_MSG_DISCOVER ∨ msg_type = DHCP_MSG_REQUEST ∨
      msg_type = DHCP_MSG_DECLINE ∨ msg_type = DHCP_MSG_RELEASE)
    (hsize : DHCP_MSG_BUF_SIZE ≤ msg_buf_size)
    (hname : ∀ n, cpu_name = some n → n.length ≤ 255)
    (hqty : pif_info.ParamReqQty ≤ 255) :
    ∀ r st yi, r = (DHCPc_TxMsgPrepare cfg null_mem cpu_name tick pif_info msg_type paddr_hw
        NET_IF_ETHER_ADDR_SIZE pmsg_buf msg_buf_size).1 →
      st = pif_info.ClientState →
      yi = memBytes (lastRxBuf null_mem pif_info) hdr.yiaddr 4 →
      ((msg_type = DHCP_MSG_RELEASE ∨ (msg_type = DHCP_MSG_REQUEST ∧
          (st = DHCP_STATE_RENEWING ∨ st = DHCP_STATE_REBINDING))) →
        memBytes r.buf hdr.ciaddr 4 = yi) ∧
      ((msg_type = DHCP_MSG_DISCOVER ∨ msg_type = DHCP_MSG_DECLINE ∨
          (msg_type = DHCP_MSG_REQUEST ∧
            (st = DHCP_STATE_SELECTING ∨ st = DHCP_STATE_INIT_REBOOT))) →
        memBytes r.buf hdr.ciaddr 4 = [0, 0, 0, 0]) ∧
      ∃ opts,
        opts = [DHCP_OPT_DHCP_MESSAGE_TYPE, 1, msg_type]
          ++ (if msg_type = DHCP_MSG_DECLINE ∨ (msg_type = DHCP_MSG_REQUEST ∧
                (st = DHCP_STATE_SELECTING ∨ st = DHCP_STATE_INIT_REBOOT))
              then DHCP_OPT_REQUESTED_IP_ADDRESS :: 4 :: yi else [])
          ++ (if msg_type = DHCP_MSG_DECLINE ∨ msg_type = DHCP_MSG_RELEASE ∨
                (msg_type = DHCP_MSG_REQUEST ∧ st = DHCP_STATE_SELECTING)
              then DHCP_OPT_SERVER_IDENTIFIER :: 4 :: be32 pif_info.ServerID else [])
          ++ hostNameBytes (txHostName cfg cpu_name)
          ++ (if msg_type = DHCP_MSG_DISCOVER ∨ msg_type = DHCP_MSG_REQUEST
              then DHCP_OPT_PARAMETER_REQUEST_LIST
                :: ((pif_info.ParamReqQty + 4) % 256)
                :: (DHCPc_ReqParam ++ memBytes pif_info.ParamReqTbl 0 pif_info.ParamReqQty)
              else []) ∧
        memBytes r.buf 236 (r.msg_size - 236) =
          DHCP_MAGIC_COOKIE ++ opts ++ [DHCP_OPT_END]
            ++ List.replicate (r.msg_size - (236 + (4 + opts.length + 1))) DHCP_OPT_PAD := by
  intro r st yi hr hst hyi
  obtain ⟨sel, hsel, opts, hopts, h⟩ := TxMsgPrepare_layout cfg null_mem cpu_name tick pif_info
    msg_type paddr_hw pmsg_buf msg_buf_size ht hsize hname hqty
  obtain ⟨hrp, hri, hsi, hla⟩ := txSel_req_param cfg msg_type pif_info.ClientState sel ht hsel
  have hmt : msg_type % 256 = msg_type := by
    rcases ht with h | h | h | h <;> subst h <;> decide
  rw [← hr] at h
  rw [← hst] at hri hsi hla
  obtain ⟨-, -, -, -, -, hci, -, -, -, -, -, hbytes⟩ := h
  have hc12 : hdr.ciaddr = 12 := rfl
  refine ⟨?_, ?_, opts, ?_, hbytes⟩
  · intro hk
    have : sel.get_local_addr = true := hla.2 (by
      rcases hk with h | ⟨h, h2 | h2⟩
      · exact Or.inl h
      · exact Or.inr ⟨h, Or.inr (Or.inl h2)⟩
      · exact Or.inr ⟨h, Or.inr (Or.inr h2)⟩)
    rw [hc12, hci, if_pos this, hyi]
  · intro hk
    have : ¬ (sel.get_local_addr = true) := by
      rw [hla]
      rcases hk with h | h | ⟨h, h2 | h2⟩
      · subst h; simp [DHCP_MSG_DISCOVER, DHCP_MSG_REQUEST, DHCP_MSG_RELEASE]
      · subst h; simp [DHCP_MSG_DECLINE, DHCP_MSG_REQUEST, DHCP_MSG_RELEASE]
      · subst h; simp [DHCP_MSG_REQUEST, DHCP_MSG_RELEASE, h2]
      · subst h; simp [DHCP_MSG_REQUEST, DHCP_MSG_RELEASE, h2]
    rw [hc12, hci, if_neg this]
    simp [be32]
  · rw [hopts]
    simp only [txOptBytes, reqIpBytes, serverIdBytes, reqParamBytes, hri, hsi, hrp, hmt, ← hyi]
    rfl

/-- Witness of C5: the REQUEST built for `sampleIf` (SELECTING) carries a zero `ciaddr`. -/
theorem C5_TxMsgPrepare_kind_fields_witness :
    memBytes sampleReq.buf hdr.ciaddr 4 = [0, 0, 0, 0] :=
  (C5_TxMsgPrepare_kind_fields templateCfg zeroMem (some [117, 67]) 7
    sampleIf DHCP_MSG_REQUEST sampleHw zeroMem DHCP_MSG_BUF_SIZE (Or.inr (Or.inl rfl))
    (Nat.le_refl _) (by intro n hn; cases hn; decide) (by decide)
    sampleReq DHCP_STATE_SELECTING _ rfl rfl rfl).2.1 (Or.inr (Or.inr ⟨rfl, Or.inl rfl⟩))

/-! ### What the handlers leave alone -/

@[simp] theorem infoPart_log (w : Client) (e : Event) : infoPart (w.log e) = infoPart w := rfl

@[simp] theorem infoPart_KAL_Dly (w : Client) (ms : Nat) : infoPart (KAL_Dly w ms) = infoPart w :=
  rfl

@[simp] theorem infoPart_IsEnCfgd (w : Client) : infoPart (NetIF_IsEnCfgd w).2 = infoPart w := rfl

@[simp] theorem infoPart_AddrHW_Get (w : Client) : infoPart (NetIF_AddrHW_Get w).2 = infoPart w :=
  rfl

@[simp] theorem infoPart_TimeGet_tick (w : Client) :
    infoPart (DHCPc_OS_TimeGet_tick w).2 = infoPart w := rfl

@[simp] theorem infoPart_Lock (w : Client) : infoPart (DHCPc_OS_Lock w).2 = infoPart w := rfl

@[simp] theorem infoPart_MsgPost (w : Client) (pcomm : DHCPc_COMM) :
    infoPart (DHCPc_OS_MsgPost w pcomm).2 = infoPart w := by
  unfold DHCPc_OS_MsgPost; simp only []; split <;> rfl

@[simp] theorem infoPart_MsgGet (w : Client) : infoPart (DHCPc_MsgGet w).2.2 = infoPart w := by
  unfold DHCPc_MsgGet; split <;> rfl

@[simp] theorem infoPart_MsgFree (cfg : DHCPc_CFG) (w : Client) (pmsg : DHCPc_MSG) :
    infoPart (DHCPc_MsgFree cfg w pmsg) = infoPart w := by
  unfold DHCPc_MsgFree; split <;> rfl

@[simp] theorem infoPart_CommGet (w : Client) (if_nbr : Nat) (m : DHCPc_COMM_MSG) :
    infoPart (DHCPc_CommGet w if_nbr m).2.2 = infoPart w := by
  unfold DHCPc_CommGet; split <;> rfl

@[simp] theorem infoPart_CommFree (cfg : DHCPc_CFG) (w : Client) (pcomm : DHCPc_COMM) :
    infoPart (DHCPc_CommFree cfg w pcomm) = infoPart w := by
  unfold DHCPc_CommFree; split <;> rfl

@[simp] theorem infoPart_TmrGet (w : Client) (pobj : DHCPc_COMM) (t : Nat) :
    infoPart (DHCPc_TmrGet w pobj t).2.2 = infoPart w := by
  unfold DHCPc_TmrGet; split <;> rfl

@[simp] theorem env_CommFree (cfg : DHCPc_CFG) (w : Client) (pcomm : DHCPc_COMM) :
    (DHCPc_CommFree cfg w pcomm).env = w.env := by
  unfold DHCPc_CommFree; split <;> rfl

@[simp] theorem infoPart_TmrFree (cfg : DHCPc_CFG) (w : Client) (ptmr : Nat) :
    infoPart (DHCPc_TmrFree cfg w ptmr) = infoPart w := by
  unfold DHCPc_TmrFree; split <;> rfl

@[simp] theorem infoPart_InitSock (w : Client) (a n : Nat) :
    infoPart (DHCPc_InitSock w a n).2 = infoPart w := rfl

@[simp] theorem infoPart_SockClose (w : Client) : infoPart (NetApp_SockClose w) = infoPart w := rfl

@[simp] theorem infoPart_DynamicStart (w : Client) (n : Nat) :
    infoPart (NetIPv4_CfgAddrAddDynamicStart w n).2 = infoPart w := rfl

@[simp] theorem infoPart_DynamicStop (w : Client) (n : Nat) :
    infoPart (NetIPv4_CfgAddrAddDynamicStop w n) = infoPart w := rfl

@[simp] theorem infoPart_RemoveAll (w : Client) (n : Nat) :
    infoPart (NetIPv4_CfgAddrRemoveAll w n).2 = infoPart w := rfl

@[simp] theorem infoPart_AddDynamic (w : Client) (n h m g : Nat) :
    infoPart (NetIPv4_CfgAddrAddDynamic w n h m g).2 = infoPart w := rfl

@[simp] theorem infoPart_TmrCfg (cfg : DHCPc_CFG) (w : Client) (p : DHCPc_IF_INFO)
    (m : DHCPc_COMM_MSG) (t : Nat) : infoPart (DHCPc_TmrCfg cfg w p m t).2.2 = infoPart w := by
  unfold DHCPc_TmrCfg
  dsimp only
  repeat' split
  all_goals simp

@[simp] theorem kept_TmrCfg (cfg : DHCPc_CFG) (w : Client) (p : DHCPc_IF_INFO)
    (m : DHCPc_COMM_MSG) (t : Nat) : kept (DHCPc_TmrCfg cfg w p m t).2.1 = kept p := by
  unfold DHCPc_TmrCfg
  dsimp only
  repeat' split
  all_goals rfl

@[simp] theorem infoPart_LeaseTimeCalc (cfg : DHCPc_CFG) (w : Client) (p : DHCPc_IF_INFO) :
    infoPart (DHCPc_LeaseTimeCalc cfg w p).2.2 = infoPart w := by
  unfold DHCPc_LeaseTimeCalc
  dsimp only
  repeat' split
  all_goals simp

@[simp] theorem kept_LeaseTimeCalc (cfg : DHCPc_CFG) (w : Client) (p : DHCPc_IF_INFO) :
    kept (DHCPc_LeaseTimeCalc cfg w p).2.1 = kept p := by
  unfold DHCPc_LeaseTimeCalc
  dsimp only
  split
  · rfl
  · simp [kept_TmrCfg]; rfl

@[simp] theorem infoPart_leaseTmrCfg (cfg : DHCPc_CFG) (w : Client) (p : DHCPc_IF_INFO)
    (m : DHCPc_COMM_MSG) (t : Nat) : infoPart (leaseTmrCfg cfg w p m t).2.2 = infoPart w := by
  simp [leaseTmrCfg]

@[simp] theorem kept_leaseTmrCfg (cfg : DHCPc_CFG) (w : Client) (p : DHCPc_IF_INFO)
    (m : DHCPc_COMM_MSG) (t : Nat) : kept (leaseTmrCfg cfg w p m t).2.1 = kept p := by
  simp [leaseTmrCfg]

@[simp] theorem infoPart_LeaseTimeUpdate (cfg : DHCPc_CFG) (w : Client) (p : DHCPc_IF_INFO)
    (m : DHCPc_COMM_MSG) : infoPart (DHCPc_LeaseTimeUpdate cfg w p m).2.2 = infoPart w := by
  unfold DHCPc_LeaseTimeUpdate
  dsimp only
  repeat' split
  all_goals simp

@[simp] theorem kept_LeaseTimeUpdate (cfg : DHCPc_CFG) (w : Client) (p : DHCPc_IF_INFO)
    (m : DHCPc_COMM_MSG) : kept (DHCPc_LeaseTimeUpdate cfg w p m).2.1 = kept p := by
  unfold DHCPc_LeaseTimeUpdate
  dsimp only
  repeat' split
  all_goals first | rfl | (simp; rfl)

@[simp] theorem infoPart_AddrValidate (cfg : DHCPc_CFG) (w : Client) (n a d : Nat) :
    infoPart (DHCPc_AddrValidate cfg w n a d).2 = infoPart w := by
  unfold DHCPc_AddrValidate
  dsimp only
  repeat' split
  all_goals rfl

@[simp] theorem infoPart_AddrCfg (w : Client) (p : DHCPc_IF_INFO) :
    infoPart (DHCPc_AddrCfg w p).2 = infoPart w := by
  simp [DHCPc_AddrCfg]

@[simp] theorem infoPart_AddrLocalLinkGet (w : Client) (hw : List Nat) (n : Nat) :
    infoPart (DHCPc_AddrLocalLinkGet w hw n).2 = infoPart w := by
  simp [DHCPc_AddrLocalLinkGet]

@[simp] theorem infoPart_localLinkSrch (cfg : DHCPc_CFG) (p : DHCPc_IF_INFO) (hw : List Nat)
    (len n c : Nat) (e : DHCPc_ERR) (a : Nat) (w : Client) :
    infoPart (localLinkSrch cfg p hw len n c e a w).2.2 = infoPart w := by
  induction n generalizing c e a w with
  | zero => rfl
  | succ n ih =>
    unfold localLinkSrch
    dsimp only
    split
    · split <;> simp
    · rw [ih]; split <;> simp
    · split <;> simp

@[simp] theorem infoPart_localLinkAnnounce (a n : Nat) (w : Client) :
    infoPart (localLinkAnnounce a n w) = infoPart w := by
  induction n generalizing w with
  | zero => rfl
  | succ n ih =>
    unfold localLinkAnnounce
    dsimp only
    split
    · rw [ih]; rfl
    · rfl

@[simp] theorem infoPart_AddrLocalLinkCfg (cfg : DHCPc_CFG) (w : Client) (p : DHCPc_IF_INFO)
    (hw : List Nat) (len : Nat) (e : DHCPc_ERR) :
    infoPart (DHCPc_AddrLocalLinkCfg cfg w p hw len e).2 = infoPart w := by
  unfold DHCPc_AddrLocalLinkCfg
  dsimp only
  repeat' split
  all_goals simp

@[simp] theorem infoPart_Tx (w : Client) (d : List Nat) (a : Nat) :
    infoPart (DHCPc_Tx w d a).2 = infoPart w := rfl

@[simp] theorem infoPart_RxReply (cfg : DHCPc_CFG) (w : Client) (p : DHCPc_IF_INFO) (sid : Nat)
    (hw : List Nat) (len : Nat) (buf : Mem) (blen : Nat) :
    infoPart (DHCPc_RxReply cfg w p sid hw len buf blen).2 = infoPart w := by
  unfold DHCPc_RxReply
  dsimp only
  repeat' split
  all_goals rfl

@[simp] theorem kept_TxMsgPrepare (cfg : DHCPc_CFG) (nm : Mem) (cn : Option (List Nat))
    (tick : Nat) (p : DHCPc_IF_INFO) (mt : Nat) (hw : Mem) (len : Nat) (buf : Mem) (sz : Nat) :
    kept (DHCPc_TxMsgPrepare cfg nm cn tick p mt hw len buf sz).2 = kept p := by
  unfold DHCPc_TxMsgPrepare
  repeat' split
  all_goals rfl

@[simp] theorem infoPart_txPrepare (cfg : DHCPc_CFG) (w : Client) (p : DHCPc_IF_INFO) (mt : Nat)
    (hw : List Nat) (len : Nat) (pmsg : DHCPc_MSG) :
    infoPart (txPrepare cfg w p mt hw len pmsg).2.2 = infoPart w := by
  unfold txPrepare
  dsimp only
  split <;> simp

@[simp] theorem kept_txPrepare (cfg : DHCPc_CFG) (w : Client) (p : DHCPc_IF_INFO) (mt : Nat)
    (hw : List Nat) (len : Nat) (pmsg : DHCPc_MSG) :
    kept (txPrepare cfg w p mt hw len pmsg).2.1 = kept p := by
  simp [txPrepare]

@[simp] theorem infoPart_backOffDly (w : Client) (ms : Nat) :
    infoPart (backOffDly w ms) = infoPart w := rfl

@[simp] theorem infoPart_discoverRx (cfg : DHCPc_CFG) (p : DHCPc_IF_INFO) (hw : List Nat)
    (len fuel : Nat) (w : Client) (pmsg : DHCPc_MSG) :
    infoPart (discoverRx cfg p hw len fuel w pmsg).w = infoPart w := by
  induction fuel generalizing w pmsg with
  | zero => rfl
  | succ n ih =>
    unfold discoverRx
    dsimp only
    repeat' split
    all_goals simp [ih]

@[simp] theorem infoPart_reqRx (cfg : DHCPc_CFG) (p : DHCPc_IF_INFO) (hw : List Nat)
    (len fuel : Nat) (w : Client) (pmsg : DHCPc_MSG) :
    infoPart (reqRx cfg p hw len fuel w pmsg).w = infoPart w := by
  induction fuel generalizing w pmsg with
  | zero => rfl
  | succ n ih =>
    unfold reqRx
    dsimp only
    repeat' split
    all_goals simp [ih]

@[simp] theorem infoPart_discoverLoop (cfg : DHCPc_CFG) (hw : List Nat) (len n : Nat) (d : Bool)
    (ms : Nat) (e : DHCPc_ERR) (p : DHCPc_IF_INFO) (pmsg : DHCPc_MSG) (w : Client) :
    infoPart (discoverLoop cfg hw len n d ms e p pmsg w).w = infoPart w := by
  induction n generalizing d ms e p pmsg w with
  | zero => rfl
  | succ n ih =>
    unfold discoverLoop
    dsimp only
    repeat' split
    all_goals simp [ih]

@[simp] theorem kept_discoverLoop (cfg : DHCPc_CFG) (hw : List Nat) (len n : Nat) (d : Bool)
    (ms : Nat) (e : DHCPc_ERR) (p : DHCPc_IF_INFO) (pmsg : DHCPc_MSG) (w : Client) :
    kept (discoverLoop cfg hw len n d ms e p pmsg w).pif_info = kept p := by
  induction n generalizing d ms e p pmsg w with
  | zero => rfl
  | succ n ih =>
    unfold discoverLoop
    dsimp only
    repeat' split
    all_goals first | (simp [ih]; done) | (simp [ih]; rfl)

@[simp] theorem infoPart_reqLoop (cfg : DHCPc_CFG) (hw : List Nat) (len n : Nat) (d : Bool)
    (ms : Nat) (e : DHCPc_ERR) (p : DHCPc_IF_INFO) (pmsg : DHCPc_MSG) (w : Client) :
    infoPart (reqLoop cfg hw len n d ms e p pmsg w).w = infoPart w := by
  induction n generalizing d ms e p pmsg w with
  | zero => rfl
  | succ n ih =>
    unfold reqLoop
    dsimp only
    repeat' split
    all_goals simp [ih]

@[simp] theorem kept_reqLoop (cfg : DHCPc_CFG) (hw : List Nat) (len n : Nat) (d : Bool)
    (ms : Nat) (e : DHCPc_ERR) (p : DHCPc_IF_INFO) (pmsg : DHCPc_MSG) (w : Client) :
    kept (reqLoop cfg hw len n d ms e p pmsg w).pif_info = kept p := by
  induction n generalizing d ms e p pmsg w with
  | zero => rfl
  | succ n ih =>
    unfold reqLoop
    dsimp only
    repeat' split
    all_goals simp [ih]

@[simp] theorem infoPart_storeMsg (cfg : DHCPc_CFG) (w : Client) (p : DHCPc_IF_INFO)
    (pmsg : DHCPc_MSG) : infoPart (storeMsg cfg w p pmsg).2 = infoPart w := by
  unfold storeMsg
  dsimp only
  split <;> simp

@[simp] theorem kept_storeMsg (cfg : DHCPc_CFG) (w : Client) (p : DHCPc_IF_INFO)
    (pmsg : DHCPc_MSG) : kept (storeMsg cfg w p pmsg).1 = kept p := rfl

@[simp] theorem infoPart_Discover (cfg : DHCPc_CFG) (w : Client) (p : DHCPc_IF_INFO)
    (hw : List Nat) (len : Nat) : infoPart (DHCPc_Discover cfg w p hw len).2.2 = infoPart w := by
  unfold DHCPc_Discover
  dsimp only
  repeat' split
  all_goals simp

@[simp] theorem kept_Discover (cfg : DHCPc_CFG) (w : Client) (p : DHCPc_IF_INFO)
    (hw : List Nat) (len : Nat) : kept (DHCPc_Discover cfg w p hw len).2.1 = kept p := by
  unfold DHCPc_Discover
  dsimp only
  repeat' split
  all_goals first | (simp; done) | (simp only [kept, storeMsg]; exact kept_discoverLoop ..)

@[simp] theorem infoPart_Req (cfg : DHCPc_CFG) (w : Client) (p : DHCPc_IF_INFO)
    (hw : List Nat) (len : Nat) : infoPart (DHCPc_Req cfg w p hw len).2.2 = infoPart w := by
  unfold DHCPc_Req
  dsimp only
  repeat' split
  all_goals simp

@[simp] theorem kept_Req (cfg : DHCPc_CFG) (w : Client) (p : DHCPc_IF_INFO)
    (hw : List Nat) (len : Nat) : kept (DHCPc_Req cfg w p hw len).2.1 = kept p := by
  unfold DHCPc_Req
  dsimp only
  repeat' split
  all_goals simp

@[simp] theorem infoPart_DeclineRelease (cfg : DHCPc_CFG) (w : Client) (p : DHCPc_IF_INFO)
    (mt : Nat) (hw : List Nat) (len : Nat) :
    infoPart (DHCPc_DeclineRelease cfg w p mt hw len).2.2 = infoPart w := by
  unfold DHCPc_DeclineRelease
  dsimp only
  repeat' split
  all_goals simp

@[simp] theorem kept_DeclineRelease (cfg : DHCPc_CFG) (w : Client) (p : DHCPc_IF_INFO)
    (mt : Nat) (hw : List Nat) (len : Nat) :
    kept (DHCPc_DeclineRelease cfg w p mt hw len).2.1 = kept p := by
  unfold DHCPc_DeclineRelease
  dsimp only
  repeat' split
  all_goals simp

@[simp] theorem kept_setState (p : DHCPc_IF_INFO) (s : DHCPc_STATE) : kept (setState p s) = kept p :=
  rfl

@[simp] theorem infoPart_negoLoop (cfg : DHCPc_CFG) (ifn : Nat) (hw : List Nat) (len n : Nat)
    (d : Bool) (e : DHCPc_ERR) (p : DHCPc_IF_INFO) (w : Client) :
    infoPart (negoLoop cfg ifn hw len n d e p w).2.2 = infoPart w := by
  induction n generalizing d e p w with
  | zero => rfl
  | succ n ih =>
    unfold negoLoop
    dsimp only
    repeat' split
    all_goals simp [ih]

@[simp] theorem kept_negoLoop (cfg : DHCPc_CFG) (ifn : Nat) (hw : List Nat) (len n : Nat)
    (d : Bool) (e : DHCPc_ERR) (p : DHCPc_IF_INFO) (w : Client) :
    kept (negoLoop cfg ifn hw len n d e p w).2.1 = kept p := by
  induction n generalizing d e p w with
  | zero => rfl
  | succ n ih =>
    unfold negoLoop
    dsimp only
    repeat' split
    all_goals simp [ih]

@[simp] theorem infoPart_initCfgIF (cfg : DHCPc_CFG) (w : Client) (p : DHCPc_IF_INFO)
    (hw : List Nat) (len : Nat) (e : DHCPc_ERR) :
    infoPart (initCfgIF cfg w p hw len e).2.2 = infoPart w := by
  unfold initCfgIF
  dsimp only
  repeat' split
  all_goals simp

@[simp] theorem kept_initCfgIF (cfg : DHCPc_CFG) (w : Client) (p : DHCPc_IF_INFO)
    (hw : List Nat) (len : Nat) (e : DHCPc_ERR) :
    kept (initCfgIF cfg w p hw len e).2.1 = kept p := by
  unfold initCfgIF
  dsimp only
  repeat' split
  all_goals simp

theorem initNego_inl (cfg : DHCPc_CFG) (w : Client) (p : DHCPc_IF_INFO) (e : DHCPc_ERR)
    (r : DHCPc_ERR × DHCPc_IF_INFO × Client) (h : initNego cfg w p e = Sum.inl r) :
    infoPart r.2.2 = infoPart w ∧ r.2.1 = p ∧
      (r.1 = DHCPc_ERR_IF_INVALID ∨ r.1 = DHCPc_ERR_INVALID_HW_ADDR ∨ r.1 = DHCPc_ERR_INIT_SOCK
        ∨ r.1 = DHCPc_ERR_IF_CFG_STATE) := by
  unfold initNego at h
  dsimp only at h
  repeat' split at h
  all_goals first
    | (cases h; done)
    | (simp only [Sum.inl.injEq] at h; subst h; simp)

theorem initNego_inr (cfg : DHCPc_CFG) (w : Client) (p : DHCPc_IF_INFO) (e : DHCPc_ERR)
    (s : Nego) (h : initNego cfg w p e = Sum.inr s) :
    infoPart s.w = infoPart w ∧ kept s.pif_info = kept p := by
  unfold initNego at h
  dsimp only at h
  repeat' split at h
  all_goals first
    | (cases h; done)
    | (simp only [Sum.inr.injEq] at h; subst h; simp)

@[simp] theorem infoPart_InitStateHandler (cfg : DHCPc_CFG) (w : Client) (p : DHCPc_IF_INFO)
    (e : DHCPc_ERR) : infoPart (DHCPc_InitStateHandler cfg w p e).2.2 = infoPart w := by
  unfold DHCPc_InitStateHandler
  split
  · rename_i r h; exact (initNego_inl cfg w p e r h).1
  · rename_i s h; rw [infoPart_initCfgIF]; exact (initNego_inr cfg w p e s h).1

@[simp] theorem kept_InitStateHandler (cfg : DHCPc_CFG) (w : Client) (p : DHCPc_IF_INFO)
    (e : DHCPc_ERR) : kept (DHCPc_InitStateHandler cfg w p e).2.1 = kept p := by
  unfold DHCPc_InitStateHandler
  split
  · rename_i r h; rw [(initNego_inl cfg w p e r h).2.1]
  · rename_i s h; rw [kept_initCfgIF]; exact (initNego_inr cfg w p e s h).2

@[simp] theorem infoPart_renewRebind (cfg : DHCPc_CFG) (w : Client) (p : DHCPc_IF_INFO)
    (m : DHCPc_COMM_MSG) : infoPart (renewRebind cfg w p m).2.2 = infoPart w := by
  unfold renewRebind
  dsimp only
  repeat' split
  all_goals simp

@[simp] theorem kept_renewRebind (cfg : DHCPc_CFG) (w : Client) (p : DHCPc_IF_INFO)
    (m : DHCPc_COMM_MSG) : kept (renewRebind cfg w p m).2.1 = kept p := by
  unfold renewRebind
  dsimp only
  repeat' split
  all_goals simp

@[simp] theorem infoPart_RenewRebindStateHandler (cfg : DHCPc_CFG) (w : Client)
    (p : DHCPc_IF_INFO) (m : DHCPc_COMM_MSG) :
    infoPart (DHCPc_RenewRebindStateHandler cfg w p m).2.2 = infoPart w := by
  unfold DHCPc_RenewRebindStateHandler
  repeat' split
  all_goals simp

@[simp] theorem kept_RenewRebindStateHandler (cfg : DHCPc_CFG) (w : Client)
    (p : DHCPc_IF_INFO) (m : DHCPc_COMM_MSG) :
    kept (DHCPc_RenewRebindStateHandler cfg w p m).2.1 = kept p := by
  unfold DHCPc_RenewRebindStateHandler
  repeat' split
  all_goals simp

@[simp] theorem infoPart_stopRelease (cfg : DHCPc_CFG) (w : Client) (p : DHCPc_IF_INFO) :
    infoPart (stopRelease cfg w p).2 = infoPart w := by
  unfold stopRelease
  dsimp only
  repeat' split
  all_goals simp

@[simp] theorem kept_stopRelease (cfg : DHCPc_CFG) (w : Client) (p : DHCPc_IF_INFO) :
    kept (stopRelease cfg w p).1 = kept p := by
  unfold stopRelease
  dsimp only
  repeat' split
  all_goals simp

@[simp] theorem infoPart_stopFree (cfg : DHCPc_CFG) (w : Client) (p : DHCPc_IF_INFO) :
    infoPart (stopFree cfg w p).2 = infoPart w := by
  unfold stopFree
  dsimp only
  repeat' split
  all_goals simp

@[simp] theorem kept_stopFree (cfg : DHCPc_CFG) (w : Client) (p : DHCPc_IF_INFO) :
    kept (stopFree cfg w p).1 = kept p := by
  unfold stopFree
  dsimp only
  repeat' split
  all_goals rfl

@[simp] theorem key_initStatus (p : DHCPc_IF_INFO) (e : DHCPc_ERR) :
    key (initStatus p e) = key p := by
  unfold initStatus
  split <;> rfl

@[simp] theorem key_renewStatus (p : DHCPc_IF_INFO) (e : DHCPc_ERR) :
    key (renewStatus p e) = key p := by
  unfold renewStatus
  split <;> rfl

theorem key_of_kept (a b : DHCPc_IF_INFO) (h : kept a = kept b) : key a = key b := by
  simp only [kept, Prod.mk.injEq] at h
  simp [key, h.1, h.2.1]

@[simp] theorem key_setState (p : DHCPc_IF_INFO) (s : DHCPc_STATE) : key (setState p s) = key p :=
  rfl

@[simp] theorem key_InitStateHandler (cfg : DHCPc_CFG) (w : Client) (p : DHCPc_IF_INFO)
    (e : DHCPc_ERR) : key (DHCPc_InitStateHandler cfg w p e).2.1 = key p :=
  key_of_kept _ _ (kept_InitStateHandler cfg w p e)

@[simp] theorem key_RenewRebindStateHandler (cfg : DHCPc_CFG) (w : Client)
    (p : DHCPc_IF_INFO) (m : DHCPc_COMM_MSG) :
    key (DHCPc_RenewRebindStateHandler cfg w p m).2.1 = key p :=
  key_of_kept _ _ (kept_RenewRebindStateHandler cfg w p m)

@[simp] theorem key_stopRelease (cfg : DHCPc_CFG) (w : Client) (p : DHCPc_IF_INFO) :
    key (stopRelease cfg w p).1 = key p := key_of_kept _ _ (kept_stopRelease cfg w p)

@[simp] theorem key_stopFree (cfg : DHCPc_CFG) (w : Client) (p : DHCPc_IF_INFO) :
    key (stopFree cfg w p).1 = key p := key_of_kept _ _ (kept_stopFree cfg w p)

/-! ### The invariant of the interface records -/

theorem InfoInv_setInfo (w x : Client) (q : DHCPc_IF_INFO) (hx : infoPart x = infoPart w)
    (h : InfoInv (infoPart w)) (hq : key q ∈ w.DHCPc_InfoListHead.map key) :
    InfoInv (infoPart (x.setInfo q)) ∧
      (infoPart (x.setInfo q)).1.map key = w.DHCPc_InfoListHead.map key := by
  obtain ⟨hid, hnbr, hpool, hdis, hdone⟩ := h
  simp only [infoPart, Prod.mk.injEq] at hx
  obtain ⟨hx1, hx2, hx3⟩ := hx
  simp only [infoPart] at hid hnbr hpool hdis hdone
  obtain ⟨p, hp, hpq⟩ := List.mem_map.1 hq
  simp only [key, Prod.mk.injEq] at hpq
  have hkey : ∀ r ∈ w.DHCPc_InfoListHead,
      key (if r.ID = q.ID then q else r) = key r := by
    intro r hr
    split
    · rename_i hrq
      have : r = p := List.inj_on_of_nodup_map hid hr hp (by rw [hrq, hpq.1])
      subst this
      simp [key, hpq.1, hpq.2]
    · rfl
  have hmap : (w.DHCPc_InfoListHead.map (fun r => if r.ID = q.ID then q else r)).map key
      = w.DHCPc_InfoListHead.map key := by
    rw [List.map_map]
    exact List.map_congr_left hkey
  have hmapI : (w.DHCPc_InfoListHead.map (fun r => if r.ID = q.ID then q else r)).map
      (fun r => r.ID) = w.DHCPc_InfoListHead.map (fun r => r.ID) := by
    have := congrArg (List.map Prod.fst) hmap
    simpa [List.map_map, Function.comp, key] using this
  have hmapN : (w.DHCPc_InfoListHead.map (fun r => if r.ID = q.ID then q else r)).map
      (fun r => r.IF_Nbr) = w.DHCPc_InfoListHead.map (fun r => r.IF_Nbr) := by
    have := congrArg (List.map Prod.snd) hmap
    simpa [List.map_map, Function.comp, key] using this
  refine ⟨⟨?_, ?_, ?_, ?_, ?_⟩, ?_⟩
  · simp only [infoPart, Client.setInfo, hx1]; rw [hmapI]; exact hid
  · simp only [infoPart, Client.setInfo, hx1]; rw [hmapN]; exact hnbr
  · simp only [infoPart, Client.setInfo, hx2]; exact hpool
  · simp only [infoPart, Client.setInfo, hx1, hx2]
    intro r hr
    obtain ⟨r0, hr0, rfl⟩ := List.mem_map.1 hr
    have := hkey r0 hr0
    simp only [key, Prod.mk.injEq] at this
    rw [this.1]
    exact hdis r0 hr0
  · simp only [infoPart, Client.setInfo, hx3]; exact hdone
  · simp only [infoPart, Client.setInfo, hx1]; exact hmap

theorem InfoInv_InfoFree (cfg : DHCPc_CFG) (w x : Client) (q : DHCPc_IF_INFO)
    (hx : infoPart x = infoPart w) (h : InfoInv (infoPart w))
    (hq : q.ID ∈ w.DHCPc_InfoListHead.map (fun r => r.ID)) :
    InfoInv (infoPart (DHCPc_IF_InfoFree cfg x q)) := by
  unfold DHCPc_IF_InfoFree
  split
  · rw [hx]; exact h
  · obtain ⟨hid, hnbr, hpool, hdis, hdone⟩ := h
    simp only [infoPart, Prod.mk.injEq] at hx
    obtain ⟨hx1, hx2, hx3⟩ := hx
    simp only [infoPart] at hid hnbr hpool hdis hdone ⊢
    rw [hx1, hx2, hx3]
    obtain ⟨p, hp, hpq⟩ := List.mem_map.1 hq
    refine ⟨?_, ?_, ?_, ?_, hdone⟩
    · exact hid.sublist ((List.filter_sublist _).map _)
    · exact hnbr.sublist ((List.filter_sublist _).map _)
    · refine List.nodup_cons.2 ⟨?_, hpool⟩
      rw [← hpq]; exact hdis p hp
    · intro r hr
      have hr1 := (List.mem_filter.1 hr).1
      have hr2 := (List.mem_filter.1 hr).2
      simp only [ne_eq, decide_not, Bool.not_eq_true', decide_eq_false_iff_not] at hr2
      intro hmem
      rcases List.mem_cons.1 hmem with h1 | h1
      · exact hr2 h1
      · exact hdis r hr1 h1

theorem InfoGetCfgd_mem (w : Client) (n : Nat) (p : DHCPc_IF_INFO)
    (h : DHCPc_IF_InfoGetCfgd w n = some p) : p ∈ w.DHCPc_InfoListHead ∧ p.IF_Nbr = n := by
  unfold DHCPc_IF_InfoGetCfgd at h
  refine ⟨List.mem_of_find?_eq_some h, ?_⟩
  simpa using List.find?_some h

theorem InfoGetCfgd_congr (w x : Client) (n : Nat) (h : infoPart x = infoPart w) :
    DHCPc_IF_InfoGetCfgd x n = DHCPc_IF_InfoGetCfgd w n := by
  simp only [infoPart, Prod.mk.injEq] at h
  unfold DHCPc_IF_InfoGetCfgd
  rw [h.1]

theorem InfoGetCfgd_none (w : Client) (n : Nat) (h : DHCPc_IF_InfoGetCfgd w n = none) :
    n ∉ w.DHCPc_InfoListHead.map (fun r => r.IF_Nbr) := by
  unfold DHCPc_IF_InfoGetCfgd at h
  intro hm
  obtain ⟨r, hr, hrn⟩ := List.mem_map.1 hm
  have := List.find?_eq_none.1 h r hr
  simp [hrn] at this

theorem InfoGet_used (cfg : DHCPc_CFG) (w : Client) (n : Nat)
    (h : (DHCPc_IF_InfoGetCfgd w n).isSome = true) :
    DHCPc_IF_InfoGet cfg w n = (none, DHCPc_ERR_IF_INFO_IF_USED, w) := by
  unfold DHCPc_IF_InfoGet
  split
  · rfl
  · rename_i h1; rw [h1] at h; cases h

theorem InfoInv_InfoGet (cfg : DHCPc_CFG) (w : Client) (n : Nat) (h : InfoInv (infoPart w)) :
    InfoInv (infoPart (DHCPc_IF_InfoGet cfg w n).2.2) ∧
      ∀ p, (DHCPc_IF_InfoGet cfg w n).1 = some p →
        p ∈ (DHCPc_IF_InfoGet cfg w n).2.2.DHCPc_InfoListHead := by
  unfold DHCPc_IF_InfoGet
  split
  · exact ⟨h, by intro p hp; cases hp⟩
  · rename_i hnone
    dsimp only
    split
    · exact ⟨h, by intro p hp; cases hp⟩
    · split
      · exact ⟨h, by intro p hp; cases hp⟩
      · split
        · exact ⟨h, by intro p hp; cases hp⟩
        · rename_i id pool hpool
          obtain ⟨hid, hnbr, hpl, hdis, hdone⟩ := h
          simp only [infoPart] at hid hnbr hpl hdis hdone
          have hw : (NetIF_AddrHW_Get w).2.DHCPc_InfoListHead = w.DHCPc_InfoListHead := rfl
          have hwp : (NetIF_AddrHW_Get w).2.DHCPc_InfoPoolPtr = w.DHCPc_InfoPoolPtr := rfl
          rw [hwp] at hpool
          rw [hpool] at hpl hdis
          have hpl2 := List.nodup_cons.1 hpl
          refine ⟨⟨?_, ?_, ?_, ?_, ?_⟩, ?_⟩
          · simp only [infoPart, List.map_cons, hw]
            refine List.nodup_cons.2 ⟨?_, hid⟩
            intro hm
            obtain ⟨r, hr, hrid⟩ := List.mem_map.1 hm
            apply hdis r hr
            have : r.ID = id := by simpa [DHCPc_IF_InfoClr] using hrid
            rw [this]; exact List.mem_cons_self _ _
          · simp only [infoPart, List.map_cons, hw]
            exact List.nodup_cons.2 ⟨InfoGetCfgd_none w n hnone, hnbr⟩
          · exact hpl2.2
          · simp only [infoPart, hw]
            intro r hr
            rcases List.mem_cons.1 hr with h1 | h1
            · subst h1; simpa [DHCPc_IF_InfoClr] using hpl2.1
            · intro hm; exact hdis r h1 (List.mem_cons_of_mem _ hm)
          · exact hdone
          · intro p hp
            simp only [Option.some.injEq] at hp
            subst hp
            exact List.mem_cons_self _ _

theorem InfoInv_startLocked (cfg : DHCPc_CFG) (w : Client) (n : Nat) (tbl : Option Mem)
    (qty : Nat) (h : InfoInv (infoPart w)) :
    InfoInv (infoPart (startLocked cfg w n tbl qty).2) := by
  obtain ⟨hg, hmem⟩ := InfoInv_InfoGet cfg w n h
  unfold startLocked
  dsimp only
  split
  · exact hg
  · rename_i p hp
    have hp1 := hmem p hp
    generalize hq : ({ p with
      ClientState := DHCP_STATE_INIT
      ParamReqTbl := (Mem_Copy p.ParamReqTbl 0
        (memBytes (tbl.getD w.env.null_msg.MsgBuf) 0 qty))
      ParamReqQty := qty } : DHCPc_IF_INFO) = q
    have hkq : key q = key p := by rw [← hq]; rfl
    have hqm : key q ∈ (DHCPc_IF_InfoGet cfg w n).2.2.DHCPc_InfoListHead.map key := by
      rw [hkq]; exact List.mem_map_of_mem key hp1
    obtain ⟨hs, hsk⟩ := InfoInv_setInfo _ _ q rfl hg hqm
    have hqi : q.ID ∈ ((DHCPc_IF_InfoGet cfg w n).2.2.setInfo q).DHCPc_InfoListHead.map
        (fun r => r.ID) := by
      have : key q ∈ ((DHCPc_IF_InfoGet cfg w n).2.2.setInfo q).DHCPc_InfoListHead.map key := by
        have h2 := hsk; simp only [infoPart] at h2; rw [h2]; exact hqm
      obtain ⟨r, hr, hrk⟩ := List.mem_map.1 this
      simp only [key, Prod.mk.injEq] at hrk
      exact List.mem_map.2 ⟨r, hr, hrk.1⟩
    split
    · exact InfoInv_InfoFree cfg _ _ q (by simp) hs hqi
    · split
      · exact InfoInv_InfoFree cfg _ _ q (by simp) hs hqi
      · simpa using hs

theorem InfoInv_Start (cfg : DHCPc_CFG) (w : Client) (n : Nat) (tbl : Option Mem)
    (qty : Nat) (h : InfoInv (infoPart w)) :
    InfoInv (infoPart (DHCPc_Start cfg w n tbl qty).2) := by
  unfold DHCPc_Start
  dsimp only
  repeat' split
  all_goals first
    | exact h
    | (simpa using h)
    | exact InfoInv_startLocked cfg _ n tbl qty (by simpa using h)

theorem infoPart_Stop (cfg : DHCPc_CFG) (w : Client) (n : Nat) :
    infoPart (DHCPc_Stop cfg w n).2 = infoPart w := by
  unfold DHCPc_Stop
  dsimp only
  repeat' split
  all_goals simp

theorem InfoInv_StopStateHandler (cfg : DHCPc_CFG) (w : Client) (p : DHCPc_IF_INFO)
    (h : InfoInv (infoPart w)) (hp : p ∈ w.DHCPc_InfoListHead) :
    InfoInv (infoPart (DHCPc_StopStateHandler cfg w p).2) := by
  unfold DHCPc_StopStateHandler
  dsimp only
  rw [infoPart_RemoveAll]
  apply InfoInv_InfoFree cfg w _ _ _ h
  · have : key (stopFree cfg (if (match p.ClientState with
        | DHCP_STATE_REQUESTING => true
        | DHCP_STATE_BOUND => true
        | DHCP_STATE_RENEWING => true
        | DHCP_STATE_REBINDING => true
        | _ => false) = true then stopRelease cfg w (setState p DHCP_STATE_STOPPING)
        else (setState p DHCP_STATE_STOPPING, w)).2
        (if (match p.ClientState with
        | DHCP_STATE_REQUESTING => true
        | DHCP_STATE_BOUND => true
        | DHCP_STATE_RENEWING => true
        | DHCP_STATE_REBINDING => true
        | _ => false) = true then stopRelease cfg w (setState p DHCP_STATE_STOPPING)
        else (setState p DHCP_STATE_STOPPING, w)).1).1 = key p := by
      split <;> simp
    simp only [key, Prod.mk.injEq] at this
    rw [this.1]
    exact List.mem_map_of_mem (fun r => r.ID) hp
  · split <;> simp

theorem InfoInv_MsgRxHandler (cfg : DHCPc_CFG) (w : Client) (pcomm : DHCPc_COMM)
    (h : InfoInv (infoPart w)) : InfoInv (infoPart (DHCPc_MsgRxHandler cfg w pcomm)) := by
  unfold DHCPc_MsgRxHandler
  dsimp only
  split
  · simpa using h
  · rename_i p hp
    have hpm := (InfoGetCfgd_mem _ _ _ hp).1
    have hil : (DHCPc_CommFree cfg w pcomm).DHCPc_InfoListHead = w.DHCPc_InfoListHead :=
      congrArg (fun x => x.1) (infoPart_CommFree cfg w pcomm)
    have hpm2 := hpm
    rw [hil] at hpm
    have hk : key p ∈ w.DHCPc_InfoListHead.map key := List.mem_map_of_mem key hpm
    split
    · refine (InfoInv_setInfo w _ _ (by simp) h ?_).1
      rw [key_initStatus, key_InitStateHandler]; exact hk
    · refine (InfoInv_setInfo w _ _ (by simp) h ?_).1
      rw [key_initStatus, key_InitStateHandler]; exact hk
    · refine (InfoInv_setInfo w _ _ (by simp) h ?_).1
      rw [key_renewStatus, key_RenewRebindStateHandler]; exact hk
    · refine (InfoInv_setInfo w _ _ (by simp) h ?_).1
      rw [key_renewStatus, key_RenewRebindStateHandler]; exact hk
    · exact InfoInv_StopStateHandler cfg _ p (by simpa using h) hpm2
    · simpa using h

theorem InfoInv_TaskHandler (cfg : DHCPc_CFG) (w : Client) (h : InfoInv (infoPart w)) :
    InfoInv (infoPart (DHCPc_TaskHandler cfg w)) := by
  unfold DHCPc_TaskHandler
  split
  · exact h
  · dsimp only
    split
    · exact h
    · exact InfoInv_MsgRxHandler cfg _ _ h

theorem InfoInv_tmrHandle (cfg : DHCPc_CFG) (w : Client) (t : DHCPc_TMR)
    (h : InfoInv (infoPart w)) : InfoInv (infoPart (tmrHandle cfg w t)) := by
  unfold tmrHandle
  split
  · exact h
  · split
    · simpa using h
    · split
      · rename_i pcomm _ p hp
        dsimp only
        rw [infoPart_MsgPost]
        refine (InfoInv_setInfo w _ _ (by simp) h ?_).1
        exact List.mem_map.2 ⟨p, (InfoGetCfgd_mem _ _ _ hp).1, rfl⟩
      · simpa using h

theorem InfoInv_TmrTaskHandler (cfg : DHCPc_CFG) (w : Client) (h : InfoInv (infoPart w)) :
    InfoInv (infoPart (DHCPc_TmrTaskHandler cfg w)) := by
  unfold DHCPc_TmrTaskHandler
  dsimp only
  split
  · exact h
  · have : ∀ (l : List DHCPc_TMR) (x : Client), InfoInv (infoPart x) →
        InfoInv (infoPart (l.foldl (tmrHandle cfg) x)) := by
      intro l
      induction l with
      | nil => intro x hx; exact hx
      | cons t l ih => intro x hx; exact ih _ (InfoInv_tmrHandle cfg x t hx)
    exact this _ _ h

theorem InfoInv_Init (cfg : DHCPc_CFG) (env : Env) : InfoInv (infoPart (DHCPc_Init cfg env)) := by
  refine ⟨List.nodup_nil, List.nodup_nil, ?_, ?_, rfl⟩
  · exact List.nodup_reverse.2 (List.nodup_range _)
  · intro r hr; cases hr

theorem InfoInv_Reach (cfg : DHCPc_CFG) (w : Client) (h : Reach cfg w) :
    InfoInv (infoPart w) := by
  induction h with
  | init env => exact InfoInv_Init cfg env
  | start w n tbl qty _ ih => exact InfoInv_Start cfg w n tbl qty ih
  | stop w n _ ih => rw [infoPart_Stop]; exact ih
  | task w _ ih => exact InfoInv_TaskHandler cfg w ih
  | tmrTask w _ ih => exact InfoInv_TmrTaskHandler cfg w ih
  | dispatch w pcomm _ ih => exact InfoInv_MsgRxHandler cfg w pcomm ih
  | env w e _ ih => exact ih

theorem Start_used (cfg : DHCPc_CFG) (w : Client) (n : Nat) (tbl : Option Mem) (qty : Nat)
    (h : (DHCPc_IF_InfoGetCfgd w n).isSome = true) :
    (DHCPc_Start cfg w n tbl qty).2.DHCPc_InfoListHead = w.DHCPc_InfoListHead
      ∧ (DHCPc_Start cfg w n tbl qty).1 ≠ DHCPc_ERR_NONE
      ∧ (¬ (cfg.DHCPc_CFG_ARG_CHK_EXT_EN = true ∧ qty > 0 ∧ tbl.isNone = true) →
          w.DHCPc_InitDone = true → (NetIF_IsEnCfgd w).1 = true →
          qty ≤ cfg.DHCPc_CFG_PARAM_REQ_TBL_SIZE →
          (DHCPc_OS_Lock (NetIF_IsEnCfgd w).2).1 = true →
          (DHCPc_Start cfg w n tbl qty).1 = DHCPc_ERR_IF_INFO_IF_USED) := by
  have hl : startLocked cfg (DHCPc_OS_Lock (NetIF_IsEnCfgd w).2).2 n tbl qty
      = (DHCPc_ERR_IF_INFO_IF_USED, (DHCPc_OS_Lock (NetIF_IsEnCfgd w).2).2) := by
    unfold startLocked
    rw [InfoGet_used cfg _ n (by
      rw [InfoGetCfgd_congr w (DHCPc_OS_Lock (NetIF_IsEnCfgd w).2).2 n (by simp)]; exact h)]
  unfold DHCPc_Start
  dsimp only
  rw [hl]
  refine ⟨?_, ?_, ?_⟩
  · repeat' split
    all_goals rfl
  · repeat' split
    all_goals simp
  · intro h1 h2 h3 h4 h5
    rw [if_neg h1, if_neg (by simp [h2]), if_neg (by simp [h3]), if_neg (by omega),
      if_neg (by simp [h5])]

/-! ### Error codes of the negotiation -/

theorem negoErr_Rx (ev : Option RxEvent) (buf : Mem) (len : Nat) :
    negoErr (DHCPc_Rx ev buf len).2.1 := by
  unfold DHCPc_Rx
  repeat' split
  all_goals simp [negoErr]

theorem negoErr_rxReplyLoop (cfg : DHCPc_CFG) (p : DHCPc_IF_INFO) (sid : Nat) (hw : List Nat)
    (blen : Nat) (l : List RxEvent) (f : RxFlags) (buf : Mem) (tr : List Event) :
    negoErr (rxReplyLoop cfg p sid hw blen l f buf tr).1 := by
  induction l generalizing f buf tr with
  | nil => unfold rxReplyLoop; exact negoErr_Rx _ _ _
  | cons ev rest ih =>
    unfold rxReplyLoop
    dsimp only
    repeat' split
    all_goals first | exact negoErr_Rx _ _ _ | exact ih _ _ _

theorem negoErr_RxReply (cfg : DHCPc_CFG) (w : Client) (p : DHCPc_IF_INFO) (sid : Nat)
    (hw : List Nat) (len : Nat) (buf : Mem) (blen : Nat) :
    negoErr (DHCPc_RxReply cfg w p sid hw len buf blen).1.err := by
  unfold DHCPc_RxReply
  dsimp only
  repeat' split
  all_goals first | exact negoErr_rxReplyLoop .. | simp [negoErr]

theorem negoErr_discoverRx (cfg : DHCPc_CFG) (p : DHCPc_IF_INFO) (hw : List Nat)
    (len fuel : Nat) (w : Client) (pmsg : DHCPc_MSG) :
    negoErr (discoverRx cfg p hw len fuel w pmsg).err := by
  induction fuel generalizing w pmsg with
  | zero => simp [discoverRx, negoErr]
  | succ n ih =>
    unfold discoverRx
    dsimp only
    repeat' split
    all_goals first | exact ih _ _ | exact negoErr_RxReply .. | simp [negoErr]

theorem negoErr_reqRx (cfg : DHCPc_CFG) (p : DHCPc_IF_INFO) (hw : List Nat)
    (len fuel : Nat) (w : Client) (pmsg : DHCPc_MSG) :
    negoErr (reqRx cfg p hw len fuel w pmsg).err := by
  induction fuel generalizing w pmsg with
  | zero => simp [reqRx, negoErr]
  | succ n ih =>
    unfold reqRx
    dsimp only
    repeat' split
    all_goals first | exact ih _ _ | exact negoErr_RxReply .. | simp [negoErr]

theorem negoErr_TxMsgPrepare (cfg : DHCPc_CFG) (nm : Mem) (cn : Option (List Nat))
    (tick : Nat) (p : DHCPc_IF_INFO) (mt : Nat) (hw : Mem) (len : Nat) (buf : Mem) (sz : Nat) :
    negoErr (DHCPc_TxMsgPrepare cfg nm cn tick p mt hw len buf sz).1.err := by
  unfold DHCPc_TxMsgPrepare
  repeat' split
  all_goals simp [negoErr]

theorem negoErr_txPrepare (cfg : DHCPc_CFG) (w : Client) (p : DHCPc_IF_INFO) (mt : Nat)
    (hw : List Nat) (len : Nat) (pmsg : DHCPc_MSG) :
    negoErr (txPrepare cfg w p mt hw len pmsg).1.err := negoErr_TxMsgPrepare ..

theorem negoErr_Tx (w : Client) (d : List Nat) (a : Nat) : negoErr (DHCPc_Tx w d a).1 := by
  unfold DHCPc_Tx
  dsimp only
  split <;> simp [negoErr]

theorem negoErr_MsgGet (w : Client) : negoErr (DHCPc_MsgGet w).2.1 := by
  unfold DHCPc_MsgGet
  split <;> simp [negoErr]

theorem negoErr_discoverLoop (cfg : DHCPc_CFG) (hw : List Nat) (len n : Nat) (d : Bool)
    (ms : Nat) (e : DHCPc_ERR) (p : DHCPc_IF_INFO) (pmsg : DHCPc_MSG) (w : Client)
    (he : negoErr e) : negoErr (discoverLoop cfg hw len n d ms e p pmsg w).err := by
  induction n generalizing d ms e p pmsg w with
  | zero => exact he
  | succ n ih =>
    unfold discoverLoop
    dsimp only
    repeat' split
    all_goals try dsimp only
    all_goals first
      | exact negoErr_txPrepare ..
      | exact negoErr_Tx ..
      | exact negoErr_discoverRx ..
      | exact ih _ _ _ _ _ _ (negoErr_discoverRx ..)

theorem negoErr_reqLoop (cfg : DHCPc_CFG) (hw : List Nat) (len n : Nat) (d : Bool)
    (ms : Nat) (e : DHCPc_ERR) (p : DHCPc_IF_INFO) (pmsg : DHCPc_MSG) (w : Client)
    (he : negoErr e) : negoErr (reqLoop cfg hw len n d ms e p pmsg w).err := by
  induction n generalizing d ms e p pmsg w with
  | zero => exact he
  | succ n ih =>
    unfold reqLoop
    dsimp only
    repeat' split
    all_goals try dsimp only
    all_goals first
      | exact negoErr_txPrepare ..
      | exact negoErr_Tx ..
      | exact negoErr_reqRx ..
      | exact ih _ _ _ _ _ _ (negoErr_reqRx ..)

theorem negoErr_Discover (cfg : DHCPc_CFG) (w : Client) (p : DHCPc_IF_INFO)
    (hw : List Nat) (len : Nat) : negoErr (DHCPc_Discover cfg w p hw len).1 := by
  unfold DHCPc_Discover
  dsimp only
  repeat' split
  all_goals try dsimp only
  all_goals first
    | exact negoErr_MsgGet ..
    | exact negoErr_discoverLoop _ _ _ _ _ _ _ _ _ _ (by simp [negoErr])
    | simp [negoErr]

theorem negoErr_Req (cfg : DHCPc_CFG) (w : Client) (p : DHCPc_IF_INFO)
    (hw : List Nat) (len : Nat) : negoErr (DHCPc_Req cfg w p hw len).1 := by
  unfold DHCPc_Req
  dsimp only
  repeat' split
  all_goals try dsimp only
  all_goals first
    | exact negoErr_MsgGet ..
    | exact negoErr_reqLoop _ _ _ _ _ _ _ _ _ _ (by simp [negoErr])
    | simp [negoErr]

theorem negoErr_DeclineRelease (cfg : DHCPc_CFG) (w : Client) (p : DHCPc_IF_INFO)
    (mt : Nat) (hw : List Nat) (len : Nat) :
    negoErr (DHCPc_DeclineRelease cfg w p mt hw len).1 := by
  unfold DHCPc_DeclineRelease
  dsimp only
  repeat' split
  all_goals try dsimp only
  all_goals first
    | exact negoErr_MsgGet ..
    | exact negoErr_txPrepare ..
    | exact negoErr_Tx ..
    | simp [negoErr]

theorem negoErr_AddrValidate (cfg : DHCPc_CFG) (w : Client) (n a d : Nat) :
    negoErr (DHCPc_AddrValidate cfg w n a d).1 := by
  unfold DHCPc_AddrValidate
  dsimp only
  repeat' split
  all_goals simp [negoErr]

theorem negoErr_negoLoop (cfg : DHCPc_CFG) (ifn : Nat) (hw : List Nat) (len n : Nat)
    (d : Bool) (e : DHCPc_ERR) (p : DHCPc_IF_INFO) (w : Client) (he : negoErr e ∨ 0 < n) :
    negoErr (negoLoop cfg ifn hw len n d e p w).1 := by
  induction n generalizing d e p w with
  | zero =>
    rcases he with he | he
    · exact he
    · omega
  | succ n ih =>
    unfold negoLoop
    dsimp only
    repeat' split
    all_goals try dsimp only
    all_goals first
      | exact ih _ _ _ _ (Or.inl (negoErr_Discover ..))
      | exact ih _ _ _ _ (Or.inl (negoErr_DeclineRelease ..))
      | exact ih _ _ _ _ (Or.inl (by simp [negoErr]))
      | exact negoErr_AddrValidate ..
      | exact negoErr_Req ..
      | simp [negoErr]

/-! ### The fuel of the reply-wait loops suffices -/

theorem rxReplyLoop_consumes (cfg : DHCPc_CFG) (p : DHCPc_IF_INFO) (sid : Nat) (hw : List Nat)
    (blen : Nat) (l : List RxEvent) (f : RxFlags) (buf : Mem) (tr : List Event)
    (h : (rxReplyLoop cfg p sid hw blen l f buf tr).1 = DHCPc_ERR_NONE) :
    (rxReplyLoop cfg p sid hw blen l f buf tr).2.2.2.1.length < l.length := by
  induction l generalizing f buf tr with
  | nil => simp [rxReplyLoop, DHCPc_Rx] at h
  | cons ev rest ih =>
    unfold rxReplyLoop at h ⊢
    dsimp only at h ⊢
    split
    · split
      · simp
      · rename_i h1 h2
        rw [if_pos h1, if_neg h2] at h
        exact Nat.lt_succ_of_lt (ih _ _ _ h)
    · simp

theorem RxReply_consumes (cfg : DHCPc_CFG) (w : Client) (p : DHCPc_IF_INFO) (sid : Nat)
    (hw : List Nat) (len : Nat) (buf : Mem) (blen : Nat)
    (h : (DHCPc_RxReply cfg w p sid hw len buf blen).1.err = DHCPc_ERR_NONE) :
    (DHCPc_RxReply cfg w p sid hw len buf blen).2.env.rx.length < w.env.rx.length := by
  unfold DHCPc_RxReply at h ⊢
  dsimp only at h ⊢
  split
  · rename_i h1; rw [if_pos h1] at h; cases h
  · split
    · rename_i h1 h2; rw [if_neg h1, if_pos h2] at h; cases h
    · rename_i h1 h2
      rw [if_neg h1, if_neg h2] at h
      split
      · rename_i h3; rw [if_pos h3] at h; exact absurd h h3
      · rename_i h3
        have h4 := rxReplyLoop_consumes cfg p sid hw blen w.env.rx ⟨false, false, false, false⟩
          buf w.trace (by simpa using h3)
        split <;> exact h4

theorem discoverRx_fuel (cfg : DHCPc_CFG) (p : DHCPc_IF_INFO) (hw : List Nat)
    (len fuel : Nat) (w : Client) (pmsg : DHCPc_MSG) (h : w.env.rx.length < fuel) :
    (discoverRx cfg p hw len fuel w pmsg).fuel_out = false := by
  induction fuel generalizing w pmsg with
  | zero => omega
  | succ n ih =>
    unfold discoverRx
    dsimp only
    split
    · rename_i h1
      split
      · rfl
      · exact ih _ _ (by have := RxReply_consumes _ _ _ _ _ _ _ _ h1; omega)
    · rfl

theorem reqRx_fuel (cfg : DHCPc_CFG) (p : DHCPc_IF_INFO) (hw : List Nat)
    (len fuel : Nat) (w : Client) (pmsg : DHCPc_MSG) (h : w.env.rx.length < fuel) :
    (reqRx cfg p hw len fuel w pmsg).fuel_out = false := by
  induction fuel generalizing w pmsg with
  | zero => omega
  | succ n ih =>
    unfold reqRx
    dsimp only
    split
    · rename_i h1
      split
      · rfl
      · split
        · rfl
        · exact ih _ _ (by have := RxReply_consumes _ _ _ _ _ _ _ _ h1; omega)
    · rfl

/-! ### `DHCPc_GetOptVal` -/

theorem Mem_Copy_bytes (mem : Mem) (src : List Nat) :
    memBytes (Mem_Copy mem 0 src) 0 src.length = src ∧
      ∀ i, src.length ≤ i → Mem_Copy mem 0 src i = mem i := by
  constructor
  · apply List.ext_getElem
    · simp [memBytes]
    · intro i h1 h2
      simp only [memBytes, List.length_map, List.length_range] at h1
      simp [memBytes, Mem_Copy, h1, List.getD_eq_getElem?_getD, List.getElem?_eq_getElem h2]
  · intro i hi
    simp [Mem_Copy, Nat.not_lt.2 hi]

/-- The order of the tests of `DHCPc_GetOptVal`, in terms of what `DHCPc_MsgGetOpt` reads in
the stored message.  After initialisation, with non-null arguments and the DHCPc lock acquired,
`DHCPc_GetOptVal` decides its result in this order: `DHCPc_ERR_IF_NOT_MANAGED` when the
interface has no record; else `DHCPc_ERR_IF_NOT_CFG` when the lease status is not
`DHCP_STATUS_CFGD` or no message is stored; else `DHCPc_ERR_IF_OPT_NONE` when `DHCPc_MsgGetOpt`
finds no such option in the stored message; else `DHCPc_ERR_OPT_BUF_SIZE` when the option is
longer than `*pval_buf_len`; else `DHCPc_ERR_NONE`, the first bytes of the caller's buffer being
the value of the option, the rest of the buffer unchanged and `*pval_buf_len` the length of the
option.  In every error case the caller's buffer is unchanged. -/
theorem GetOptVal_order (cfg : DHCPc_CFG) (w : Client) (if_nbr opt_code : Nat) (buf : Mem)
    (len : Nat) (null_buf : Mem) (r : OptVal)
    (hinit : w.DHCPc_InitDone = true) (hlock : (DHCPc_OS_Lock w).1 = true)
    (hr : r = (DHCPc_GetOptVal cfg w if_nbr opt_code (some buf) (some len) null_buf).1) :
    (DHCPc_IF_InfoGetCfgd w if_nbr = none → r.err = DHCPc_ERR_IF_NOT_MANAGED) ∧
    (∀ p, DHCPc_IF_InfoGetCfgd w if_nbr = some p →
      ((p.LeaseStatus ≠ DHCP_STATUS_CFGD ∨ p.MsgPtr.isNone = true) →
        r.err = DHCPc_ERR_IF_NOT_CFG) ∧
      (∀ m, p.LeaseStatus = DHCP_STATUS_CFGD → p.MsgPtr = some m →
        (DHCPc_MsgGetOpt opt_code m.MsgBuf m.MsgLen = none → r.err = DHCPc_ERR_IF_OPT_NONE) ∧
        (∀ popt_val opt_val_len,
          DHCPc_MsgGetOpt opt_code m.MsgBuf m.MsgLen = some (popt_val, opt_val_len) →
          (opt_val_len > len → r.err = DHCPc_ERR_OPT_BUF_SIZE) ∧
          (opt_val_len ≤ len → r.err = DHCPc_ERR_NONE
            ∧ memBytes r.val_buf 0 opt_val_len = memBytes m.MsgBuf popt_val opt_val_len
            ∧ (∀ i, opt_val_len ≤ i → r.val_buf i = buf i)
            ∧ r.val_buf_len = opt_val_len)))) ∧
    (r.err ≠ DHCPc_ERR_NONE → r.val_buf = buf ∧ r.val_buf_len = len) := by
  have hg : DHCPc_IF_InfoGetCfgd (DHCPc_OS_Lock w).2 if_nbr = DHCPc_IF_InfoGetCfgd w if_nbr :=
    InfoGetCfgd_congr w _ if_nbr (by simp)
  have hr2 : r = (DHCPc_GetOptVal cfg w if_nbr opt_code (some buf) (some len) null_buf).1 := hr
  unfold DHCPc_GetOptVal at hr
  simp only [Option.isNone_some, Bool.false_eq_true, or_self, and_false, if_false, hinit,
    ne_eq, not_true_eq_false, hlock, Option.getD_some, hg] at hr
  refine ⟨?_, ?_, ?_⟩
  · intro h; rw [h] at hr; rw [hr]
  · intro p hp
    rw [hp] at hr
    dsimp only at hr
    refine ⟨?_, ?_⟩
    · intro h
      rcases h with h | h
      · rw [if_pos h] at hr; rw [hr]
      · by_cases h1 : p.LeaseStatus = DHCP_STATUS_CFGD
        · rw [if_neg (by simp [h1])] at hr
          cases hm : p.MsgPtr with
          | none => rw [hm] at hr; rw [hr]
          | some m => rw [hm] at h; cases h
        · rw [if_pos h1] at hr; rw [hr]
    · intro m h1 hm
      rw [if_neg (by simp [h1]), hm] at hr
      dsimp only at hr
      refine ⟨?_, ?_⟩
      · intro h; rw [h] at hr; rw [hr]
      · intro popt_val opt_val_len h
        rw [h] at hr
        dsimp only at hr
        refine ⟨?_, ?_⟩
        · intro h2; rw [if_pos h2] at hr; rw [hr]
        · intro h2
          rw [if_neg (by omega)] at hr
          rw [hr]
          have hc := Mem_Copy_bytes buf (memBytes m.MsgBuf popt_val opt_val_len)
          rw [memBytes_length] at hc
          exact ⟨rfl, hc.1, hc.2, rfl⟩
  · rw [hr]
    repeat' split
    all_goals first | (intro _; exact ⟨rfl, rfl⟩) | (intro he; exact absurd rfl he)

/-- C6, evaluation at the failing input.  In a state reached by `DHCPc_Init`, `DHCPc_Start` and
the handling of START, the record of interface 1 has the status `DHCP_STATUS_CFGD` and stores
the ACK `shortAck` of 243 bytes, whose only option is the message type.  `DHCPc_GetOptVal` for
SUBNET-MASK with a buffer of 4 bytes returns `DHCPc_ERR_NONE`, the length 4 and the bytes
255.255.255.0, which the stored message does not contain: they are read at the offsets 245 to
248 of the message buffer, past the message, where a skipped datagram left them. -/
theorem C6_GetOptVal_reads_past_message :
    Reach templateCfg (runStart staleMaskEnv) ∧
    (runStart staleMaskEnv).DHCPc_InitDone = true ∧
    (runStart staleMaskEnv).DHCPc_InfoListHead.map
        (fun r => (r.IF_Nbr, r.LeaseStatus, r.MsgPtr.map (fun m => memBytes m.MsgBuf 0 m.MsgLen)))
      = [(1, DHCP_STATUS_CFGD, some shortAck)] ∧
    shortAck.length = 243 ∧
    shortAck.drop 236 = DHCP_MAGIC_COOKIE ++ [DHCP_OPT_DHCP_MESSAGE_TYPE, 1, DHCP_MSG_ACK] ∧
    (DHCPc_GetOptVal templateCfg (runStart staleMaskEnv) 1 DHCP_OPT_SUBNET_MASK (some zeroMem)
      (some 4) zeroMem).1.err = DHCPc_ERR_NONE ∧
    (DHCPc_GetOptVal templateCfg (runStart staleMaskEnv) 1 DHCP_OPT_SUBNET_MASK (some zeroMem)
      (some 4) zeroMem).1.val_buf_len = 4 ∧
    memBytes (DHCPc_GetOptVal templateCfg (runStart staleMaskEnv) 1 DHCP_OPT_SUBNET_MASK
      (some zeroMem) (some 4) zeroMem).1.val_buf 0 4 = [255, 255, 255, 0] ∧
    (runStart staleMaskEnv).DHCPc_InfoListHead.map
        (fun r => r.MsgPtr.map (fun m =>
          (DHCPc_MsgGetOpt DHCP_OPT_SUBNET_MASK m.MsgBuf m.MsgLen, m.MsgLen)))
      = [some (some (245, 4), 243)] := by
  have hr : Reach templateCfg (runStart staleMaskEnv) :=
    Reach.task _ (Reach.start _ 1 none 0 (Reach.init staleMaskEnv))
  refine ⟨hr, ?_, ?_, ?_, ?_, ?_, ?_, ?_, ?_⟩ <;> decide!

/-! ### One record per interface -/

/-- C7. In every state reachable from `DHCPc_Init` by calls of `DHCPc_Start` and `DHCPc_Stop`,
turns of the two tasks, dispatched commands (STOP included) and changes of the environment, no
two records of the active list have the same interface number.  For an interface that has a
record, `DHCPc_IF_InfoGet` returns no record and `DHCPc_ERR_IF_INFO_IF_USED`; `DHCPc_Start`
fails, leaves the list unchanged, and its error is `DHCPc_ERR_IF_INFO_IF_USED` once its own
checks (table pointer, interface enabled, table size, lock acquired) have passed. -/
theorem C7_one_record_per_interface (cfg : DHCPc_CFG) (w : Client) (h : Reach cfg w) :
    (w.DHCPc_InfoListHead.map (fun r => r.IF_Nbr)).Nodup ∧
    ∀ (if_nbr : Nat) (preq_param_tbl : Option Mem) (req_param_tbl_qty : Nat),
      (DHCPc_IF_InfoGetCfgd w if_nbr).isSome = true →
      DHCPc_IF_InfoGet cfg w if_nbr = (none, DHCPc_ERR_IF_INFO_IF_USED, w) ∧
      (DHCPc_Start cfg w if_nbr preq_param_tbl req_param_tbl_qty).2.DHCPc_InfoListHead
        = w.DHCPc_InfoListHead ∧
      (DHCPc_Start cfg w if_nbr preq_param_tbl req_param_tbl_qty).1 ≠ DHCPc_ERR_NONE ∧
      (¬ (cfg.DHCPc_CFG_ARG_CHK_EXT_EN = true ∧ req_param_tbl_qty > 0
            ∧ preq_param_tbl.isNone = true) →
        (NetIF_IsEnCfgd w).1 = true →
        req_param_tbl_qty ≤ cfg.DHCPc_CFG_PARAM_REQ_TBL_SIZE →
        (DHCPc_OS_Lock (NetIF_IsEnCfgd w).2).1 = true →
        (DHCPc_Start cfg w if_nbr preq_param_tbl req_param_tbl_qty).1
          = DHCPc_ERR_IF_INFO_IF_USED) := by
  have hinv := InfoInv_Reach cfg w h
  refine ⟨hinv.2.1, ?_⟩
  intro if_nbr tbl qty hu
  have hs := Start_used cfg w if_nbr tbl qty hu
  exact ⟨InfoGet_used cfg w if_nbr hu, hs.1, hs.2.1,
    fun h1 h3 h4 h5 => hs.2.2 h1 hinv.2.2.2.2 h3 h4 h5⟩

/-- Witness of C7: a second `DHCPc_Start` for interface 1 fails with
`DHCPc_ERR_IF_INFO_IF_USED` and leaves the list as it was. -/
theorem C7_one_record_per_interface_witness :
    (DHCPc_IF_InfoGetCfgd startedOnce 1).isSome = true ∧
    (DHCPc_Start templateCfg startedOnce 1 none 0).1 = DHCPc_ERR_IF_INFO_IF_USED ∧
    (DHCPc_Start templateCfg startedOnce 1 none 0).2.DHCPc_InfoListHead
      = startedOnce.DHCPc_InfoListHead := by
  have hu : (DHCPc_IF_InfoGetCfgd startedOnce 1).isSome = true := by decide!
  have h := (C7_one_record_per_interface templateCfg startedOnce
    (Reach.start _ 1 none 0 (Reach.init _))).2 1 none 0 hu
  exact ⟨hu, h.2.2.2 (by decide!) (by decide!) (by decide!) (by decide!), h.2.1⟩

/-! ### Address validation in the INIT state -/

/-- C8. With the template configuration (address validation enabled, three negotiation
attempts), when in each attempt the server offers and acknowledges 192.0.2.50, the ARP lookup
resolves the address (probe result USED) and the DECLINE is transmitted, `DHCPc_InitStateHandler`
returns `DHCPc_ERR_NONE` with the client state BOUND, having configured the interface with
192.0.2.50 right after the third lookup found the address in use; `DHCPc_ChkStatus` then
reports `DHCP_STATUS_CFGD`. -/
theorem C8_InitStateHandler_installs_used_address :
    (DHCPc_InitStateHandler templateCfg (startedClient usedEnv) startedIf
      usedEnv.stack_err).1 = DHCPc_ERR_NONE
    ∧ (DHCPc_InitStateHandler templateCfg (startedClient usedEnv) startedIf
      usedEnv.stack_err).2.1.ClientState = DHCP_STATE_BOUND
    ∧ (DHCPc_InitStateHandler templateCfg (startedClient usedEnv) startedIf
      usedEnv.stack_err).2.2.trace.filter probeOrCfg =
        [Event.arpGet 1 0xC0000232 ArpGet.resolved, Event.arpGet 1 0xC0000232 ArpGet.resolved,
          Event.arpGet 1 0xC0000232 ArpGet.resolved,
          Event.addrAdd 1 0xC0000232 0xFFFFFF00 0xC0000201 true]
    ∧ DHCPc_ChkStatus (runStart usedApiEnv) 1 = (DHCP_STATUS_CFGD, DHCPc_ERR_NONE)
    ∧ (runStart usedApiEnv).trace.filter probeOrCfg =
        [Event.arpGet 1 0xC0000232 ArpGet.resolved, Event.arpGet 1 0xC0000232 ArpGet.resolved,
          Event.arpGet 1 0xC0000232 ArpGet.resolved,
          Event.addrAdd 1 0xC0000232 0xFFFFFF00 0xC0000201 true] := by
  refine ⟨?_, ?_, ?_, ?_, ?_⟩ <;> decide!

/-! ### Lease status after a START or LEASE_EXPIRED command -/

theorem find_setInfo (l : List DHCPc_IF_INFO) (n : Nat) (p q : DHCPc_IF_INFO)
    (hp : l.find? (fun r => decide (r.IF_Nbr = n)) = some p) (hq : key q = key p) :
    (l.map (fun r => if r.ID = q.ID then q else r)).find? (fun r => decide (r.IF_Nbr = n))
      = some q := by
  simp only [key, Prod.mk.injEq] at hq
  induction l with
  | nil => simp at hp
  | cons a t ih =>
    have hpn : p.IF_Nbr = n := by simpa using List.find?_some hp
    rw [List.map_cons]
    by_cases ha : a.IF_Nbr = n
    · have hap : a = p := by simpa [List.find?_cons, ha] using hp
      subst hap
      simp [List.find?_cons, hq.1, hq.2, ha]
    · have ht : t.find? (fun r => decide (r.IF_Nbr = n)) = some p := by
        simpa [List.find?_cons, ha] using hp
      by_cases hid : a.ID = q.ID
      · simp [List.find?_cons, hid, hq.2, hpn]
      · simp [List.find?_cons, hid, ha, ih ht]

theorem InfoGetCfgd_setInfo (w x : Client) (n : Nat) (p q : DHCPc_IF_INFO)
    (hx : infoPart x = infoPart w) (hp : DHCPc_IF_InfoGetCfgd w n = some p)
    (hq : key q = key p) : DHCPc_IF_InfoGetCfgd (x.setInfo q) n = some q := by
  simp only [infoPart, Prod.mk.injEq] at hx
  unfold DHCPc_IF_InfoGetCfgd at hp ⊢
  simp only [Client.setInfo, hx.1]
  exact find_setInfo _ n p q hp hq

theorem AddrCfg_err (w : Client) (p : DHCPc_IF_INFO) :
    (DHCPc_AddrCfg w p).1 = DHCPc_ERR_NONE ∨ (DHCPc_AddrCfg w p).1 = DHCPc_ERR_IF_CFG := by
  unfold DHCPc_AddrCfg
  dsimp only
  split
  · exact Or.inl rfl
  · exact Or.inr rfl

theorem initCfgIF_err (cfg : DHCPc_CFG) (w : Client) (p : DHCPc_IF_INFO) (hw : List Nat)
    (len : Nat) (e : DHCPc_ERR) (he : negoErr e) :
    ((initCfgIF cfg w p hw len e).1 = DHCPc_ERR_NONE ↔
      e = DHCPc_ERR_NONE ∧ (DHCPc_AddrCfg w p).1 = DHCPc_ERR_NONE
        ∧ (DHCPc_LeaseTimeCalc cfg (DHCPc_AddrCfg w p).2 p).1 = DHCPc_ERR_NONE) ∧
    ((initCfgIF cfg w p hw len e).1 = DHCPc_ERR_NONE_NO_TMR ↔
      e = DHCPc_ERR_NONE ∧ (DHCPc_AddrCfg w p).1 = DHCPc_ERR_NONE
        ∧ (DHCPc_LeaseTimeCalc cfg (DHCPc_AddrCfg w p).2 p).1 ≠ DHCPc_ERR_NONE) ∧
    ((initCfgIF cfg w p hw len e).1 = DHCPc_ERR_NONE_LOCAL_LINK ↔
      e ≠ DHCPc_ERR_NONE ∧ cfg.DHCPc_CFG_DYN_LOCAL_LINK_ADDR_EN = true
        ∧ (DHCPc_AddrLocalLinkCfg cfg w p hw len e).1 = DHCPc_ERR_NONE) := by
  unfold initCfgIF
  dsimp only
  split
  · split
    · rename_i h1
      split
      · rename_i h2; simp [h1, h2]
      · rename_i h2; simp [h1, (not_not.1 h2)]
    · rename_i h1
      rcases AddrCfg_err w p with h2 | h2
      · exact absurd h2 h1
      · simp [h2]
  · rename_i h0
    have h0 : e ≠ DHCPc_ERR_NONE := fun h => h0 h
    split
    · rename_i h1
      split
      · rename_i h2; simp [h0, h1, h2]
      · rename_i h2; simp [h0, h1, h2]
    · rename_i h1
      simp [h0, h1, he.1, he.2]

theorem LeaseTimeCalc_infinite (cfg : DHCPc_CFG) (w : Client) (p : DHCPc_IF_INFO)
    (h : time_lease w p = DHCP_LEASE_INFINITE) :
    (DHCPc_LeaseTimeCalc cfg w p).1 = DHCPc_ERR_NONE ∧ (DHCPc_LeaseTimeCalc cfg w p).2.2 = w
      ∧ (DHCPc_LeaseTimeCalc cfg w p).2.1.Tmr = p.Tmr := by
  unfold time_lease at h
  unfold DHCPc_LeaseTimeCalc
  dsimp only
  rw [if_pos h]
  exact ⟨rfl, rfl, rfl⟩

theorem initStatus_cases (p : DHCPc_IF_INFO) (e : DHCPc_ERR) :
    ((initStatus p e).LeaseStatus = DHCP_STATUS_CFGD ↔ e = DHCPc_ERR_NONE) ∧
    ((initStatus p e).LeaseStatus = DHCP_STATUS_CFGD_NO_TMR ↔ e = DHCPc_ERR_NONE_NO_TMR) ∧
    ((initStatus p e).LeaseStatus = DHCP_STATUS_CFGD_LOCAL_LINK ↔
      e = DHCPc_ERR_NONE_LOCAL_LINK) ∧
    ((initStatus p e).LeaseStatus = DHCP_STATUS_FAIL ↔
      (e ≠ DHCPc_ERR_NONE ∧ e ≠ DHCPc_ERR_NONE_NO_TMR ∧ e ≠ DHCPc_ERR_NONE_LOCAL_LINK)) ∧
    ((initStatus p e).LeaseStatus = DHCP_STATUS_FAIL → (initStatus p e).LastErr = e) ∧
    ((initStatus p e).LeaseStatus ≠ DHCP_STATUS_FAIL → (initStatus p e).LastErr = p.LastErr) := by
  cases e <;> simp [initStatus]

theorem MsgRxHandler_init (cfg : DHCPc_CFG) (w : Client) (pcomm : DHCPc_COMM) (p : DHCPc_IF_INFO)
    (hmsg : pcomm.CommMsg = DHCPc_COMM_MSG_START ∨ pcomm.CommMsg = DHCPc_COMM_MSG_LEASE_EXPIRED)
    (hp : DHCPc_IF_InfoGetCfgd w pcomm.IF_Nbr = some p) :
    DHCPc_MsgRxHandler cfg w pcomm =
      (DHCPc_InitStateHandler cfg (DHCPc_CommFree cfg w pcomm)
        { p with LeaseStatus := DHCP_STATUS_CFG_IN_PROGRESS } w.env.stack_err).2.2.setInfo
        (initStatus (DHCPc_InitStateHandler cfg (DHCPc_CommFree cfg w pcomm)
          { p with LeaseStatus := DHCP_STATUS_CFG_IN_PROGRESS } w.env.stack_err).2.1
          (DHCPc_InitStateHandler cfg (DHCPc_CommFree cfg w pcomm)
          { p with LeaseStatus := DHCP_STATUS_CFG_IN_PROGRESS } w.env.stack_err).1) := by
  have hp0 : DHCPc_IF_InfoGetCfgd (DHCPc_CommFree cfg w pcomm) pcomm.IF_Nbr = some p := by
    rw [InfoGetCfgd_congr w _ _ (by simp)]; exact hp
  unfold DHCPc_MsgRxHandler
  dsimp only
  rw [hp0, env_CommFree]
  rcases hmsg with h | h <;> rw [h]

/-- C9. For a START or LEASE_EXPIRED command on a managed interface (at least one negotiation
attempt being configured), after `DHCPc_MsgRxHandler` the record is still in the active list
and its lease status is: FAIL, with `LastErr` the handler's code, when
`DHCPc_InitStateHandler` returned before the negotiation; otherwise CFGD exactly when the
negotiation ended with `*perr == DHCPc_ERR_NONE`, `DHCPc_AddrCfg` installed the address and
`DHCPc_LeaseTimeCalc` reported no error; CFGD_NO_TMR exactly when the address was installed and
`DHCPc_LeaseTimeCalc` reported an error; CFGD_LOCAL_LINK exactly when the negotiation ended with
an error and the link-local configuration succeeded; in every other case FAIL with `LastErr`
the handler's code, `LastErr` being left as it was whenever the status is not FAIL.  For a
lease time that is infinite (or absent from the ACK) `DHCPc_LeaseTimeCalc` reports no error and
changes nothing in the globals: no timer is armed. -/
theorem C9_MsgRxHandler_lease_status (cfg : DHCPc_CFG) (w : Client) (pcomm : DHCPc_COMM)
    (p : DHCPc_IF_INFO)
    (hmsg : pcomm.CommMsg = DHCPc_COMM_MSG_START ∨ pcomm.CommMsg = DHCPc_COMM_MSG_LEASE_EXPIRED)
    (hp : DHCPc_IF_InfoGetCfgd w pcomm.IF_Nbr = some p)
    (hcnt : 0 < cfg.DHCPc_CFG_NEGO_RETRY_CNT) :
    ∃ p', DHCPc_IF_InfoGetCfgd (DHCPc_MsgRxHandler cfg w pcomm) pcomm.IF_Nbr = some p' ∧
      (p'.LeaseStatus ≠ DHCP_STATUS_CFGD → p'.LeaseStatus ≠ DHCP_STATUS_CFGD_NO_TMR →
        p'.LeaseStatus ≠ DHCP_STATUS_CFGD_LOCAL_LINK →
        p'.LeaseStatus = DHCP_STATUS_FAIL ∧
        p'.LastErr = (DHCPc_InitStateHandler cfg (DHCPc_CommFree cfg w pcomm)
          { p with LeaseStatus := DHCP_STATUS_CFG_IN_PROGRESS } w.env.stack_err).1) ∧
      (p'.LeaseStatus ≠ DHCP_STATUS_FAIL → p'.LastErr = p.LastErr) ∧
      (∀ r0, initNego cfg (DHCPc_CommFree cfg w pcomm)
          { p with LeaseStatus := DHCP_STATUS_CFG_IN_PROGRESS } w.env.stack_err = Sum.inl r0 →
        p'.LeaseStatus = DHCP_STATUS_FAIL ∧ p'.LastErr = r0.1) ∧
      (∀ s, initNego cfg (DHCPc_CommFree cfg w pcomm)
          { p with LeaseStatus := DHCP_STATUS_CFG_IN_PROGRESS } w.env.stack_err = Sum.inr s →
        (p'.LeaseStatus = DHCP_STATUS_CFGD ↔
          s.err = DHCPc_ERR_NONE ∧ (DHCPc_AddrCfg s.w s.pif_info).1 = DHCPc_ERR_NONE
            ∧ (DHCPc_LeaseTimeCalc cfg (DHCPc_AddrCfg s.w s.pif_info).2 s.pif_info).1
                = DHCPc_ERR_NONE) ∧
        (p'.LeaseStatus = DHCP_STATUS_CFGD_NO_TMR ↔
          s.err = DHCPc_ERR_NONE ∧ (DHCPc_AddrCfg s.w s.pif_info).1 = DHCPc_ERR_NONE
            ∧ (DHCPc_LeaseTimeCalc cfg (DHCPc_AddrCfg s.w s.pif_info).2 s.pif_info).1
                ≠ DHCPc_ERR_NONE) ∧
        (p'.LeaseStatus = DHCP_STATUS_CFGD_LOCAL_LINK ↔
          s.err ≠ DHCPc_ERR_NONE ∧ cfg.DHCPc_CFG_DYN_LOCAL_LINK_ADDR_EN = true
            ∧ (DHCPc_AddrLocalLinkCfg cfg s.w s.pif_info s.addr_hw s.addr_hw.length s.err).1
                = DHCPc_ERR_NONE) ∧
        (time_lease (DHCPc_AddrCfg s.w s.pif_info).2 s.pif_info = DHCP_LEASE_INFINITE →
          (DHCPc_LeaseTimeCalc cfg (DHCPc_AddrCfg s.w s.pif_info).2 s.pif_info).1
              = DHCPc_ERR_NONE
            ∧ (DHCPc_LeaseTimeCalc cfg (DHCPc_AddrCfg s.w s.pif_info).2 s.pif_info).2.2
              = (DHCPc_AddrCfg s.w s.pif_info).2)) := by
  have hp0 : DHCPc_IF_InfoGetCfgd (DHCPc_CommFree cfg w pcomm) pcomm.IF_Nbr = some p := by
    rw [InfoGetCfgd_congr w _ _ (by simp)]; exact hp
  rw [MsgRxHandler_init cfg w pcomm p hmsg hp]
  generalize hp0' : ({ p with LeaseStatus := DHCP_STATUS_CFG_IN_PROGRESS } : DHCPc_IF_INFO) = p0
  have hk0 : key p0 = key p := by rw [← hp0']; rfl
  have hl0 : p0.LastErr = p.LastErr := by rw [← hp0']
  generalize hr : DHCPc_InitStateHandler cfg (DHCPc_CommFree cfg w pcomm) p0 w.env.stack_err = r
  have hkept : kept r.2.1 = kept p0 := by rw [← hr]; exact kept_InitStateHandler ..
  have hlast : r.2.1.LastErr = p.LastErr := by
    simp only [kept, Prod.mk.injEq] at hkept
    rw [hkept.2.2.2.1, hl0]
  have hst := initStatus_cases r.2.1 r.1
  refine ⟨initStatus r.2.1 r.1, ?_, ?_, ?_, ?_, ?_⟩
  · refine InfoGetCfgd_setInfo (DHCPc_CommFree cfg w pcomm) _ _ p _ ?_ hp0 ?_
    · rw [← hr]; simp
    · rw [key_initStatus, key_of_kept _ _ hkept, hk0]
  · intro h1 h2 h3
    have hf : (initStatus r.2.1 r.1).LeaseStatus = DHCP_STATUS_FAIL := by
      rw [hst.2.2.2.1]
      exact ⟨fun h => h1 (hst.1.2 h), fun h => h2 (hst.2.1.2 h), fun h => h3 (hst.2.2.1.2 h)⟩
    exact ⟨hf, hst.2.2.2.2.1 hf⟩
  · intro h; rw [hst.2.2.2.2.2 h, hlast]
  · intro r0 h0
    have hr0 : r = r0 := by
      rw [← hr]; unfold DHCPc_InitStateHandler; rw [h0]
    have he := (initNego_inl _ _ _ _ _ h0).2.2
    rw [← hr0] at he
    have hf : (initStatus r.2.1 r.1).LeaseStatus = DHCP_STATUS_FAIL := by
      rw [hst.2.2.2.1]
      rcases he with he | he | he | he <;> simp [he]
    exact ⟨hf, by rw [hst.2.2.2.2.1 hf, hr0]⟩
  · intro s hs
    have hrs : r = initCfgIF cfg s.w s.pif_info s.addr_hw s.addr_hw.length s.err := by
      rw [← hr]; unfold DHCPc_InitStateHandler; rw [hs]
    have hne : negoErr s.err := by
      unfold initNego at hs
      dsimp only at hs
      repeat' split at hs
      all_goals first
        | (cases hs; done)
        | (simp only [Sum.inr.injEq] at hs; subst hs; exact negoErr_negoLoop _ _ _ _ _ _ _ _ _
            (Or.inr hcnt))
    have hc := initCfgIF_err cfg s.w s.pif_info s.addr_hw s.addr_hw.length s.err hne
    rw [← hrs] at hc
    refine ⟨hst.1.trans hc.1, hst.2.1.trans hc.2.1, hst.2.2.1.trans hc.2.2, ?_⟩
    intro hinf
    have := LeaseTimeCalc_infinite cfg _ _ hinf
    exact ⟨this.1, this.2.1⟩

/-- Witness of C9: the START command posted by `DHCPc_Start` for interface 1 finds the record
and leaves it in the list. -/
theorem C9_MsgRxHandler_lease_status_witness :
    (DHCPc_IF_InfoGetCfgd startedOnce 1).isSome = true ∧
    (DHCPc_IF_InfoGetCfgd (DHCPc_MsgRxHandler templateCfg startedOnce startComm) 1).isSome
      = true := by
  have hu : (DHCPc_IF_InfoGetCfgd startedOnce 1).isSome = true := by decide!
  obtain ⟨p, hp⟩ := Option.isSome_iff_exists.1 hu
  obtain ⟨q, hq, -⟩ := C9_MsgRxHandler_lease_status templateCfg startedOnce startComm p
    (Or.inl rfl) hp (by decide)
  exact ⟨hu, by rw [show (1 : Nat) = startComm.IF_Nbr from rfl, hq]; rfl⟩

/-- C9 (counterexample). An ACK that advertises an infinite lease time: after the START
command has been handled the lease status is `DHCP_STATUS_CFGD`, the address 192.0.2.50 is
installed, and no timer is armed (the timer list is empty, the only timer is still in the
pool). -/
theorem C9_cfgd_without_timer :
    DHCPc_ChkStatus (runStart (freeEnv leaseInfOpt)) 1 = (DHCP_STATUS_CFGD, DHCPc_ERR_NONE)
    ∧ (runStart (freeEnv leaseInfOpt)).DHCPc_TmrListHead = []
    ∧ (runStart (freeEnv leaseInfOpt)).DHCPc_TmrPoolPtr = [0]
    ∧ (DHCPc_IF_InfoGetCfgd (runStart (freeEnv leaseInfOpt)) 1).map (fun p => p.Tmr)
        = some none
    ∧ (runStart (freeEnv leaseInfOpt)).trace.filter probeOrCfg =
        [Event.arpGet 1 0xC0000232 ArpGet.notFound,
          Event.addrAdd 1 0xC0000232 0xFFFFFF00 0xC0000201 true] := by
  refine ⟨?_, ?_, ?_, ?_, ?_⟩ <;> decide!

/-! ### Order of the lease times -/

theorem times_TmrCfg (cfg : DHCPc_CFG) (w : Client) (p : DHCPc_IF_INFO)
    (m : DHCPc_COMM_MSG) (t : Nat) :
    (DHCPc_TmrCfg cfg w p m t).2.1.LeaseTime_sec = p.LeaseTime_sec
      ∧ (DHCPc_TmrCfg cfg w p m t).2.1.T1_Time_sec = p.T1_Time_sec
      ∧ (DHCPc_TmrCfg cfg w p m t).2.1.T2_Time_sec = p.T2_Time_sec := by
  unfold DHCPc_TmrCfg
  dsimp only
  repeat' split
  all_goals exact ⟨rfl, rfl, rfl⟩

theorem LeaseTimeCalc_times (cfg : DHCPc_CFG) (w : Client) (p : DHCPc_IF_INFO)
    (h : time_lease w p ≠ DHCP_LEASE_INFINITE) :
    (DHCPc_LeaseTimeCalc cfg w p).2.1.LeaseTime_sec
        = (if time_lease w p > time_nego_sec w p then time_lease w p - time_nego_sec w p
            else time_lease w p)
      ∧ (DHCPc_LeaseTimeCalc cfg w p).2.1.T1_Time_sec
        = (if time_t1 w p > time_nego_sec w p then time_t1 w p - time_nego_sec w p
            else time_t1 w p)
      ∧ (DHCPc_LeaseTimeCalc cfg w p).2.1.T2_Time_sec
        = (if time_t2 w p > time_nego_sec w p then time_t2 w p - time_nego_sec w p
            else time_t2 w p) := by
  unfold time_t1 time_t2 time_nego_sec
  unfold time_lease at h ⊢
  unfold DHCPc_LeaseTimeCalc
  dsimp only
  rw [if_neg h]
  refine ⟨?_, ?_, ?_⟩
  · rw [(times_TmrCfg ..).1]
  · rw [(times_TmrCfg ..).2.1]
  · rw [(times_TmrCfg ..).2.2]

/-- C10. After `DHCPc_LeaseTimeCalc`: when the lease time of the ACK is 0xFFFFFFFF or the
option is absent, `LeaseTime_sec`, `T1_Time_sec` and `T2_Time_sec` all equal 0xFFFFFFFF.
Otherwise each of the three values read (lease, T1, T2: the option when present, else half
and seven eighths of the lease) is stored less the elapsed negotiation time when it exceeds
that time and unchanged when it does not; so `LeaseTime_sec >= T2_Time_sec >= T1_Time_sec`
holds when the values read satisfy lease >= T2 >= T1 and the elapsed time is below T1 or at
least the lease.  The defaults satisfy lease >= T2 >= T1. -/
theorem C10_LeaseTimeCalc_order (cfg : DHCPc_CFG) (w : Client) (p : DHCPc_IF_INFO) :
    (time_lease w p = DHCP_LEASE_INFINITE →
      (DHCPc_LeaseTimeCalc cfg w p).2.1.LeaseTime_sec = DHCP_LEASE_INFINITE
        ∧ (DHCPc_LeaseTimeCalc cfg w p).2.1.T2_Time_sec = DHCP_LEASE_INFINITE
        ∧ (DHCPc_LeaseTimeCalc cfg w p).2.1.T1_Time_sec = DHCP_LEASE_INFINITE) ∧
    (time_lease w p ≠ DHCP_LEASE_INFINITE → time_t1 w p ≤ time_t2 w p →
      time_t2 w p ≤ time_lease w p →
      (time_nego_sec w p < time_t1 w p ∨ time_lease w p ≤ time_nego_sec w p) →
      (DHCPc_LeaseTimeCalc cfg w p).2.1.LeaseTime_sec
          ≥ (DHCPc_LeaseTimeCalc cfg w p).2.1.T2_Time_sec
        ∧ (DHCPc_LeaseTimeCalc cfg w p).2.1.T2_Time_sec
          ≥ (DHCPc_LeaseTimeCalc cfg w p).2.1.T1_Time_sec) ∧
    (leaseT1Dflt (time_lease w p) ≤ leaseT2Dflt (time_lease w p)
      ∧ leaseT2Dflt (time_lease w p) ≤ time_lease w p) := by
  refine ⟨?_, ?_, ?_⟩
  · intro h
    unfold time_lease at h
    unfold DHCPc_LeaseTimeCalc
    dsimp only
    rw [if_pos h]
    exact ⟨rfl, rfl, rfl⟩
  · intro h h12 h2l hn
    obtain ⟨hl, h1, h2⟩ := LeaseTimeCalc_times cfg w p h
    rw [hl, h1, h2]
    rcases hn with hn | hn
    · rw [if_pos (by omega), if_pos (by omega), if_pos (by omega)]
      omega
    · rw [if_neg (by omega), if_neg (by omega), if_neg (by omega)]
      omega
  · unfold leaseT1Dflt leaseT2Dflt
    omega

/-- Witness of C10: a lease time of 600 seconds without T1 or T2 option, no time having
elapsed. -/
theorem C10_LeaseTimeCalc_order_witness :
    time_lease (startedClient quietEnv) (ackIf leaseOpt600) ≠ DHCP_LEASE_INFINITE ∧
    (DHCPc_LeaseTimeCalc templateCfg (startedClient quietEnv)
        (ackIf leaseOpt600)).2.1.LeaseTime_sec
      ≥ (DHCPc_LeaseTimeCalc templateCfg (startedClient quietEnv)
          (ackIf leaseOpt600)).2.1.T2_Time_sec
    ∧ (DHCPc_LeaseTimeCalc templateCfg (startedClient quietEnv)
        (ackIf leaseOpt600)).2.1.T2_Time_sec
      ≥ (DHCPc_LeaseTimeCalc templateCfg (startedClient quietEnv)
          (ackIf leaseOpt600)).2.1.T1_Time_sec :=
  ⟨by decide!, (C10_LeaseTimeCalc_order templateCfg (startedClient quietEnv)
    (ackIf leaseOpt600)).2.1 (by decide!) (by decide!) (by decide!) (by decide!)⟩

/-- C10 (counterexample). A lease time of 800 seconds without T1 or T2 option, 500 seconds
after the REQUEST was prepared: `LeaseTime_sec = 300`, `T2_Time_sec = 200`, `T1_Time_sec = 400`.
A lease time of 100 seconds with a RENEWAL-TIME-VALUE of 1000 seconds: `LeaseTime_sec = 100`,
`T2_Time_sec = 87`, `T1_Time_sec = 1000`.  In both cases `T2_Time_sec < T1_Time_sec` and the
three values are not all 0xFFFFFFFF.  The same values result when the two ACKs are received
in a negotiation started by `DHCPc_Start`. -/
theorem C10_LeaseTimeCalc_order_broken :
    (lateCalc.LeaseTime_sec = 300 ∧ lateCalc.T2_Time_sec = 200 ∧ lateCalc.T1_Time_sec = 400)
    ∧ (longT1Calc.LeaseTime_sec = 100 ∧ longT1Calc.T2_Time_sec = 87
        ∧ longT1Calc.T1_Time_sec = 1000)
    ∧ ¬ ((lateCalc.LeaseTime_sec ≥ lateCalc.T2_Time_sec
            ∧ lateCalc.T2_Time_sec ≥ lateCalc.T1_Time_sec)
          ∨ (lateCalc.LeaseTime_sec = DHCP_LEASE_INFINITE
            ∧ lateCalc.T2_Time_sec = DHCP_LEASE_INFINITE
            ∧ lateCalc.T1_Time_sec = DHCP_LEASE_INFINITE))
    ∧ ¬ ((longT1Calc.LeaseTime_sec ≥ longT1Calc.T2_Time_sec
            ∧ longT1Calc.T2_Time_sec ≥ longT1Calc.T1_Time_sec)
          ∨ (longT1Calc.LeaseTime_sec = DHCP_LEASE_INFINITE
            ∧ longT1Calc.T2_Time_sec = DHCP_LEASE_INFINITE
            ∧ longT1Calc.T1_Time_sec = DHCP_LEASE_INFINITE))
    ∧ negotiatedTimes { freeEnv [51, 4, 0, 0, 3, 32] with tick := [0, 0, 500000] }
        = some (300, 200, 400)
    ∧ negotiatedTimes (freeEnv [51, 4, 0, 0, 0, 100, 58, 4, 0, 0, 3, 232])
        = some (100, 87, 1000) := by
  refine ⟨?_, ?_, ?_, ?_, ?_, ?_⟩ <;> decide!

/-! ### Back-off delays -/

@[simp] theorem sched_append (a b : List Event) : sched (a ++ b) = sched a ++ sched b := by
  simp [sched]

@[simp] theorem sched_log (w : Client) (e : Event) :
    sched (w.log e).trace = sched w.trace ++ (schedEntry e).toList := by
  simp [Client.log, sched, List.filterMap_cons]
  cases schedEntry e <;> simp

@[simp] theorem trace_txPrepare (cfg : DHCPc_CFG) (w : Client) (p : DHCPc_IF_INFO) (t : Nat)
    (hw : List Nat) (len : Nat) (pmsg : DHCPc_MSG) :
    (txPrepare cfg w p t hw len pmsg).2.2.trace = w.trace := by
  unfold txPrepare; dsimp only; split <;> rfl

@[simp] theorem trace_MsgFree (cfg : DHCPc_CFG) (w : Client) (pmsg : DHCPc_MSG) :
    (DHCPc_MsgFree cfg w pmsg).trace = w.trace := by
  unfold DHCPc_MsgFree; split <;> rfl

@[simp] theorem trace_MsgGet (w : Client) : (DHCPc_MsgGet w).2.2.trace = w.trace := by
  unfold DHCPc_MsgGet; split <;> rfl

@[simp] theorem trace_storeMsg (cfg : DHCPc_CFG) (w : Client) (p : DHCPc_IF_INFO)
    (pmsg : DHCPc_MSG) : (storeMsg cfg w p pmsg).2.trace = w.trace := by
  unfold storeMsg; dsimp only; split <;> simp

@[simp] theorem sched_backOffDly (w : Client) (ms : Nat) :
    sched (backOffDly w ms).trace = sched w.trace ++ [some ms] := by
  simp [backOffDly, KAL_Dly, schedEntry]

@[simp] theorem sched_Tx (w : Client) (data : List Nat) (a : Nat) :
    sched (DHCPc_Tx w data a).2.trace = sched w.trace ++ [none] := by
  simp [DHCPc_Tx, schedEntry]

theorem sched_rxReplyLoop (cfg : DHCPc_CFG) (p : DHCPc_IF_INFO) (sid : Nat) (hw : List Nat)
    (len : Nat) (rx : List RxEvent) (f : RxFlags) (buf : Mem) (tr : List Event) :
    sched (rxReplyLoop cfg p sid hw len rx f buf tr).2.2.2.2 = sched tr := by
  induction rx generalizing f buf tr with
  | nil => rfl
  | cons ev rest ih =>
    unfold rxReplyLoop
    dsimp only
    repeat' split
    all_goals first
      | (rw [ih]; simp [sched, schedEntry])
      | simp [sched, schedEntry]

@[simp] theorem sched_RxReply (cfg : DHCPc_CFG) (w : Client) (p : DHCPc_IF_INFO) (sid : Nat)
    (hw : List Nat) (len : Nat) (buf : Mem) (n : Nat) :
    sched (DHCPc_RxReply cfg w p sid hw len buf n).2.trace = sched w.trace := by
  unfold DHCPc_RxReply
  dsimp only
  repeat' split
  all_goals simp [sched_rxReplyLoop]

@[simp] theorem sched_discoverRx (cfg : DHCPc_CFG) (p : DHCPc_IF_INFO) (hw : List Nat)
    (len fuel : Nat) (w : Client) (pmsg : DHCPc_MSG) :
    sched (discoverRx cfg p hw len fuel w pmsg).w.trace = sched w.trace := by
  induction fuel generalizing w pmsg with
  | zero => rfl
  | succ n ih =>
    unfold discoverRx
    dsimp only
    repeat' split
    all_goals simp [ih]

@[simp] theorem sched_reqRx (cfg : DHCPc_CFG) (p : DHCPc_IF_INFO) (hw : List Nat)
    (len fuel : Nat) (w : Client) (pmsg : DHCPc_MSG) :
    sched (reqRx cfg p hw len fuel w pmsg).w.trace = sched w.trace := by
  induction fuel generalizing w pmsg with
  | zero => rfl
  | succ n ih =>
    unfold reqRx
    dsimp only
    repeat' split
    all_goals simp [ih]

theorem backOffSched_succ (cfg : DHCPc_CFG) (n ms : Nat) :
    backOffSched cfg (n + 1) ms
      = none :: ((if 0 < n then [some (DHCPc_CalcBackOff cfg ms)] else [])
          ++ backOffSched cfg n (DHCPc_CalcBackOff cfg ms)) := by
  cases n with
  | zero => simp [backOffSched]
  | succ m => simp [backOffSched]

theorem sched_discoverLoop (cfg : DHCPc_CFG) (hw : List Nat) (len n : Nat) (d : Bool)
    (ms : Nat) (e : DHCPc_ERR) (p : DHCPc_IF_INFO) (pmsg : DHCPc_MSG) (w : Client) :
    ∃ l, l <+: ((if d = true ∧ 0 < n then [some (DHCPc_CalcBackOff cfg ms)] else [])
          ++ backOffSched cfg n (if d = true then DHCPc_CalcBackOff cfg ms else ms)) ∧
      sched (discoverLoop cfg hw len n d ms e p pmsg w).w.trace = sched w.trace ++ l := by
  induction n generalizing d ms e p pmsg w with
  | zero => exact ⟨[], List.nil_prefix, by simp [discoverLoop]⟩
  | succ n ih =>
    rw [backOffSched_succ]
    generalize hms : (if d = true then DHCPc_CalcBackOff cfg ms else ms) = ms1
    generalize hD : (if d = true ∧ 0 < n + 1 then [some (DHCPc_CalcBackOff cfg ms)] else [])
      = D
    have hw1 : sched (if d = true then backOffDly w ms1 else w).trace = sched w.trace ++ D := by
      cases d <;> simp at hms hD ⊢ <;> simp [← hms, ← hD]
    have ih1 := fun e p pmsg w => ih true ms1 e p pmsg w
    simp only [true_and, if_true] at ih1
    generalize ((if 0 < n then [some (DHCPc_CalcBackOff cfg ms1)] else [])
      ++ backOffSched cfg n (DHCPc_CalcBackOff cfg ms1)) = T at ih1 ⊢
    unfold discoverLoop
    dsimp only
    rw [hms]
    generalize (if d = true then backOffDly w ms1 else w) = w1 at hw1 ⊢
    split
    · exact ⟨D, List.prefix_append _ _, by simp [hw1]⟩
    · split
      · refine ⟨D ++ [none], ?_, by simp [hw1]⟩
        exact (List.prefix_append_right_inj D).2 (by simp)
      · split
        · refine ⟨D ++ [none], ?_, by simp [hw1]⟩
          exact (List.prefix_append_right_inj D).2 (by simp)
        · rename_i h1 h2 h3
          obtain ⟨l, hl, hs⟩ := ih1 _ _ _ _
          refine ⟨D ++ none :: l, ?_, ?_⟩
          · refine (List.prefix_append_right_inj D).2 ?_
            exact (List.prefix_cons_inj none).2 hl
          · rw [hs]; simp [hw1]

theorem sched_reqLoop (cfg : DHCPc_CFG) (hw : List Nat) (len n : Nat) (d : Bool)
    (ms : Nat) (e : DHCPc_ERR) (p : DHCPc_IF_INFO) (pmsg : DHCPc_MSG) (w : Client) :
    ∃ l, l <+: ((if d = true ∧ 0 < n then [some (DHCPc_CalcBackOff cfg ms)] else [])
          ++ backOffSched cfg n (if d = true then DHCPc_CalcBackOff cfg ms else ms)) ∧
      sched (reqLoop cfg hw len n d ms e p pmsg w).w.trace = sched w.trace ++ l := by
  induction n generalizing d ms e p pmsg w with
  | zero => exact ⟨[], List.nil_prefix, by simp [reqLoop]⟩
  | succ n ih =>
    rw [backOffSched_succ]
    generalize hms : (if d = true then DHCPc_CalcBackOff cfg ms else ms) = ms1
    generalize hD : (if d = true ∧ 0 < n + 1 then [some (DHCPc_CalcBackOff cfg ms)] else [])
      = D
    have hw1 : sched (if d = true then backOffDly w ms1 else w).trace = sched w.trace ++ D := by
      cases d <;> simp at hms hD ⊢ <;> simp [← hms, ← hD]
    have ih1 := fun e p pmsg w => ih true ms1 e p pmsg w
    simp only [true_and, if_true] at ih1
    generalize ((if 0 < n then [some (DHCPc_CalcBackOff cfg ms1)] else [])
      ++ backOffSched cfg n (DHCPc_CalcBackOff cfg ms1)) = T at ih1 ⊢
    unfold reqLoop
    dsimp only
    rw [hms]
    generalize (if d = true then backOffDly w ms1 else w) = w1 at hw1 ⊢
    generalize (if p.ClientState = DHCP_STATE_RENEWING then p.ServerID
      else NET_IPv4_ADDR_BROADCAST) = addr
    split
    · exact ⟨D, List.prefix_append _ _, by simp [hw1]⟩
    · split
      · refine ⟨D ++ [none], ?_, by simp [hw1]⟩
        exact (List.prefix_append_right_inj D).2 (by simp)
      · split
        · refine ⟨D ++ [none], ?_, by simp [hw1]⟩
          exact (List.prefix_append_right_inj D).2 (by simp)
        · obtain ⟨l, hl, hs⟩ := ih1 _ _ _ _
          refine ⟨D ++ none :: l, ?_, ?_⟩
          · refine (List.prefix_append_right_inj D).2 ?_
            exact (List.prefix_cons_inj none).2 hl
          · rw [hs]; simp [hw1]

theorem sched_Discover (cfg : DHCPc_CFG) (w : Client) (p : DHCPc_IF_INFO) (hw : List Nat)
    (len : Nat) :
    ∃ l, l <+: backOffSched cfg cfg.DHCPc_CFG_DISCOVER_RETRY_CNT 0 ∧
      sched (DHCPc_Discover cfg w p hw len).2.2.trace = sched w.trace ++ l := by
  unfold DHCPc_Discover
  split
  · exact ⟨[], List.nil_prefix, by simp⟩
  · dsimp only
    split
    · exact ⟨[], List.nil_prefix, by simp⟩
    · rename_i pmsg _
      obtain ⟨l, hl, hs⟩ := sched_discoverLoop cfg hw len cfg.DHCPc_CFG_DISCOVER_RETRY_CNT
        false 0 DHCPc_ERR_NONE p pmsg (DHCPc_MsgGet w).2.2
      simp only [Bool.false_eq_true, false_and, if_false, List.nil_append] at hl
      refine ⟨l, hl, ?_⟩
      repeat' split
      all_goals simp [hs]

theorem sched_Req (cfg : DHCPc_CFG) (w : Client) (p : DHCPc_IF_INFO) (hw : List Nat)
    (len : Nat) :
    ∃ l, l <+: backOffSched cfg cfg.DHCPc_CFG_REQUEST_RETRY_CNT 0 ∧
      sched (DHCPc_Req cfg w p hw len).2.2.trace = sched w.trace ++ l := by
  unfold DHCPc_Req
  split
  · exact ⟨[], List.nil_prefix, by simp⟩
  · dsimp only
    split
    · exact ⟨[], List.nil_prefix, by simp⟩
    · rename_i pmsg _
      obtain ⟨l, hl, hs⟩ := sched_reqLoop cfg hw len cfg.DHCPc_CFG_REQUEST_RETRY_CNT
        false 0 DHCPc_ERR_NONE p pmsg (DHCPc_MsgGet w).2.2
      simp only [Bool.false_eq_true, false_and, if_false, List.nil_append] at hl
      refine ⟨l, hl, ?_⟩
      repeat' split
      all_goals simp [hs]

/-- C18. With the maximum of 64000 ms and the factor 2, `DHCPc_CalcBackOff(t)` is
`min(2 t, 64000)` for every `0 < t <= 64000`, the 16-bit result losing nothing; and when the
initial delay is at most 64000 ms the values obtained by iterating `DHCPc_CalcBackOff` from 0
never decrease and never exceed 64000 ms. -/
theorem C18_CalcBackOff_doubles (cfg : DHCPc_CFG)
    (hmax : cfg.DHCPc_BACKOFF_DLY_MAX_MS = 64000) (hs : cfg.DHCPc_BACKOFF_DLY_SCALAR = 2)
    (hi : cfg.DHCPc_BACKOFF_DLY_INITIAL_MS ≤ 64000) :
    (∀ t, 0 < t → t ≤ 64000 → DHCPc_CalcBackOff cfg t = min (2 * t) 64000) ∧
    (∀ n, backOffSeq cfg n ≤ backOffSeq cfg (n + 1) ∧ backOffSeq cfg n ≤ 64000) := by
  have hc : ∀ t, 0 < t → t ≤ 64000 → DHCPc_CalcBackOff cfg t = min (2 * t) 64000 := by
    intro t ht hle
    have ht0 : t ≠ 0 := by omega
    simp only [DHCPc_CalcBackOff, hmax, hs, ht0, if_false]
    split <;> omega
  have h0 : DHCPc_CalcBackOff cfg 0 = cfg.DHCPc_BACKOFF_DLY_INITIAL_MS := by
    simp only [DHCPc_CalcBackOff, if_true]
    omega
  have hb : ∀ n, backOffSeq cfg n ≤ 64000 := by
    intro n
    induction n with
    | zero => simp [backOffSeq]
    | succ n ih =>
      rw [backOffSeq]
      rcases Nat.eq_zero_or_pos (backOffSeq cfg n) with hz | hp
      · rw [hz, h0]; exact hi
      · rw [hc _ hp ih]; omega
  refine ⟨hc, fun n => ⟨?_, hb n⟩⟩
  rw [backOffSeq]
  rcases Nat.eq_zero_or_pos (backOffSeq cfg n) with hz | hp
  · rw [hz]; exact Nat.zero_le _
  · rw [hc _ hp (hb n)]; have := hb n; omega

/-- Witness of C18: the template configuration, whose delays are 0, 4000, 8000, 16000, 32000,
64000, 64000. -/
theorem C18_CalcBackOff_doubles_witness :
    templateCfg.DHCPc_BACKOFF_DLY_MAX_MS = 64000 ∧ templateCfg.DHCPc_BACKOFF_DLY_SCALAR = 2 ∧
    templateCfg.DHCPc_BACKOFF_DLY_INITIAL_MS ≤ 64000 ∧
    DHCPc_CalcBackOff templateCfg 40000 = min (2 * 40000) 64000 ∧
    (List.range 7).map (backOffSeq templateCfg) = [0, 4000, 8000, 16000, 32000, 64000, 64000] ∧
    backOffSeq templateCfg 5 ≤ backOffSeq templateCfg 6 :=
  ⟨rfl, rfl, by decide,
    (C18_CalcBackOff_doubles templateCfg rfl rfl (by decide)).1 40000 (by decide) (by decide),
    by decide!, ((C18_CalcBackOff_doubles templateCfg rfl rfl (by decide)).2 5).1⟩

/-! ### Arming the lease timer -/

theorem TmrCfg_arms (cfg : DHCPc_CFG) (w : Client) (p : DHCPc_IF_INFO) (m : DHCPc_COMM_MSG)
    (t c tm : Nat) (cp tp : List Nat)
    (hm : m ≠ DHCPc_COMM_MSG_NONE ∧ m ≠ DHCPc_COMM_MSG_STOP) (ht : t ≠ DHCP_LEASE_INFINITE)
    (hc : w.DHCPc_CommPoolPtr = c :: cp) (htp : w.DHCPc_TmrPoolPtr = tm :: tp) :
    DHCPc_TmrCfg cfg w p m t = (DHCPc_ERR_NONE, { p with Tmr := some tm },
      { w with DHCPc_CommPoolPtr := cp
               DHCPc_CommListHead := c :: w.DHCPc_CommListHead
               DHCPc_TmrPoolPtr := tp
               DHCPc_TmrListHead :=
                 ⟨tm, some ⟨c, p.IF_Nbr, m⟩, t / cfg.DHCPc_TMR_PERIOD_SEC⟩
                   :: w.DHCPc_TmrListHead }) := by
  unfold DHCPc_TmrCfg
  cases m <;> simp [DHCPc_CommGet, DHCPc_TmrGet, hc, htp, ht] at hm ⊢

theorem TmrCfg_infinite (cfg : DHCPc_CFG) (w : Client) (p : DHCPc_IF_INFO) (m : DHCPc_COMM_MSG)
    (hm : m ≠ DHCPc_COMM_MSG_NONE ∧ m ≠ DHCPc_COMM_MSG_STOP) :
    DHCPc_TmrCfg cfg w p m DHCP_LEASE_INFINITE = (DHCPc_ERR_NONE, p, w) := by
  unfold DHCPc_TmrCfg
  cases m <;> simp at hm ⊢

theorem LeaseTimeCalc_TmrCfg (cfg : DHCPc_CFG) (w : Client) (p : DHCPc_IF_INFO)
    (h : time_lease w p ≠ DHCP_LEASE_INFINITE) :
    DHCPc_LeaseTimeCalc cfg w p =
      leaseTmrCfg cfg (DHCPc_OS_TimeGet_tick w).2 (calcTimes w p) DHCPc_COMM_MSG_T1_EXPIRED
        (calcTimes w p).T1_Time_sec := by
  unfold time_lease at h
  unfold DHCPc_LeaseTimeCalc
  dsimp only
  rw [if_neg h]
  rfl

theorem leaseTmrCfg_arms (cfg : DHCPc_CFG) (w : Client) (p : DHCPc_IF_INFO) (m : DHCPc_COMM_MSG)
    (t c tm : Nat) (cp tp : List Nat)
    (hm : m ≠ DHCPc_COMM_MSG_NONE ∧ m ≠ DHCPc_COMM_MSG_STOP) (ht : t ≠ DHCP_LEASE_INFINITE)
    (hc : w.DHCPc_CommPoolPtr = c :: cp) (htp : w.DHCPc_TmrPoolPtr = tm :: tp) :
    leaseTmrCfg cfg w p m t = (DHCPc_ERR_NONE, { p with Tmr := some tm },
      { w with DHCPc_CommPoolPtr := cp
               DHCPc_CommListHead := c :: w.DHCPc_CommListHead
               DHCPc_TmrPoolPtr := tp
               DHCPc_TmrListHead :=
                 ⟨tm, some ⟨c, p.IF_Nbr, m⟩, t / cfg.DHCPc_TMR_PERIOD_SEC⟩
                   :: w.DHCPc_TmrListHead }) := by
  unfold leaseTmrCfg
  rw [TmrCfg_arms cfg w p m t c tm cp tp hm ht hc htp]
  simp

theorem leaseTmrCfg_infinite (cfg : DHCPc_CFG) (w : Client) (p : DHCPc_IF_INFO)
    (m : DHCPc_COMM_MSG) (hm : m ≠ DHCPc_COMM_MSG_NONE ∧ m ≠ DHCPc_COMM_MSG_STOP) :
    leaseTmrCfg cfg w p m DHCP_LEASE_INFINITE = (DHCPc_ERR_NONE, p, w) := by
  unfold leaseTmrCfg
  rw [TmrCfg_infinite cfg w p m hm]
  simp

/-- C11. For an ACK with a finite lease time, `DHCPc_LeaseTimeCalc` reads T1 from
RENEWAL-TIME-VALUE when present and takes half the lease time otherwise, reads T2 from
REBINDING-TIME-VALUE when present and takes seven eighths of the lease time otherwise, and
stores each of T1, T2 and the lease time less the elapsed negotiation time when it exceeds
that time (unchanged when it does not).  When the stored `T1_Time_sec` is not 0xFFFFFFFF and a
communication object and a timer are free, it then arms a timer of `T1_Time_sec` seconds
(`T1_Time_sec / DHCPc_TMR_PERIOD_SEC` ticks) that posts T1_EXPIRED for the interface, at the
head of the timer list, and reports no error; when `T1_Time_sec` is 0xFFFFFFFF it arms no
timer and reports no error. -/
theorem C11_LeaseTimeCalc_arms_T1 (cfg : DHCPc_CFG) (w : Client) (p : DHCPc_IF_INFO)
    (h : time_lease w p ≠ DHCP_LEASE_INFINITE) :
    time_t1 w p
      = (msgOpt32 DHCP_OPT_RENEWAL_TIME_VALUE (lastRxMsg w p)).getD (time_lease w p / 2) ∧
    time_t2 w p
      = (msgOpt32 DHCP_OPT_REBINDING_TIME_VALUE (lastRxMsg w p)).getD
          (time_lease w p * 7 / 8) ∧
    (DHCPc_LeaseTimeCalc cfg w p).2.1.T1_Time_sec
      = (if time_t1 w p > time_nego_sec w p then time_t1 w p - time_nego_sec w p
          else time_t1 w p) ∧
    (DHCPc_LeaseTimeCalc cfg w p).2.1.T2_Time_sec
      = (if time_t2 w p > time_nego_sec w p then time_t2 w p - time_nego_sec w p
          else time_t2 w p) ∧
    (DHCPc_LeaseTimeCalc cfg w p).2.1.LeaseTime_sec
      = (if time_lease w p > time_nego_sec w p then time_lease w p - time_nego_sec w p
          else time_lease w p) ∧
    ((DHCPc_LeaseTimeCalc cfg w p).2.1.T1_Time_sec ≠ DHCP_LEASE_INFINITE →
      ∀ c cp tm tp, w.DHCPc_CommPoolPtr = c :: cp → w.DHCPc_TmrPoolPtr = tm :: tp →
        (DHCPc_LeaseTimeCalc cfg w p).1 = DHCPc_ERR_NONE ∧
        (DHCPc_LeaseTimeCalc cfg w p).2.1.Tmr = some tm ∧
        (DHCPc_LeaseTimeCalc cfg w p).2.2.DHCPc_TmrListHead
          = ⟨tm, some ⟨c, p.IF_Nbr, DHCPc_COMM_MSG_T1_EXPIRED⟩,
              (DHCPc_LeaseTimeCalc cfg w p).2.1.T1_Time_sec / cfg.DHCPc_TMR_PERIOD_SEC⟩
            :: w.DHCPc_TmrListHead ∧
        (DHCPc_LeaseTimeCalc cfg w p).2.2.DHCPc_TmrPoolPtr = tp) ∧
    ((DHCPc_LeaseTimeCalc cfg w p).2.1.T1_Time_sec = DHCP_LEASE_INFINITE →
      (DHCPc_LeaseTimeCalc cfg w p).1 = DHCPc_ERR_NONE ∧
      (DHCPc_LeaseTimeCalc cfg w p).2.1.Tmr = p.Tmr ∧
      (DHCPc_LeaseTimeCalc cfg w p).2.2.DHCPc_TmrListHead = w.DHCPc_TmrListHead ∧
      (DHCPc_LeaseTimeCalc cfg w p).2.2.DHCPc_TmrPoolPtr = w.DHCPc_TmrPoolPtr) := by
  obtain ⟨hl, h1, h2⟩ := LeaseTimeCalc_times cfg w p h
  refine ⟨rfl, rfl, h1, h2, hl, ?_, ?_⟩
  · intro hne c cp tm tp hc htp
    have hq : (calcTimes w p).T1_Time_sec ≠ DHCP_LEASE_INFINITE := by
      rw [h1] at hne; exact hne
    rw [LeaseTimeCalc_TmrCfg cfg w p h,
      leaseTmrCfg_arms cfg (DHCPc_OS_TimeGet_tick w).2 (calcTimes w p)
        DHCPc_COMM_MSG_T1_EXPIRED _ c tm cp tp (by decide) hq hc htp]
    exact ⟨rfl, rfl, rfl, rfl⟩
  · intro he
    have hq : (calcTimes w p).T1_Time_sec = DHCP_LEASE_INFINITE := by
      rw [h1] at he; exact he
    rw [LeaseTimeCalc_TmrCfg cfg w p h, hq,
      leaseTmrCfg_infinite cfg _ _ DHCPc_COMM_MSG_T1_EXPIRED (by decide)]
    exact ⟨rfl, rfl, rfl, rfl⟩

/-- Witness of C11: an ACK with a lease time of 600 seconds and no T1 or T2 option, no time
having elapsed: `T1_Time_sec` is 300 and timer 0 is armed with 300 ticks for T1_EXPIRED on
interface 1. -/
theorem C11_LeaseTimeCalc_arms_T1_witness :
    time_lease (startedClient quietEnv) (ackIf leaseOpt600) ≠ DHCP_LEASE_INFINITE ∧
    (DHCPc_LeaseTimeCalc templateCfg (startedClient quietEnv) (ackIf leaseOpt600)).2.1.T1_Time_sec
      = 300 ∧
    (DHCPc_LeaseTimeCalc templateCfg (startedClient quietEnv)
        (ackIf leaseOpt600)).2.2.DHCPc_TmrListHead
      = [⟨0, some ⟨2, 1, DHCPc_COMM_MSG_T1_EXPIRED⟩, 300⟩] := by
  have h := C11_LeaseTimeCalc_arms_T1 templateCfg (startedClient quietEnv) (ackIf leaseOpt600)
    (by decide!)
  have h1 : (DHCPc_LeaseTimeCalc templateCfg (startedClient quietEnv)
      (ackIf leaseOpt600)).2.1.T1_Time_sec = 300 := by decide!
  refine ⟨by decide!, h1, ?_⟩
  have h6 := h.2.2.2.2.2.1 (by rw [h1]; decide) 2 [1, 0] 0 [] rfl rfl
  rw [h6.2.2.1, h1]
  rfl

/-- C11 (counterexample). An ACK with a lease time of 100 seconds and a RENEWAL-TIME-VALUE of
0xFFFFFFFF, no time having elapsed: `DHCPc_LeaseTimeCalc` reports no error and stores
`T1_Time_sec = 0xFFFFFFFF`, but the timer list stays empty, the only timer stays in the pool
and the record has no timer.  The same holds when the ACK is received in a negotiation started
by `DHCPc_Start`, which ends with the status `DHCP_STATUS_CFGD`. -/
theorem C11_no_timer_for_infinite_T1 :
    time_lease (startedClient quietEnv) (ackIf leaseInfT1Opt) = 100 ∧
    (DHCPc_LeaseTimeCalc templateCfg (startedClient quietEnv) (ackIf leaseInfT1Opt)).1
      = DHCPc_ERR_NONE ∧
    (DHCPc_LeaseTimeCalc templateCfg (startedClient quietEnv)
      (ackIf leaseInfT1Opt)).2.1.T1_Time_sec = 0xFFFFFFFF ∧
    (DHCPc_LeaseTimeCalc templateCfg (startedClient quietEnv)
      (ackIf leaseInfT1Opt)).2.1.LeaseTime_sec = 100 ∧
    (DHCPc_LeaseTimeCalc templateCfg (startedClient quietEnv) (ackIf leaseInfT1Opt)).2.1.Tmr
      = none ∧
    (DHCPc_LeaseTimeCalc templateCfg (startedClient quietEnv)
      (ackIf leaseInfT1Opt)).2.2.DHCPc_TmrListHead = [] ∧
    (DHCPc_LeaseTimeCalc templateCfg (startedClient quietEnv)
      (ackIf leaseInfT1Opt)).2.2.DHCPc_TmrPoolPtr = [0] ∧
    DHCPc_ChkStatus (runStart (freeEnv leaseInfT1Opt)) 1 = (DHCP_STATUS_CFGD, DHCPc_ERR_NONE) ∧
    negotiatedTimes (freeEnv leaseInfT1Opt) = some (100, 87, 0xFFFFFFFF) ∧
    (runStart (freeEnv leaseInfT1Opt)).DHCPc_TmrListHead = [] := by
  refine ⟨?_, ?_, ?_, ?_, ?_, ?_, ?_, ?_, ?_, ?_⟩ <;> decide!

/-! ### Timers re-armed after a failed lease extension -/

theorem decElapsed_le (x e : Nat) : decElapsed x e ≤ x := by
  unfold decElapsed; split <;> omega

theorem decExpired_le (x e : Nat) : decExpired x e ≤ x := by
  unfold decExpired; split <;> omega

theorem LeaseTimeUpdate_T1 (cfg : DHCPc_CFG) (w : Client) (p : DHCPc_IF_INFO) :
    DHCPc_LeaseTimeUpdate cfg w p DHCPc_COMM_MSG_T1_EXPIRED =
      if remT2 w p > 2 * cfg.DHCP_MIN_RETX_TIME_S then
        leaseTmrCfg cfg (DHCPc_OS_TimeGet_tick w).2
          { p with LeaseTime_sec := remLease w p p.T1_Time_sec, T2_Time_sec := remT2 w p
                   T1_Time_sec := remT2 w p / 2 }
          DHCPc_COMM_MSG_T1_EXPIRED (remT2 w p / 2)
      else
        leaseTmrCfg cfg (DHCPc_OS_TimeGet_tick w).2
          { p with LeaseTime_sec := remLease w p p.T1_Time_sec, T2_Time_sec := remT2 w p
                   T1_Time_sec := 0 }
          DHCPc_COMM_MSG_T2_EXPIRED (remT2 w p) := rfl

theorem LeaseTimeUpdate_T2 (cfg : DHCPc_CFG) (w : Client) (p : DHCPc_IF_INFO) :
    DHCPc_LeaseTimeUpdate cfg w p DHCPc_COMM_MSG_T2_EXPIRED =
      if remLease w p p.T2_Time_sec > 2 * cfg.DHCP_MIN_RETX_TIME_S then
        leaseTmrCfg cfg (DHCPc_OS_TimeGet_tick w).2
          { p with LeaseTime_sec := remLease w p p.T2_Time_sec
                   T2_Time_sec := remLease w p p.T2_Time_sec / 2, T1_Time_sec := 0 }
          DHCPc_COMM_MSG_T2_EXPIRED (remLease w p p.T2_Time_sec / 2)
      else
        leaseTmrCfg cfg (DHCPc_OS_TimeGet_tick w).2
          { p with LeaseTime_sec := remLease w p p.T2_Time_sec
                   T2_Time_sec := decElapsed 0 (time_nego_sec w p), T1_Time_sec := 0 }
          DHCPc_COMM_MSG_LEASE_EXPIRED (remLease w p p.T2_Time_sec) := rfl

@[simp] theorem tmrPart_log (w : Client) (e : Event) : tmrPart (w.log e) = tmrPart w := rfl

@[simp] theorem tmrPart_KAL_Dly (w : Client) (ms : Nat) : tmrPart (KAL_Dly w ms) = tmrPart w :=
  rfl

@[simp] theorem tmrPart_IsEnCfgd (w : Client) : tmrPart (NetIF_IsEnCfgd w).2 = tmrPart w := rfl

@[simp] theorem tmrPart_AddrHW_Get (w : Client) : tmrPart (NetIF_AddrHW_Get w).2 = tmrPart w :=
  rfl

@[simp] theorem tmrPart_TimeGet_tick (w : Client) :
    tmrPart (DHCPc_OS_TimeGet_tick w).2 = tmrPart w := rfl

@[simp] theorem tmrPart_Lock (w : Client) : tmrPart (DHCPc_OS_Lock w).2 = tmrPart w := rfl

@[simp] theorem tmrPart_MsgPost (w : Client) (pcomm : DHCPc_COMM) :
    tmrPart (DHCPc_OS_MsgPost w pcomm).2 = tmrPart w := by
  unfold DHCPc_OS_MsgPost; simp only []; split <;> rfl

@[simp] theorem tmrPart_MsgGet (w : Client) : tmrPart (DHCPc_MsgGet w).2.2 = tmrPart w := by
  unfold DHCPc_MsgGet; split <;> rfl

@[simp] theorem tmrPart_MsgFree (cfg : DHCPc_CFG) (w : Client) (pmsg : DHCPc_MSG) :
    tmrPart (DHCPc_MsgFree cfg w pmsg) = tmrPart w := by
  unfold DHCPc_MsgFree; split <;> rfl

@[simp] theorem tmrPart_CommGet (w : Client) (if_nbr : Nat) (m : DHCPc_COMM_MSG) :
    tmrPart (DHCPc_CommGet w if_nbr m).2.2 = tmrPart w := by
  unfold DHCPc_CommGet; split <;> rfl

@[simp] theorem tmrPart_CommFree (cfg : DHCPc_CFG) (w : Client) (pcomm : DHCPc_COMM) :
    tmrPart (DHCPc_CommFree cfg w pcomm) = tmrPart w := by
  unfold DHCPc_CommFree; split <;> rfl

@[simp] theorem tmrPart_InitSock (w : Client) (a n : Nat) :
    tmrPart (DHCPc_InitSock w a n).2 = tmrPart w := rfl

@[simp] theorem tmrPart_SockClose (w : Client) : tmrPart (NetApp_SockClose w) = tmrPart w := rfl

@[simp] theorem tmrPart_DynamicStart (w : Client) (n : Nat) :
    tmrPart (NetIPv4_CfgAddrAddDynamicStart w n).2 = tmrPart w := rfl

@[simp] theorem tmrPart_DynamicStop (w : Client) (n : Nat) :
    tmrPart (NetIPv4_CfgAddrAddDynamicStop w n) = tmrPart w := rfl

@[simp] theorem tmrPart_RemoveAll (w : Client) (n : Nat) :
    tmrPart (NetIPv4_CfgAddrRemoveAll w n).2 = tmrPart w := rfl

@[simp] theorem tmrPart_AddDynamic (w : Client) (n h m g : Nat) :
    tmrPart (NetIPv4_CfgAddrAddDynamic w n h m g).2 = tmrPart w := rfl

@[simp] theorem tmrPart_AddrValidate (cfg : DHCPc_CFG) (w : Client) (n a d : Nat) :
    tmrPart (DHCPc_AddrValidate cfg w n a d).2 = tmrPart w := by
  unfold DHCPc_AddrValidate
  dsimp only
  repeat' split
  all_goals rfl

@[simp] theorem tmrPart_AddrCfg (w : Client) (p : DHCPc_IF_INFO) :
    tmrPart (DHCPc_AddrCfg w p).2 = tmrPart w := by
  simp [DHCPc_AddrCfg]

@[simp] theorem tmrPart_AddrLocalLinkGet (w : Client) (hw : List Nat) (n : Nat) :
    tmrPart (DHCPc_AddrLocalLinkGet w hw n).2 = tmrPart w := by
  simp [DHCPc_AddrLocalLinkGet]

@[simp] theorem tmrPart_localLinkSrch (cfg : DHCPc_CFG) (p : DHCPc_IF_INFO) (hw : List Nat)
    (len n c : Nat) (e : DHCPc_ERR) (a : Nat) (w : Client) :
    tmrPart (localLinkSrch cfg p hw len n c e a w).2.2 = tmrPart w := by
  induction n generalizing c e a w with
  | zero => rfl
  | succ n ih =>
    unfold localLinkSrch
    dsimp only
    split
    · split <;> simp
    · rw [ih]; split <;> simp
    · split <;> simp

@[simp] theorem tmrPart_localLinkAnnounce (a n : Nat) (w : Client) :
    tmrPart (localLinkAnnounce a n w) = tmrPart w := by
  induction n generalizing w with
  | zero => rfl
  | succ n ih =>
    unfold localLinkAnnounce
    dsimp only
    split
    · rw [ih]; rfl
    · rfl

@[simp] theorem tmrPart_AddrLocalLinkCfg (cfg : DHCPc_CFG) (w : Client) (p : DHCPc_IF_INFO)
    (hw : List Nat) (len : Nat) (e : DHCPc_ERR) :
    tmrPart (DHCPc_AddrLocalLinkCfg cfg w p hw len e).2 = tmrPart w := by
  unfold DHCPc_AddrLocalLinkCfg
  dsimp only
  repeat' split
  all_goals simp

@[simp] theorem tmrPart_Tx (w : Client) (d : List Nat) (a : Nat) :
    tmrPart (DHCPc_Tx w d a).2 = tmrPart w := rfl

@[simp] theorem tmrPart_RxReply (cfg : DHCPc_CFG) (w : Client) (p : DHCPc_IF_INFO) (sid : Nat)
    (hw : List Nat) (len : Nat) (buf : Mem) (blen : Nat) :
    tmrPart (DHCPc_RxReply cfg w p sid hw len buf blen).2 = tmrPart w := by
  unfold DHCPc_RxReply
  dsimp only
  repeat' split
  all_goals rfl

@[simp] theorem tmrPart_txPrepare (cfg : DHCPc_CFG) (w : Client) (p : DHCPc_IF_INFO) (mt : Nat)
    (hw : List Nat) (len : Nat) (pmsg : DHCPc_MSG) :
    tmrPart (txPrepare cfg w p mt hw len pmsg).2.2 = tmrPart w := by
  unfold txPrepare
  dsimp only
  split <;> simp

@[simp] theorem tmrPart_backOffDly (w : Client) (ms : Nat) :
    tmrPart (backOffDly w ms) = tmrPart w := rfl

@[simp] theorem tmrPart_discoverRx (cfg : DHCPc_CFG) (p : DHCPc_IF_INFO) (hw : List Nat)
    (len fuel : Nat) (w : Client) (pmsg : DHCPc_MSG) :
    tmrPart (discoverRx cfg p hw len fuel w pmsg).w = tmrPart w := by
  induction fuel generalizing w pmsg with
  | zero => rfl
  | succ n ih =>
    unfold discoverRx
    dsimp only
    repeat' split
    all_goals simp [ih]

@[simp] theorem tmrPart_reqRx (cfg : DHCPc_CFG) (p : DHCPc_IF_INFO) (hw : List Nat)
    (len fuel : Nat) (w : Client) (pmsg : DHCPc_MSG) :
    tmrPart (reqRx cfg p hw len fuel w pmsg).w = tmrPart w := by
  induction fuel generalizing w pmsg with
  | zero => rfl
  | succ n ih =>
    unfold reqRx
    dsimp only
    repeat' split
    all_goals simp [ih]

@[simp] theorem tmrPart_discoverLoop (cfg : DHCPc_CFG) (hw : List Nat) (len n : Nat) (d : Bool)
    (ms : Nat) (e : DHCPc_ERR) (p : DHCPc_IF_INFO) (pmsg : DHCPc_MSG) (w : Client) :
    tmrPart (discoverLoop cfg hw len n d ms e p pmsg w).w = tmrPart w := by
  induction n generalizing d ms e p pmsg w with
  | zero => rfl
  | succ n ih =>
    unfold discoverLoop
    dsimp only
    repeat' split
    all_goals simp [ih]

@[simp] theorem tmrPart_reqLoop (cfg : DHCPc_CFG) (hw : List Nat) (len n : Nat) (d : Bool)
    (ms : Nat) (e : DHCPc_ERR) (p : DHCPc_IF_INFO) (pmsg : DHCPc_MSG) (w : Client) :
    tmrPart (reqLoop cfg hw len n d ms e p pmsg w).w = tmrPart w := by
  induction n generalizing d ms e p pmsg w with
  | zero => rfl
  | succ n ih =>
    unfold reqLoop
    dsimp only
    repeat' split
    all_goals simp [ih]

@[simp] theorem tmrPart_storeMsg (cfg : DHCPc_CFG) (w : Client) (p : DHCPc_IF_INFO)
    (pmsg : DHCPc_MSG) : tmrPart (storeMsg cfg w p pmsg).2 = tmrPart w := by
  unfold storeMsg
  dsimp only
  split <;> simp

@[simp] theorem tmrPart_Discover (cfg : DHCPc_CFG) (w : Client) (p : DHCPc_IF_INFO)
    (hw : List Nat) (len : Nat) : tmrPart (DHCPc_Discover cfg w p hw len).2.2 = tmrPart w := by
  unfold DHCPc_Discover
  dsimp only
  repeat' split
  all_goals simp

@[simp] theorem tmrPart_Req (cfg : DHCPc_CFG) (w : Client) (p : DHCPc_IF_INFO)
    (hw : List Nat) (len : Nat) : tmrPart (DHCPc_Req cfg w p hw len).2.2 = tmrPart w := by
  unfold DHCPc_Req
  dsimp only
  repeat' split
  all_goals simp

@[simp] theorem tmrPart_DeclineRelease (cfg : DHCPc_CFG) (w : Client) (p : DHCPc_IF_INFO)
    (mt : Nat) (hw : List Nat) (len : Nat) :
    tmrPart (DHCPc_DeclineRelease cfg w p mt hw len).2.2 = tmrPart w := by
  unfold DHCPc_DeclineRelease
  dsimp only
  repeat' split
  all_goals simp

@[simp] theorem tmrPart_negoLoop (cfg : DHCPc_CFG) (ifn : Nat) (hw : List Nat) (len n : Nat)
    (d : Bool) (e : DHCPc_ERR) (p : DHCPc_IF_INFO) (w : Client) :
    tmrPart (negoLoop cfg ifn hw len n d e p w).2.2 = tmrPart w := by
  induction n generalizing d e p w with
  | zero => rfl
  | succ n ih =>
    unfold negoLoop
    dsimp only
    repeat' split
    all_goals simp [ih]

@[simp] theorem tmrPart_stopRelease (cfg : DHCPc_CFG) (w : Client) (p : DHCPc_IF_INFO) :
    tmrPart (stopRelease cfg w p).2 = tmrPart w := by
  unfold stopRelease
  dsimp only
  repeat' split
  all_goals simp

@[simp] theorem timing_TxMsgPrepare (cfg : DHCPc_CFG) (nm : Mem) (cn : Option (List Nat))
    (tick : Nat) (p : DHCPc_IF_INFO) (mt : Nat) (hw : Mem) (len : Nat) (buf : Mem) (sz : Nat) :
    timing (DHCPc_TxMsgPrepare cfg nm cn tick p mt hw len buf sz).2 = timing p := by
  unfold DHCPc_TxMsgPrepare
  repeat' split
  all_goals rfl

@[simp] theorem timing_txPrepare (cfg : DHCPc_CFG) (w : Client) (p : DHCPc_IF_INFO) (mt : Nat)
    (hw : List Nat) (len : Nat) (pmsg : DHCPc_MSG) :
    timing (txPrepare cfg w p mt hw len pmsg).2.1 = timing p := by
  simp [txPrepare]

@[simp] theorem timing_discoverLoop (cfg : DHCPc_CFG) (hw : List Nat) (len n : Nat) (d : Bool)
    (ms : Nat) (e : DHCPc_ERR) (p : DHCPc_IF_INFO) (pmsg : DHCPc_MSG) (w : Client) :
    timing (discoverLoop cfg hw len n d ms e p pmsg w).pif_info = timing p := by
  induction n generalizing d ms e p pmsg w with
  | zero => rfl
  | succ n ih =>
    unfold discoverLoop
    dsimp only
    repeat' split
    all_goals first | (simp [ih]; done) | (simp [ih]; rfl)

@[simp] theorem timing_reqLoop (cfg : DHCPc_CFG) (hw : List Nat) (len n : Nat) (d : Bool)
    (ms : Nat) (e : DHCPc_ERR) (p : DHCPc_IF_INFO) (pmsg : DHCPc_MSG) (w : Client) :
    timing (reqLoop cfg hw len n d ms e p pmsg w).pif_info = timing p := by
  induction n generalizing d ms e p pmsg w with
  | zero => rfl
  | succ n ih =>
    unfold reqLoop
    dsimp only
    repeat' split
    all_goals simp [ih]

@[simp] theorem timing_storeMsg (cfg : DHCPc_CFG) (w : Client) (p : DHCPc_IF_INFO)
    (pmsg : DHCPc_MSG) : timing (storeMsg cfg w p pmsg).1 = timing p := rfl

@[simp] theorem timing_Discover (cfg : DHCPc_CFG) (w : Client) (p : DHCPc_IF_INFO)
    (hw : List Nat) (len : Nat) : timing (DHCPc_Discover cfg w p hw len).2.1 = timing p := by
  unfold DHCPc_Discover
  dsimp only
  repeat' split
  all_goals first | (simp; done) | (simp only [timing, storeMsg]; exact timing_discoverLoop ..)

@[simp] theorem timing_Req (cfg : DHCPc_CFG) (w : Client) (p : DHCPc_IF_INFO)
    (hw : List Nat) (len : Nat) : timing (DHCPc_Req cfg w p hw len).2.1 = timing p := by
  unfold DHCPc_Req
  dsimp only
  repeat' split
  all_goals simp

@[simp] theorem timing_DeclineRelease (cfg : DHCPc_CFG) (w : Client) (p : DHCPc_IF_INFO)
    (mt : Nat) (hw : List Nat) (len : Nat) :
    timing (DHCPc_DeclineRelease cfg w p mt hw len).2.1 = timing p := by
  unfold DHCPc_DeclineRelease
  dsimp only
  repeat' split
  all_goals simp

@[simp] theorem timing_setState (p : DHCPc_IF_INFO) (s : DHCPc_STATE) : timing (setState p s) = timing p :=
  rfl

@[simp] theorem timing_negoLoop (cfg : DHCPc_CFG) (ifn : Nat) (hw : List Nat) (len n : Nat)
    (d : Bool) (e : DHCPc_ERR) (p : DHCPc_IF_INFO) (w : Client) :
    timing (negoLoop cfg ifn hw len n d e p w).2.1 = timing p := by
  induction n generalizing d e p w with
  | zero => rfl
  | succ n ih =>
    unfold negoLoop
    dsimp only
    repeat' split
    all_goals simp [ih]

@[simp] theorem timing_stopRelease (cfg : DHCPc_CFG) (w : Client) (p : DHCPc_IF_INFO) :
    timing (stopRelease cfg w p).1 = timing p := by
  unfold stopRelease
  dsimp only
  repeat' split
  all_goals simp

@[simp] theorem tmrPart_setInfo (w : Client) (q : DHCPc_IF_INFO) :
    tmrPart (w.setInfo q) = tmrPart w := rfl

@[simp] theorem timing_initStatus (p : DHCPc_IF_INFO) (e : DHCPc_ERR) :
    timing (initStatus p e) = timing p := by
  cases e <;> rfl

@[simp] theorem timing_renewStatus (p : DHCPc_IF_INFO) (e : DHCPc_ERR) :
    timing (renewStatus p e) = timing p := by
  cases e <;> rfl

theorem state_initStatus (p : DHCPc_IF_INFO) (e : DHCPc_ERR) :
    (initStatus p e).ClientState = p.ClientState ∧ (initStatus p e).MsgPtr = p.MsgPtr := by
  cases e <;> exact ⟨rfl, rfl⟩

theorem state_renewStatus (p : DHCPc_IF_INFO) (e : DHCPc_ERR) :
    (renewStatus p e).ClientState = p.ClientState ∧ (renewStatus p e).MsgPtr = p.MsgPtr := by
  cases e <;> exact ⟨rfl, rfl⟩

theorem initNego_tmr (cfg : DHCPc_CFG) (w : Client) (p : DHCPc_IF_INFO) (e : DHCPc_ERR)
    (s : Nego) (h : initNego cfg w p e = Sum.inr s) :
    tmrPart s.w = tmrPart w ∧ timing s.pif_info = timing p := by
  unfold initNego at h
  dsimp only at h
  repeat' split at h
  all_goals first
    | (cases h; done)
    | (simp only [Sum.inr.injEq] at h; subst h; simp)

theorem initNego_inl_tmr (cfg : DHCPc_CFG) (w : Client) (p : DHCPc_IF_INFO) (e : DHCPc_ERR)
    (r : DHCPc_ERR × DHCPc_IF_INFO × Client) (h : initNego cfg w p e = Sum.inl r) :
    tmrPart r.2.2 = tmrPart w := by
  unfold initNego at h
  dsimp only at h
  repeat' split at h
  all_goals first
    | (cases h; done)
    | (simp only [Sum.inl.injEq] at h; subst h; simp)

/-! ### An infinite lease time -/

/-- C14. A START command dispatched for a managed interface, the negotiation ending without
error and the address being installed: when the lease time of the stored ACK is 0xFFFFFFFF
(or the option is absent), `DHCPc_ChkStatus` then reports `DHCP_STATUS_CFGD`, with the last
error unchanged; the record is in the BOUND state with `LeaseTime_sec`, `T1_Time_sec` and
`T2_Time_sec` all 0xFFFFFFFF and the timer it had; and the timer list and the timer pool are
what they were before the command: no timer has been armed. -/
theorem C14_infinite_lease_no_timer (cfg : DHCPc_CFG) (w : Client) (pcomm : DHCPc_COMM)
    (p : DHCPc_IF_INFO) (s : Nego)
    (hinit : w.DHCPc_InitDone = true)
    (hmsg : pcomm.CommMsg = DHCPc_COMM_MSG_START)
    (hp : DHCPc_IF_InfoGetCfgd w pcomm.IF_Nbr = some p)
    (hs : initNego cfg (DHCPc_CommFree cfg w pcomm)
      { p with LeaseStatus := DHCP_STATUS_CFG_IN_PROGRESS } w.env.stack_err = Sum.inr s)
    (hok : s.err = DHCPc_ERR_NONE)
    (hcfg : (DHCPc_AddrCfg s.w s.pif_info).1 = DHCPc_ERR_NONE)
    (hinf : time_lease (DHCPc_AddrCfg s.w s.pif_info).2 s.pif_info = DHCP_LEASE_INFINITE) :
    DHCPc_ChkStatus (DHCPc_MsgRxHandler cfg w pcomm) pcomm.IF_Nbr
      = (DHCP_STATUS_CFGD, p.LastErr) ∧
    (∃ q, DHCPc_IF_InfoGetCfgd (DHCPc_MsgRxHandler cfg w pcomm) pcomm.IF_Nbr = some q ∧
      q.ClientState = DHCP_STATE_BOUND ∧
      q.LeaseTime_sec = DHCP_LEASE_INFINITE ∧ q.T1_Time_sec = DHCP_LEASE_INFINITE ∧
      q.T2_Time_sec = DHCP_LEASE_INFINITE ∧ q.Tmr = p.Tmr) ∧
    (DHCPc_MsgRxHandler cfg w pcomm).DHCPc_TmrListHead = w.DHCPc_TmrListHead ∧
    (DHCPc_MsgRxHandler cfg w pcomm).DHCPc_TmrPoolPtr = w.DHCPc_TmrPoolPtr := by
  have hp0 : DHCPc_IF_InfoGetCfgd (DHCPc_CommFree cfg w pcomm) pcomm.IF_Nbr = some p := by
    rw [InfoGetCfgd_congr w _ _ (by simp)]; exact hp
  rw [MsgRxHandler_init cfg w pcomm p (Or.inl hmsg) hp]
  obtain ⟨htm, hti⟩ := initNego_tmr _ _ _ _ _ hs
  obtain ⟨hle, hlw, hlt⟩ := LeaseTimeCalc_infinite cfg _ _ hinf
  have hlx : (DHCPc_LeaseTimeCalc cfg (DHCPc_AddrCfg s.w s.pif_info).2 s.pif_info).2.1
      = { s.pif_info with LeaseTime_sec := DHCP_LEASE_INFINITE
                          T1_Time_sec := DHCP_LEASE_INFINITE
                          T2_Time_sec := DHCP_LEASE_INFINITE } := by
    unfold time_lease at hinf
    unfold DHCPc_LeaseTimeCalc
    dsimp only
    rw [if_pos hinf]
  have hr : DHCPc_InitStateHandler cfg (DHCPc_CommFree cfg w pcomm)
      { p with LeaseStatus := DHCP_STATUS_CFG_IN_PROGRESS } w.env.stack_err
      = (DHCPc_ERR_NONE,
          setState (DHCPc_LeaseTimeCalc cfg (DHCPc_AddrCfg s.w s.pif_info).2 s.pif_info).2.1
            DHCP_STATE_BOUND,
          (DHCPc_AddrCfg s.w s.pif_info).2) := by
    unfold DHCPc_InitStateHandler
    rw [hs]
    dsimp only
    unfold initCfgIF
    rw [hok]
    dsimp only
    rw [if_pos hcfg, hle, hlw]
    simp
  have hkept := kept_InitStateHandler cfg (DHCPc_CommFree cfg w pcomm)
    { p with LeaseStatus := DHCP_STATUS_CFG_IN_PROGRESS } w.env.stack_err
  have hinfo := infoPart_InitStateHandler cfg (DHCPc_CommFree cfg w pcomm)
    { p with LeaseStatus := DHCP_STATUS_CFG_IN_PROGRESS } w.env.stack_err
  generalize DHCPc_InitStateHandler cfg (DHCPc_CommFree cfg w pcomm)
    { p with LeaseStatus := DHCP_STATUS_CFG_IN_PROGRESS } w.env.stack_err = r at hr hkept hinfo ⊢
  subst hr
  dsimp only at hkept hinfo ⊢
  rw [hlx] at hkept ⊢
  simp only [kept, setState, Prod.mk.injEq] at hkept
  simp only [timing, Prod.mk.injEq] at hti
  have hget := InfoGetCfgd_setInfo (DHCPc_CommFree cfg w pcomm) (DHCPc_AddrCfg s.w s.pif_info).2
    pcomm.IF_Nbr p
    (initStatus (setState { s.pif_info with LeaseTime_sec := DHCP_LEASE_INFINITE
                                            T1_Time_sec := DHCP_LEASE_INFINITE
                                            T2_Time_sec := DHCP_LEASE_INFINITE }
      DHCP_STATE_BOUND) DHCPc_ERR_NONE) hinfo hp0
    (by simp only [key, initStatus, setState, Prod.mk.injEq]; exact ⟨hkept.1, hkept.2.1⟩)
  have hdone : (DHCPc_AddrCfg s.w s.pif_info).2.DHCPc_InitDone = true := by
    have := congrArg (fun x => x.2.2) hinfo
    simp only [infoPart] at this
    rw [this]
    have h2 := congrArg (fun x => x.2.2) (infoPart_CommFree cfg w pcomm)
    simp only [infoPart] at h2
    rw [h2, hinit]
  refine ⟨?_, ⟨_, hget, rfl, rfl, rfl, rfl, hti.1⟩, ?_, ?_⟩
  · unfold DHCPc_ChkStatus
    rw [if_neg (by simp [Client.setInfo, hdone]), hget]
    simp only [initStatus, setState, Prod.mk.injEq, true_and]
    exact hkept.2.2.2.1
  · have h1 := congrArg (fun x => x.1) (tmrPart_AddrCfg s.w s.pif_info)
    have h2 := congrArg (fun x => x.1) htm
    have h3 := congrArg (fun x => x.1) (tmrPart_CommFree cfg w pcomm)
    simp only [tmrPart] at h1 h2 h3
    simp only [Client.setInfo]
    rw [h1, h2, h3]
  · have h1 := congrArg (fun x => x.2) (tmrPart_AddrCfg s.w s.pif_info)
    have h2 := congrArg (fun x => x.2) htm
    have h3 := congrArg (fun x => x.2) (tmrPart_CommFree cfg w pcomm)
    simp only [tmrPart] at h1 h2 h3
    simp only [Client.setInfo]
    rw [h1, h2, h3]

theorem negoOf_some (cfg : DHCPc_CFG) (w : Client) (p : DHCPc_IF_INFO) (e : DHCPc_ERR)
    (s : Nego) (h : negoOf cfg w p e = some s) : initNego cfg w p e = Sum.inr s := by
  unfold negoOf at h
  split at h
  · rename_i s1 h1; rw [h1]; simp only [Option.some.injEq] at h; rw [h]
  · cases h

/-- Witness of C14: the START command of interface 1, the server acknowledging with an
infinite lease time: the status is `DHCP_STATUS_CFGD` and the timer list still empty. -/
theorem C14_infinite_lease_no_timer_witness :
    (DHCPc_ChkStatus (DHCPc_MsgRxHandler templateCfg (startedWith leaseInfOpt) startComm) 1).1
      = DHCP_STATUS_CFGD ∧
    (DHCPc_MsgRxHandler templateCfg (startedWith leaseInfOpt) startComm).DHCPc_TmrListHead
      = [] := by
  have hu : (DHCPc_IF_InfoGetCfgd (startedWith leaseInfOpt) 1).isSome = true := by decide!
  obtain ⟨p, hp⟩ := Option.isSome_iff_exists.1 hu
  have hn : (startedNego leaseInfOpt).isSome = true := by decide!
  obtain ⟨s, hs⟩ := Option.isSome_iff_exists.1 hn
  have hs1 := hs
  unfold startedNego at hs1
  rw [hp] at hs1
  have hok : (startedNego leaseInfOpt).map (fun s => s.err) = some DHCPc_ERR_NONE := by decide!
  have hcfg : (startedNego leaseInfOpt).map (fun s => (DHCPc_AddrCfg s.w s.pif_info).1)
      = some DHCPc_ERR_NONE := by decide!
  have hinf : (startedNego leaseInfOpt).map
      (fun s => time_lease (DHCPc_AddrCfg s.w s.pif_info).2 s.pif_info)
      = some DHCP_LEASE_INFINITE := by decide!
  rw [hs] at hok hcfg hinf
  have h := C14_infinite_lease_no_timer templateCfg (startedWith leaseInfOpt) startComm p s
    (by decide!) rfl hp (negoOf_some _ _ _ _ _ hs1) (by simpa using hok) (by simpa using hcfg)
    (by simpa using hinf)
  exact ⟨congrArg Prod.fst h.1, h.2.2.1.trans (by decide!)⟩

/-- C14 (counterexample). The server acknowledges with a lease time of 0xFFFFFFFF: after the
START command has been handled the three lease times are 0xFFFFFFFF and no timer is armed, but
`DHCPc_ChkStatus` reports `DHCP_STATUS_CFGD`, not `DHCP_STATUS_CFGD_NO_TMR`. -/
theorem C14_infinite_lease_reports_cfgd :
    negotiatedTimes (freeEnv leaseInfOpt) = some (0xFFFFFFFF, 0xFFFFFFFF, 0xFFFFFFFF) ∧
    (runStart (freeEnv leaseInfOpt)).DHCPc_TmrListHead = [] ∧
    (DHCPc_ChkStatus (runStart (freeEnv leaseInfOpt)) 1).1 = DHCP_STATUS_CFGD ∧
    (DHCPc_ChkStatus (runStart (freeEnv leaseInfOpt)) 1).1 ≠ DHCP_STATUS_CFGD_NO_TMR := by
  refine ⟨?_, ?_, ?_, ?_⟩ <;> decide!

/-! ### The subnet mask of a configured interface -/

/-- What `DHCPc_GetOptVal` returns for SUBNET-MASK in terms of what `DHCPc_MsgGetOpt` reads.
Once `DHCPc_ChkStatus` reports `DHCP_STATUS_CFGD` for an interface whose record
stores the message `m`, `DHCPc_GetOptVal` for SUBNET-MASK (the lock being acquired) fails with
`DHCPc_ERR_IF_OPT_NONE` when `DHCPc_MsgGetOpt` finds no SUBNET-MASK option in `m`; when it
finds one, of a length that the buffer can hold, `DHCPc_GetOptVal` succeeds and returns that
length and the bytes of the option. -/
theorem GetOptVal_mask_read (cfg : DHCPc_CFG) (w : Client) (if_nbr : Nat) (buf : Mem)
    (len : Nat) (null_buf : Mem) (p : DHCPc_IF_INFO) (m : DHCPc_MSG)
    (hlock : (DHCPc_OS_Lock w).1 = true)
    (hst : (DHCPc_ChkStatus w if_nbr).1 = DHCP_STATUS_CFGD)
    (hp : DHCPc_IF_InfoGetCfgd w if_nbr = some p) (hm : p.MsgPtr = some m) :
    (DHCPc_MsgGetOpt DHCP_OPT_SUBNET_MASK m.MsgBuf m.MsgLen = none →
      (DHCPc_GetOptVal cfg w if_nbr DHCP_OPT_SUBNET_MASK (some buf) (some len) null_buf).1.err
        = DHCPc_ERR_IF_OPT_NONE) ∧
    (∀ popt_val opt_val_len,
      DHCPc_MsgGetOpt DHCP_OPT_SUBNET_MASK m.MsgBuf m.MsgLen = some (popt_val, opt_val_len) →
      opt_val_len ≤ len →
      (DHCPc_GetOptVal cfg w if_nbr DHCP_OPT_SUBNET_MASK (some buf) (some len) null_buf).1.err
        = DHCPc_ERR_NONE ∧
      (DHCPc_GetOptVal cfg w if_nbr DHCP_OPT_SUBNET_MASK (some buf) (some len)
        null_buf).1.val_buf_len = opt_val_len ∧
      memBytes (DHCPc_GetOptVal cfg w if_nbr DHCP_OPT_SUBNET_MASK (some buf) (some len)
        null_buf).1.val_buf 0 opt_val_len = memBytes m.MsgBuf popt_val opt_val_len) := by
  have hinit : w.DHCPc_InitDone = true := by
    unfold DHCPc_ChkStatus at hst
    by_contra h
    rw [if_pos h] at hst
    cases hst
  have hcfgd : p.LeaseStatus = DHCP_STATUS_CFGD := by
    unfold DHCPc_ChkStatus at hst
    rw [if_neg (by simp [hinit]), hp] at hst
    exact hst
  have hg : DHCPc_IF_InfoGetCfgd (DHCPc_OS_Lock w).2 if_nbr = DHCPc_IF_InfoGetCfgd w if_nbr :=
    InfoGetCfgd_congr w _ if_nbr (by simp)
  unfold DHCPc_GetOptVal
  simp only [Option.isNone_some, Bool.false_eq_true, or_self, and_false, if_false, hinit,
    ne_eq, not_true_eq_false, hlock, Option.getD_some, hg, hp, hcfgd, hm]
  refine ⟨?_, ?_⟩
  · intro h; rw [h]
  · intro popt_val opt_val_len h hle
    rw [h]
    dsimp only
    rw [if_neg (by omega)]
    have hc := Mem_Copy_bytes buf (memBytes m.MsgBuf popt_val opt_val_len)
    rw [memBytes_length] at hc
    exact ⟨rfl, rfl, hc.1⟩

/-- C15 (as the code has it). Once `DHCPc_ChkStatus` reports `DHCP_STATUS_CFGD` for an
interface whose record stores a message that is well formed with the options `items` (the
options closed by END inside the message), `DHCPc_GetOptVal` for SUBNET-MASK (the lock being
acquired) fails with `DHCPc_ERR_IF_OPT_NONE` when the message carries no SUBNET-MASK option;
when it carries one, of a length that the buffer can hold, `DHCPc_GetOptVal` succeeds and
returns the length, which may be 0, and the bytes of the first such option. -/
theorem C15_GetOptVal_subnet_mask (cfg : DHCPc_CFG) (w : Client) (if_nbr : Nat) (buf : Mem)
    (len : Nat) (null_buf : Mem) (p : DHCPc_IF_INFO) (m : DHCPc_MSG) (items : List OptItem)
    (hlock : (DHCPc_OS_Lock w).1 = true)
    (hst : (DHCPc_ChkStatus w if_nbr).1 = DHCP_STATUS_CFGD)
    (hp : DHCPc_IF_InfoGetCfgd w if_nbr = some p) (hm : p.MsgPtr = some m)
    (hwf : msgHas m items) :
    (firstOpt DHCP_OPT_SUBNET_MASK items = none →
      (DHCPc_GetOptVal cfg w if_nbr DHCP_OPT_SUBNET_MASK (some buf) (some len) null_buf).1.err
        = DHCPc_ERR_IF_OPT_NONE) ∧
    (∀ v, firstOpt DHCP_OPT_SUBNET_MASK items = some v → v.length ≤ len →
      (DHCPc_GetOptVal cfg w if_nbr DHCP_OPT_SUBNET_MASK (some buf) (some len) null_buf).1.err
        = DHCPc_ERR_NONE ∧
      (DHCPc_GetOptVal cfg w if_nbr DHCP_OPT_SUBNET_MASK (some buf) (some len)
        null_buf).1.val_buf_len = v.length ∧
      memBytes (DHCPc_GetOptVal cfg w if_nbr DHCP_OPT_SUBNET_MASK (some buf) (some len)
        null_buf).1.val_buf 0 v.length = v) := by
  have hd := msg_decode m items DHCP_OPT_SUBNET_MASK (by decide) hwf
  obtain ⟨h1, h2⟩ := GetOptVal_mask_read cfg w if_nbr buf len null_buf p m hlock hst hp hm
  constructor
  · intro hno
    apply h1
    rw [hno] at hd
    cases hr : DHCPc_MsgGetOpt DHCP_OPT_SUBNET_MASK m.MsgBuf m.MsgLen with
    | none => rfl
    | some r => rw [hr] at hd; simp [optValBytes] at hd
  · intro v hv hle
    rw [hv] at hd
    cases hr : DHCPc_MsgGetOpt DHCP_OPT_SUBNET_MASK m.MsgBuf m.MsgLen with
    | none => rw [hr] at hd; simp [optValBytes] at hd
    | some r =>
      rw [hr] at hd
      simp only [optValBytes, Option.map_some', Option.some.injEq] at hd
      have hl : r.2 = v.length := by
        have := congrArg List.length hd
        simpa [memBytes] using this
      obtain ⟨a1, a2, a3⟩ := h2 r.1 r.2 hr (by omega)
      rw [hl] at a2 a3 hd
      exact ⟨a1, a2, a3.trans hd⟩

/-- Witness of C15: the client configured by the test server, whose ACK is well formed and
carries the mask 255.255.255.0. -/
theorem C15_GetOptVal_subnet_mask_witness :
    (DHCPc_OS_Lock cfgdClient).1 = true ∧
    (DHCPc_ChkStatus cfgdClient 1).1 = DHCP_STATUS_CFGD ∧
    firstOpt DHCP_OPT_SUBNET_MASK ackItems600 = some [255, 255, 255, 0] ∧
    (DHCPc_GetOptVal templateCfg cfgdClient 1 DHCP_OPT_SUBNET_MASK (some zeroMem) (some 4)
      zeroMem).1.err = DHCPc_ERR_NONE ∧
    (DHCPc_GetOptVal templateCfg cfgdClient 1 DHCP_OPT_SUBNET_MASK (some zeroMem) (some 4)
      zeroMem).1.val_buf_len = 4 ∧
    memBytes (DHCPc_GetOptVal templateCfg cfgdClient 1 DHCP_OPT_SUBNET_MASK (some zeroMem)
      (some 4) zeroMem).1.val_buf 0 4 = [255, 255, 255, 0] := by
  have hlock : (DHCPc_OS_Lock cfgdClient).1 = true := by decide!
  have hst : (DHCPc_ChkStatus cfgdClient 1).1 = DHCP_STATUS_CFGD := by decide!
  obtain ⟨p, hp⟩ := Option.isSome_iff_exists.1
    (show (DHCPc_IF_InfoGetCfgd cfgdClient 1).isSome = true by decide!)
  obtain ⟨m, hm⟩ : ∃ m, p.MsgPtr = some m := by
    have : ((DHCPc_IF_InfoGetCfgd cfgdClient 1).bind (fun q => q.MsgPtr)).isSome = true := by
      decide!
    rw [hp] at this; exact Option.isSome_iff_exists.1 this
  have hwf : msgHas m ackItems600 := by
    have : ((DHCPc_IF_InfoGetCfgd cfgdClient 1).bind (fun q => q.MsgPtr)).map
        (fun m => decide (msgHas m ackItems600)) = some true := by decide!
    rw [hp] at this
    simp only [Option.some_bind, hm, Option.map_some', Option.some.injEq,
      decide_eq_true_eq] at this
    exact this
  have hv : firstOpt DHCP_OPT_SUBNET_MASK ackItems600 = some [255, 255, 255, 0] := by decide
  have h := (C15_GetOptVal_subnet_mask templateCfg cfgdClient 1 zeroMem 4 zeroMem p m
    ackItems600 hlock hst hp hm hwf).2 [255, 255, 255, 0] hv (Nat.le_refl 4)
  exact ⟨hlock, hst, hv, h.1, h.2.1, h.2.2⟩

/-- C15 (counterexample). The server acknowledges without a SUBNET-MASK option: after the
START command has been handled `DHCPc_ChkStatus` reports `DHCP_STATUS_CFGD`, the address
192.0.2.50 is installed with the mask 0.0.0.0, and `DHCPc_GetOptVal` for SUBNET-MASK with a
buffer of 255 bytes fails with `DHCPc_ERR_IF_OPT_NONE`.  When the SUBNET-MASK option of the
ACK has length 0, `DHCPc_GetOptVal` succeeds and returns the length 0. -/
theorem C15_cfgd_without_subnet_mask :
    (DHCPc_ChkStatus (runStart (ackEnv noMaskOpts)) 1).1 = DHCP_STATUS_CFGD ∧
    (runStart (ackEnv noMaskOpts)).trace.filter probeOrCfg =
      [Event.arpGet 1 0xC0000232 ArpGet.notFound,
        Event.addrAdd 1 0xC0000232 0 0xC0000201 true] ∧
    (DHCPc_GetOptVal templateCfg (runStart (ackEnv noMaskOpts)) 1 DHCP_OPT_SUBNET_MASK
      (some zeroMem) (some 255) zeroMem).1.err = DHCPc_ERR_IF_OPT_NONE ∧
    (DHCPc_ChkStatus (runStart (ackEnv emptyMaskOpts)) 1).1 = DHCP_STATUS_CFGD ∧
    (DHCPc_GetOptVal templateCfg (runStart (ackEnv emptyMaskOpts)) 1 DHCP_OPT_SUBNET_MASK
      (some zeroMem) (some 255) zeroMem).1.err = DHCPc_ERR_NONE ∧
    (DHCPc_GetOptVal templateCfg (runStart (ackEnv emptyMaskOpts)) 1 DHCP_OPT_SUBNET_MASK
      (some zeroMem) (some 255) zeroMem).1.val_buf_len = 0 := by
  refine ⟨?_, ?_, ?_, ?_, ?_, ?_⟩ <;> decide!

/-! ### Transaction identifiers -/

theorem xidBytes_memBytes (m : Mem) (n : Nat) (h : 8 ≤ n) :
    xidBytes (memBytes m 0 n) = memBytes m 4 4 := by
  unfold xidBytes memBytes
  apply List.ext_getElem
  · simp [hdr]; omega
  · intro i h1 h2
    simp [hdr] at h1 h2 ⊢

@[simp] theorem txXids_append (a b : List Event) : txXids (a ++ b) = txXids a ++ txXids b := by
  simp [txXids]

theorem txXids_rxReplyLoop (cfg : DHCPc_CFG) (p : DHCPc_IF_INFO) (sid : Nat) (hw : List Nat)
    (len : Nat) (rx : List RxEvent) (f : RxFlags) (buf : Mem) (tr : List Event) :
    txXids (rxReplyLoop cfg p sid hw len rx f buf tr).2.2.2.2 = txXids tr := by
  induction rx generalizing f buf tr with
  | nil => rfl
  | cons ev rest ih =>
    unfold rxReplyLoop
    dsimp only
    repeat' split
    all_goals first
      | (rw [ih]; simp [txXids])
      | simp [txXids]

@[simp] theorem txXids_RxReply (cfg : DHCPc_CFG) (w : Client) (p : DHCPc_IF_INFO) (sid : Nat)
    (hw : List Nat) (len : Nat) (buf : Mem) (n : Nat) :
    txXids (DHCPc_RxReply cfg w p sid hw len buf n).2.trace = txXids w.trace := by
  unfold DHCPc_RxReply
  dsimp only
  repeat' split
  all_goals simp [txXids_rxReplyLoop]

@[simp] theorem txXids_discoverRx (cfg : DHCPc_CFG) (p : DHCPc_IF_INFO) (hw : List Nat)
    (len fuel : Nat) (w : Client) (pmsg : DHCPc_MSG) :
    txXids (discoverRx cfg p hw len fuel w pmsg).w.trace = txXids w.trace := by
  induction fuel generalizing w pmsg with
  | zero => rfl
  | succ n ih =>
    unfold discoverRx
    dsimp only
    repeat' split
    all_goals simp [ih]

@[simp] theorem txXids_reqRx (cfg : DHCPc_CFG) (p : DHCPc_IF_INFO) (hw : List Nat)
    (len fuel : Nat) (w : Client) (pmsg : DHCPc_MSG) :
    txXids (reqRx cfg p hw len fuel w pmsg).w.trace = txXids w.trace := by
  induction fuel generalizing w pmsg with
  | zero => rfl
  | succ n ih =>
    unfold reqRx
    dsimp only
    repeat' split
    all_goals simp [ih]

@[simp] theorem txXids_backOffDly (w : Client) (ms : Nat) :
    txXids (backOffDly w ms).trace = txXids w.trace := by
  simp [backOffDly, KAL_Dly, Client.log, txXids]

@[simp] theorem txXids_Tx (w : Client) (data : List Nat) (a : Nat) :
    txXids (DHCPc_Tx w data a).2.trace = txXids w.trace ++ [xidBytes data] := by
  simp [DHCPc_Tx, Client.log, txXids]

/-- The host name `CPU_NameGet` returns, which the environment never changes. -/
theorem cpu_name_rxReply (cfg : DHCPc_CFG) (w : Client) (p : DHCPc_IF_INFO) (sid : Nat)
    (hw : List Nat) (len : Nat) (buf : Mem) (n : Nat) :
    (DHCPc_RxReply cfg w p sid hw len buf n).2.env.cpu_name = w.env.cpu_name := by
  unfold DHCPc_RxReply
  dsimp only
  repeat' split
  all_goals rfl

theorem cpu_name_discoverRx (cfg : DHCPc_CFG) (p : DHCPc_IF_INFO) (hw : List Nat)
    (len fuel : Nat) (w : Client) (pmsg : DHCPc_MSG) :
    (discoverRx cfg p hw len fuel w pmsg).w.env.cpu_name = w.env.cpu_name := by
  induction fuel generalizing w pmsg with
  | zero => rfl
  | succ n ih =>
    unfold discoverRx
    dsimp only
    repeat' split
    all_goals simp [ih, cpu_name_rxReply]

theorem cpu_name_reqRx (cfg : DHCPc_CFG) (p : DHCPc_IF_INFO) (hw : List Nat)
    (len fuel : Nat) (w : Client) (pmsg : DHCPc_MSG) :
    (reqRx cfg p hw len fuel w pmsg).w.env.cpu_name = w.env.cpu_name := by
  induction fuel generalizing w pmsg with
  | zero => rfl
  | succ n ih =>
    unfold reqRx
    dsimp only
    repeat' split
    all_goals simp [ih, cpu_name_rxReply]

theorem cpu_name_txPrepare (cfg : DHCPc_CFG) (w : Client) (p : DHCPc_IF_INFO) (t : Nat)
    (hw : List Nat) (len : Nat) (pmsg : DHCPc_MSG) :
    (txPrepare cfg w p t hw len pmsg).2.2.env.cpu_name = w.env.cpu_name := by
  unfold txPrepare; dsimp only; split <;> rfl

/-- What `txPrepare` builds for a supported message type: no error, the transaction identifier
of the record in the `xid` field of the datagram, and a record with the same identifier and
number of requested parameters. -/
theorem txPrepare_xid (cfg : DHCPc_CFG) (w : Client) (p : DHCPc_IF_INFO) (mt : Nat)
    (hw : List Nat) (pmsg : DHCPc_MSG)
    (ht : mt = DHCP_MSG_DISCOVER ∨ mt = DHCP_MSG_REQUEST ∨
      mt = DHCP_MSG_DECLINE ∨ mt = DHCP_MSG_RELEASE)
    (hname : ∀ n, w.env.cpu_name = some n → n.length ≤ 255)
    (hqty : p.ParamReqQty ≤ 255) :
    (txPrepare cfg w p mt hw NET_IF_ETHER_ADDR_SIZE pmsg).1.err = DHCPc_ERR_NONE ∧
    xidBytes (memBytes (txPrepare cfg w p mt hw NET_IF_ETHER_ADDR_SIZE pmsg).1.buf 0
      (txPrepare cfg w p mt hw NET_IF_ETHER_ADDR_SIZE pmsg).1.msg_size)
      = be32 p.TransactionID ∧
    (txPrepare cfg w p mt hw NET_IF_ETHER_ADDR_SIZE pmsg).2.1.TransactionID
      = p.TransactionID ∧
    (txPrepare cfg w p mt hw NET_IF_ETHER_ADDR_SIZE pmsg).2.1.ParamReqQty = p.ParamReqQty := by
  obtain ⟨sel, -, opts, -, h⟩ := TxMsgPrepare_layout cfg w.env.null_msg.MsgBuf w.env.cpu_name
    (DHCPc_OS_TimeGet_tick w).1 p mt (memOfList hw) pmsg.MsgBuf DHCP_MSG_BUF_SIZE ht
    (Nat.le_refl _) hname hqty
  dsimp only at h
  obtain ⟨he, -, hx, -, -, -, -, -, -, hsz, -⟩ := h
  have hk := kept_txPrepare cfg w p mt hw NET_IF_ETHER_ADDR_SIZE pmsg
  simp only [kept, Prod.mk.injEq] at hk
  refine ⟨he, ?_, ?_, hk.2.2.2.2⟩
  · rw [xidBytes_memBytes _ _ (by
      show 8 ≤ (DHCPc_TxMsgPrepare cfg w.env.null_msg.MsgBuf w.env.cpu_name
        (DHCPc_OS_TimeGet_tick w).1 p mt (memOfList hw) NET_IF_ETHER_ADDR_SIZE pmsg.MsgBuf
        DHCP_MSG_BUF_SIZE).1.msg_size
      rw [hsz]; omega)]
    exact hx
  · unfold txPrepare DHCPc_TxMsgPrepare
    dsimp only
    repeat' split
    all_goals rfl

theorem nextXids_succ (t k : Nat) :
    nextXids t (k + 1) = be32 ((t + 1) % 2 ^ 32) :: nextXids ((t + 1) % 2 ^ 32) k := by
  unfold nextXids
  rw [List.range_succ_eq_map, List.map_cons, List.map_map]
  congr 1
  apply List.map_congr_left
  intro i _
  simp only [Function.comp]
  congr 1
  norm_num
  omega

theorem xids_discoverLoop (cfg : DHCPc_CFG) (hw : List Nat) (n : Nat) (d : Bool)
    (ms : Nat) (e : DHCPc_ERR) (p : DHCPc_IF_INFO) (pmsg : DHCPc_MSG) (w : Client)
    (hname : ∀ n, w.env.cpu_name = some n → n.length ≤ 255)
    (hqty : p.ParamReqQty ≤ 255) (hT : p.TransactionID < 2 ^ 32) :
    ∃ k, k ≤ n ∧
      txXids (discoverLoop cfg hw NET_IF_ETHER_ADDR_SIZE n d ms e p pmsg w).w.trace
        = txXids w.trace ++ nextXids p.TransactionID k ∧
      (discoverLoop cfg hw NET_IF_ETHER_ADDR_SIZE n d ms e p pmsg w).pif_info.TransactionID
        = (p.TransactionID + k) % 2 ^ 32 := by
  induction n generalizing d ms e p pmsg w with
  | zero =>
    refine ⟨0, Nat.le_refl _, by simp [discoverLoop, nextXids], ?_⟩
    simp only [discoverLoop, Nat.add_zero]
    exact (Nat.mod_eq_of_lt hT).symm
  | succ n ih =>
    unfold discoverLoop
    dsimp only
    generalize hms : (if d = true then DHCPc_CalcBackOff cfg ms else ms) = ms1
    have hw1 : txXids (if d = true then backOffDly w ms1 else w).trace = txXids w.trace
        ∧ (if d = true then backOffDly w ms1 else w).env.cpu_name = w.env.cpu_name := by
      cases d <;> simp <;> rfl
    generalize (if d = true then backOffDly w ms1 else w) = w1 at hw1 ⊢
    generalize hp1 : ({ p with TransactionID := (p.TransactionID + 1) % 2 ^ 32 }
      : DHCPc_IF_INFO) = p1
    have hp1q : p1.ParamReqQty = p.ParamReqQty := by rw [← hp1]
    have hp1t : p1.TransactionID = (p.TransactionID + 1) % 2 ^ 32 := by rw [← hp1]
    obtain ⟨he, hx, ht, hq⟩ := txPrepare_xid cfg w1 p1 DHCP_MSG_DISCOVER hw pmsg (Or.inl rfl)
      (by rw [hw1.2]; exact hname) (by rw [hp1q]; exact hqty)
    rw [if_neg (by simp [he])]
    have h1 : nextXids p.TransactionID 1 = [be32 ((p.TransactionID + 1) % 2 ^ 32)] := by
      rw [nextXids_succ]; rfl
    have hRc := cpu_name_txPrepare cfg w1 p1 DHCP_MSG_DISCOVER hw NET_IF_ETHER_ADDR_SIZE pmsg
    have hRt := trace_txPrepare cfg w1 p1 DHCP_MSG_DISCOVER hw NET_IF_ETHER_ADDR_SIZE pmsg
    generalize txPrepare cfg w1 p1 DHCP_MSG_DISCOVER hw NET_IF_ETHER_ADDR_SIZE pmsg = R
      at he hx ht hq hRc hRt ⊢
    have hTt := txXids_Tx R.2.2 (memBytes R.1.buf 0 R.1.msg_size) NET_IPv4_ADDR_BROADCAST
    have hTc : (DHCPc_Tx R.2.2 (memBytes R.1.buf 0 R.1.msg_size)
      NET_IPv4_ADDR_BROADCAST).2.env.cpu_name = R.2.2.env.cpu_name := rfl
    generalize DHCPc_Tx R.2.2 (memBytes R.1.buf 0 R.1.msg_size) NET_IPv4_ADDR_BROADCAST = t
      at hTt hTc ⊢
    have hXt := txXids_discoverRx cfg R.2.1 hw NET_IF_ETHER_ADDR_SIZE (t.2.env.rx.length + 1)
      t.2 ⟨pmsg.ID, R.1.buf, pmsg.MsgLen⟩
    have hXc := cpu_name_discoverRx cfg R.2.1 hw NET_IF_ETHER_ADDR_SIZE (t.2.env.rx.length + 1)
      t.2 ⟨pmsg.ID, R.1.buf, pmsg.MsgLen⟩
    generalize discoverRx cfg R.2.1 hw NET_IF_ETHER_ADDR_SIZE (t.2.env.rx.length + 1)
      t.2 ⟨pmsg.ID, R.1.buf, pmsg.MsgLen⟩ = x at hXt hXc ⊢
    have hone : txXids t.2.trace = txXids w.trace ++ nextXids p.TransactionID 1 := by
      rw [hTt, hRt, hw1.1, hx, hp1t, h1]
    split
    · exact ⟨1, by omega, hone, by simp only [ht, hp1t]⟩
    · split
      · exact ⟨1, by omega, by rw [hXt, hone], by simp only [ht, hp1t]⟩
      · obtain ⟨k, hk, hxs, hts⟩ := ih true ms1 x.err R.2.1 x.pmsg x.w
          (by rw [hXc, hTc, hRc, hw1.2]; exact hname)
          (by rw [hq, hp1q]; exact hqty)
          (by rw [ht, hp1t]; exact Nat.mod_lt _ (by norm_num))
        refine ⟨k + 1, by omega, ?_, ?_⟩
        · rw [hxs, hXt, hone, h1, ht, hp1t, nextXids_succ]
          simp
        · rw [hts, ht, hp1t]
          norm_num
          omega

theorem xids_reqLoop (cfg : DHCPc_CFG) (hw : List Nat) (n : Nat) (d : Bool)
    (ms : Nat) (e : DHCPc_ERR) (p : DHCPc_IF_INFO) (pmsg : DHCPc_MSG) (w : Client)
    (hname : ∀ n, w.env.cpu_name = some n → n.length ≤ 255)
    (hqty : p.ParamReqQty ≤ 255) :
    ∃ k, k ≤ n ∧
      txXids (reqLoop cfg hw NET_IF_ETHER_ADDR_SIZE n d ms e p pmsg w).w.trace
        = txXids w.trace ++ List.replicate k (be32 p.TransactionID) ∧
      (reqLoop cfg hw NET_IF_ETHER_ADDR_SIZE n d ms e p pmsg w).pif_info.TransactionID
        = p.TransactionID := by
  induction n generalizing d ms e p pmsg w with
  | zero => exact ⟨0, Nat.le_refl _, by simp [reqLoop], rfl⟩
  | succ n ih =>
    unfold reqLoop
    dsimp only
    generalize hms : (if d = true then DHCPc_CalcBackOff cfg ms else ms) = ms1
    have hw1 : txXids (if d = true then backOffDly w ms1 else w).trace = txXids w.trace
        ∧ (if d = true then backOffDly w ms1 else w).env.cpu_name = w.env.cpu_name := by
      cases d <;> simp <;> rfl
    generalize (if d = true then backOffDly w ms1 else w) = w1 at hw1 ⊢
    generalize (if p.ClientState = DHCP_STATE_RENEWING then p.ServerID
      else NET_IPv4_ADDR_BROADCAST) = addr
    obtain ⟨he, hx, ht, hq⟩ := txPrepare_xid cfg w1 p DHCP_MSG_REQUEST hw pmsg
      (Or.inr (Or.inl rfl)) (by rw [hw1.2]; exact hname) hqty
    rw [if_neg (by simp [he])]
    have hRc := cpu_name_txPrepare cfg w1 p DHCP_MSG_REQUEST hw NET_IF_ETHER_ADDR_SIZE pmsg
    have hRt := trace_txPrepare cfg w1 p DHCP_MSG_REQUEST hw NET_IF_ETHER_ADDR_SIZE pmsg
    generalize txPrepare cfg w1 p DHCP_MSG_REQUEST hw NET_IF_ETHER_ADDR_SIZE pmsg = R
      at he hx ht hq hRc hRt ⊢
    have hTt := txXids_Tx R.2.2 (memBytes R.1.buf 0 R.1.msg_size) addr
    have hTc : (DHCPc_Tx R.2.2 (memBytes R.1.buf 0 R.1.msg_size) addr).2.env.cpu_name
      = R.2.2.env.cpu_name := rfl
    generalize DHCPc_Tx R.2.2 (memBytes R.1.buf 0 R.1.msg_size) addr = t at hTt hTc ⊢
    have hXt := txXids_reqRx cfg R.2.1 hw NET_IF_ETHER_ADDR_SIZE (t.2.env.rx.length + 1)
      t.2 ⟨pmsg.ID, R.1.buf, pmsg.MsgLen⟩
    have hXc := cpu_name_reqRx cfg R.2.1 hw NET_IF_ETHER_ADDR_SIZE (t.2.env.rx.length + 1)
      t.2 ⟨pmsg.ID, R.1.buf, pmsg.MsgLen⟩
    generalize reqRx cfg R.2.1 hw NET_IF_ETHER_ADDR_SIZE (t.2.env.rx.length + 1)
      t.2 ⟨pmsg.ID, R.1.buf, pmsg.MsgLen⟩ = x at hXt hXc ⊢
    have hone : txXids t.2.trace
        = txXids w.trace ++ List.replicate 1 (be32 p.TransactionID) := by
      rw [hTt, hRt, hw1.1, hx]; rfl
    split
    · exact ⟨1, by omega, hone, ht⟩
    · split
      · exact ⟨1, by omega, by rw [hXt, hone], ht⟩
      · obtain ⟨k, hk, hxs, hts⟩ := ih true ms1 x.err R.2.1 x.pmsg x.w
          (by rw [hXc, hTc, hRc, hw1.2]; exact hname) (by rw [hq]; exact hqty)
        refine ⟨k + 1, by omega, ?_, ?_⟩
        · rw [hxs, hXt, hone, ht, List.append_assoc, ← List.replicate_add, Nat.add_comm 1 k]
        · rw [hts, ht]

theorem xids_Discover (cfg : DHCPc_CFG) (w : Client) (p : DHCPc_IF_INFO) (hw : List Nat)
    (hname : ∀ n, w.env.cpu_name = some n → n.length ≤ 255)
    (hqty : p.ParamReqQty ≤ 255) (hT : p.TransactionID < 2 ^ 32) :
    ∃ k, k ≤ cfg.DHCPc_CFG_DISCOVER_RETRY_CNT ∧
      txXids (DHCPc_Discover cfg w p hw NET_IF_ETHER_ADDR_SIZE).2.2.trace
        = txXids w.trace ++ nextXids p.TransactionID k ∧
      (DHCPc_Discover cfg w p hw NET_IF_ETHER_ADDR_SIZE).2.1.TransactionID
        = (p.TransactionID + k) % 2 ^ 32 := by
  have h0 : p.TransactionID = (p.TransactionID + 0) % 2 ^ 32 := by
    rw [Nat.add_zero, Nat.mod_eq_of_lt hT]
  unfold DHCPc_Discover
  rw [if_neg (by simp)]
  dsimp only
  split
  · exact ⟨0, Nat.zero_le _, by simp [nextXids], h0⟩
  · rename_i pmsg _
    obtain ⟨k, hk, hxs, hts⟩ := xids_discoverLoop cfg hw cfg.DHCPc_CFG_DISCOVER_RETRY_CNT
      false 0 DHCPc_ERR_NONE p pmsg (DHCPc_MsgGet w).2.2
      (by
        have : (DHCPc_MsgGet w).2.2.env = w.env := by unfold DHCPc_MsgGet; split <;> rfl
        rw [this]; exact hname) hqty hT
    rw [trace_MsgGet] at hxs
    refine ⟨k, hk, ?_, ?_⟩
    · repeat' split
      all_goals simp [hxs]
    · repeat' split
      all_goals exact hts

theorem xids_Req (cfg : DHCPc_CFG) (w : Client) (p : DHCPc_IF_INFO) (hw : List Nat)
    (hname : ∀ n, w.env.cpu_name = some n → n.length ≤ 255)
    (hqty : p.ParamReqQty ≤ 255) :
    ∃ k, k ≤ cfg.DHCPc_CFG_REQUEST_RETRY_CNT ∧
      txXids (DHCPc_Req cfg w p hw NET_IF_ETHER_ADDR_SIZE).2.2.trace
        = txXids w.trace ++ List.replicate k (be32 p.TransactionID) ∧
      (DHCPc_Req cfg w p hw NET_IF_ETHER_ADDR_SIZE).2.1.TransactionID = p.TransactionID := by
  unfold DHCPc_Req
  rw [if_neg (by simp)]
  dsimp only
  split
  · exact ⟨0, Nat.zero_le _, by simp, rfl⟩
  · rename_i pmsg _
    obtain ⟨k, hk, hxs, hts⟩ := xids_reqLoop cfg hw cfg.DHCPc_CFG_REQUEST_RETRY_CNT
      false 0 DHCPc_ERR_NONE p pmsg (DHCPc_MsgGet w).2.2
      (by
        have : (DHCPc_MsgGet w).2.2.env = w.env := by unfold DHCPc_MsgGet; split <;> rfl
        rw [this]; exact hname) hqty
    rw [trace_MsgGet] at hxs
    refine ⟨k, hk, ?_, ?_⟩
    · repeat' split
      all_goals simp [hxs]
    · repeat' split
      all_goals exact hts

theorem xids_DeclineRelease (cfg : DHCPc_CFG) (w : Client) (p : DHCPc_IF_INFO) (mt : Nat)
    (hw : List Nat) (hname : ∀ n, w.env.cpu_name = some n → n.length ≤ 255)
    (hqty : p.ParamReqQty ≤ 255) :
    ∃ k, k ≤ 1 ∧
      txXids (DHCPc_DeclineRelease cfg w p mt hw NET_IF_ETHER_ADDR_SIZE).2.2.trace
        = txXids w.trace ++ List.replicate k (be32 p.TransactionID) ∧
      (DHCPc_DeclineRelease cfg w p mt hw NET_IF_ETHER_ADDR_SIZE).2.1.TransactionID
        = p.TransactionID := by
  unfold DHCPc_DeclineRelease
  rw [if_neg (by simp)]
  split
  · exact ⟨0, Nat.zero_le _, by simp, rfl⟩
  · rename_i hmt
    have hmt2 : mt = DHCP_MSG_DISCOVER ∨ mt = DHCP_MSG_REQUEST ∨
        mt = DHCP_MSG_DECLINE ∨ mt = DHCP_MSG_RELEASE := by
      by_cases h : mt = DHCP_MSG_DECLINE
      · exact Or.inr (Or.inr (Or.inl h))
      · exact Or.inr (Or.inr (Or.inr (by simpa [h] using hmt)))
    dsimp only
    split
    · exact ⟨0, Nat.zero_le _, by simp, rfl⟩
    · rename_i pmsg _
      have henv : (DHCPc_MsgGet w).2.2.env = w.env := by unfold DHCPc_MsgGet; split <;> rfl
      obtain ⟨he, hx, ht, -⟩ := txPrepare_xid cfg (DHCPc_MsgGet w).2.2 p mt hw pmsg hmt2
        (by rw [henv]; exact hname) hqty
      rw [if_neg (by simp [he])]
      refine ⟨1, Nat.le_refl _, ?_, ht⟩
      simp [hx]

/-- C16. For a record with a 32-bit transaction identifier `t` (the host name and the number
of requested parameters fitting in one byte): the DISCOVER messages that `DHCPc_Discover`
transmits carry the identifiers `t + 1, t + 2, ..., t + k` modulo 2^32, one more for each
DISCOVER, and the record is left with `(t + k) mod 2^32`, so that 0xFFFFFFFF is followed by 0;
the REQUEST messages that `DHCPc_Req` transmits and the DECLINE or RELEASE that
`DHCPc_DeclineRelease` transmits all carry `t` itself, the identifier of the preceding
transmission, and leave the identifier of the record unchanged. -/
theorem C16_transaction_ids (cfg : DHCPc_CFG) (w : Client) (p : DHCPc_IF_INFO) (hw : List Nat)
    (hname : ∀ n, w.env.cpu_name = some n → n.length ≤ 255)
    (hqty : p.ParamReqQty ≤ 255) (hT : p.TransactionID < 2 ^ 32) :
    (∃ k, k ≤ cfg.DHCPc_CFG_DISCOVER_RETRY_CNT ∧
      txXids (DHCPc_Discover cfg w p hw NET_IF_ETHER_ADDR_SIZE).2.2.trace
        = txXids w.trace ++ nextXids p.TransactionID k ∧
      (DHCPc_Discover cfg w p hw NET_IF_ETHER_ADDR_SIZE).2.1.TransactionID
        = (p.TransactionID + k) % 2 ^ 32) ∧
    (∃ k, k ≤ cfg.DHCPc_CFG_REQUEST_RETRY_CNT ∧
      txXids (DHCPc_Req cfg w p hw NET_IF_ETHER_ADDR_SIZE).2.2.trace
        = txXids w.trace ++ List.replicate k (be32 p.TransactionID) ∧
      (DHCPc_Req cfg w p hw NET_IF_ETHER_ADDR_SIZE).2.1.TransactionID = p.TransactionID) ∧
    (∀ mt, ∃ k, k ≤ 1 ∧
      txXids (DHCPc_DeclineRelease cfg w p mt hw NET_IF_ETHER_ADDR_SIZE).2.2.trace
        = txXids w.trace ++ List.replicate k (be32 p.TransactionID) ∧
      (DHCPc_DeclineRelease cfg w p mt hw NET_IF_ETHER_ADDR_SIZE).2.1.TransactionID
        = p.TransactionID) ∧
    (∀ t k, nextXids t (k + 1) = be32 ((t + 1) % 2 ^ 32) :: nextXids ((t + 1) % 2 ^ 32) k) ∧
    nextXids 0xFFFFFFFF 1 = [be32 0] :=
  ⟨xids_Discover cfg w p hw hname hqty hT, xids_Req cfg w p hw hname hqty,
    fun mt => xids_DeclineRelease cfg w p mt hw hname hqty, nextXids_succ, by decide⟩

/-- Witness of C16: the record created by `DHCPc_Start` for interface 1, with the transaction
identifier 0x3C4D5E00, and a server that never answers: the three DISCOVER messages carry
0x3C4D5E01, 0x3C4D5E02 and 0x3C4D5E03. -/
theorem C16_transaction_ids_witness :
    startedIf.ParamReqQty ≤ 255 ∧ startedIf.TransactionID < 2 ^ 32 ∧
    txXids (DHCPc_Discover templateCfg (startedClient silentEnv) startedIf hwAddr
      NET_IF_ETHER_ADDR_SIZE).2.2.trace
      = [[0x3C, 0x4D, 0x5E, 1], [0x3C, 0x4D, 0x5E, 2], [0x3C, 0x4D, 0x5E, 3]] ∧
    ∃ k, k ≤ templateCfg.DHCPc_CFG_REQUEST_RETRY_CNT ∧
      txXids (DHCPc_Req templateCfg (startedClient silentEnv) startedIf hwAddr
        NET_IF_ETHER_ADDR_SIZE).2.2.trace
        = txXids (startedClient silentEnv).trace
          ++ List.replicate k (be32 startedIf.TransactionID) ∧
      (DHCPc_Req templateCfg (startedClient silentEnv) startedIf hwAddr
        NET_IF_ETHER_ADDR_SIZE).2.1.TransactionID = startedIf.TransactionID :=
  ⟨by decide, by decide, by decide!,
    (C16_transaction_ids templateCfg (startedClient silentEnv) startedIf hwAddr
      (by intro n h; cases h) (by decide) (by decide)).2.1⟩

/-- C16 (counterexample). In the negotiation with the test server the DISCOVER (type 1) and
the REQUEST that follows the OFFER (type 3) both carry the identifier 0x3C4D5E01; when the
offered address is in use, the DECLINE (type 4) carries the identifier of the REQUEST before
it, in each of the three rounds.  From the identifier 0xFFFFFFFF, the first DISCOVER carries
the identifier 0. -/
theorem C16_request_reuses_xid :
    txKinds cfgdClient.trace = [(1, [0x3C, 0x4D, 0x5E, 1]), (3, [0x3C, 0x4D, 0x5E, 1])] ∧
    txKinds (runStart usedApiEnv).trace =
      [(1, [0x3C, 0x4D, 0x5E, 1]), (3, [0x3C, 0x4D, 0x5E, 1]), (4, [0x3C, 0x4D, 0x5E, 1]),
       (1, [0x3C, 0x4D, 0x5E, 2]), (3, [0x3C, 0x4D, 0x5E, 2]), (4, [0x3C, 0x4D, 0x5E, 2]),
       (1, [0x3C, 0x4D, 0x5E, 3]), (3, [0x3C, 0x4D, 0x5E, 3]), (4, [0x3C, 0x4D, 0x5E, 3])] ∧
    txKinds (DHCPc_Discover templateCfg (startedClient silentEnv) lastXidIf hwAddr
      NET_IF_ETHER_ADDR_SIZE).2.2.trace
      = [(1, [0, 0, 0, 0]), (1, [0, 0, 0, 1]), (1, [0, 0, 0, 2])] := by
  refine ⟨?_, ?_, ?_⟩ <;> decide!

/-! ### The timer task -/

@[simp] theorem posts_append (a b : List Event) : posts (a ++ b) = posts a ++ posts b := by
  simp [posts]

theorem tmrHandle_dec (cfg : DHCPc_CFG) (w : Client) (t : DHCPc_TMR) (h : t.TmrVal > 1) :
    tmrHandle cfg w t = { w with DHCPc_TmrListHead := (w.DHCPc_TmrListHead.map
        (fun u => if u.ID = t.ID then DHCPc_TMR.mk u.ID u.Obj (u.TmrVal - 1) else u)) } := by
  unfold tmrHandle
  rw [if_pos h]

theorem TmrFree_mem (cfg : DHCPc_CFG) (w : Client) (id : Nat)
    (h : id ∈ w.DHCPc_TmrListHead.map (fun t => t.ID)) :
    DHCPc_TmrFree cfg w id =
      { w with DHCPc_TmrListHead := w.DHCPc_TmrListHead.filter (fun t => t.ID ≠ id)
               DHCPc_TmrPoolPtr := id :: w.DHCPc_TmrPoolPtr } := by
  unfold DHCPc_TmrFree
  rw [if_neg (by simp only [not_and, not_not]; intro _; exact h)]

theorem MsgPost_eff (w : Client) (c : DHCPc_COMM) :
    (DHCPc_OS_MsgPost w c).2.DHCPc_TmrListHead = w.DHCPc_TmrListHead ∧
    (DHCPc_OS_MsgPost w c).2.DHCPc_TmrPoolPtr = w.DHCPc_TmrPoolPtr ∧
    posts (DHCPc_OS_MsgPost w c).2.trace = posts w.trace ++ [c] ∧
    (DHCPc_OS_MsgPost w c).2.env.lock = w.env.lock ∧
    (DHCPc_OS_MsgPost w c).2.env.post = w.env.post.tail ∧
    (DHCPc_OS_MsgPost w c).2.MsgQ
      = (if w.env.post.headD false = true then w.MsgQ ++ [c] else w.MsgQ) := by
  unfold DHCPc_OS_MsgPost
  dsimp only
  by_cases h : w.env.post.headD false = true
  · rw [if_pos h, if_pos h]; simp [Client.log, posts]
  · rw [if_neg h, if_neg h]; simp [Client.log, posts]

/-- What the expiry of a listed timer does to the timers, the trace and the queue. -/
theorem tmrHandle_expire (cfg : DHCPc_CFG) (w : Client) (t : DHCPc_TMR) (c : DHCPc_COMM)
    (h : ¬ t.TmrVal > 1) (ho : t.Obj = some c)
    (hm : t.ID ∈ w.DHCPc_TmrListHead.map (fun t => t.ID)) :
    (tmrHandle cfg w t).DHCPc_TmrListHead
        = w.DHCPc_TmrListHead.filter (fun u => u.ID ≠ t.ID) ∧
    (tmrHandle cfg w t).DHCPc_TmrPoolPtr = t.ID :: w.DHCPc_TmrPoolPtr ∧
    posts (tmrHandle cfg w t).trace = posts w.trace ++ [c] ∧
    (tmrHandle cfg w t).env.lock = w.env.lock ∧
    (tmrHandle cfg w t).env.post = w.env.post.tail ∧
    (tmrHandle cfg w t).MsgQ
        = (if w.env.post.headD false = true then w.MsgQ ++ [c] else w.MsgQ) := by
  unfold tmrHandle
  rw [if_neg h, ho]
  dsimp only
  have hm2 : t.ID ∈ (DHCPc_OS_TimeGet_tick w).2.DHCPc_TmrListHead.map (fun t => t.ID) := hm
  split
  · rw [TmrFree_mem cfg _ _ hm2]
    obtain ⟨h1, h2, h3, h4, h5, h6⟩ := MsgPost_eff
      (({ (DHCPc_OS_TimeGet_tick w).2 with
          DHCPc_TmrListHead :=
            (DHCPc_OS_TimeGet_tick w).2.DHCPc_TmrListHead.filter (fun u => u.ID ≠ t.ID)
          DHCPc_TmrPoolPtr := t.ID :: (DHCPc_OS_TimeGet_tick w).2.DHCPc_TmrPoolPtr }
          : Client).setInfo _) c
    exact ⟨h1, h2, h3, h4, h5, h6⟩
  · rw [TmrFree_mem cfg _ _ hm]
    obtain ⟨h1, h2, h3, h4, h5, h6⟩ := MsgPost_eff
      ({ w with
          DHCPc_TmrListHead := w.DHCPc_TmrListHead.filter (fun u => u.ID ≠ t.ID)
          DHCPc_TmrPoolPtr := t.ID :: w.DHCPc_TmrPoolPtr } : Client) c
    exact ⟨h1, h2, h3, h4, h5, h6⟩

theorem nodup_ids_split (done rest : List DHCPc_TMR) (t : DHCPc_TMR)
    (h : ((done ++ t :: rest).map (fun u => u.ID)).Nodup) :
    (∀ u ∈ done, u.ID ≠ t.ID) ∧ (∀ u ∈ rest, u.ID ≠ t.ID) := by
  rw [List.map_append, List.map_cons] at h
  have h1 := List.nodup_append.1 h
  have h2 := List.nodup_cons.1 h1.2.1
  refine ⟨?_, ?_⟩
  · intro u hu he
    exact h1.2.2 (List.mem_map_of_mem (fun u => u.ID) hu)
      (by rw [he]; exact List.mem_cons_self _ _)
  · intro u hu he
    exact h2.1 (by rw [← he]; exact List.mem_map_of_mem (fun u => u.ID) hu)

theorem map_at_id (done rest : List DHCPc_TMR) (t : DHCPc_TMR) (f : DHCPc_TMR → DHCPc_TMR)
    (h : ((done ++ t :: rest).map (fun u => u.ID)).Nodup) :
    (done ++ t :: rest).map (fun u => if u.ID = t.ID then f u else u)
      = done ++ f t :: rest := by
  obtain ⟨hd, hr⟩ := nodup_ids_split done rest t h
  rw [List.map_append, List.map_cons, if_pos rfl]
  congr 1
  · conv_rhs => rw [← List.map_id done]
    exact List.map_congr_left (fun u hu => by simp [hd u hu])
  · congr 1
    conv_rhs => rw [← List.map_id rest]
    exact List.map_congr_left (fun u hu => by simp [hr u hu])

theorem filter_at_id (done rest : List DHCPc_TMR) (t : DHCPc_TMR)
    (h : ((done ++ t :: rest).map (fun u => u.ID)).Nodup) :
    (done ++ t :: rest).filter (fun u => u.ID ≠ t.ID) = done ++ rest := by
  obtain ⟨hd, hr⟩ := nodup_ids_split done rest t h
  rw [List.filter_append, List.filter_cons_of_neg (by simp)]
  congr 1
  · exact List.filter_eq_self.2 (fun u hu => by simp [hd u hu])
  · exact List.filter_eq_self.2 (fun u hu => by simp [hr u hu])

theorem tmrHandle_free (cfg : DHCPc_CFG) (w : Client) (t : DHCPc_TMR)
    (h : ¬ t.TmrVal > 1) (ho : t.Obj = none)
    (hm : t.ID ∈ w.DHCPc_TmrListHead.map (fun t => t.ID)) :
    (tmrHandle cfg w t).DHCPc_TmrListHead
        = w.DHCPc_TmrListHead.filter (fun u => u.ID ≠ t.ID) ∧
    (tmrHandle cfg w t).DHCPc_TmrPoolPtr = t.ID :: w.DHCPc_TmrPoolPtr ∧
    posts (tmrHandle cfg w t).trace = posts w.trace ∧
    (tmrHandle cfg w t).env.lock = w.env.lock := by
  unfold tmrHandle
  rw [if_neg h, ho]
  dsimp only
  rw [TmrFree_mem cfg _ _ hm]
  exact ⟨rfl, rfl, rfl, rfl⟩

/-- The loop of `DHCPc_TmrTaskHandler` over the timers `rest` still to be handled, `done`
being what the timers handled so far have left in the list. -/
theorem tick_fold (cfg : DHCPc_CFG) (rest : List DHCPc_TMR) :
    ∀ (done : List DHCPc_TMR) (x : Client),
      x.DHCPc_TmrListHead = done ++ rest →
      ((done ++ rest).map (fun u => u.ID)).Nodup →
      (rest.foldl (tmrHandle cfg) x).DHCPc_TmrListHead = done ++ tickKeep rest ∧
      (rest.foldl (tmrHandle cfg) x).DHCPc_TmrPoolPtr
        = ((tickExpired rest).map (fun u => u.ID)).reverse ++ x.DHCPc_TmrPoolPtr ∧
      posts (rest.foldl (tmrHandle cfg) x).trace
        = posts x.trace ++ (tickExpired rest).filterMap (fun u => u.Obj) ∧
      (rest.foldl (tmrHandle cfg) x).env.lock = x.env.lock := by
  induction rest with
  | nil =>
    intro done x hx _
    simp [tickKeep, tickExpired, hx]
  | cons t rest ih =>
    intro done x hx hnd
    rw [List.foldl_cons]
    have hm : t.ID ∈ x.DHCPc_TmrListHead.map (fun t => t.ID) := by
      rw [hx]; simp
    by_cases h : t.TmrVal > 1
    · have hl : (tmrHandle cfg x t).DHCPc_TmrListHead
          = (done ++ [⟨t.ID, t.Obj, t.TmrVal - 1⟩]) ++ rest := by
        rw [tmrHandle_dec cfg x t h]
        dsimp only
        rw [hx, map_at_id done rest t (fun u => DHCPc_TMR.mk u.ID u.Obj (u.TmrVal - 1)) hnd]
        simp
      have hnd2 : (((done ++ [DHCPc_TMR.mk t.ID t.Obj (t.TmrVal - 1)]) ++ rest).map
          (fun u => u.ID)).Nodup := by
        simpa using hnd
      obtain ⟨h1, h2, h3, h4⟩ := ih _ _ hl hnd2
      have e2 : (tmrHandle cfg x t).DHCPc_TmrPoolPtr = x.DHCPc_TmrPoolPtr := by
        rw [tmrHandle_dec cfg x t h]
      have e3 : (tmrHandle cfg x t).trace = x.trace := by
        rw [tmrHandle_dec cfg x t h]
      have e4 : (tmrHandle cfg x t).env = x.env := by
        rw [tmrHandle_dec cfg x t h]
      have h' : ¬ t.TmrVal ≤ 1 := Nat.not_le.2 h
      refine ⟨?_, ?_, ?_, ?_⟩
      · rw [h1]; simp [tickKeep, List.filter_cons, h]
      · rw [h2, e2]; simp [tickExpired, List.filter_cons, h']
      · rw [h3, e3]; simp [tickExpired, List.filter_cons, h']
      · rw [h4, e4]
    · have h' : t.TmrVal ≤ 1 := Nat.le_of_not_lt h
      have hnd2 : ((done ++ rest).map (fun u => u.ID)).Nodup := by
        rw [List.map_append, List.map_cons] at hnd
        rw [List.map_append]
        exact (List.nodup_middle.1 hnd).of_cons
      cases ho : t.Obj with
      | none =>
        obtain ⟨e1, e2, e3, e4⟩ := tmrHandle_free cfg x t h ho hm
        have hl : (tmrHandle cfg x t).DHCPc_TmrListHead = done ++ rest := by
          rw [e1, hx, filter_at_id done rest t hnd]
        obtain ⟨h1, h2, h3, h4⟩ := ih _ _ hl hnd2
        refine ⟨?_, ?_, ?_, ?_⟩
        · rw [h1]; simp [tickKeep, List.filter_cons, h]
        · rw [h2, e2]; simp [tickExpired, List.filter_cons, h']
        · rw [h3, e3]; simp [tickExpired, List.filter_cons, h', ho]
        · rw [h4, e4]
      | some c =>
        obtain ⟨e1, e2, e3, e4, -, -⟩ := tmrHandle_expire cfg x t c h ho hm
        have hl : (tmrHandle cfg x t).DHCPc_TmrListHead = done ++ rest := by
          rw [e1, hx, filter_at_id done rest t hnd]
        obtain ⟨h1, h2, h3, h4⟩ := ih _ _ hl hnd2
        refine ⟨?_, ?_, ?_, ?_⟩
        · rw [h1]; simp [tickKeep, List.filter_cons, h]
        · rw [h2, e2]; simp [tickExpired, List.filter_cons, h']
        · rw [h3, e3]; simp [tickExpired, List.filter_cons, h', ho]
        · rw [h4, e4]

theorem tick_eff (cfg : DHCPc_CFG) (w : Client) (hlock : (DHCPc_OS_Lock w).1 = true)
    (hnd : (w.DHCPc_TmrListHead.map (fun u => u.ID)).Nodup) :
    (DHCPc_TmrTaskHandler cfg w).DHCPc_TmrListHead = tickKeep w.DHCPc_TmrListHead ∧
    (DHCPc_TmrTaskHandler cfg w).DHCPc_TmrPoolPtr
      = ((tickExpired w.DHCPc_TmrListHead).map (fun u => u.ID)).reverse
          ++ w.DHCPc_TmrPoolPtr ∧
    posts (DHCPc_TmrTaskHandler cfg w).trace
      = posts w.trace ++ (tickExpired w.DHCPc_TmrListHead).filterMap (fun u => u.Obj) ∧
    (DHCPc_TmrTaskHandler cfg w).env.lock = w.env.lock.tail := by
  unfold DHCPc_TmrTaskHandler
  dsimp only
  rw [if_neg (by simp [hlock])]
  have := tick_fold cfg (DHCPc_OS_Lock w).2.DHCPc_TmrListHead [] (DHCPc_OS_Lock w).2
    (by simp) (by simpa using hnd)
  simpa using this

theorem find_map_stable {α : Type} (l : List α) (f : α → α) (pr : α → Bool)
    (h : ∀ r ∈ l, pr (f r) = pr r ∧ (pr r = true → f r = r)) :
    (l.map f).find? pr = l.find? pr := by
  induction l with
  | nil => rfl
  | cons a t ih =>
    have ha := h a (List.mem_cons_self _ _)
    have ht := ih (fun r hr => h r (List.mem_cons_of_mem _ hr))
    rw [List.map_cons, List.find?_cons, List.find?_cons, ha.1]
    cases hp : pr a with
    | true => simp [ha.2 hp]
    | false => simpa using ht

theorem InfoGetCfgd_setInfo_other (w : Client) (n : Nat) (p q : DHCPc_IF_INFO)
    (hinv : InfoInv (infoPart w)) (hp : p ∈ w.DHCPc_InfoListHead) (hk : key q = key p)
    (hn : p.IF_Nbr ≠ n) :
    DHCPc_IF_InfoGetCfgd (w.setInfo q) n = DHCPc_IF_InfoGetCfgd w n := by
  simp only [key, Prod.mk.injEq] at hk
  unfold DHCPc_IF_InfoGetCfgd Client.setInfo
  dsimp only
  apply find_map_stable
  intro r hr
  by_cases hid : r.ID = q.ID
  · have hrp : r = p :=
      List.inj_on_of_nodup_map hinv.1 hr hp (by rw [hid, hk.1])
    subst hrp
    simp [hid, hk.2, hn]
  · simp [hid]

theorem tmrHandle_expire_info (cfg : DHCPc_CFG) (x : Client) (t : DHCPc_TMR) (c : DHCPc_COMM)
    (p : DHCPc_IF_INFO) (h : ¬ t.TmrVal > 1) (ho : t.Obj = some c)
    (hp : DHCPc_IF_InfoGetCfgd x c.IF_Nbr = some p) :
    ∃ q, key q = key p ∧ q.Tmr = none ∧
      infoPart (tmrHandle cfg x t) = infoPart (x.setInfo q) := by
  refine ⟨{ p with TmrExpirationTime := (DHCPc_OS_TimeGet_tick x).1, Tmr := none }, rfl, rfl,
    ?_⟩
  unfold tmrHandle
  rw [if_neg h, ho]
  dsimp only
  rw [hp]
  dsimp only
  rw [infoPart_MsgPost]
  have h1 := infoPart_TmrFree cfg (DHCPc_OS_TimeGet_tick x).2 t.ID
  simp only [infoPart, Prod.mk.injEq, Client.setInfo] at h1 ⊢
  rw [h1.1, h1.2.1, h1.2.2]
  exact ⟨rfl, rfl, rfl⟩

theorem tmrHandle_info (cfg : DHCPc_CFG) (x : Client) (t : DHCPc_TMR) :
    infoPart (tmrHandle cfg x t) = infoPart x ∨
    ∃ (c : DHCPc_COMM) (p q : DHCPc_IF_INFO), DHCPc_IF_InfoGetCfgd x c.IF_Nbr = some p ∧
      key q = key p ∧ q.Tmr = none ∧
      infoPart (tmrHandle cfg x t) = infoPart (x.setInfo q) := by
  by_cases h : t.TmrVal > 1
  · left; rw [tmrHandle_dec cfg x t h]; rfl
  · cases ho : t.Obj with
    | none => left; unfold tmrHandle; rw [if_neg h, ho]; simp
    | some c =>
      cases hp : DHCPc_IF_InfoGetCfgd x c.IF_Nbr with
      | none => left; unfold tmrHandle; rw [if_neg h, ho]; dsimp only; rw [hp]; simp
      | some p =>
        obtain ⟨q, hk, hq, hi⟩ := tmrHandle_expire_info cfg x t c p h ho hp
        exact Or.inr ⟨c, p, q, hp, hk, hq, hi⟩

theorem tmrHandle_clears (cfg : DHCPc_CFG) (x : Client) (t : DHCPc_TMR) (c : DHCPc_COMM)
    (p : DHCPc_IF_INFO) (h : ¬ t.TmrVal > 1) (ho : t.Obj = some c)
    (hp : DHCPc_IF_InfoGetCfgd x c.IF_Nbr = some p) :
    ∃ q, DHCPc_IF_InfoGetCfgd (tmrHandle cfg x t) c.IF_Nbr = some q ∧ q.Tmr = none := by
  obtain ⟨q, hk, hq, hi⟩ := tmrHandle_expire_info cfg x t c p h ho hp
  exact ⟨q, by rw [InfoGetCfgd_congr _ _ _ hi]; exact InfoGetCfgd_setInfo x x _ p q rfl hp hk,
    hq⟩

theorem tmrHandle_handle_none (cfg : DHCPc_CFG) (x : Client) (t : DHCPc_TMR) (n : Nat)
    (hinv : InfoInv (infoPart x))
    (hq : ∃ q, DHCPc_IF_InfoGetCfgd x n = some q ∧ q.Tmr = none) :
    ∃ q, DHCPc_IF_InfoGetCfgd (tmrHandle cfg x t) n = some q ∧ q.Tmr = none := by
  obtain ⟨q, hq1, hq2⟩ := hq
  rcases tmrHandle_info cfg x t with h | ⟨c, p, q1, hp, hk, hqn, h⟩
  · exact ⟨q, by rw [InfoGetCfgd_congr _ _ _ h]; exact hq1, hq2⟩
  · rw [InfoGetCfgd_congr _ _ _ h]
    obtain ⟨hpm, hpn⟩ := InfoGetCfgd_mem _ _ _ hp
    by_cases hn : c.IF_Nbr = n
    · refine ⟨q1, ?_, hqn⟩
      rw [← hn]
      exact InfoGetCfgd_setInfo x x c.IF_Nbr p q1 rfl hp hk
    · refine ⟨q, ?_, hq2⟩
      rw [InfoGetCfgd_setInfo_other x n p q1 hinv hpm hk (by rw [hpn]; exact hn)]
      exact hq1

theorem tmrHandle_record (cfg : DHCPc_CFG) (x : Client) (t : DHCPc_TMR) (n : Nat)
    (hinv : InfoInv (infoPart x)) (hq : (DHCPc_IF_InfoGetCfgd x n).isSome = true) :
    (DHCPc_IF_InfoGetCfgd (tmrHandle cfg x t) n).isSome = true := by
  rcases tmrHandle_info cfg x t with h | ⟨c, p, q1, hp, hk, -, h⟩
  · rw [InfoGetCfgd_congr _ _ _ h]; exact hq
  · rw [InfoGetCfgd_congr _ _ _ h]
    obtain ⟨hpm, hpn⟩ := InfoGetCfgd_mem _ _ _ hp
    by_cases hn : c.IF_Nbr = n
    · rw [← hn, InfoGetCfgd_setInfo x x c.IF_Nbr p q1 rfl hp hk]; rfl
    · rw [InfoGetCfgd_setInfo_other x n p q1 hinv hpm hk (by rw [hpn]; exact hn)]
      exact hq

/-- Once a timer of the list expires in the loop of `DHCPc_TmrTaskHandler`, the record of its
interface has no timer when the loop ends. -/
theorem tick_fold_clears (cfg : DHCPc_CFG) (rest : List DHCPc_TMR) (t : DHCPc_TMR)
    (c : DHCPc_COMM) (h : ¬ t.TmrVal > 1) (ho : t.Obj = some c) :
    ∀ (x : Client), InfoInv (infoPart x) →
      ((t ∈ rest ∧ (DHCPc_IF_InfoGetCfgd x c.IF_Nbr).isSome = true) ∨
        ∃ q, DHCPc_IF_InfoGetCfgd x c.IF_Nbr = some q ∧ q.Tmr = none) →
      ∃ q, DHCPc_IF_InfoGetCfgd (rest.foldl (tmrHandle cfg) x) c.IF_Nbr = some q
        ∧ q.Tmr = none := by
  induction rest with
  | nil =>
    intro x _ hx
    rcases hx with ⟨hm, -⟩ | hx
    · cases hm
    · exact hx
  | cons a rest ih =>
    intro x hinv hx
    rw [List.foldl_cons]
    refine ih _ (InfoInv_tmrHandle cfg x a hinv) ?_
    rcases hx with ⟨hm, hs⟩ | hx
    · rcases List.mem_cons.1 hm with hta | hm
      · subst hta
        obtain ⟨p, hp⟩ := Option.isSome_iff_exists.1 hs
        exact Or.inr (tmrHandle_clears cfg x t c p h ho hp)
      · exact Or.inl ⟨hm, tmrHandle_record cfg x a _ hinv hs⟩
    · exact Or.inr (tmrHandle_handle_none cfg x a _ hinv hx)

theorem tick_record (cfg : DHCPc_CFG) (w : Client) (n : Nat) (hinv : InfoInv (infoPart w))
    (hq : (DHCPc_IF_InfoGetCfgd w n).isSome = true) :
    (DHCPc_IF_InfoGetCfgd (DHCPc_TmrTaskHandler cfg w) n).isSome = true := by
  have hf : ∀ (l : List DHCPc_TMR) (x : Client), InfoInv (infoPart x) →
      (DHCPc_IF_InfoGetCfgd x n).isSome = true →
      (DHCPc_IF_InfoGetCfgd (l.foldl (tmrHandle cfg) x) n).isSome = true := by
    intro l
    induction l with
    | nil => intro x _ hx; exact hx
    | cons t l ih =>
      intro x hx hs
      exact ih _ (InfoInv_tmrHandle cfg x t hx) (tmrHandle_record cfg x t n hx hs)
  have h0 : (DHCPc_IF_InfoGetCfgd (DHCPc_OS_Lock w).2 n).isSome = true := by
    rw [InfoGetCfgd_congr w _ n (by simp)]; exact hq
  unfold DHCPc_TmrTaskHandler
  dsimp only
  split
  · exact h0
  · exact hf _ _ (by simpa using hinv) h0

theorem tick_clears (cfg : DHCPc_CFG) (w : Client) (t : DHCPc_TMR) (c : DHCPc_COMM)
    (hlock : (DHCPc_OS_Lock w).1 = true) (hinv : InfoInv (infoPart w))
    (ht : t ∈ w.DHCPc_TmrListHead) (h : ¬ t.TmrVal > 1) (ho : t.Obj = some c)
    (hrec : (DHCPc_IF_InfoGetCfgd w c.IF_Nbr).isSome = true) :
    ∃ q, DHCPc_IF_InfoGetCfgd (DHCPc_TmrTaskHandler cfg w) c.IF_Nbr = some q ∧ q.Tmr = none := by
  unfold DHCPc_TmrTaskHandler
  dsimp only
  rw [if_neg (by simp [hlock])]
  refine tick_fold_clears cfg _ t c h ho _ (by simpa using hinv) (Or.inl ⟨ht, ?_⟩)
  rw [InfoGetCfgd_congr w _ _ (by simp)]; exact hrec

theorem tickKeep_ids (l : List DHCPc_TMR) (h : (l.map (fun u => u.ID)).Nodup) :
    ((tickKeep l).map (fun u => u.ID)).Nodup := by
  unfold tickKeep
  rw [List.map_map]
  have : ((fun u : DHCPc_TMR => u.ID) ∘
      fun t : DHCPc_TMR => DHCPc_TMR.mk t.ID t.Obj (t.TmrVal - 1))
      = fun u : DHCPc_TMR => u.ID := rfl
  rw [this]
  exact (List.Sublist.map _ (List.filter_sublist _)).nodup h

theorem tmrTicks_succ (cfg : DHCPc_CFG) (k : Nat) (w : Client) :
    tmrTicks cfg (k + 1) w = DHCPc_TmrTaskHandler cfg (tmrTicks cfg k w) := by
  induction k generalizing w with
  | zero => rfl
  | succ k ih => rw [tmrTicks, ih (DHCPc_TmrTaskHandler cfg w)]; rfl

/-- A timer of the list with a value above `k` is still in the list after `k` ticks, `k` less
(after no tick, whatever its value);
the identifiers of the list stay distinct, the records keep their invariant, the record of an
interface stays, and `k` answers of the lock have been used. -/
theorem ticks_countdown (cfg : DHCPc_CFG) (k : Nat) :
    ∀ (w : Client) (t : DHCPc_TMR) (n : Nat),
      t ∈ w.DHCPc_TmrListHead → (w.DHCPc_TmrListHead.map (fun u => u.ID)).Nodup →
      InfoInv (infoPart w) → (DHCPc_IF_InfoGetCfgd w n).isSome = true →
      k ≤ t.TmrVal - 1 → (∀ j, j < k → w.env.lock.getD j false = true) →
      DHCPc_TMR.mk t.ID t.Obj (t.TmrVal - k) ∈ (tmrTicks cfg k w).DHCPc_TmrListHead ∧
      ((tmrTicks cfg k w).DHCPc_TmrListHead.map (fun u => u.ID)).Nodup ∧
      InfoInv (infoPart (tmrTicks cfg k w)) ∧
      (DHCPc_IF_InfoGetCfgd (tmrTicks cfg k w) n).isSome = true ∧
      (tmrTicks cfg k w).env.lock = w.env.lock.drop k := by
  induction k with
  | zero =>
    intro w t n ht hnd hinv hrec _ _
    exact ⟨ht, hnd, hinv, hrec, rfl⟩
  | succ k ih =>
    intro w t n ht hnd hinv hrec hk hl
    have hlock : (DHCPc_OS_Lock w).1 = true := by
      have := hl 0 (Nat.succ_pos _)
      unfold DHCPc_OS_Lock
      cases hw : w.env.lock with
      | nil => rw [hw] at this; simp at this
      | cons a l => rw [hw] at this; simpa using this
    obtain ⟨e1, -, -, e4⟩ := tick_eff cfg w hlock hnd
    have ht1 : DHCPc_TMR.mk t.ID t.Obj (t.TmrVal - 1)
        ∈ (DHCPc_TmrTaskHandler cfg w).DHCPc_TmrListHead := by
      rw [e1]
      unfold tickKeep
      exact List.mem_map.2 ⟨t, List.mem_filter.2 ⟨ht, by simp; omega⟩, rfl⟩
    have hnd1 : ((DHCPc_TmrTaskHandler cfg w).DHCPc_TmrListHead.map
        (fun u => u.ID)).Nodup := by
      rw [e1]; exact tickKeep_ids _ hnd
    obtain ⟨r1, r2, r3, r4, r5⟩ := ih (DHCPc_TmrTaskHandler cfg w)
      (DHCPc_TMR.mk t.ID t.Obj (t.TmrVal - 1)) n ht1 hnd1
      (InfoInv_TmrTaskHandler cfg w hinv) (tick_record cfg w n hinv hrec)
      (by show k ≤ t.TmrVal - 1 - 1; omega)
      (by
        intro j hj
        rw [e4]
        have := hl (j + 1) (by omega)
        simpa [List.getD_eq_getElem?_getD] using this)
    refine ⟨?_, r2, r3, r4, ?_⟩
    · have : t.TmrVal - 1 - k = t.TmrVal - (k + 1) := by omega
      rw [← this]; exact r1
    · rw [tmrTicks, r5, e4]; simp [List.drop_succ_cons, List.tail_drop]

theorem headD_drop (l : List Bool) (k : Nat) : (l.drop k).headD false = l.getD k false := by
  induction l generalizing k with
  | nil => simp
  | cons a l ih =>
    cases k with
    | zero => rfl
    | succ k => simpa using ih k

/-- C19. `DHCPc_TmrCfg` with `n` seconds (not 0xFFFFFFFF, a communication object and a timer
being free, one tick per second) puts at the head of the timer list a timer of value `n` that
holds the command.  For a timer of the list with value `n` (the timer identifiers of the list
being distinct, the records satisfying their invariant, the interface of the command having
a record and the lock being acquired at each tick), let `m` be `n` for `n >= 1` and 1 for
`n = 0`: before each of the first `m` ticks the timer is in the list, with as many ticks less
as have passed; each tick posts exactly the commands of the timers whose value is at most 1,
which the timer is not before any of the first `m - 1` ticks and is before tick `m`; after
tick `m` the list holds no timer with its identifier, the identifier is back in the pool,
the record of the interface has no timer, and the list is what it was before the tick
without the timers of value at most 1 and with every other value reduced by 1. -/
theorem C19_timer_expiry (cfg : DHCPc_CFG) (w : Client) (t : DHCPc_TMR) (c : DHCPc_COMM)
    (m : Nat) (ht : t ∈ w.DHCPc_TmrListHead) (ho : t.Obj = some c)
    (hm : m = max t.TmrVal 1)
    (hnd : (w.DHCPc_TmrListHead.map (fun u => u.ID)).Nodup)
    (hinv : InfoInv (infoPart w))
    (hrec : (DHCPc_IF_InfoGetCfgd w c.IF_Nbr).isSome = true)
    (hl : ∀ j, j < m → w.env.lock.getD j false = true) :
    (∀ (x : Client) (p : DHCPc_IF_INFO) (msg : DHCPc_COMM_MSG) (n cid tid : Nat)
        (cp tp : List Nat),
      msg ≠ DHCPc_COMM_MSG_NONE ∧ msg ≠ DHCPc_COMM_MSG_STOP → n ≠ DHCP_LEASE_INFINITE →
      x.DHCPc_CommPoolPtr = cid :: cp → x.DHCPc_TmrPoolPtr = tid :: tp →
      cfg.DHCPc_TMR_PERIOD_SEC = 1 →
      (DHCPc_TmrCfg cfg x p msg n).2.2.DHCPc_TmrListHead
        = ⟨tid, some ⟨cid, p.IF_Nbr, msg⟩, n⟩ :: x.DHCPc_TmrListHead ∧
      (DHCPc_TmrCfg cfg x p msg n).2.1.Tmr = some tid) ∧
    (∀ k, k < m →
      DHCPc_TMR.mk t.ID t.Obj (t.TmrVal - k) ∈ (tmrTicks cfg k w).DHCPc_TmrListHead ∧
      posts (tmrTicks cfg (k + 1) w).trace
        = posts (tmrTicks cfg k w).trace
          ++ (tickExpired (tmrTicks cfg k w).DHCPc_TmrListHead).filterMap (fun u => u.Obj) ∧
      (tmrTicks cfg (k + 1) w).DHCPc_TmrListHead
        = tickKeep (tmrTicks cfg k w).DHCPc_TmrListHead ∧
      (tmrTicks cfg (k + 1) w).DHCPc_TmrPoolPtr
        = ((tickExpired (tmrTicks cfg k w).DHCPc_TmrListHead).map (fun u => u.ID)).reverse
          ++ (tmrTicks cfg k w).DHCPc_TmrPoolPtr ∧
      (DHCPc_TMR.mk t.ID t.Obj (t.TmrVal - k)
          ∈ tickExpired (tmrTicks cfg k w).DHCPc_TmrListHead ↔ k + 1 = m)) ∧
    (∀ u, u ∈ (tmrTicks cfg m w).DHCPc_TmrListHead → u.ID ≠ t.ID) ∧
    t.ID ∈ (tmrTicks cfg m w).DHCPc_TmrPoolPtr ∧
    (∃ q, DHCPc_IF_InfoGetCfgd (tmrTicks cfg m w) c.IF_Nbr = some q ∧ q.Tmr = none) := by
  have hstep : ∀ k, k < m →
      DHCPc_TMR.mk t.ID t.Obj (t.TmrVal - k) ∈ (tmrTicks cfg k w).DHCPc_TmrListHead ∧
      ((tmrTicks cfg k w).DHCPc_TmrListHead.map (fun u => u.ID)).Nodup ∧
      InfoInv (infoPart (tmrTicks cfg k w)) ∧
      (DHCPc_IF_InfoGetCfgd (tmrTicks cfg k w) c.IF_Nbr).isSome = true ∧
      (DHCPc_OS_Lock (tmrTicks cfg k w)).1 = true := by
    intro k hk
    obtain ⟨r1, r2, r3, r4, r5⟩ := ticks_countdown cfg k w t c.IF_Nbr ht hnd hinv hrec
      (by omega) (fun j hj => hl j (by omega))
    refine ⟨r1, r2, r3, r4, ?_⟩
    unfold DHCPc_OS_Lock
    rw [r5]
    exact (headD_drop _ k).trans (hl k hk)
  refine ⟨?_, ?_, ?_, ?_, ?_⟩
  · intro x p msg n cid tid cp tp hmsg hn hc htp hper
    rw [TmrCfg_arms cfg x p msg n cid tid cp tp hmsg hn hc htp, hper, Nat.div_one]
    exact ⟨rfl, rfl⟩
  · intro k hk
    obtain ⟨r1, r2, r3, r4, r5⟩ := hstep k hk
    obtain ⟨e1, e2, e3, -⟩ := tick_eff cfg (tmrTicks cfg k w) r5 r2
    rw [tmrTicks_succ]
    refine ⟨r1, e3, e1, e2, ?_⟩
    unfold tickExpired
    rw [List.mem_filter]
    simp only [r1, true_and, decide_eq_true_eq]
    omega
  · obtain ⟨k, rfl⟩ : ∃ k, m = k + 1 := ⟨m - 1, by omega⟩
    obtain ⟨r1, r2, r3, r4, r5⟩ := hstep k (Nat.lt_succ_self k)
    obtain ⟨e1, -, -, -⟩ := tick_eff cfg (tmrTicks cfg k w) r5 r2
    rw [tmrTicks_succ, e1]
    intro u hu he
    unfold tickKeep at hu
    obtain ⟨u0, hu0, hu1⟩ := List.mem_map.1 hu
    obtain ⟨hu2, hu3⟩ := List.mem_filter.1 hu0
    have hid : u0.ID = t.ID := by rw [← he, ← hu1]
    have := List.inj_on_of_nodup_map r2 hu2 r1 hid
    rw [this] at hu3
    simp at hu3
    omega
  · obtain ⟨k, rfl⟩ : ∃ k, m = k + 1 := ⟨m - 1, by omega⟩
    obtain ⟨r1, r2, r3, r4, r5⟩ := hstep k (Nat.lt_succ_self k)
    obtain ⟨-, e2, -, -⟩ := tick_eff cfg (tmrTicks cfg k w) r5 r2
    rw [tmrTicks_succ, e2]
    refine List.mem_append_left _ (List.mem_reverse.2 (List.mem_map.2
      ⟨DHCPc_TMR.mk t.ID t.Obj (t.TmrVal - k), ?_, rfl⟩))
    unfold tickExpired
    rw [List.mem_filter]
    refine ⟨r1, ?_⟩
    simp
    omega
  · obtain ⟨k, rfl⟩ : ∃ k, m = k + 1 := ⟨m - 1, by omega⟩
    obtain ⟨r1, r2, r3, r4, r5⟩ := hstep k (Nat.lt_succ_self k)
    rw [tmrTicks_succ]
    exact tick_clears cfg (tmrTicks cfg k w) (DHCPc_TMR.mk t.ID t.Obj (t.TmrVal - k)) c r5 r3
      r1 (by show ¬ (t.TmrVal - k > 1); omega) ho r4

/-- Witness of C19: the timer of 2 ticks armed for interface 1 by a lease of 4 seconds posts
T1_EXPIRED at the second tick and not at the first; after the second tick the list is empty,
timer 0 is back in the pool and the command is in the queue of the DHCPc task. -/
theorem C19_timer_expiry_witness :
    (⟨0, some ⟨2, 1, DHCPc_COMM_MSG_T1_EXPIRED⟩, 2⟩ : DHCPc_TMR) ∈ armedClient.DHCPc_TmrListHead ∧
    (tmrTicks templateCfg 1 armedClient).DHCPc_TmrListHead
      = [⟨0, some ⟨2, 1, DHCPc_COMM_MSG_T1_EXPIRED⟩, 1⟩] ∧
    (tmrTicks templateCfg 1 armedClient).MsgQ = [] ∧
    (tmrTicks templateCfg 2 armedClient).MsgQ = [⟨2, 1, DHCPc_COMM_MSG_T1_EXPIRED⟩] ∧
    (∀ u, u ∈ (tmrTicks templateCfg 2 armedClient).DHCPc_TmrListHead → u.ID ≠ 0) ∧
    0 ∈ (tmrTicks templateCfg 2 armedClient).DHCPc_TmrPoolPtr ∧
    (∃ q, DHCPc_IF_InfoGetCfgd (tmrTicks templateCfg 2 armedClient) 1 = some q
      ∧ q.Tmr = none) := by
  have ht : (⟨0, some ⟨2, 1, DHCPc_COMM_MSG_T1_EXPIRED⟩, 2⟩ : DHCPc_TMR)
      ∈ armedClient.DHCPc_TmrListHead := by decide!
  have hr : Reach templateCfg (DHCPc_TaskHandler templateCfg
      (DHCPc_Start templateCfg (DHCPc_Init templateCfg tickEnv) 1 none 0).2) :=
    Reach.task _ (Reach.start _ 1 none 0 (Reach.init tickEnv))
  have hinv : InfoInv (infoPart armedClient) := InfoInv_Reach templateCfg _ hr
  have hnd : (armedClient.DHCPc_TmrListHead.map (fun u => u.ID)).Nodup := by decide!
  have hrec : (DHCPc_IF_InfoGetCfgd armedClient 1).isSome = true := by decide!
  have hl : ∀ j, j < 2 → armedClient.env.lock.getD j false = true := by
    intro j hj
    interval_cases j <;> decide!
  have h := C19_timer_expiry templateCfg armedClient
    ⟨0, some ⟨2, 1, DHCPc_COMM_MSG_T1_EXPIRED⟩, 2⟩ ⟨2, 1, DHCPc_COMM_MSG_T1_EXPIRED⟩ 2
    ht rfl rfl hnd hinv hrec hl
  exact ⟨ht, by decide!, by decide!, by decide!, h.2.2.1, h.2.2.2.1, h.2.2.2.2⟩

/-! ### The BOUND state -/

theorem TmrList_CommFree (cfg : DHCPc_CFG) (w : Client) (c : DHCPc_COMM) :
    (DHCPc_CommFree cfg w c).DHCPc_TmrListHead = w.DHCPc_TmrListHead := by
  unfold DHCPc_CommFree; split <;> rfl

/-- The three outcomes of `DHCPc_TmrCfg`: nothing armed and the record unchanged, nothing armed
and the timer of the record cleared, or a timer armed at the head of the list. -/
theorem TmrCfg_cases (cfg : DHCPc_CFG) (w : Client) (p : DHCPc_IF_INFO) (m : DHCPc_COMM_MSG)
    (t : Nat) :
    ((DHCPc_TmrCfg cfg w p m t).2.2.DHCPc_TmrListHead = w.DHCPc_TmrListHead ∧
      ((DHCPc_TmrCfg cfg w p m t).2.1 = p ∨
        (DHCPc_TmrCfg cfg w p m t).2.1 = { p with Tmr := none })) ∨
    ∃ tm c, (DHCPc_TmrCfg cfg w p m t).2.2.DHCPc_TmrListHead
        = ⟨tm, some ⟨c, p.IF_Nbr, m⟩, t / cfg.DHCPc_TMR_PERIOD_SEC⟩ :: w.DHCPc_TmrListHead ∧
      (DHCPc_TmrCfg cfg w p m t).2.1 = { p with Tmr := some tm } := by
  unfold DHCPc_TmrCfg
  split
  · exact Or.inl ⟨rfl, Or.inl rfl⟩
  · exact Or.inl ⟨rfl, Or.inl rfl⟩
  · split
    · exact Or.inl ⟨rfl, Or.inl rfl⟩
    · dsimp only
      cases hc : w.DHCPc_CommPoolPtr with
      | nil => simp [DHCPc_CommGet, hc]
      | cons c cp =>
        cases htp : w.DHCPc_TmrPoolPtr with
        | nil =>
          left
          simp only [DHCPc_CommGet, hc, DHCPc_TmrGet, htp, TmrList_CommFree]
          exact ⟨trivial, Or.inr trivial⟩
        | cons tm tp =>
          right
          simp only [DHCPc_CommGet, hc, DHCPc_TmrGet, htp]
          exact ⟨tm, c, rfl, rfl⟩

theorem leaseTmrCfg_armedOne (cfg : DHCPc_CFG) (w : Client) (p : DHCPc_IF_INFO)
    (m : DHCPc_COMM_MSG) (t : Nat) :
    armedOne cfg w.DHCPc_TmrListHead (leaseTmrCfg cfg w p m t).2.1
      (leaseTmrCfg cfg w p m t).2.2 t ∧
    (leaseTmrCfg cfg w p m t).2.1.MsgPtr = p.MsgPtr ∧
    (leaseTmrCfg cfg w p m t).2.1.T1_Time_sec = p.T1_Time_sec ∧
    (leaseTmrCfg cfg w p m t).2.1.T2_Time_sec = p.T2_Time_sec ∧
    (leaseTmrCfg cfg w p m t).2.1.LeaseTime_sec = p.LeaseTime_sec := by
  unfold leaseTmrCfg armedOne
  dsimp only
  rcases TmrCfg_cases cfg w p m t with ⟨h1, h2 | h2⟩ | ⟨tm, c, h1, h2⟩
  · rw [h2]; exact ⟨Or.inl h1, rfl, rfl, rfl, rfl⟩
  · rw [h2]; exact ⟨Or.inl h1, rfl, rfl, rfl, rfl⟩
  · rw [h2]; exact ⟨Or.inr ⟨tm, c, m, h1, rfl⟩, rfl, rfl, rfl, rfl⟩

theorem LeaseTimeCalc_armedOne (cfg : DHCPc_CFG) (w : Client) (p : DHCPc_IF_INFO) :
    armedOne cfg w.DHCPc_TmrListHead (DHCPc_LeaseTimeCalc cfg w p).2.1
      (DHCPc_LeaseTimeCalc cfg w p).2.2 (DHCPc_LeaseTimeCalc cfg w p).2.1.T1_Time_sec ∧
    (DHCPc_LeaseTimeCalc cfg w p).2.1.MsgPtr = p.MsgPtr := by
  by_cases h : time_lease w p = DHCP_LEASE_INFINITE
  · obtain ⟨-, h2, -⟩ := LeaseTimeCalc_infinite cfg w p h
    refine ⟨Or.inl (by rw [h2]), ?_⟩
    unfold time_lease at h
    unfold DHCPc_LeaseTimeCalc
    dsimp only
    rw [if_pos h]
  · rw [LeaseTimeCalc_TmrCfg cfg w p h]
    obtain ⟨h1, h2, h3, -, -⟩ := leaseTmrCfg_armedOne cfg (DHCPc_OS_TimeGet_tick w).2
      (calcTimes w p) DHCPc_COMM_MSG_T1_EXPIRED (calcTimes w p).T1_Time_sec
    rw [h3]
    exact ⟨h1, h2⟩

theorem LeaseTimeUpdate_armedOne (cfg : DHCPc_CFG) (w : Client) (p : DHCPc_IF_INFO)
    (m : DHCPc_COMM_MSG)
    (hm : m = DHCPc_COMM_MSG_T1_EXPIRED ∨ m = DHCPc_COMM_MSG_T2_EXPIRED) :
    (DHCPc_LeaseTimeUpdate cfg w p m).2.1.MsgPtr = p.MsgPtr ∧
    (armedOne cfg w.DHCPc_TmrListHead (DHCPc_LeaseTimeUpdate cfg w p m).2.1
        (DHCPc_LeaseTimeUpdate cfg w p m).2.2 (DHCPc_LeaseTimeUpdate cfg w p m).2.1.T1_Time_sec ∨
      ((DHCPc_LeaseTimeUpdate cfg w p m).2.1.T1_Time_sec = 0 ∧
        (armedOne cfg w.DHCPc_TmrListHead (DHCPc_LeaseTimeUpdate cfg w p m).2.1
            (DHCPc_LeaseTimeUpdate cfg w p m).2.2
            (DHCPc_LeaseTimeUpdate cfg w p m).2.1.T2_Time_sec ∨
          armedOne cfg w.DHCPc_TmrListHead (DHCPc_LeaseTimeUpdate cfg w p m).2.1
            (DHCPc_LeaseTimeUpdate cfg w p m).2.2
            (DHCPc_LeaseTimeUpdate cfg w p m).2.1.LeaseTime_sec))) := by
  rcases hm with hm | hm <;> subst hm
  · rw [LeaseTimeUpdate_T1]
    split
    · obtain ⟨h1, h2, h3, h4, h5⟩ := leaseTmrCfg_armedOne cfg (DHCPc_OS_TimeGet_tick w).2
        { p with LeaseTime_sec := remLease w p p.T1_Time_sec, T2_Time_sec := remT2 w p
                 T1_Time_sec := remT2 w p / 2 } DHCPc_COMM_MSG_T1_EXPIRED (remT2 w p / 2)
      refine ⟨h2, Or.inl ?_⟩
      rw [h3]; exact h1
    · obtain ⟨h1, h2, h3, h4, h5⟩ := leaseTmrCfg_armedOne cfg (DHCPc_OS_TimeGet_tick w).2
        { p with LeaseTime_sec := remLease w p p.T1_Time_sec, T2_Time_sec := remT2 w p
                 T1_Time_sec := 0 } DHCPc_COMM_MSG_T2_EXPIRED (remT2 w p)
      refine ⟨h2, Or.inr ⟨h3, Or.inl ?_⟩⟩
      rw [h4]; exact h1
  · rw [LeaseTimeUpdate_T2]
    split
    · obtain ⟨h1, h2, h3, h4, h5⟩ := leaseTmrCfg_armedOne cfg (DHCPc_OS_TimeGet_tick w).2
        { p with LeaseTime_sec := remLease w p p.T2_Time_sec
                 T2_Time_sec := remLease w p p.T2_Time_sec / 2, T1_Time_sec := 0 }
        DHCPc_COMM_MSG_T2_EXPIRED (remLease w p p.T2_Time_sec / 2)
      refine ⟨h2, Or.inr ⟨h3, Or.inl ?_⟩⟩
      rw [h4]; exact h1
    · obtain ⟨h1, h2, h3, h4, h5⟩ := leaseTmrCfg_armedOne cfg (DHCPc_OS_TimeGet_tick w).2
        { p with LeaseTime_sec := remLease w p p.T2_Time_sec
                 T2_Time_sec := decElapsed 0 (time_nego_sec w p), T1_Time_sec := 0 }
        DHCPc_COMM_MSG_LEASE_EXPIRED (remLease w p p.T2_Time_sec)
      refine ⟨h2, Or.inr ⟨h3, Or.inr ?_⟩⟩
      rw [h5]; exact h1

theorem RxReply_ack (cfg : DHCPc_CFG) (w : Client) (p : DHCPc_IF_INFO) (sid : Nat)
    (hw : List Nat) (len : Nat) (buf : Mem) (n id : Nat)
    (h : (DHCPc_RxReply cfg w p sid hw len buf n).1.err = DHCPc_ERR_NONE)
    (ht : (DHCPc_RxReply cfg w p sid hw len buf n).1.msg_type = DHCP_MSG_ACK) :
    readsAck ⟨id, (DHCPc_RxReply cfg w p sid hw len buf n).1.buf,
      (DHCPc_RxReply cfg w p sid hw len buf n).1.len⟩ = true := by
  unfold DHCPc_RxReply at h ht ⊢
  dsimp only at h ht ⊢
  generalize rxReplyLoop cfg p sid hw n w.env.rx ⟨false, false, false, false⟩ buf w.trace = x
    at h ht ⊢
  by_cases h1 : cfg.DHCPc_CFG_ARG_CHK_DBG_EN = true ∧ n < cfg.DHCP_MSG_RX_MIN_LEN
  · rw [if_pos h1] at h; cases h
  · rw [if_neg h1] at h ht ⊢
    by_cases h2 : cfg.DHCPc_CFG_ARG_CHK_DBG_EN = true ∧ len ≠ NET_IF_ETHER_ADDR_SIZE
    · rw [if_pos h2] at h; cases h
    · rw [if_neg h2] at h ht ⊢
      by_cases h3 : x.1 ≠ DHCPc_ERR_NONE
      · rw [if_pos h3] at h; exact absurd h h3
      · rw [if_neg h3] at h ht ⊢
        cases hr : DHCPc_MsgGetOpt DHCP_OPT_DHCP_MESSAGE_TYPE x.2.2.1 x.2.1 with
        | none => rw [hr] at h; cases h
        | some r =>
          rw [hr] at ht
          unfold readsAck
          dsimp only at ht ⊢
          rw [hr]
          simpa using ht

theorem reqRx_ack (cfg : DHCPc_CFG) (p : DHCPc_IF_INFO) (hw : List Nat) (len fuel : Nat)
    (w : Client) (pmsg : DHCPc_MSG) :
    ((reqRx cfg p hw len fuel w pmsg).done = false →
      (reqRx cfg p hw len fuel w pmsg).err ≠ DHCPc_ERR_NONE) ∧
    ((reqRx cfg p hw len fuel w pmsg).done = true →
      (reqRx cfg p hw len fuel w pmsg).err = DHCPc_ERR_NONE →
      readsAck (reqRx cfg p hw len fuel w pmsg).pmsg = true) := by
  induction fuel generalizing w pmsg with
  | zero => exact ⟨(fun _ => by simp [reqRx]), (fun h => by simp [reqRx] at h)⟩
  | succ n ih =>
    unfold reqRx
    dsimp only
    split
    · rename_i h1
      split
      · rename_i h2
        exact ⟨(fun h => by cases h), (fun _ _ => RxReply_ack cfg w p _ hw len _ _ _ h1 h2)⟩
      · split
        · exact ⟨(fun h => by cases h), (fun _ h => by cases h)⟩
        · exact ih _ _
    · rename_i h1
      exact ⟨(fun _ => h1), (fun h => by cases h)⟩

theorem reqLoop_ack (cfg : DHCPc_CFG) (hw : List Nat) (len n : Nat) (d : Bool) (ms : Nat)
    (e : DHCPc_ERR) (p : DHCPc_IF_INFO) (pmsg : DHCPc_MSG) (w : Client)
    (h0 : 0 < n ∨ e ≠ DHCPc_ERR_NONE) :
    ((reqLoop cfg hw len n d ms e p pmsg w).returned = true →
      (reqLoop cfg hw len n d ms e p pmsg w).err ≠ DHCPc_ERR_NONE) ∧
    ((reqLoop cfg hw len n d ms e p pmsg w).err = DHCPc_ERR_NONE →
      readsAck (reqLoop cfg hw len n d ms e p pmsg w).pmsg = true) ∧
    (reqLoop cfg hw len n d ms e p pmsg w).pif_info.MsgPtr = p.MsgPtr := by
  induction n generalizing d ms e p pmsg w with
  | zero =>
    have he : e ≠ DHCPc_ERR_NONE := by
      rcases h0 with h | h
      · cases h
      · exact h
    exact ⟨(fun h => by simp [reqLoop] at h), (fun h => absurd h (by simpa [reqLoop] using he)),
      rfl⟩
  | succ n ih =>
    have hmp : ∀ w1, (txPrepare cfg w1 p DHCP_MSG_REQUEST hw len pmsg).2.1.MsgPtr
        = p.MsgPtr := by
      intro w1
      unfold txPrepare DHCPc_TxMsgPrepare
      dsimp only
      repeat' split
      all_goals rfl
    unfold reqLoop
    dsimp only
    generalize (if d = true then DHCPc_CalcBackOff cfg ms else ms) = ms1
    generalize (if d = true then backOffDly w ms1 else w) = w1
    generalize (if p.ClientState = DHCP_STATE_RENEWING then p.ServerID
      else NET_IPv4_ADDR_BROADCAST) = addr
    have hR := hmp w1
    generalize txPrepare cfg w1 p DHCP_MSG_REQUEST hw len pmsg = R at hR ⊢
    generalize DHCPc_Tx R.2.2 (memBytes R.1.buf 0 R.1.msg_size) addr = t
    have hX := reqRx_ack cfg R.2.1 hw len (t.2.env.rx.length + 1) t.2
      ⟨pmsg.ID, R.1.buf, pmsg.MsgLen⟩
    generalize reqRx cfg R.2.1 hw len (t.2.env.rx.length + 1) t.2
      ⟨pmsg.ID, R.1.buf, pmsg.MsgLen⟩ = x at hX ⊢
    split
    · rename_i h1
      exact ⟨(fun _ => h1), (fun h => absurd h h1), hR⟩
    · split
      · rename_i h2
        exact ⟨(fun h => by cases h), (fun h => absurd h h2), hR⟩
      · split
        · rename_i h3
          exact ⟨(fun h => by cases h), (fun h => hX.2 h3 h), hR⟩
        · rename_i h3
          obtain ⟨i1, i2, i3⟩ := ih true ms1 x.err R.2.1 x.pmsg x.w
            (Or.inr (hX.1 (by simpa using h3)))
          exact ⟨i1, i2, i3.trans hR⟩

/-- When no message buffer is left, `DHCPc_MsgGet` reports an error. -/
theorem MsgGet_none_err (w : Client) (h : (DHCPc_MsgGet w).1 = none) :
    (DHCPc_MsgGet w).2.1 ≠ DHCPc_ERR_NONE := by
  unfold DHCPc_MsgGet at h ⊢
  cases hp : w.DHCPc_MsgPoolPtr with
  | nil => simp
  | cons a l => rw [hp] at h; simp at h

/-- A REQUEST exchange that ends without error (at least one attempt being configured) has
stored a message in the record, an ACK whenever it is well formed; one that ends with an error
leaves the stored message alone. -/
theorem Req_ack (cfg : DHCPc_CFG) (w : Client) (p : DHCPc_IF_INFO) (hw : List Nat) (len : Nat)
    (hcnt : 0 < cfg.DHCPc_CFG_REQUEST_RETRY_CNT) :
    ((DHCPc_Req cfg w p hw len).1 = DHCPc_ERR_NONE →
      storesAckWhenFormed (DHCPc_Req cfg w p hw len).2.1) ∧
    ((DHCPc_Req cfg w p hw len).1 ≠ DHCPc_ERR_NONE →
      (DHCPc_Req cfg w p hw len).2.1.MsgPtr = p.MsgPtr) := by
  unfold DHCPc_Req
  split
  · exact ⟨(fun h => by cases h), (fun _ => rfl)⟩
  · dsimp only
    split
    · rename_i h1
      refine ⟨(fun h => ?_), (fun _ => rfl)⟩
      exact absurd h (MsgGet_none_err w h1)
    · rename_i pmsg _
      obtain ⟨i1, i2, i3⟩ := reqLoop_ack cfg hw len cfg.DHCPc_CFG_REQUEST_RETRY_CNT false 0
        DHCPc_ERR_NONE p pmsg (DHCPc_MsgGet w).2.2 (Or.inl hcnt)
      split
      · rename_i h2
        exact ⟨(fun h => absurd h (i1 h2)), (fun _ => i3)⟩
      · split
        · rename_i h3
          exact ⟨(fun h => absurd h h3), (fun _ => i3)⟩
        · rename_i h3
          refine ⟨(fun _ => ?_), (fun h => absurd rfl h)⟩
          exact ⟨_, rfl, readsAck_formed _ (i2 (by simpa using h3))⟩

theorem armedOne_armedFor (cfg : DHCPc_CFG) (w0 : Client) (p : DHCPc_IF_INFO) (w : Client)
    (sec : Nat) (h : armedOne cfg w0.DHCPc_TmrListHead p w sec)
    (hf : timersFor w0 p.IF_Nbr = []) : armedFor cfg p w sec := by
  rcases h with h | ⟨tm, c, msg, h, ht⟩
  · left
    unfold timersFor at hf ⊢
    rw [h]; exact hf
  · right
    refine ⟨⟨tm, some ⟨c, p.IF_Nbr, msg⟩, sec / cfg.DHCPc_TMR_PERIOD_SEC⟩, ?_, ht, rfl⟩
    unfold timersFor at hf ⊢
    rw [h, List.filter_cons_of_pos (by simp), hf]

theorem armedFor_same (cfg : DHCPc_CFG) (p : DHCPc_IF_INFO) (w0 w : Client) (sec : Nat)
    (h : tmrPart w = tmrPart w0) (hf : timersFor w0 p.IF_Nbr = []) : armedFor cfg p w sec := by
  left
  unfold timersFor at hf ⊢
  have : w.DHCPc_TmrListHead = w0.DHCPc_TmrListHead := congrArg (fun x => x.1) h
  rw [this]; exact hf

theorem MsgPtr_txPrepare (cfg : DHCPc_CFG) (w : Client) (p : DHCPc_IF_INFO) (mt : Nat)
    (hw : List Nat) (len : Nat) (pmsg : DHCPc_MSG) :
    (txPrepare cfg w p mt hw len pmsg).2.1.MsgPtr = p.MsgPtr := by
  unfold txPrepare DHCPc_TxMsgPrepare
  dsimp only
  repeat' split
  all_goals rfl

theorem MsgPtr_DeclineRelease (cfg : DHCPc_CFG) (w : Client) (p : DHCPc_IF_INFO) (mt : Nat)
    (hw : List Nat) (len : Nat) :
    (DHCPc_DeclineRelease cfg w p mt hw len).2.1.MsgPtr = p.MsgPtr := by
  unfold DHCPc_DeclineRelease
  dsimp only
  repeat' split
  all_goals first
    | rfl
    | exact MsgPtr_txPrepare _ _ _ _ _ _ _

/-- A negotiation that ends without error (at least one REQUEST attempt being configured) has
stored a message in the record, an ACK whenever it is well formed. -/
theorem negoLoop_ack (cfg : DHCPc_CFG) (hreq : 0 < cfg.DHCPc_CFG_REQUEST_RETRY_CNT)
    (ifn : Nat) (hw : List Nat) (len n : Nat) (d : Bool) (e : DHCPc_ERR) (p : DHCPc_IF_INFO)
    (w : Client) (h0 : 0 < n ∨ (e = DHCPc_ERR_NONE → storesAckWhenFormed p)) :
    (negoLoop cfg ifn hw len n d e p w).1 = DHCPc_ERR_NONE →
      storesAckWhenFormed (negoLoop cfg ifn hw len n d e p w).2.1 := by
  induction n generalizing d e p w with
  | zero =>
    rcases h0 with h | h
    · cases h
    · simpa [negoLoop] using h
  | succ n ih =>
    unfold negoLoop
    dsimp only
    generalize (if d = true then KAL_Dly w cfg.DHCP_INIT_DLY_MS else w) = w1
    generalize DHCPc_Discover cfg w1 (setState p DHCP_STATE_INIT) hw len = D
    have hq := Req_ack cfg D.2.2 (setState D.2.1 DHCP_STATE_SELECTING) hw len hreq
    generalize DHCPc_Req cfg D.2.2 (setState D.2.1 DHCP_STATE_SELECTING) hw len = q at hq ⊢
    split
    · rename_i h1
      exact ih _ _ _ _ (Or.inr (fun h => absurd h h1))
    · split
      · rename_i hq1
        split
        · have hdr := MsgPtr_DeclineRelease cfg
            (DHCPc_AddrValidate cfg q.2.2 ifn (msgYiaddr q.2.2 q.2.1)
              cfg.DHCP_ADDR_VALIDATE_WAIT_TIME_MS).2 q.2.1 DHCP_MSG_DECLINE hw len
          generalize DHCPc_AddrValidate cfg q.2.2 ifn (msgYiaddr q.2.2 q.2.1)
            cfg.DHCP_ADDR_VALIDATE_WAIT_TIME_MS = v at hdr ⊢
          split
          · intro _; exact hq.1 hq1
          · rename_i hv
            intro h
            rw [hv] at h; cases h
          · apply ih
            right
            intro _
            unfold storesAckWhenFormed
            rw [hdr]
            exact hq.1 hq1
        · intro _; exact hq.1 hq1
      · exact ih _ _ _ _ (Or.inr (fun h => by cases h))
      · rename_i h1 h2
        intro h
        exact absurd h h1

theorem initNego_ack (cfg : DHCPc_CFG) (hreq : 0 < cfg.DHCPc_CFG_REQUEST_RETRY_CNT)
    (hnego : 0 < cfg.DHCPc_CFG_NEGO_RETRY_CNT) (w : Client) (p : DHCPc_IF_INFO) (e : DHCPc_ERR)
    (s : Nego) (h : initNego cfg w p e = Sum.inr s) (he : s.err = DHCPc_ERR_NONE) :
    storesAckWhenFormed s.pif_info := by
  unfold initNego at h
  dsimp only at h
  repeat' split at h
  all_goals cases h
  exact negoLoop_ack cfg hreq _ _ _ _ _ _ _ _ (Or.inl hnego) he

theorem state_leaseTmrCfg (cfg : DHCPc_CFG) (w : Client) (p : DHCPc_IF_INFO)
    (m : DHCPc_COMM_MSG) (t : Nat) :
    (leaseTmrCfg cfg w p m t).2.1.ClientState = p.ClientState := by
  unfold leaseTmrCfg
  dsimp only
  rcases TmrCfg_cases cfg w p m t with ⟨_, h2 | h2⟩ | ⟨tm, c, _, h2⟩ <;> rw [h2]

theorem state_LeaseTimeUpdate (cfg : DHCPc_CFG) (w : Client) (p : DHCPc_IF_INFO)
    (m : DHCPc_COMM_MSG) :
    (DHCPc_LeaseTimeUpdate cfg w p m).2.1.ClientState = p.ClientState := by
  unfold DHCPc_LeaseTimeUpdate
  dsimp only
  repeat' split
  all_goals first
    | rfl
    | (rw [state_leaseTmrCfg])

theorem armedOne_setState (cfg : DHCPc_CFG) (tl : List DHCPc_TMR) (p : DHCPc_IF_INFO)
    (w : Client) (sec : Nat) (s : DHCPc_STATE) :
    armedOne cfg tl (setState p s) w sec ↔ armedOne cfg tl p w sec := Iff.rfl

/-- What `DHCPc_InitStateHandler` leaves when the record is BOUND on return: the handler
returned before the negotiation, record and timers untouched, or a message is stored, an ACK
whenever it is well formed, and at most one timer, of `T1_Time_sec` seconds, was added for the
record. -/
theorem InitStateHandler_bound (cfg : DHCPc_CFG) (hreq : 0 < cfg.DHCPc_CFG_REQUEST_RETRY_CNT)
    (hnego : 0 < cfg.DHCPc_CFG_NEGO_RETRY_CNT) (w : Client) (p : DHCPc_IF_INFO) (e : DHCPc_ERR)
    (hb : (DHCPc_InitStateHandler cfg w p e).2.1.ClientState = DHCP_STATE_BOUND) :
    ((DHCPc_InitStateHandler cfg w p e).2.1 = p ∧
      tmrPart (DHCPc_InitStateHandler cfg w p e).2.2 = tmrPart w) ∨
    (storesAckWhenFormed (DHCPc_InitStateHandler cfg w p e).2.1 ∧
      armedOne cfg w.DHCPc_TmrListHead (DHCPc_InitStateHandler cfg w p e).2.1
        (DHCPc_InitStateHandler cfg w p e).2.2
        (DHCPc_InitStateHandler cfg w p e).2.1.T1_Time_sec) := by
  unfold DHCPc_InitStateHandler at hb ⊢
  cases hn : initNego cfg w p e with
  | inl r =>
    left
    exact ⟨(initNego_inl cfg w p e r hn).2.1, initNego_inl_tmr cfg w p e r hn⟩
  | inr s =>
    right
    rw [hn] at hb
    dsimp only at hb ⊢
    have hack := initNego_ack cfg hreq hnego w p e s hn
    have htl : s.w.DHCPc_TmrListHead = w.DHCPc_TmrListHead :=
      congrArg (fun x => x.1) (initNego_tmr cfg w p e s hn).1
    unfold initCfgIF at hb ⊢
    dsimp only at hb ⊢
    split at hb
    · rename_i he
      split at hb
      · rename_i ha
        rw [if_pos ha]
        dsimp only
        obtain ⟨h1, h2⟩ := LeaseTimeCalc_armedOne cfg (DHCPc_AddrCfg s.w s.pif_info).2 s.pif_info
        have hl : (DHCPc_AddrCfg s.w s.pif_info).2.DHCPc_TmrListHead = w.DHCPc_TmrListHead :=
          (congrArg (fun x => x.1) (tmrPart_AddrCfg s.w s.pif_info)).trans htl
        rw [hl] at h1
        refine ⟨?_, h1⟩
        unfold storesAckWhenFormed setState
        dsimp only
        rw [h2]
        exact hack he
      · cases hb
    · split at hb
      · split at hb <;> cases hb
      · cases hb

theorem state_renewRebind (cfg : DHCPc_CFG) (hreq : 0 < cfg.DHCPc_CFG_REQUEST_RETRY_CNT)
    (w : Client) (p : DHCPc_IF_INFO) (m : DHCPc_COMM_MSG)
    (hm : m = DHCPc_COMM_MSG_T1_EXPIRED ∨ m = DHCPc_COMM_MSG_T2_EXPIRED)
    (hs : p.ClientState ≠ DHCP_STATE_BOUND) (hack : storesAckWhenFormed p)
    (hb : (renewRebind cfg w p m).2.1.ClientState = DHCP_STATE_BOUND) :
    storesAckWhenFormed (renewRebind cfg w p m).2.1 ∧
    (armedOne cfg w.DHCPc_TmrListHead (renewRebind cfg w p m).2.1 (renewRebind cfg w p m).2.2
        (renewRebind cfg w p m).2.1.T1_Time_sec ∨
      ((renewRebind cfg w p m).2.1.T1_Time_sec = 0 ∧
        (armedOne cfg w.DHCPc_TmrListHead (renewRebind cfg w p m).2.1
            (renewRebind cfg w p m).2.2 (renewRebind cfg w p m).2.1.T2_Time_sec ∨
          armedOne cfg w.DHCPc_TmrListHead (renewRebind cfg w p m).2.1
            (renewRebind cfg w p m).2.2 (renewRebind cfg w p m).2.1.LeaseTime_sec))) := by
  unfold renewRebind at hb ⊢
  dsimp only at hb ⊢
  split
  · rename_i h1
    rw [if_pos h1] at hb
    exact absurd hb hs
  · rename_i h1
    rw [if_neg h1] at hb
    split
    · rename_i h2
      rw [h2] at hb
      exact absurd hb hs
    · rename_i hw h2
      rw [h2] at hb
      dsimp only at hb
      split
      · rename_i h3
        rw [if_pos h3] at hb
        exact absurd hb hs
      · rename_i h3
        rw [if_neg h3] at hb
        generalize (if cfg.DHCPc_CFG_BROADCAST_BIT_EN = true then NET_IPv4_ADDR_THIS_HOST
          else msgYiaddr (NetIF_AddrHW_Get (NetIF_IsEnCfgd w).2).2 p) = ah at hb ⊢
        have hS : (DHCPc_InitSock (NetIF_AddrHW_Get (NetIF_IsEnCfgd w).2).2 ah
            p.IF_Nbr).2.DHCPc_TmrListHead = w.DHCPc_TmrListHead := rfl
        generalize DHCPc_InitSock (NetIF_AddrHW_Get (NetIF_IsEnCfgd w).2).2 ah p.IF_Nbr = S
          at hb hS ⊢
        split
        · rename_i h4
          rw [if_pos h4] at hb
          dsimp only at hb
          rw [state_LeaseTimeUpdate] at hb
          exact absurd hb hs
        · have hQ := Req_ack cfg S.2 p hw hw.length hreq
          have hQt : (NetApp_SockClose (DHCPc_Req cfg S.2 p hw hw.length).2.2).DHCPc_TmrListHead
              = w.DHCPc_TmrListHead :=
            (congrArg (fun x => x.1) ((tmrPart_SockClose _).trans
              (tmrPart_Req cfg S.2 p hw hw.length))).trans hS
          generalize DHCPc_Req cfg S.2 p hw hw.length = q at hQ hQt ⊢
          generalize NetApp_SockClose q.2.2 = wc at hQt ⊢
          dsimp only
          split
          · rename_i h5
            obtain ⟨a1, a2⟩ := LeaseTimeCalc_armedOne cfg wc q.2.1
            rw [hQt] at a1
            refine ⟨?_, Or.inl a1⟩
            unfold storesAckWhenFormed setState
            dsimp only
            rw [a2]
            exact hQ.1 h5
          · rename_i h5
            obtain ⟨a1, a2⟩ := LeaseTimeUpdate_armedOne cfg wc q.2.1 m hm
            rw [hQt] at a2
            refine ⟨?_, a2⟩
            unfold storesAckWhenFormed setState
            dsimp only
            rw [a1, hQ.2 h5]
            exact hack

/-- What `DHCPc_RenewRebindStateHandler` leaves when the record, which on entry stored a
message that is an ACK whenever it is well formed, is BOUND on return: such a message is
stored, and either record and timers are untouched or at most one
timer was added for the record, of `T1_Time_sec` seconds or, `T1_Time_sec` being 0, of
`T2_Time_sec` or `LeaseTime_sec` seconds. -/
theorem RenewRebind_bound (cfg : DHCPc_CFG) (hreq : 0 < cfg.DHCPc_CFG_REQUEST_RETRY_CNT)
    (w : Client) (p : DHCPc_IF_INFO) (m : DHCPc_COMM_MSG) (hack : storesAckWhenFormed p)
    (hb : (DHCPc_RenewRebindStateHandler cfg w p m).2.1.ClientState = DHCP_STATE_BOUND) :
    storesAckWhenFormed (DHCPc_RenewRebindStateHandler cfg w p m).2.1 ∧
    (((DHCPc_RenewRebindStateHandler cfg w p m).2.1 = p ∧
        tmrPart (DHCPc_RenewRebindStateHandler cfg w p m).2.2 = tmrPart w) ∨
      armedOne cfg w.DHCPc_TmrListHead (DHCPc_RenewRebindStateHandler cfg w p m).2.1
        (DHCPc_RenewRebindStateHandler cfg w p m).2.2
        (DHCPc_RenewRebindStateHandler cfg w p m).2.1.T1_Time_sec ∨
      ((DHCPc_RenewRebindStateHandler cfg w p m).2.1.T1_Time_sec = 0 ∧
        (armedOne cfg w.DHCPc_TmrListHead (DHCPc_RenewRebindStateHandler cfg w p m).2.1
            (DHCPc_RenewRebindStateHandler cfg w p m).2.2
            (DHCPc_RenewRebindStateHandler cfg w p m).2.1.T2_Time_sec ∨
          armedOne cfg w.DHCPc_TmrListHead (DHCPc_RenewRebindStateHandler cfg w p m).2.1
            (DHCPc_RenewRebindStateHandler cfg w p m).2.2
            (DHCPc_RenewRebindStateHandler cfg w p m).2.1.LeaseTime_sec))) := by
  cases m with
  | DHCPc_COMM_MSG_T1_EXPIRED =>
    have h := state_renewRebind cfg hreq w (setState p DHCP_STATE_RENEWING)
      DHCPc_COMM_MSG_T1_EXPIRED (Or.inl rfl) (by simp [setState]) hack hb
    exact ⟨h.1, Or.inr h.2⟩
  | DHCPc_COMM_MSG_T2_EXPIRED =>
    have h := state_renewRebind cfg hreq w (setState p DHCP_STATE_REBINDING)
      DHCPc_COMM_MSG_T2_EXPIRED (Or.inr rfl) (by simp [setState]) hack hb
    exact ⟨h.1, Or.inr h.2⟩
  | _ => exact ⟨hack, Or.inl ⟨rfl, rfl⟩⟩

/-- Turns of the timer task lead from reachable states to reachable states. -/
theorem Reach_tmrTicks (cfg : DHCPc_CFG) (k : Nat) (w : Client) (h : Reach cfg w) :
    Reach cfg (tmrTicks cfg k w) := by
  induction k generalizing w with
  | zero => exact h
  | succ k ih => exact ih _ (Reach.tmrTask _ h)

/-- C20 (failing input). Interface 1 holds a lease of 4 seconds whose renewal and rebinding
are left unanswered; `DHCPc_Stop(1)` is called during the last second of the lease and the timer
expires before the STOP command is handled; `DHCPc_Start(1)` is called again before the
LEASE_EXPIRED command left in the queue is handled.  That command and the START command then
each negotiate a lease for the new record; the timer armed by the first is no longer referred
to by the record after the second.  When `DHCPc_Stop(1)` is called and the STOP command handled,
the record of interface 1 is removed, but the timer whose command names interface 1 is still in
the timer list, the timer pool is empty and the command object of the timer is still in use. -/
theorem C20_stop_leaves_timer :
    Reach templateCfg raceStopped ∧
    raceStop.MsgQ = [⟨1, 1, DHCPc_COMM_MSG_STOP⟩] ∧
    raceStop.DHCPc_InfoListHead.map (fun r => (r.IF_Nbr, r.ClientState, r.Tmr))
      = [(1, DHCP_STATE_BOUND, none)] ∧
    raceStopped.DHCPc_InfoListHead.map (fun r => r.IF_Nbr) = [] ∧
    raceStopped.DHCPc_TmrListHead = [⟨0, some ⟨2, 1, DHCPc_COMM_MSG_T1_EXPIRED⟩, 2⟩] ∧
    raceStopped.DHCPc_TmrPoolPtr = [] ∧
    raceStopped.DHCPc_CommListHead = [2] := by
  have h1 : Reach templateCfg (runStart raceEnv) :=
    Reach.task _ (Reach.start _ 1 none 0 (Reach.init raceEnv))
  have h2 : Reach templateCfg raceLease :=
    Reach.task _ (Reach.tmrTask _ (Reach.task _ (Reach_tmrTicks templateCfg 2 _ h1)))
  have h3 : Reach templateCfg raceExpired := Reach.tmrTask _ (Reach.stop _ 1 h2)
  have h4 : Reach templateCfg raceStale :=
    Reach.task _ (Reach.start _ 1 none 0 (Reach.task _ h3))
  have h5 : Reach templateCfg raceStop := Reach.stop _ 1 (Reach.task _ h4)
  have hr : Reach templateCfg raceStopped := Reach.task _ h5
  refine ⟨hr, ?_, ?_, ?_, ?_, ?_, ?_⟩ <;> decide!

theorem localLinkCandidate_range (o1 o2 t : Nat) :
    0xA9FE0100 ≤ localLinkCandidate o1 o2 t ∧ localLinkCandidate o1 o2 t ≤ 0xA9FEFEFF := by
  unfold localLinkCandidate
  simp only [NET_IPv4_ADDR_LOCAL_LINK_HOST_MIN, NET_IPv4_ADDR_LOCAL_LINK_HOST_MAX]
  have h := Nat.mod_lt (t ||| (o1 * 2 ^ 24 ||| o2 * 2 ^ 16))
    (show 0 < 0xA9FEFEFF - 0xA9FE0100 + 1 by norm_num)
  omega

/-- C23. For every hardware address, length and tick value, the address returned by
`DHCPc_AddrLocalLinkGet` is the candidate computed without reduction modulo 2^32 (the shifts,
the OR and the sum all fit 32 bits) from the last two octets of the hardware address and the low
16 bits of the tick alone, and it lies between 169.254.1.0 (0xA9FE0100) and 169.254.254.255
(0xA9FEFEFF) inclusive. -/
theorem C23_AddrLocalLinkGet_range (w : Client) (paddr_hw : List Nat) (addr_hw_len : Nat) :
    (DHCPc_AddrLocalLinkGet w paddr_hw addr_hw_len).1
      = localLinkCandidate (paddr_hw.getD (addr_hw_len - 2) 0 % 256)
          (paddr_hw.getD (addr_hw_len - 1) 0 % 256) ((DHCPc_OS_TimeGet_tick w).1 % 2 ^ 16) ∧
    0xA9FE0100 ≤ (DHCPc_AddrLocalLinkGet w paddr_hw addr_hw_len).1 ∧
    (DHCPc_AddrLocalLinkGet w paddr_hw addr_hw_len).1 ≤ 0xA9FEFEFF ∧
    (paddr_hw.getD (addr_hw_len - 2) 0 % 256) * 2 ^ 24 < 2 ^ 32 ∧
    (paddr_hw.getD (addr_hw_len - 1) 0 % 256) * 2 ^ 16 < 2 ^ 32 ∧
    localLinkCandidate (paddr_hw.getD (addr_hw_len - 2) 0 % 256)
      (paddr_hw.getD (addr_hw_len - 1) 0 % 256) ((DHCPc_OS_TimeGet_tick w).1 % 2 ^ 16) < 2 ^ 32
    := by
  have h1 : (paddr_hw.getD (addr_hw_len - 2) 0 % 256) * 2 ^ 24 < 2 ^ 32 := by
    have := Nat.mod_lt (paddr_hw.getD (addr_hw_len - 2) 0) (show 0 < 256 by norm_num)
    norm_num
    omega
  have h2 : (paddr_hw.getD (addr_hw_len - 1) 0 % 256) * 2 ^ 16 < 2 ^ 32 := by
    have := Nat.mod_lt (paddr_hw.getD (addr_hw_len - 1) 0) (show 0 < 256 by norm_num)
    norm_num
    omega
  have hr := localLinkCandidate_range (paddr_hw.getD (addr_hw_len - 2) 0 % 256)
    (paddr_hw.getD (addr_hw_len - 1) 0 % 256) ((DHCPc_OS_TimeGet_tick w).1 % 2 ^ 16)
  have h3 : localLinkCandidate (paddr_hw.getD (addr_hw_len - 2) 0 % 256)
      (paddr_hw.getD (addr_hw_len - 1) 0 % 256) ((DHCPc_OS_TimeGet_tick w).1 % 2 ^ 16)
      < 2 ^ 32 := by
    have := hr.2
    norm_num at this ⊢
    omega
  have he : (DHCPc_AddrLocalLinkGet w paddr_hw addr_hw_len).1
      = localLinkCandidate (paddr_hw.getD (addr_hw_len - 2) 0 % 256)
          (paddr_hw.getD (addr_hw_len - 1) 0 % 256)
          ((DHCPc_OS_TimeGet_tick w).1 % 2 ^ 16) := by
    have hm : (DHCPc_OS_TimeGet_tick w).1 &&& 0x0000FFFF
        = (DHCPc_OS_TimeGet_tick w).1 % 2 ^ 16 :=
      Nat.and_pow_two_sub_one_eq_mod _ 16
    unfold DHCPc_AddrLocalLinkGet
    dsimp only
    rw [hm, Nat.mod_eq_of_lt h1, Nat.mod_eq_of_lt h2]
    exact Nat.mod_eq_of_lt h3
  exact ⟨he, he ▸ hr.1, he ▸ hr.2, h1, h2, h3⟩

/-- C24 (as the code has it). `DHCPc_Init` has no guard on `DHCPc_InitDone`: called on any
globals it leaves the active list without a record, the message and command lists empty and
the record, message and command pools full in their initial order; when no OS call fails
before the timers are initialised the timer list is empty and the timer pool full, and
`DHCPc_InitDone` is set exactly when no OS call fails at all.  A successful call on the globals
`DHCPc_Init` has just left changes none of them. -/
theorem C24_Init_again_reinitialises (cfg : DHCPc_CFG) (w : Client) (os : InitOS) (env : Env) :
    (DHCPc_InitOn cfg w os).2.DHCPc_InfoListHead = [] ∧
    (DHCPc_InitOn cfg w os).2.DHCPc_InfoPoolPtr = initPool cfg.DHCPc_NBR_IF_INFO ∧
    (DHCPc_InitOn cfg w os).2.DHCPc_MsgListHead = [] ∧
    (DHCPc_InitOn cfg w os).2.DHCPc_MsgPoolPtr = initPool cfg.DHCPc_NBR_MSG_BUF ∧
    (DHCPc_InitOn cfg w os).2.DHCPc_CommListHead = [] ∧
    (DHCPc_InitOn cfg w os).2.DHCPc_CommPoolPtr = initPool cfg.DHCPc_NBR_COMM ∧
    ((os = InitOS.signal ∨ os = InitOS.ok) →
      (DHCPc_InitOn cfg w os).2.DHCPc_TmrListHead = [] ∧
      (DHCPc_InitOn cfg w os).2.DHCPc_TmrPoolPtr = initPool cfg.DHCPc_NBR_TMR) ∧
    ((os = InitOS.osInit ∨ os = InitOS.tmrInit) →
      (DHCPc_InitOn cfg w os).2.DHCPc_TmrListHead = w.DHCPc_TmrListHead ∧
      (DHCPc_InitOn cfg w os).2.DHCPc_TmrPoolPtr = w.DHCPc_TmrPoolPtr) ∧
    ((DHCPc_InitOn cfg w os).2.DHCPc_InitDone = true ↔ os = InitOS.ok) ∧
    ((DHCPc_InitOn cfg w os).1 = true ↔ os = InitOS.ok) ∧
    (DHCPc_InitOn cfg (DHCPc_Init cfg env) InitOS.ok).2 = DHCPc_Init cfg env := by
  cases os <;> simp [DHCPc_InitOn, DHCPc_Init]

/-- Witness of C24: the client that manages interface 1, `DHCPc_Init` being called again with
every OS call succeeding: no timer is left and the timer pool holds the one timer of the
template configuration. -/
theorem C24_Init_again_reinitialises_witness :
    (DHCPc_InitOn templateCfg armedClient InitOS.ok).2.DHCPc_TmrListHead = [] ∧
    (DHCPc_InitOn templateCfg armedClient InitOS.ok).2.DHCPc_TmrPoolPtr = [0] :=
  (C24_Init_again_reinitialises templateCfg armedClient InitOS.ok quietEnv).2.2.2.2.2.2.1
    (Or.inr rfl)

/-- C24 (counterexample). The client manages interface 1 (`DHCPc_Start(1)` has been called);
a second `DHCPc_Init`, every OS call succeeding, leaves no record for interface 1 and puts the
record and the command object of the pending START command back in their pools. -/
theorem C24_Init_again_drops_records :
    Reach templateCfg startedOnce ∧
    (initPart startedOnce).1.map (fun r => r.IF_Nbr) = [1] ∧
    (initPart (DHCPc_InitOn templateCfg startedOnce InitOS.ok).2).1.map (fun r => r.IF_Nbr)
      = [] ∧
    (initPart startedOnce).2.1 = [] ∧
    (initPart (DHCPc_InitOn templateCfg startedOnce InitOS.ok).2).2.1 = [0] ∧
    (initPart startedOnce).2.2.2.1 = [1, 0] ∧
    (initPart (DHCPc_InitOn templateCfg startedOnce InitOS.ok).2).2.2.2.1 = [2, 1, 0] := by
  have hr : Reach templateCfg startedOnce :=
    Reach.start _ 1 none 0 (Reach.init (freeEnv leaseOpt600))
  refine ⟨hr, ?_, ?_, ?_, ?_, ?_, ?_⟩ <;> decide!

/-- C30 (as the code has it). Let `LeaseTime_sec ≥ T2_Time_sec ≥ T1_Time_sec` hold on entry and
let `e` be the time elapsed since the last message was prepared.  After
`DHCPc_LeaseTimeUpdate` for T2_EXPIRED, `LeaseTime_sec ≥ T2_Time_sec` holds and the timer armed,
if any, counts at most `LeaseTime_sec` seconds.  After `DHCPc_LeaseTimeUpdate` for T1_EXPIRED,
`LeaseTime_sec ≥ T2_Time_sec` holds exactly when `e` is smaller than the time left to T2, or at
least the lease time left, or the two add up to at most the lease time left (the elapsed time is
deducted from each value only when the value exceeds it); the timer armed then counts at most
`LeaseTime_sec` seconds. -/
theorem C30_LeaseTimeUpdate_order (cfg : DHCPc_CFG) (w : Client) (p : DHCPc_IF_INFO)
    (h12 : p.T1_Time_sec ≤ p.T2_Time_sec) (h2l : p.T2_Time_sec ≤ p.LeaseTime_sec) :
    ((DHCPc_LeaseTimeUpdate cfg w p DHCPc_COMM_MSG_T2_EXPIRED).2.1.T2_Time_sec
        ≤ (DHCPc_LeaseTimeUpdate cfg w p DHCPc_COMM_MSG_T2_EXPIRED).2.1.LeaseTime_sec ∧
      ∃ sec, sec ≤ (DHCPc_LeaseTimeUpdate cfg w p DHCPc_COMM_MSG_T2_EXPIRED).2.1.LeaseTime_sec ∧
        armedOne cfg w.DHCPc_TmrListHead
          (DHCPc_LeaseTimeUpdate cfg w p DHCPc_COMM_MSG_T2_EXPIRED).2.1
          (DHCPc_LeaseTimeUpdate cfg w p DHCPc_COMM_MSG_T2_EXPIRED).2.2 sec) ∧
    (((DHCPc_LeaseTimeUpdate cfg w p DHCPc_COMM_MSG_T1_EXPIRED).2.1.T2_Time_sec
        ≤ (DHCPc_LeaseTimeUpdate cfg w p DHCPc_COMM_MSG_T1_EXPIRED).2.1.LeaseTime_sec) ↔
      (time_nego_sec w p < p.T2_Time_sec - p.T1_Time_sec ∨
        p.LeaseTime_sec - p.T1_Time_sec ≤ time_nego_sec w p ∨
        (p.T2_Time_sec - p.T1_Time_sec) + time_nego_sec w p
          ≤ p.LeaseTime_sec - p.T1_Time_sec)) ∧
    ((DHCPc_LeaseTimeUpdate cfg w p DHCPc_COMM_MSG_T1_EXPIRED).2.1.T2_Time_sec
        ≤ (DHCPc_LeaseTimeUpdate cfg w p DHCPc_COMM_MSG_T1_EXPIRED).2.1.LeaseTime_sec →
      ∃ sec, sec ≤ (DHCPc_LeaseTimeUpdate cfg w p DHCPc_COMM_MSG_T1_EXPIRED).2.1.LeaseTime_sec ∧
        armedOne cfg w.DHCPc_TmrListHead
          (DHCPc_LeaseTimeUpdate cfg w p DHCPc_COMM_MSG_T1_EXPIRED).2.1
          (DHCPc_LeaseTimeUpdate cfg w p DHCPc_COMM_MSG_T1_EXPIRED).2.2 sec) := by
  refine ⟨?_, ?_, ?_⟩
  · rw [LeaseTimeUpdate_T2]
    split
    · obtain ⟨a1, -, -, a4, a5⟩ := leaseTmrCfg_armedOne cfg (DHCPc_OS_TimeGet_tick w).2
        { p with LeaseTime_sec := remLease w p p.T2_Time_sec
                 T2_Time_sec := remLease w p p.T2_Time_sec / 2, T1_Time_sec := 0 }
        DHCPc_COMM_MSG_T2_EXPIRED (remLease w p p.T2_Time_sec / 2)
      rw [a4, a5]
      exact ⟨Nat.div_le_self _ _, _, Nat.div_le_self _ _, a1⟩
    · obtain ⟨a1, -, -, a4, a5⟩ := leaseTmrCfg_armedOne cfg (DHCPc_OS_TimeGet_tick w).2
        { p with LeaseTime_sec := remLease w p p.T2_Time_sec
                 T2_Time_sec := decElapsed 0 (time_nego_sec w p), T1_Time_sec := 0 }
        DHCPc_COMM_MSG_LEASE_EXPIRED (remLease w p p.T2_Time_sec)
      rw [a4, a5]
      refine ⟨?_, _, le_refl _, a1⟩
      simp [decElapsed]
  · have hk : ∀ (m : DHCPc_COMM_MSG) (t1 sec : Nat),
        ((leaseTmrCfg cfg (DHCPc_OS_TimeGet_tick w).2
            { p with LeaseTime_sec := remLease w p p.T1_Time_sec, T2_Time_sec := remT2 w p
                     T1_Time_sec := t1 } m sec).2.1.T2_Time_sec
          ≤ (leaseTmrCfg cfg (DHCPc_OS_TimeGet_tick w).2
            { p with LeaseTime_sec := remLease w p p.T1_Time_sec, T2_Time_sec := remT2 w p
                     T1_Time_sec := t1 } m sec).2.1.LeaseTime_sec) ↔
        remT2 w p ≤ remLease w p p.T1_Time_sec := by
      intro m t1 sec
      obtain ⟨-, -, -, a4, a5⟩ := leaseTmrCfg_armedOne cfg (DHCPc_OS_TimeGet_tick w).2
        { p with LeaseTime_sec := remLease w p p.T1_Time_sec, T2_Time_sec := remT2 w p
                 T1_Time_sec := t1 } m sec
      rw [a4, a5]
    have hc : remT2 w p ≤ remLease w p p.T1_Time_sec ↔
        (time_nego_sec w p < p.T2_Time_sec - p.T1_Time_sec ∨
          p.LeaseTime_sec - p.T1_Time_sec ≤ time_nego_sec w p ∨
          (p.T2_Time_sec - p.T1_Time_sec) + time_nego_sec w p
            ≤ p.LeaseTime_sec - p.T1_Time_sec) := by
      unfold remT2 remLease decElapsed decExpired
      generalize time_nego_sec w p = e
      split_ifs <;> omega
    rw [LeaseTimeUpdate_T1]
    split
    · exact (hk _ _ _).trans hc
    · exact (hk _ _ _).trans hc
  · rw [LeaseTimeUpdate_T1]
    split
    · obtain ⟨a1, -, -, a4, a5⟩ := leaseTmrCfg_armedOne cfg (DHCPc_OS_TimeGet_tick w).2
        { p with LeaseTime_sec := remLease w p p.T1_Time_sec, T2_Time_sec := remT2 w p
                 T1_Time_sec := remT2 w p / 2 } DHCPc_COMM_MSG_T1_EXPIRED (remT2 w p / 2)
      rw [a4, a5]
      intro h
      exact ⟨_, (Nat.div_le_self _ _).trans h, a1⟩
    · obtain ⟨a1, -, -, a4, a5⟩ := leaseTmrCfg_armedOne cfg (DHCPc_OS_TimeGet_tick w).2
        { p with LeaseTime_sec := remLease w p p.T1_Time_sec, T2_Time_sec := remT2 w p
                 T1_Time_sec := 0 } DHCPc_COMM_MSG_T2_EXPIRED (remT2 w p)
      rw [a4, a5]
      intro h
      exact ⟨_, h, a1⟩

/-- Witness of C30: a lease of 86400 seconds (T1 43200, T2 75600) whose T1 has expired, no time
having elapsed since: afterwards `T2_Time_sec ≤ LeaseTime_sec`. -/
theorem C30_LeaseTimeUpdate_order_witness :
    (43200 ≤ 75600 ∧ 75600 ≤ 86400) ∧
    (DHCPc_LeaseTimeUpdate templateCfg (startedClient quietEnv)
        (leasedIf DHCP_STATE_RENEWING 43200 75600 86400) DHCPc_COMM_MSG_T1_EXPIRED).2.1.T2_Time_sec
      ≤ (DHCPc_LeaseTimeUpdate templateCfg (startedClient quietEnv)
        (leasedIf DHCP_STATE_RENEWING 43200 75600 86400)
        DHCPc_COMM_MSG_T1_EXPIRED).2.1.LeaseTime_sec :=
  ⟨by decide, ((C30_LeaseTimeUpdate_order templateCfg (startedClient quietEnv)
    (leasedIf DHCP_STATE_RENEWING 43200 75600 86400) (by decide) (by decide)).2.1).2
      (Or.inr (Or.inr (by decide!)))⟩

/-- C30 (counterexample). A lease of 10 seconds with T1 after 2 and T2 after 6 seconds, the
order `10 ≥ 6 ≥ 2` holding; T1 has expired and 5 seconds have elapsed since the last message
was prepared.  `DHCPc_LeaseTimeUpdate` leaves `LeaseTime_sec = 3` and `T2_Time_sec = 4`
(5 seconds are deducted from the 8 left of the lease, not from the 4 left to T2) and arms a
timer of 4 seconds, one more than the lease has left. -/
theorem C30_retry_timer_outlives_lease :
    (shortLeaseIf.T1_Time_sec, shortLeaseIf.T2_Time_sec, shortLeaseIf.LeaseTime_sec)
      = (2, 6, 10) ∧
    time_nego_sec fiveSecLater shortLeaseIf = 5 ∧
    (DHCPc_LeaseTimeUpdate templateCfg fiveSecLater shortLeaseIf
      DHCPc_COMM_MSG_T1_EXPIRED).2.1.LeaseTime_sec = 3 ∧
    (DHCPc_LeaseTimeUpdate templateCfg fiveSecLater shortLeaseIf
      DHCPc_COMM_MSG_T1_EXPIRED).2.1.T2_Time_sec = 4 ∧
    (DHCPc_LeaseTimeUpdate templateCfg fiveSecLater shortLeaseIf
      DHCPc_COMM_MSG_T1_EXPIRED).2.2.DHCPc_TmrListHead
      = [⟨0, some ⟨2, 1, DHCPc_COMM_MSG_T2_EXPIRED⟩, 4⟩] := by
  refine ⟨?_, ?_, ?_, ?_, ?_⟩ <;> decide!

/-- The shape of `renewReqOf` when the handler reaches the REQUEST exchange. -/
theorem renewReqOf_some (cfg : DHCPc_CFG) (w : Client) (p : DHCPc_IF_INFO)
    (q : DHCPc_ERR × DHCPc_IF_INFO × Client) (hq : renewReqOf cfg w p = some q) :
    ∃ (hw : List Nat) (ah : Nat),
      (NetIF_IsEnCfgd w).1 = true ∧
      (NetIF_AddrHW_Get (NetIF_IsEnCfgd w).2).1 = some hw ∧
      hw.length = NET_IF_ETHER_ADDR_SIZE ∧
      ah = (if cfg.DHCPc_CFG_BROADCAST_BIT_EN = true then NET_IPv4_ADDR_THIS_HOST
        else msgYiaddr (NetIF_AddrHW_Get (NetIF_IsEnCfgd w).2).2 p) ∧
      (DHCPc_InitSock (NetIF_AddrHW_Get (NetIF_IsEnCfgd w).2).2 ah p.IF_Nbr).1 = true ∧
      q = ((DHCPc_Req cfg (DHCPc_InitSock (NetIF_AddrHW_Get (NetIF_IsEnCfgd w).2).2 ah
              p.IF_Nbr).2 p hw hw.length).1,
           (DHCPc_Req cfg (DHCPc_InitSock (NetIF_AddrHW_Get (NetIF_IsEnCfgd w).2).2 ah
              p.IF_Nbr).2 p hw hw.length).2.1,
           NetApp_SockClose (DHCPc_Req cfg (DHCPc_InitSock
              (NetIF_AddrHW_Get (NetIF_IsEnCfgd w).2).2 ah p.IF_Nbr).2 p hw hw.length).2.2) := by
  unfold renewReqOf at hq
  dsimp only at hq
  generalize hah : (if cfg.DHCPc_CFG_BROADCAST_BIT_EN = true then NET_IPv4_ADDR_THIS_HOST
    else msgYiaddr (NetIF_AddrHW_Get (NetIF_IsEnCfgd w).2).2 p) = ah at hq
  by_cases h1 : (NetIF_IsEnCfgd w).1 ≠ true
  · rw [if_pos h1] at hq; cases hq
  · rw [if_neg h1] at hq
    cases h2 : (NetIF_AddrHW_Get (NetIF_IsEnCfgd w).2).1 with
    | none => rw [h2] at hq; cases hq
    | some hw =>
      rw [h2] at hq
      dsimp only at hq
      by_cases h3 : hw.length ≠ NET_IF_ETHER_ADDR_SIZE
      · rw [if_pos h3] at hq; cases hq
      · rw [if_neg h3] at hq
        by_cases h4 : (DHCPc_InitSock (NetIF_AddrHW_Get (NetIF_IsEnCfgd w).2).2 ah
            p.IF_Nbr).1 ≠ true
        · rw [if_pos h4] at hq; cases hq
        · rw [if_neg h4] at hq
          refine ⟨hw, ah, by simpa using h1, rfl, by simpa using h3, rfl, by simpa using h4, ?_⟩
          exact (Option.some.inj hq).symm

/-- The REQUEST exchange of the renewal, when it fails, leaves the stored message alone. -/
theorem Req_kept_msg (cfg : DHCPc_CFG) (hcnt : 0 < cfg.DHCPc_CFG_REQUEST_RETRY_CNT)
    (w : Client) (p : DHCPc_IF_INFO)
    (q : DHCPc_ERR × DHCPc_IF_INFO × Client) (hq : renewReqOf cfg w p = some q) :
    q.1 ≠ DHCPc_ERR_NONE → q.2.1.MsgPtr = p.MsgPtr := by
  obtain ⟨hw, ah, -, -, -, -, -, h⟩ := renewReqOf_some cfg w p q hq
  rw [h]
  exact (Req_ack cfg _ p _ _ hcnt).2

/-- `renewRebind` once it has reached the REQUEST exchange: the lease times are computed anew
when the exchange succeeded and updated when it failed, and the client state is BOUND. -/
theorem renewRebind_req (cfg : DHCPc_CFG) (w : Client) (p : DHCPc_IF_INFO) (m : DHCPc_COMM_MSG)
    (q : DHCPc_ERR × DHCPc_IF_INFO × Client) (hq : renewReqOf cfg w p = some q) :
    renewRebind cfg w p m =
      (if (if q.1 = DHCPc_ERR_NONE then DHCPc_LeaseTimeCalc cfg q.2.2 q.2.1
            else DHCPc_LeaseTimeUpdate cfg q.2.2 q.2.1 m).1 ≠ DHCPc_ERR_NONE
        then DHCPc_ERR_NONE_NO_TMR else DHCPc_ERR_NONE,
       setState (if q.1 = DHCPc_ERR_NONE then DHCPc_LeaseTimeCalc cfg q.2.2 q.2.1
            else DHCPc_LeaseTimeUpdate cfg q.2.2 q.2.1 m).2.1 DHCP_STATE_BOUND,
       (if q.1 = DHCPc_ERR_NONE then DHCPc_LeaseTimeCalc cfg q.2.2 q.2.1
            else DHCPc_LeaseTimeUpdate cfg q.2.2 q.2.1 m).2.2) := by
  obtain ⟨hw, ah, h1, h2, h3, hah, h4, h⟩ := renewReqOf_some cfg w p q hq
  unfold renewRebind
  dsimp only
  rw [if_neg (by simp [h1]), h2]
  dsimp only
  rw [if_neg (by simp [h3]), ← hah, if_neg (by simp [h4]), h]

theorem MsgRxHandler_renew (cfg : DHCPc_CFG) (w : Client) (pcomm : DHCPc_COMM)
    (p : DHCPc_IF_INFO)
    (hmsg : pcomm.CommMsg = DHCPc_COMM_MSG_T1_EXPIRED ∨ pcomm.CommMsg = DHCPc_COMM_MSG_T2_EXPIRED)
    (hp : DHCPc_IF_InfoGetCfgd w pcomm.IF_Nbr = some p) :
    DHCPc_MsgRxHandler cfg w pcomm =
      (renewRebind cfg (DHCPc_CommFree cfg w pcomm) (setState p (renewState pcomm.CommMsg))
        pcomm.CommMsg).2.2.setInfo
        (renewStatus (renewRebind cfg (DHCPc_CommFree cfg w pcomm)
            (setState p (renewState pcomm.CommMsg)) pcomm.CommMsg).2.1
          (renewRebind cfg (DHCPc_CommFree cfg w pcomm)
            (setState p (renewState pcomm.CommMsg)) pcomm.CommMsg).1) := by
  have hp0 : DHCPc_IF_InfoGetCfgd (DHCPc_CommFree cfg w pcomm) pcomm.IF_Nbr = some p := by
    rw [InfoGetCfgd_congr w _ _ (by simp)]; exact hp
  unfold DHCPc_MsgRxHandler
  dsimp only
  rw [hp0]
  rcases hmsg with h | h <;> rw [h] <;> rfl

/-- C27 (as the code has it). A T1_EXPIRED or T2_EXPIRED command for a managed interface whose
handler reaches the REQUEST exchange (at least one attempt being configured): when the exchange fails and `DHCPc_LeaseTimeUpdate`
reports no error, `DHCPc_MsgRxHandler` leaves the record in the active list with the client
state BOUND, the lease status unchanged (CFGD stays CFGD, as `DHCPc_ChkStatus` then reports),
the stored message unchanged and `LastErr` unchanged: the error of the exchange is not
recorded. -/
theorem C27_failed_extension (cfg : DHCPc_CFG) (w : Client) (pcomm : DHCPc_COMM)
    (p : DHCPc_IF_INFO) (q : DHCPc_ERR × DHCPc_IF_INFO × Client)
    (hcnt : 0 < cfg.DHCPc_CFG_REQUEST_RETRY_CNT) (hinit : w.DHCPc_InitDone = true)
    (hmsg : pcomm.CommMsg = DHCPc_COMM_MSG_T1_EXPIRED ∨ pcomm.CommMsg = DHCPc_COMM_MSG_T2_EXPIRED)
    (hp : DHCPc_IF_InfoGetCfgd w pcomm.IF_Nbr = some p)
    (hq : renewReqOf cfg (DHCPc_CommFree cfg w pcomm) (setState p (renewState pcomm.CommMsg))
      = some q)
    (hfail : q.1 ≠ DHCPc_ERR_NONE)
    (hupd : (DHCPc_LeaseTimeUpdate cfg q.2.2 q.2.1 pcomm.CommMsg).1 = DHCPc_ERR_NONE) :
    ∃ p', DHCPc_IF_InfoGetCfgd (DHCPc_MsgRxHandler cfg w pcomm) pcomm.IF_Nbr = some p' ∧
      p'.ClientState = DHCP_STATE_BOUND ∧
      p'.LeaseStatus = p.LeaseStatus ∧
      p'.MsgPtr = p.MsgPtr ∧
      p'.LastErr = p.LastErr ∧
      DHCPc_ChkStatus (DHCPc_MsgRxHandler cfg w pcomm) pcomm.IF_Nbr
        = (p.LeaseStatus, p.LastErr) := by
  have hp0 : DHCPc_IF_InfoGetCfgd (DHCPc_CommFree cfg w pcomm) pcomm.IF_Nbr = some p := by
    rw [InfoGetCfgd_congr w _ _ (by simp)]; exact hp
  have hR := renewRebind_req cfg (DHCPc_CommFree cfg w pcomm)
    (setState p (renewState pcomm.CommMsg)) pcomm.CommMsg q hq
  rw [if_neg hfail] at hR
  simp only [hupd, ne_eq, not_true_eq_false, if_false] at hR
  have hinfo : infoPart (renewRebind cfg (DHCPc_CommFree cfg w pcomm)
      (setState p (renewState pcomm.CommMsg)) pcomm.CommMsg).2.2
        = infoPart (DHCPc_CommFree cfg w pcomm) := infoPart_renewRebind ..
  have hkept : kept (renewRebind cfg (DHCPc_CommFree cfg w pcomm)
      (setState p (renewState pcomm.CommMsg)) pcomm.CommMsg).2.1 = kept p := by
    rw [kept_renewRebind]; rfl
  have hreq := (Req_kept_msg cfg hcnt (DHCPc_CommFree cfg w pcomm)
    (setState p (renewState pcomm.CommMsg)) q hq) hfail
  have hupm := (LeaseTimeUpdate_armedOne cfg q.2.2 q.2.1 pcomm.CommMsg hmsg).1
  rw [MsgRxHandler_renew cfg w pcomm p hmsg hp]
  generalize renewRebind cfg (DHCPc_CommFree cfg w pcomm)
    (setState p (renewState pcomm.CommMsg)) pcomm.CommMsg = r at hR hinfo hkept ⊢
  subst hR
  simp only [renewStatus]
  simp only [kept, Prod.mk.injEq] at hkept
  have hget : DHCPc_IF_InfoGetCfgd
      (((DHCPc_LeaseTimeUpdate cfg q.2.2 q.2.1 pcomm.CommMsg).2.2).setInfo
        (setState (DHCPc_LeaseTimeUpdate cfg q.2.2 q.2.1 pcomm.CommMsg).2.1 DHCP_STATE_BOUND))
      pcomm.IF_Nbr
      = some (setState (DHCPc_LeaseTimeUpdate cfg q.2.2 q.2.1 pcomm.CommMsg).2.1
          DHCP_STATE_BOUND) :=
    InfoGetCfgd_setInfo (DHCPc_CommFree cfg w pcomm) _ _ p _ hinfo hp0
      (by simp only [key, Prod.mk.injEq]; exact ⟨hkept.1, hkept.2.1⟩)
  refine ⟨_, hget, rfl, hkept.2.2.1, ?_, hkept.2.2.2.1, ?_⟩
  · show (DHCPc_LeaseTimeUpdate cfg q.2.2 q.2.1 pcomm.CommMsg).2.1.MsgPtr = p.MsgPtr
    rw [hupm, hreq]; rfl
  · have hdone : (((DHCPc_LeaseTimeUpdate cfg q.2.2 q.2.1 pcomm.CommMsg).2.2).setInfo
        (setState (DHCPc_LeaseTimeUpdate cfg q.2.2 q.2.1 pcomm.CommMsg).2.1
          DHCP_STATE_BOUND)).DHCPc_InitDone = true := by
      have h3 := congrArg (fun x => x.2.2) hinfo
      have h4 : (DHCPc_CommFree cfg w pcomm).DHCPc_InitDone = w.DHCPc_InitDone :=
        congrArg (fun x => x.2.2) (infoPart_CommFree cfg w pcomm)
      simp only [infoPart] at h3
      show (DHCPc_LeaseTimeUpdate cfg q.2.2 q.2.1 pcomm.CommMsg).2.2.DHCPc_InitDone = true
      rw [h3, h4, hinit]
    unfold DHCPc_ChkStatus
    rw [if_neg (by simp [hdone]), hget]
    exact Prod.ext hkept.2.2.1 hkept.2.2.2.1

/-- Witness of C27: interface 1 holds a lease of 4 seconds, T1 has expired and the three
REQUESTs of the renewal are left unanswered (`DHCPc_ERR_RX`); `DHCPc_LeaseTimeUpdate` arms a
timer and afterwards `DHCPc_ChkStatus` reports CFGD with the last error `DHCPc_ERR_NONE`. -/
theorem C27_failed_extension_witness :
    renewDueReq.map (fun q => q.1) = some DHCPc_ERR_RX ∧
    DHCPc_ChkStatus (DHCPc_MsgRxHandler templateCfg renewDueLocked renewComm) 1
      = (DHCP_STATUS_CFGD, DHCPc_ERR_NONE) := by
  have hu : (DHCPc_IF_InfoGetCfgd renewDueLocked 1).isSome = true := by decide!
  obtain ⟨p, hp⟩ := Option.isSome_iff_exists.1 hu
  have hn : renewDueReq.isSome = true := by decide!
  obtain ⟨q, hq⟩ := Option.isSome_iff_exists.1 hn
  have hq1 := hq
  unfold renewDueReq at hq1
  rw [hp] at hq1
  have herr : renewDueReq.map (fun q => q.1) = some DHCPc_ERR_RX := by decide!
  have hupd : renewDueReq.map (fun q =>
      (DHCPc_LeaseTimeUpdate templateCfg q.2.2 q.2.1 DHCPc_COMM_MSG_T1_EXPIRED).1)
      = some DHCPc_ERR_NONE := by decide!
  have hst : (DHCPc_IF_InfoGetCfgd renewDueLocked 1).map (fun p => (p.LeaseStatus, p.LastErr))
      = some (DHCP_STATUS_CFGD, DHCPc_ERR_NONE) := by decide!
  have herr' := herr
  rw [hq] at herr' hupd
  rw [hp] at hst
  rw [Option.some_bind] at hq1
  have hp2 : DHCPc_IF_InfoGetCfgd renewDueLocked renewComm.IF_Nbr = some p := hp
  have hq2 : renewReqOf templateCfg (DHCPc_CommFree templateCfg renewDueLocked renewComm)
      (setState p (renewState renewComm.CommMsg)) = some q := hq1
  have hf : q.1 ≠ DHCPc_ERR_NONE := by
    simp only [Option.map_some', Option.some.injEq] at herr'
    rw [herr']; decide
  have hu2 : (DHCPc_LeaseTimeUpdate templateCfg q.2.2 q.2.1 renewComm.CommMsg).1
      = DHCPc_ERR_NONE := by simpa using hupd
  have hi : renewDueLocked.DHCPc_InitDone = true := by decide!
  obtain ⟨p', -, -, -, -, -, h⟩ := C27_failed_extension templateCfg renewDueLocked renewComm p q
    (by decide) hi (Or.inl rfl) hp2 hq2 hf hu2
  refine ⟨herr, ?_⟩
  have h2 : DHCPc_ChkStatus (DHCPc_MsgRxHandler templateCfg renewDueLocked renewComm) 1
      = (p.LeaseStatus, p.LastErr) := h
  rw [h2]
  simpa using hst

/-- C27 (counterexample). Interface 1 holds a lease of 4 seconds; T1 expires and the three
REQUESTs of the renewal are left unanswered, so that `DHCPc_Req` returns `DHCPc_ERR_RX`.  After
the turn of the DHCPc task the record is BOUND with lease status CFGD, and its last error is
`DHCPc_ERR_NONE`, as it was before: it does not tell of the failed exchange. -/
theorem C27_last_error_not_recorded :
    Reach templateCfg renewFailed ∧
    renewDue.MsgQ = [renewComm] ∧
    renewDueReq.map (fun q => q.1) = some DHCPc_ERR_RX ∧
    renewFailed.DHCPc_InfoListHead.map (fun r => (r.ClientState, r.LeaseStatus, r.LastErr))
      = [(DHCP_STATE_BOUND, DHCP_STATUS_CFGD, DHCPc_ERR_NONE)] ∧
    DHCPc_ChkStatus renewFailed 1 = (DHCP_STATUS_CFGD, DHCPc_ERR_NONE) := by
  have h1 : Reach templateCfg (runStart renewEnv) :=
    Reach.task _ (Reach.start _ 1 none 0 (Reach.init renewEnv))
  have hr : Reach templateCfg renewFailed := Reach.task _ (Reach_tmrTicks templateCfg 2 _ h1)
  refine ⟨hr, ?_, ?_, ?_, ?_⟩ <;> decide!

/-- Inserting a record at the head of the list, writing to it and unlinking it again gives the
list back, when no other record of the list shares its identifier. -/
theorem list_restore (L : List DHCPc_IF_INFO) (q q' : DHCPc_IF_INFO) (hq : q.ID = q'.ID)
    (hL : ∀ r ∈ L, r.ID ≠ q'.ID) :
    ((q :: L).map (fun r => if r.ID = q'.ID then q' else r)).filter
      (fun r => decide (r.ID ≠ q'.ID)) = L := by
  rw [List.map_cons, if_pos hq, List.filter_cons_of_neg (by simp)]
  have hm : L.map (fun r => if r.ID = q'.ID then q' else r) = L := by
    conv_rhs => rw [← List.map_id L]
    apply List.map_congr_left
    intro r hr
    simp [hL r hr]
  rw [hm]
  exact List.filter_eq_self.2 (by intro r hr; simpa using hL r hr)

/-- The two outcomes of `DHCPc_IF_InfoGet`: no record and the globals unchanged (the hardware
address query apart), or the record at the head of the pool, flagged as used, moved to the head
of the list. -/
theorem InfoGet_cases (cfg : DHCPc_CFG) (w : Client) (n : Nat) :
    ((DHCPc_IF_InfoGet cfg w n).1 = none ∧
      (DHCPc_IF_InfoGet cfg w n).2.1 ≠ DHCPc_ERR_NONE ∧
      infoPart (DHCPc_IF_InfoGet cfg w n).2.2 = infoPart w ∧
      (DHCPc_IF_InfoGet cfg w n).2.2.DHCPc_CommPoolPtr = w.DHCPc_CommPoolPtr) ∨
    ∃ (pif : DHCPc_IF_INFO) (pool : List Nat),
      (DHCPc_IF_InfoGet cfg w n).1 = some pif ∧ pif.Used = true ∧
      w.DHCPc_InfoPoolPtr = pif.ID :: pool ∧
      (DHCPc_IF_InfoGet cfg w n).2.2.DHCPc_InfoPoolPtr = pool ∧
      (DHCPc_IF_InfoGet cfg w n).2.2.DHCPc_InfoListHead = pif :: w.DHCPc_InfoListHead ∧
      (DHCPc_IF_InfoGet cfg w n).2.2.DHCPc_InitDone = w.DHCPc_InitDone ∧
      (DHCPc_IF_InfoGet cfg w n).2.2.DHCPc_CommPoolPtr = w.DHCPc_CommPoolPtr := by
  unfold DHCPc_IF_InfoGet
  split
  · exact Or.inl ⟨rfl, by simp, rfl, rfl⟩
  · dsimp only
    split
    · exact Or.inl ⟨rfl, by simp, rfl, rfl⟩
    · split
      · exact Or.inl ⟨rfl, by simp, rfl, rfl⟩
      · split
        · exact Or.inl ⟨rfl, by simp, rfl, rfl⟩
        · rename_i id pool hpool
          exact Or.inr ⟨_, pool, rfl, rfl, hpool, rfl, rfl, rfl, rfl⟩

/-- `DHCPc_Start`, once it holds the lock, leaves the records, the record pool and the pool of
communication objects as they were when it returns an error. -/
theorem startLocked_atomic (cfg : DHCPc_CFG) (w : Client) (n : Nat) (tbl : Option Mem)
    (qty : Nat) (h : InfoInv (infoPart w))
    (he : (startLocked cfg w n tbl qty).1 ≠ DHCPc_ERR_NONE) :
    infoPart (startLocked cfg w n tbl qty).2 = infoPart w ∧
    (startLocked cfg w n tbl qty).2.DHCPc_CommPoolPtr = w.DHCPc_CommPoolPtr := by
  obtain ⟨-, -, -, hdis, -⟩ := h
  simp only [infoPart] at hdis
  unfold startLocked at he ⊢
  dsimp only at he ⊢
  rcases InfoGet_cases cfg w n with ⟨h1, -, h3, h4⟩ | ⟨pif, pool, h1, hu, hp, h4, h5, h6, h7⟩
  · rw [h1]
    exact ⟨h3, h4⟩
  · rw [h1] at he ⊢
    dsimp only at he ⊢
    generalize hq : ({ pif with
      ClientState := DHCP_STATE_INIT
      ParamReqTbl := (Mem_Copy pif.ParamReqTbl 0
        (memBytes (tbl.getD w.env.null_msg.MsgBuf) 0 qty))
      ParamReqQty := qty } : DHCPc_IF_INFO) = q at he ⊢
    have hqid : pif.ID = q.ID := by rw [← hq]
    have hqu : q.Used = true := by rw [← hq]; exact hu
    have hL : ∀ r ∈ w.DHCPc_InfoListHead, r.ID ≠ q.ID := by
      intro r hr heq
      have := hdis r hr
      rw [hp, heq, ← hqid] at this
      simp at this
    have hrest := list_restore w.DHCPc_InfoListHead pif q hqid hL
    generalize hx : (DHCPc_IF_InfoGet cfg w n).2.2 = x at he h4 h5 h6 h7 ⊢
    have hfree : ∀ y : Client, y.DHCPc_InfoListHead = (x.setInfo q).DHCPc_InfoListHead →
        y.DHCPc_InfoPoolPtr = pool → y.DHCPc_InitDone = w.DHCPc_InitDone →
        infoPart (DHCPc_IF_InfoFree cfg y q) = infoPart w := by
      intro y hy1 hy2 hy3
      unfold DHCPc_IF_InfoFree
      rw [if_neg (by simp [hqu])]
      simp only [infoPart, Prod.mk.injEq]
      refine ⟨?_, ?_, hy3⟩
      · rw [hy1]
        simp only [Client.setInfo, h5]
        exact hrest
      · rw [hy2, hp, hqid]
    cases hc : (x.setInfo q).DHCPc_CommPoolPtr with
    | nil =>
      have hg : DHCPc_CommGet (x.setInfo q) n DHCPc_COMM_MSG_START
          = (none, DHCPc_ERR_COMM_NONE_AVAIL, x.setInfo q) := by
        unfold DHCPc_CommGet; rw [hc]
      rw [hg]
      dsimp only
      refine ⟨hfree _ rfl h4 h6, ?_⟩
      have : (DHCPc_IF_InfoFree cfg (x.setInfo q) q).DHCPc_CommPoolPtr
          = (x.setInfo q).DHCPc_CommPoolPtr := by
        unfold DHCPc_IF_InfoFree; split <;> rfl
      rw [this]
      exact h7
    | cons c cp =>
      have hg : DHCPc_CommGet (x.setInfo q) n DHCPc_COMM_MSG_START
          = (some ⟨c, n, DHCPc_COMM_MSG_START⟩, DHCPc_ERR_NONE,
              { x.setInfo q with DHCPc_CommPoolPtr := cp
                                 DHCPc_CommListHead := c :: (x.setInfo q).DHCPc_CommListHead })
          := by
        unfold DHCPc_CommGet; rw [hc]
      rw [hg] at he ⊢
      dsimp only at he ⊢
      generalize hy : ({ x.setInfo q with
        DHCPc_CommPoolPtr := cp,
        DHCPc_CommListHead := c :: (x.setInfo q).DHCPc_CommListHead } : Client) = y at he ⊢
      have hy1 : y.DHCPc_InfoListHead = (x.setInfo q).DHCPc_InfoListHead := by rw [← hy]
      have hy2 : y.DHCPc_InfoPoolPtr = pool := by rw [← hy]; exact h4
      have hy3 : y.DHCPc_InitDone = w.DHCPc_InitDone := by rw [← hy]; exact h6
      have hy4 : y.DHCPc_CommPoolPtr = cp := by rw [← hy]
      have hy5 : c ∈ y.DHCPc_CommListHead := by rw [← hy]; simp
      have hpi := infoPart_MsgPost y ⟨c, n, DHCPc_COMM_MSG_START⟩
      have hpc : (DHCPc_OS_MsgPost y ⟨c, n, DHCPc_COMM_MSG_START⟩).2.DHCPc_CommPoolPtr = cp := by
        rw [← hy4]; unfold DHCPc_OS_MsgPost; dsimp only; split <;> rfl
      have hpl : c ∈ (DHCPc_OS_MsgPost y ⟨c, n, DHCPc_COMM_MSG_START⟩).2.DHCPc_CommListHead := by
        have : (DHCPc_OS_MsgPost y ⟨c, n, DHCPc_COMM_MSG_START⟩).2.DHCPc_CommListHead
            = y.DHCPc_CommListHead := by
          unfold DHCPc_OS_MsgPost; dsimp only; split <;> rfl
        rw [this]; exact hy5
      generalize DHCPc_OS_MsgPost y ⟨c, n, DHCPc_COMM_MSG_START⟩ = P at he hpi hpc hpl ⊢
      by_cases hok : P.1 ≠ true
      · rw [if_pos hok]
        dsimp only
        have hcf : infoPart (DHCPc_CommFree cfg P.2 ⟨c, n, DHCPc_COMM_MSG_START⟩)
            = infoPart y := (infoPart_CommFree cfg P.2 _).trans hpi
        simp only [infoPart, Prod.mk.injEq] at hcf
        refine ⟨hfree _ (hcf.1.trans hy1) (hcf.2.1.trans hy2) (hcf.2.2.trans hy3), ?_⟩
        have h8 : (DHCPc_IF_InfoFree cfg
            (DHCPc_CommFree cfg P.2 ⟨c, n, DHCPc_COMM_MSG_START⟩) q).DHCPc_CommPoolPtr
            = (DHCPc_CommFree cfg P.2 ⟨c, n, DHCPc_COMM_MSG_START⟩).DHCPc_CommPoolPtr := by
          unfold DHCPc_IF_InfoFree; split <;> rfl
        rw [h8]
        unfold DHCPc_CommFree
        rw [if_neg (by simp [hpl])]
        dsimp only
        rw [hpc]
        have h9 : (x.setInfo q).DHCPc_CommPoolPtr = w.DHCPc_CommPoolPtr := h7
        rw [← h9, hc]
      · rw [if_neg hok] at he
        exact absurd rfl he

/-- C28. In every reachable state of the client and for all arguments, a call of
`DHCPc_Start` that returns an error leaves the list of interface records, the pool of free
records and the pool of free communication objects as they were: the record taken for the
interface is unlinked and returned to the pool when the START command cannot be allocated or
posted, and so is the communication object when it cannot be posted. -/
theorem C28_Start_atomic (cfg : DHCPc_CFG) (w : Client) (if_nbr : Nat)
    (preq_param_tbl : Option Mem) (req_param_tbl_qty : Nat) (hr : Reach cfg w)
    (he : (DHCPc_Start cfg w if_nbr preq_param_tbl req_param_tbl_qty).1 ≠ DHCPc_ERR_NONE) :
    (DHCPc_Start cfg w if_nbr preq_param_tbl req_param_tbl_qty).2.DHCPc_InfoListHead
      = w.DHCPc_InfoListHead ∧
    (DHCPc_Start cfg w if_nbr preq_param_tbl req_param_tbl_qty).2.DHCPc_InfoPoolPtr
      = w.DHCPc_InfoPoolPtr ∧
    (DHCPc_Start cfg w if_nbr preq_param_tbl req_param_tbl_qty).2.DHCPc_CommPoolPtr
      = w.DHCPc_CommPoolPtr := by
  have hinv := InfoInv_Reach cfg w hr
  have key : infoPart (DHCPc_Start cfg w if_nbr preq_param_tbl req_param_tbl_qty).2
      = infoPart w ∧
      (DHCPc_Start cfg w if_nbr preq_param_tbl req_param_tbl_qty).2.DHCPc_CommPoolPtr
        = w.DHCPc_CommPoolPtr := by
    unfold DHCPc_Start at he ⊢
    dsimp only at he ⊢
    split
    · exact ⟨rfl, rfl⟩
    · rename_i h0
      rw [if_neg h0] at he
      split
      · exact ⟨rfl, rfl⟩
      · rename_i h1
        rw [if_neg h1] at he
        split
        · exact ⟨rfl, rfl⟩
        · rename_i h2
          rw [if_neg h2] at he
          split
          · exact ⟨rfl, rfl⟩
          · rename_i h3
            rw [if_neg h3] at he
            split
            · exact ⟨rfl, rfl⟩
            · rename_i h4
              rw [if_neg h4] at he
              exact startLocked_atomic cfg _ if_nbr preq_param_tbl req_param_tbl_qty hinv he
  obtain ⟨k1, k2⟩ := key
  simp only [infoPart, Prod.mk.injEq] at k1
  exact ⟨k1.1, k1.2.1, k2⟩

/-- Witness of C28: `DHCPc_Start(1)` on the initialised client when the command cannot be
posted: it returns `DHCPc_ERR_MSG_Q`, no interface is managed, and the one record and the three
communication objects of the template configuration are free. -/
theorem C28_Start_atomic_witness :
    (DHCPc_Start templateCfg (DHCPc_Init templateCfg fullQueueEnv) 1 none 0).1
      = DHCPc_ERR_MSG_Q ∧
    (DHCPc_Start templateCfg (DHCPc_Init templateCfg fullQueueEnv) 1 none 0).2.DHCPc_InfoListHead
      = (DHCPc_Init templateCfg fullQueueEnv).DHCPc_InfoListHead ∧
    (DHCPc_Start templateCfg (DHCPc_Init templateCfg fullQueueEnv) 1 none 0).2.DHCPc_InfoPoolPtr
      = [0] ∧
    (DHCPc_Start templateCfg (DHCPc_Init templateCfg fullQueueEnv) 1 none 0).2.DHCPc_CommPoolPtr
      = [2, 1, 0] := by
  have he : (DHCPc_Start templateCfg (DHCPc_Init templateCfg fullQueueEnv) 1 none 0).1
      = DHCPc_ERR_MSG_Q := by decide!
  have h := C28_Start_atomic templateCfg (DHCPc_Init templateCfg fullQueueEnv) 1 none 0
    (Reach.init fullQueueEnv) (by rw [he]; decide)
  exact ⟨he, h.1, h.2.1, h.2.2⟩

/-- C29 (failing input). The run of `raceStop` uses `DHCPc_Start`, `DHCPc_Stop`, timer ticks and
turns of the DHCPc task only.  Before the last STOP command is handled the timer list holds a
timer whose command names interface 1 while the record of interface 1 has no timer
(`Tmr` is NULL); once it is handled the timer is still in the list and interface 1 has no
record.  One tick later the timer counts 1, so that the next tick takes the expiry branch of
`DHCPc_TmrTaskHandler`: `DHCPc_IF_InfoGetCfgd` finds no record (the code then writes
`pif_info->Tmr` through the NULL pointer) and the command T1_EXPIRED is posted for an interface
that is not managed. -/
theorem C29_timer_without_record :
    Reach templateCfg raceTick ∧
    timersFor raceStop 1 = [⟨0, some ⟨2, 1, DHCPc_COMM_MSG_T1_EXPIRED⟩, 2⟩] ∧
    raceStop.DHCPc_InfoListHead.map (fun r => (r.IF_Nbr, r.Tmr)) = [(1, none)] ∧
    timersFor raceStopped 1 = [⟨0, some ⟨2, 1, DHCPc_COMM_MSG_T1_EXPIRED⟩, 2⟩] ∧
    (DHCPc_IF_InfoGetCfgd raceStopped 1).isSome = false ∧
    raceTick.DHCPc_TmrListHead = [⟨0, some ⟨2, 1, DHCPc_COMM_MSG_T1_EXPIRED⟩, 1⟩] ∧
    (DHCPc_IF_InfoGetCfgd raceTick 1).isSome = false ∧
    (DHCPc_TmrTaskHandler templateCfg raceTick).MsgQ = [⟨2, 1, DHCPc_COMM_MSG_T1_EXPIRED⟩] ∧
    (DHCPc_TmrTaskHandler templateCfg raceTick).DHCPc_InfoListHead.map (fun r => r.IF_Nbr)
      = [] := by
  have h1 : Reach templateCfg (runStart raceEnv) :=
    Reach.task _ (Reach.start _ 1 none 0 (Reach.init raceEnv))
  have h2 : Reach templateCfg raceLease :=
    Reach.task _ (Reach.tmrTask _ (Reach.task _ (Reach_tmrTicks templateCfg 2 _ h1)))
  have h3 : Reach templateCfg raceExpired := Reach.tmrTask _ (Reach.stop _ 1 h2)
  have h4 : Reach templateCfg raceStale :=
    Reach.task _ (Reach.start _ 1 none 0 (Reach.task _ h3))
  have h5 : Reach templateCfg raceStop := Reach.stop _ 1 (Reach.task _ h4)
  have h6 : Reach templateCfg raceStopped := Reach.task _ h5
  have hr : Reach templateCfg raceTick := Reach.tmrTask _ (Reach.env _ _ h6)
  refine ⟨hr, ?_, ?_, ?_, ?_, ?_, ?_, ?_, ?_⟩ <;> decide!

/-- `DHCPc_RenewRebindStateHandler` overwrites the client state before it reads it. -/
theorem RenewRebind_any_state (cfg : DHCPc_CFG) (x : Client) (p : DHCPc_IF_INFO)
    (s : DHCPc_STATE) (m : DHCPc_COMM_MSG)
    (hm : m = DHCPc_COMM_MSG_T1_EXPIRED ∨ m = DHCPc_COMM_MSG_T2_EXPIRED) :
    DHCPc_RenewRebindStateHandler cfg x (setState p s) m
      = DHCPc_RenewRebindStateHandler cfg x p m := by
  rcases hm with h | h <;> subst h <;> rfl

theorem negoLoop_any_state (cfg : DHCPc_CFG) (ifn : Nat) (hw : List Nat) (len n : Nat)
    (d : Bool) (e : DHCPc_ERR) (p : DHCPc_IF_INFO) (w : Client) (s : DHCPc_STATE) :
    negoLoop cfg ifn hw len (n + 1) d e (setState p s) w
      = negoLoop cfg ifn hw len (n + 1) d e p w := by
  rw [negoLoop, negoLoop]
  rfl

/-- `DHCPc_InitStateHandler` on a record in another client state: it returns the same error
and leaves the same globals; the record it leaves is the same, except when it returned before
the negotiation, the record being untouched. -/
theorem InitStateHandler_any_state (cfg : DHCPc_CFG) (hnego : 0 < cfg.DHCPc_CFG_NEGO_RETRY_CNT)
    (x : Client) (p : DHCPc_IF_INFO) (s : DHCPc_STATE) (e : DHCPc_ERR) :
    (DHCPc_InitStateHandler cfg x (setState p s) e).1 = (DHCPc_InitStateHandler cfg x p e).1 ∧
    (DHCPc_InitStateHandler cfg x (setState p s) e).2.2
      = (DHCPc_InitStateHandler cfg x p e).2.2 ∧
    ((DHCPc_InitStateHandler cfg x (setState p s) e).2.1
        = (DHCPc_InitStateHandler cfg x p e).2.1 ∨
      ((DHCPc_InitStateHandler cfg x p e).2.1 = p ∧
        (DHCPc_InitStateHandler cfg x (setState p s) e).2.1 = setState p s)) := by
  obtain ⟨n, hn⟩ := Nat.exists_eq_succ_of_ne_zero (Nat.pos_iff_ne_zero.1 hnego)
  unfold DHCPc_InitStateHandler initNego
  dsimp only
  have hif : (setState p s).IF_Nbr = p.IF_Nbr := rfl
  rw [hif, hn]
  by_cases h1 : (NetIF_IsEnCfgd x).1 ≠ true
  · rw [if_pos h1, if_pos h1]
    exact ⟨rfl, rfl, Or.inr ⟨rfl, rfl⟩⟩
  · rw [if_neg h1, if_neg h1]
    cases h2 : (NetIF_AddrHW_Get (NetIF_IsEnCfgd x).2).1 with
    | none => exact ⟨rfl, rfl, Or.inr ⟨rfl, rfl⟩⟩
    | some hw =>
      dsimp only
      by_cases h3 : hw.length ≠ NET_IF_ETHER_ADDR_SIZE
      · rw [if_pos h3, if_pos h3]
        exact ⟨rfl, rfl, Or.inr ⟨rfl, rfl⟩⟩
      · rw [if_neg h3, if_neg h3]
        by_cases h4 : (DHCPc_InitSock (NetIF_AddrHW_Get (NetIF_IsEnCfgd x).2).2
            NET_IPv4_ADDR_THIS_HOST p.IF_Nbr).1 ≠ true
        · rw [if_pos h4, if_pos h4]
          exact ⟨rfl, rfl, Or.inr ⟨rfl, rfl⟩⟩
        · rw [if_neg h4, if_neg h4]
          by_cases h5 : (NetIPv4_CfgAddrAddDynamicStart (DHCPc_InitSock
              (NetIF_AddrHW_Get (NetIF_IsEnCfgd x).2).2 NET_IPv4_ADDR_THIS_HOST p.IF_Nbr).2
              p.IF_Nbr).1 ≠ true
          · rw [if_pos h5, if_pos h5]
            exact ⟨rfl, rfl, Or.inr ⟨rfl, rfl⟩⟩
          · rw [if_neg h5, if_neg h5, negoLoop_any_state]
            exact ⟨rfl, rfl, Or.inl rfl⟩

/-- A command for an interface without record, or of kind `DHCPc_COMM_MSG_NONE`, is dropped:
only its communication object is freed. -/
theorem MsgRxHandler_drop (cfg : DHCPc_CFG) (w : Client) (pcomm : DHCPc_COMM)
    (h : DHCPc_IF_InfoGetCfgd w pcomm.IF_Nbr = none ∨ pcomm.CommMsg = DHCPc_COMM_MSG_NONE) :
    DHCPc_MsgRxHandler cfg w pcomm = DHCPc_CommFree cfg w pcomm := by
  have hc : DHCPc_IF_InfoGetCfgd (DHCPc_CommFree cfg w pcomm) pcomm.IF_Nbr
      = DHCPc_IF_InfoGetCfgd w pcomm.IF_Nbr := InfoGetCfgd_congr w _ _ (by simp)
  unfold DHCPc_MsgRxHandler
  dsimp only
  rw [hc]
  rcases h with h | h
  · rw [h]
  · cases hg : DHCPc_IF_InfoGetCfgd w pcomm.IF_Nbr with
    | none => rfl
    | some p => rw [h]

/-- C21 (as the code has it). `DHCPc_MsgRxHandler` does not look at the client state.  A
command is dropped (only its communication object is freed) when its interface has no record or
its kind is `DHCPc_COMM_MSG_NONE`.  For a managed interface, START and LEASE_EXPIRED store the
outcome of `DHCPc_InitStateHandler` and T1_EXPIRED and T2_EXPIRED that of
`DHCPc_RenewRebindStateHandler`, whatever the client state of the record; and the two handlers
do the same on a record in any other client state: the renew/rebind handler gives the same
result, and the INIT handler (at least one negotiation attempt being configured) returns the
same error and leaves the same globals and the same record, except that a record it did not
touch keeps its client state. -/
theorem C21_dispatch_ignores_state (cfg : DHCPc_CFG)
    (hnego : 0 < cfg.DHCPc_CFG_NEGO_RETRY_CNT) (w : Client) (pcomm : DHCPc_COMM) :
    ((DHCPc_IF_InfoGetCfgd w pcomm.IF_Nbr = none ∨ pcomm.CommMsg = DHCPc_COMM_MSG_NONE) →
      DHCPc_MsgRxHandler cfg w pcomm = DHCPc_CommFree cfg w pcomm) ∧
    (∀ p, DHCPc_IF_InfoGetCfgd w pcomm.IF_Nbr = some p →
      ((pcomm.CommMsg = DHCPc_COMM_MSG_START ∨ pcomm.CommMsg = DHCPc_COMM_MSG_LEASE_EXPIRED) →
        DHCPc_IF_InfoGetCfgd (DHCPc_MsgRxHandler cfg w pcomm) pcomm.IF_Nbr
          = some (initStatus
              (DHCPc_InitStateHandler cfg (DHCPc_CommFree cfg w pcomm)
                { p with LeaseStatus := DHCP_STATUS_CFG_IN_PROGRESS } w.env.stack_err).2.1
              (DHCPc_InitStateHandler cfg (DHCPc_CommFree cfg w pcomm)
                { p with LeaseStatus := DHCP_STATUS_CFG_IN_PROGRESS } w.env.stack_err).1)) ∧
      ((pcomm.CommMsg = DHCPc_COMM_MSG_T1_EXPIRED ∨ pcomm.CommMsg = DHCPc_COMM_MSG_T2_EXPIRED) →
        DHCPc_IF_InfoGetCfgd (DHCPc_MsgRxHandler cfg w pcomm) pcomm.IF_Nbr
          = some (renewStatus
              (DHCPc_RenewRebindStateHandler cfg (DHCPc_CommFree cfg w pcomm) p
                pcomm.CommMsg).2.1
              (DHCPc_RenewRebindStateHandler cfg (DHCPc_CommFree cfg w pcomm) p
                pcomm.CommMsg).1))) ∧
    (∀ (x : Client) (p : DHCPc_IF_INFO) (s : DHCPc_STATE) (e : DHCPc_ERR),
      (DHCPc_InitStateHandler cfg x (setState p s) e).1 = (DHCPc_InitStateHandler cfg x p e).1 ∧
      (DHCPc_InitStateHandler cfg x (setState p s) e).2.2
        = (DHCPc_InitStateHandler cfg x p e).2.2 ∧
      ((DHCPc_InitStateHandler cfg x (setState p s) e).2.1
          = (DHCPc_InitStateHandler cfg x p e).2.1 ∨
        ((DHCPc_InitStateHandler cfg x p e).2.1 = p ∧
          (DHCPc_InitStateHandler cfg x (setState p s) e).2.1 = setState p s))) ∧
    (∀ (x : Client) (p : DHCPc_IF_INFO) (s : DHCPc_STATE) (m : DHCPc_COMM_MSG),
      (m = DHCPc_COMM_MSG_T1_EXPIRED ∨ m = DHCPc_COMM_MSG_T2_EXPIRED) →
      DHCPc_RenewRebindStateHandler cfg x (setState p s) m
        = DHCPc_RenewRebindStateHandler cfg x p m) := by
  refine ⟨MsgRxHandler_drop cfg w pcomm, ?_, InitStateHandler_any_state cfg hnego,
    RenewRebind_any_state cfg⟩
  intro p hp
  have hp0 : DHCPc_IF_InfoGetCfgd (DHCPc_CommFree cfg w pcomm) pcomm.IF_Nbr = some p := by
    rw [InfoGetCfgd_congr w _ _ (by simp)]; exact hp
  constructor
  · intro hmsg
    rw [MsgRxHandler_init cfg w pcomm p hmsg hp]
    refine InfoGetCfgd_setInfo (DHCPc_CommFree cfg w pcomm) _ _ p _ (by simp) hp0 ?_
    rw [key_initStatus, key_InitStateHandler]
    rfl
  · intro hmsg
    have hm : DHCPc_MsgRxHandler cfg w pcomm =
        (DHCPc_RenewRebindStateHandler cfg (DHCPc_CommFree cfg w pcomm) p
          pcomm.CommMsg).2.2.setInfo
          (renewStatus (DHCPc_RenewRebindStateHandler cfg (DHCPc_CommFree cfg w pcomm) p
              pcomm.CommMsg).2.1
            (DHCPc_RenewRebindStateHandler cfg (DHCPc_CommFree cfg w pcomm) p
              pcomm.CommMsg).1) := by
      unfold DHCPc_MsgRxHandler
      dsimp only
      rw [hp0]
      rcases hmsg with h | h <;> rw [h]
    rw [hm]
    refine InfoGetCfgd_setInfo (DHCPc_CommFree cfg w pcomm) _ _ p _ (by simp) hp0 ?_
    rw [key_renewStatus, key_RenewRebindStateHandler]

/-- Witness of C21: in the template configuration the renew handler treats the record of
interface 1 in the state INIT as it treats it in the state it is in. -/
theorem C21_dispatch_ignores_state_witness :
    0 < templateCfg.DHCPc_CFG_NEGO_RETRY_CNT ∧
    DHCPc_RenewRebindStateHandler templateCfg startedOnce (setState startedIf DHCP_STATE_INIT)
        DHCPc_COMM_MSG_T1_EXPIRED
      = DHCPc_RenewRebindStateHandler templateCfg startedOnce startedIf
        DHCPc_COMM_MSG_T1_EXPIRED :=
  ⟨by decide, (C21_dispatch_ignores_state templateCfg (by decide) startedOnce startComm).2.2.2
    startedOnce startedIf DHCP_STATE_INIT DHCPc_COMM_MSG_T1_EXPIRED (Or.inl rfl)⟩

/-- C21 (counterexample). `DHCPc_Start` leaves the record of interface 1 in the state INIT,
which is neither NONE nor STOPPING; the START command it posted is not dropped:
`DHCPc_MsgRxHandler` transmits a DISCOVER and a REQUEST and leaves the record BOUND with lease
status CFGD and a timer.  In the same way the T2_EXPIRED command that the next tick posts in
`renewFailed` meets the record in the state BOUND, not RENEWING. -/
theorem C21_START_in_INIT_dispatched :
    startedOnce.MsgQ = [startComm] ∧
    startedOnce.DHCPc_InfoListHead.map (fun r => (r.IF_Nbr, r.ClientState, r.LeaseStatus, r.Tmr))
      = [(1, DHCP_STATE_INIT, DHCP_STATUS_CFG_IN_PROGRESS, none)] ∧
    (DHCPc_MsgRxHandler templateCfg startedOnce startComm).DHCPc_InfoListHead.map
        (fun r => (r.IF_Nbr, r.ClientState, r.LeaseStatus, r.Tmr))
      = [(1, DHCP_STATE_BOUND, DHCP_STATUS_CFGD, some 0)] ∧
    (txKinds startedOnce.trace).map (fun x => x.1) = [] ∧
    (txKinds (DHCPc_MsgRxHandler templateCfg startedOnce startComm).trace).map (fun x => x.1)
      = [DHCP_MSG_DISCOVER, DHCP_MSG_REQUEST] ∧
    renewFailed.DHCPc_InfoListHead.map (fun r => r.ClientState) = [DHCP_STATE_BOUND] ∧
    (DHCPc_TmrTaskHandler templateCfg renewFailed).MsgQ
      = [⟨2, 1, DHCPc_COMM_MSG_T2_EXPIRED⟩] := by
  refine ⟨?_, ?_, ?_, ?_, ?_, ?_, ?_⟩ <;> decide!

theorem joinRounds_cons (dly : Nat) (r : List (Option Nat)) (rs : List (List (Option Nat)))
    (h : rs ≠ []) : joinRounds dly (r :: rs) = r ++ some dly :: joinRounds dly rs := by
  cases rs with
  | nil => exact absurd rfl h
  | cons a t => rfl

/-- The schedule a NAK round adds to the trace: the delay that precedes it, when there is one,
and the schedule of the round. -/
theorem nakRound_sched (cfg : DHCPc_CFG) (hw : List Nat) (len : Nat) (d : Bool)
    (p : DHCPc_IF_INFO) (w : Client) (s : DHCPc_IF_INFO × Client)
    (h : nakRound cfg hw len d p w = some s) :
    ∃ r, roundSched cfg r ∧
      sched s.2.trace = sched w.trace ++
        ((if d = true then [some cfg.DHCP_INIT_DLY_MS] else []) ++ r) := by
  unfold nakRound at h
  dsimp only at h
  have hw1 : sched (if d = true then KAL_Dly w cfg.DHCP_INIT_DLY_MS else w).trace
      = sched w.trace ++ (if d = true then [some cfg.DHCP_INIT_DLY_MS] else []) := by
    cases d <;> simp [KAL_Dly, schedEntry]
  generalize (if d = true then KAL_Dly w cfg.DHCP_INIT_DLY_MS else w) = w1 at h hw1
  obtain ⟨l1, hl1, hs1⟩ := sched_Discover cfg w1 (setState p DHCP_STATE_INIT) hw len
  generalize DHCPc_Discover cfg w1 (setState p DHCP_STATE_INIT) hw len = D at h hs1
  by_cases hD : D.1 ≠ DHCPc_ERR_NONE
  · rw [if_pos hD] at h; cases h
  · rw [if_neg hD] at h
    obtain ⟨l2, hl2, hs2⟩ := sched_Req cfg D.2.2 (setState D.2.1 DHCP_STATE_SELECTING) hw len
    generalize DHCPc_Req cfg D.2.2 (setState D.2.1 DHCP_STATE_SELECTING) hw len = q at h hs2
    by_cases hq : q.1 = DHCPc_ERR_RX_NAK
    · rw [if_pos hq] at h
      cases h
      refine ⟨l1 ++ l2, ⟨l1, l2, rfl, hl1, hl2⟩, ?_⟩
      show sched q.2.2.trace = _
      rw [hs2, hs1, hw1]
      simp
    · rw [if_neg hq] at h; cases h

/-- The schedule of `n` NAK rounds: exactly `n` round schedules, with the delay before the
first when it is delayed and before each of the others. -/
theorem nakRounds_sched (cfg : DHCPc_CFG) (hw : List Nat) (len n : Nat) (d : Bool)
    (p : DHCPc_IF_INFO) (w : Client) (s : DHCPc_IF_INFO × Client)
    (h : nakRounds cfg hw len (n + 1) d p w = some s) :
    ∃ rs : List (List (Option Nat)), rs.length = n + 1 ∧ (∀ r ∈ rs, roundSched cfg r) ∧
      sched s.2.trace = sched w.trace ++
        ((if d = true then [some cfg.DHCP_INIT_DLY_MS] else [])
          ++ joinRounds cfg.DHCP_INIT_DLY_MS rs) := by
  induction n generalizing d p w with
  | zero =>
    rw [nakRounds] at h
    cases h1 : nakRound cfg hw len d p w with
    | none => rw [h1] at h; cases h
    | some s1 =>
      rw [h1] at h
      dsimp only at h
      rw [nakRounds] at h
      cases h
      obtain ⟨r, hr, hs⟩ := nakRound_sched cfg hw len d p w _ h1
      refine ⟨[r], rfl, ?_, ?_⟩
      · intro r' hr'
        rw [List.mem_singleton.1 hr']; exact hr
      · rw [hs]; rfl
  | succ n ih =>
    rw [nakRounds] at h
    cases h1 : nakRound cfg hw len d p w with
    | none => rw [h1] at h; cases h
    | some s1 =>
      rw [h1] at h
      dsimp only at h
      obtain ⟨r, hr, hs⟩ := nakRound_sched cfg hw len d p w _ h1
      obtain ⟨rs, hlen, hrs, hss⟩ := ih true s1.1 s1.2 h
      refine ⟨r :: rs, by simp [hlen], ?_, ?_⟩
      · intro r' hr'
        rcases List.mem_cons.1 hr' with h2 | h2
        · rw [h2]; exact hr
        · exact hrs r' h2
      · have hne : rs ≠ [] := by
          intro h0; rw [h0] at hlen; simp at hlen
        rw [hss, hs, joinRounds_cons _ _ _ hne]
        simp

/-- The negotiation loop over rounds that are all answered with a NAK runs as many rounds as
it has attempts and ends with `DHCPc_ERR_RX_NAK`. -/
theorem negoLoop_nak (cfg : DHCPc_CFG) (ifn : Nat) (hw : List Nat) (len n : Nat) (d : Bool)
    (e : DHCPc_ERR) (p : DHCPc_IF_INFO) (w : Client) (s : DHCPc_IF_INFO × Client)
    (h : nakRounds cfg hw len (n + 1) d p w = some s) :
    negoLoop cfg ifn hw len (n + 1) d e p w = (DHCPc_ERR_RX_NAK, s.1, s.2) := by
  induction n generalizing d e p w with
  | zero =>
    rw [nakRounds] at h
    unfold nakRound at h
    dsimp only at h
    rw [negoLoop]
    dsimp only
    generalize (if d = true then KAL_Dly w cfg.DHCP_INIT_DLY_MS else w) = w1 at h ⊢
    generalize DHCPc_Discover cfg w1 (setState p DHCP_STATE_INIT) hw len = D at h ⊢
    by_cases hD : D.1 ≠ DHCPc_ERR_NONE
    · rw [if_pos hD] at h; cases h
    · rw [if_neg hD] at h ⊢
      generalize DHCPc_Req cfg D.2.2 (setState D.2.1 DHCP_STATE_SELECTING) hw len = q at h ⊢
      by_cases hq : q.1 = DHCPc_ERR_RX_NAK
      · rw [if_pos hq] at h
        dsimp only at h
        rw [nakRounds] at h
        cases h
        rw [hq]
        dsimp only
        rw [negoLoop]
      · rw [if_neg hq] at h; cases h
  | succ n ih =>
    rw [nakRounds] at h
    unfold nakRound at h
    dsimp only at h
    rw [negoLoop]
    dsimp only
    generalize (if d = true then KAL_Dly w cfg.DHCP_INIT_DLY_MS else w) = w1 at h ⊢
    generalize DHCPc_Discover cfg w1 (setState p DHCP_STATE_INIT) hw len = D at h ⊢
    by_cases hD : D.1 ≠ DHCPc_ERR_NONE
    · rw [if_pos hD] at h; cases h
    · rw [if_neg hD] at h ⊢
      generalize DHCPc_Req cfg D.2.2 (setState D.2.1 DHCP_STATE_SELECTING) hw len = q at h ⊢
      by_cases hq : q.1 = DHCPc_ERR_RX_NAK
      · rw [if_pos hq] at h
        dsimp only at h
        rw [hq]
        dsimp only
        exact ih true DHCPc_ERR_RX_NAK q.2.1 q.2.2 h
      · rw [if_neg hq] at h; cases h

/-- The shape of `negoStart` when the handler reaches its negotiation loop. -/
theorem negoStart_some (w : Client) (p : DHCPc_IF_INFO) (hw : List Nat) (x : Client)
    (h : negoStart w p = some (hw, x)) :
    (NetIF_IsEnCfgd w).1 = true ∧
    (NetIF_AddrHW_Get (NetIF_IsEnCfgd w).2).1 = some hw ∧
    hw.length = NET_IF_ETHER_ADDR_SIZE ∧
    (DHCPc_InitSock (NetIF_AddrHW_Get (NetIF_IsEnCfgd w).2).2 NET_IPv4_ADDR_THIS_HOST
      p.IF_Nbr).1 = true ∧
    (NetIPv4_CfgAddrAddDynamicStart (DHCPc_InitSock (NetIF_AddrHW_Get (NetIF_IsEnCfgd w).2).2
      NET_IPv4_ADDR_THIS_HOST p.IF_Nbr).2 p.IF_Nbr).1 = true ∧
    x = (NetIPv4_CfgAddrAddDynamicStart (DHCPc_InitSock (NetIF_AddrHW_Get (NetIF_IsEnCfgd w).2).2
      NET_IPv4_ADDR_THIS_HOST p.IF_Nbr).2 p.IF_Nbr).2 := by
  unfold negoStart at h
  dsimp only at h
  by_cases h1 : (NetIF_IsEnCfgd w).1 ≠ true
  · rw [if_pos h1] at h; cases h
  · rw [if_neg h1] at h
    cases h2 : (NetIF_AddrHW_Get (NetIF_IsEnCfgd w).2).1 with
    | none => rw [h2] at h; cases h
    | some hw' =>
      rw [h2] at h
      dsimp only at h
      by_cases h3 : hw'.length ≠ NET_IF_ETHER_ADDR_SIZE
      · rw [if_pos h3] at h; cases h
      · rw [if_neg h3] at h
        by_cases h4 : (DHCPc_InitSock (NetIF_AddrHW_Get (NetIF_IsEnCfgd w).2).2
            NET_IPv4_ADDR_THIS_HOST p.IF_Nbr).1 ≠ true
        · rw [if_pos h4] at h; cases h
        · rw [if_neg h4] at h
          by_cases h5 : (NetIPv4_CfgAddrAddDynamicStart (DHCPc_InitSock
              (NetIF_AddrHW_Get (NetIF_IsEnCfgd w).2).2 NET_IPv4_ADDR_THIS_HOST p.IF_Nbr).2
              p.IF_Nbr).1 ≠ true
          · rw [if_pos h5] at h; cases h
          · rw [if_neg h5] at h
            cases h
            exact ⟨by simpa using h1, rfl, by simpa using h3, by simpa using h4,
              by simpa using h5, rfl⟩

/-- `DHCPc_InitStateHandler` when every round of its negotiation is answered with a NAK and the
link-local configuration is disabled: it returns `DHCPc_ERR_RX_NAK` and leaves the record in
the state NONE. -/
theorem InitStateHandler_nak (cfg : DHCPc_CFG) (w : Client) (p : DHCPc_IF_INFO) (e : DHCPc_ERR)
    (hw : List Nat) (x : Client) (s : DHCPc_IF_INFO × Client)
    (hll : cfg.DHCPc_CFG_DYN_LOCAL_LINK_ADDR_EN = false)
    (hcnt : 0 < cfg.DHCPc_CFG_NEGO_RETRY_CNT)
    (hs : negoStart w p = some (hw, x))
    (hnak : nakRounds cfg hw hw.length cfg.DHCPc_CFG_NEGO_RETRY_CNT false p x = some s) :
    DHCPc_InitStateHandler cfg w p e
      = (DHCPc_ERR_RX_NAK, setState s.1 DHCP_STATE_NONE,
          NetIPv4_CfgAddrAddDynamicStop (NetApp_SockClose s.2) s.1.IF_Nbr) ∧
    sched x.trace = sched w.trace := by
  obtain ⟨n, hn⟩ := Nat.exists_eq_succ_of_ne_zero (Nat.pos_iff_ne_zero.1 hcnt)
  obtain ⟨h1, h2, h3, h4, h5, hx⟩ := negoStart_some w p hw x hs
  rw [hn] at hnak
  have hloop := negoLoop_nak cfg p.IF_Nbr hw hw.length n false e p x s hnak
  constructor
  · unfold DHCPc_InitStateHandler initNego
    dsimp only
    rw [if_neg (by simp [h1]), h2]
    dsimp only
    rw [if_neg (by simp [h3]), if_neg (by simp [h4]), if_neg (by simp [h5]), ← hx, hn, hloop]
    dsimp only
    unfold initCfgIF
    dsimp only
    rw [if_neg (by simp [hll])]
  · rw [hx]
    simp [DHCPc_InitSock, NetIPv4_CfgAddrAddDynamicStart, NetIF_AddrHW_Get, NetIF_IsEnCfgd,
      schedEntry]

@[simp] theorem txTypes_append (a b : List Event) : txTypes (a ++ b) = txTypes a ++ txTypes b := by
  simp [txTypes]

theorem txTypes_rxReplyLoop (cfg : DHCPc_CFG) (p : DHCPc_IF_INFO) (sid : Nat) (hw : List Nat)
    (len : Nat) (rx : List RxEvent) (f : RxFlags) (buf : Mem) (tr : List Event) :
    txTypes (rxReplyLoop cfg p sid hw len rx f buf tr).2.2.2.2 = txTypes tr := by
  induction rx generalizing f buf tr with
  | nil => rfl
  | cons ev rest ih =>
    unfold rxReplyLoop
    dsimp only
    repeat' split
    all_goals first
      | (rw [ih]; simp [txTypes])
      | simp [txTypes]

@[simp] theorem txTypes_RxReply (cfg : DHCPc_CFG) (w : Client) (p : DHCPc_IF_INFO) (sid : Nat)
    (hw : List Nat) (len : Nat) (buf : Mem) (n : Nat) :
    txTypes (DHCPc_RxReply cfg w p sid hw len buf n).2.trace = txTypes w.trace := by
  unfold DHCPc_RxReply
  dsimp only
  repeat' split
  all_goals simp [txTypes_rxReplyLoop]

@[simp] theorem txTypes_discoverRx (cfg : DHCPc_CFG) (p : DHCPc_IF_INFO) (hw : List Nat)
    (len fuel : Nat) (w : Client) (pmsg : DHCPc_MSG) :
    txTypes (discoverRx cfg p hw len fuel w pmsg).w.trace = txTypes w.trace := by
  induction fuel generalizing w pmsg with
  | zero => rfl
  | succ n ih =>
    unfold discoverRx
    dsimp only
    repeat' split
    all_goals simp [ih]

@[simp] theorem txTypes_backOffDly (w : Client) (ms : Nat) :
    txTypes (backOffDly w ms).trace = txTypes w.trace := by
  simp [backOffDly, KAL_Dly, Client.log, txTypes]

@[simp] theorem txTypes_Tx (w : Client) (data : List Nat) (a : Nat) :
    txTypes (DHCPc_Tx w data a).2.trace = txTypes w.trace ++ [data.getD 242 0] := by
  simp [DHCPc_Tx, Client.log, txTypes]

/-- The parts of the client state that an exchange reads and that neither a delay nor the
preparation of a message changes. -/
theorem net_txPrepare (cfg : DHCPc_CFG) (w : Client) (p : DHCPc_IF_INFO) (mt : Nat)
    (hw : List Nat) (len : Nat) (pmsg : DHCPc_MSG) :
    (txPrepare cfg w p mt hw len pmsg).2.2.env.rx = w.env.rx ∧
    (txPrepare cfg w p mt hw len pmsg).2.2.env.tx = w.env.tx ∧
    msgPart (txPrepare cfg w p mt hw len pmsg).2.2 = msgPart w ∧
    (txPrepare cfg w p mt hw len pmsg).2.1.ServerID = p.ServerID := by
  unfold txPrepare DHCPc_TxMsgPrepare
  dsimp only
  repeat' split
  all_goals exact ⟨rfl, rfl, rfl, rfl⟩

/-- The message type byte of the datagram `txPrepare` builds. -/
theorem txPrepare_type (cfg : DHCPc_CFG) (w : Client) (p : DHCPc_IF_INFO) (mt : Nat)
    (hw : List Nat) (pmsg : DHCPc_MSG)
    (ht : mt = DHCP_MSG_DISCOVER ∨ mt = DHCP_MSG_REQUEST ∨
      mt = DHCP_MSG_DECLINE ∨ mt = DHCP_MSG_RELEASE)
    (hname : ∀ n, w.env.cpu_name = some n → n.length ≤ 255)
    (hqty : p.ParamReqQty ≤ 255) :
    (memBytes (txPrepare cfg w p mt hw NET_IF_ETHER_ADDR_SIZE pmsg).1.buf 0
      (txPrepare cfg w p mt hw NET_IF_ETHER_ADDR_SIZE pmsg).1.msg_size).getD 242 0 = mt := by
  obtain ⟨sel, -, opts, -, h⟩ := TxMsgPrepare_layout cfg w.env.null_msg.MsgBuf w.env.cpu_name
    (DHCPc_OS_TimeGet_tick w).1 p mt (memOfList hw) pmsg.MsgBuf DHCP_MSG_BUF_SIZE ht
    (Nat.le_refl _) hname hqty
  dsimp only at h
  obtain ⟨-, -, -, -, -, -, -, -, -, hsz, h3, hopt⟩ := h
  show (memBytes (DHCPc_TxMsgPrepare cfg w.env.null_msg.MsgBuf w.env.cpu_name
    (DHCPc_OS_TimeGet_tick w).1 p mt (memOfList hw) NET_IF_ETHER_ADDR_SIZE pmsg.MsgBuf
    DHCP_MSG_BUF_SIZE).1.buf 0 (DHCPc_TxMsgPrepare cfg w.env.null_msg.MsgBuf w.env.cpu_name
    (DHCPc_OS_TimeGet_tick w).1 p mt (memOfList hw) NET_IF_ETHER_ADDR_SIZE pmsg.MsgBuf
    DHCP_MSG_BUF_SIZE).1.msg_size).getD 242 0 = mt
  generalize (DHCPc_TxMsgPrepare cfg w.env.null_msg.MsgBuf w.env.cpu_name
    (DHCPc_OS_TimeGet_tick w).1 p mt (memOfList hw) NET_IF_ETHER_ADDR_SIZE pmsg.MsgBuf
    DHCP_MSG_BUF_SIZE).1 = r at hsz hopt ⊢
  have hlen : 300 ≤ r.msg_size := by rw [hsz]; omega
  have h242 : (memBytes r.buf 0 r.msg_size).getD 242 0 = r.buf 242 := by
    rw [memBytes_getD _ _ _ _ (by omega)]
  have h6 : (memBytes r.buf 236 (r.msg_size - 236)).getD 6 0 = r.buf 242 := by
    rw [memBytes_getD _ _ _ _ (by omega)]
  rw [h242, ← h6, hopt]
  match opts, h3 with
  | a :: b :: c :: l, h3 =>
    simp only [List.take, List.cons.injEq, and_true] at h3
    obtain ⟨-, -, hc⟩ := h3
    simp [DHCP_MAGIC_COOKIE, hc]
  | [], h3 => simp at h3
  | [_], h3 => simp at h3
  | [_, _], h3 => simp at h3

@[simp] theorem txTypes_reqRx (cfg : DHCPc_CFG) (p : DHCPc_IF_INFO) (hw : List Nat)
    (len fuel : Nat) (w : Client) (pmsg : DHCPc_MSG) :
    txTypes (reqRx cfg p hw len fuel w pmsg).w.trace = txTypes w.trace := by
  induction fuel generalizing w pmsg with
  | zero => rfl
  | succ n ih =>
    unfold reqRx
    dsimp only
    repeat' split
    all_goals simp [ih]

theorem quiet_mono (cfg : DHCPc_CFG) (hw : List Nat) (xs ys : List Nat) (ev : RxEvent)
    (h : ∀ x ∈ ys, x ∈ xs) (hq : quiet cfg hw xs ev = true) : quiet cfg hw ys ev = true := by
  cases ev with
  | data b =>
    unfold quiet at hq ⊢
    simp only [Bool.or_eq_true, decide_eq_true_eq, Bool.and_eq_true, List.all_eq_true,
      Bool.not_eq_true'] at hq ⊢
    rcases hq with hq | ⟨h1, h2⟩
    · exact Or.inl hq
    · exact Or.inr ⟨h1, fun x hx => h2 x (h x hx)⟩
  | ovf => rfl
  | err => rfl

theorem nextXidVals_succ (t n : Nat) :
    nextXidVals t (n + 1) = (t + 1) % 2 ^ 32 :: nextXidVals ((t + 1) % 2 ^ 32) n := by
  unfold nextXidVals
  rw [List.range_succ_eq_map, List.map_cons, List.map_map]
  congr 1
  apply List.map_congr_left
  intro i _
  simp only [Function.comp]
  rw [Nat.mod_add_mod]
  congr 1
  omega

/-- One attempt of the retry loop of `DHCPc_Discover` whose transmission succeeds, up to the
wait for the reply: the delay, if one is due, the next transaction identifier, the DISCOVER
message and its transmission; then the loop ends if the wait for the reply is done and goes on
with the next attempt otherwise. -/
theorem discover_attempt (cfg : DHCPc_CFG) (hw : List Nat) (d : Bool) (ms : Nat)
    (p : DHCPc_IF_INFO) (pmsg : DHCPc_MSG) (w : Client)
    (htx : w.env.tx.getD 0 false = true)
    (hname : ∀ nm, w.env.cpu_name = some nm → nm.length ≤ 255)
    (hqty : p.ParamReqQty ≤ 255) :
    ∃ (p2 : DHCPc_IF_INFO) (m2 : DHCPc_MSG) (w2 : Client),
      p2.TransactionID = (p.TransactionID + 1) % 2 ^ 32 ∧
      p2.ParamReqQty = p.ParamReqQty ∧ m2.ID = pmsg.ID ∧
      w2.env.rx = w.env.rx ∧ w2.env.tx = w.env.tx.tail ∧
      w2.env.cpu_name = w.env.cpu_name ∧ msgPart w2 = msgPart w ∧
      sched w2.trace = sched w.trace
        ++ ((if d = true then [some (DHCPc_CalcBackOff cfg ms)] else []) ++ [none]) ∧
      txTypes w2.trace = txTypes w.trace ++ [DHCP_MSG_DISCOVER] ∧
      ∀ n e, discoverLoop cfg hw NET_IF_ETHER_ADDR_SIZE (n + 1) d ms e p pmsg w
        = if (discoverRx cfg p2 hw NET_IF_ETHER_ADDR_SIZE (w2.env.rx.length + 1) w2 m2).done
            = true then
            ⟨false, (discoverRx cfg p2 hw NET_IF_ETHER_ADDR_SIZE (w2.env.rx.length + 1) w2
                m2).err, p2,
              (discoverRx cfg p2 hw NET_IF_ETHER_ADDR_SIZE (w2.env.rx.length + 1) w2 m2).pmsg,
              (discoverRx cfg p2 hw NET_IF_ETHER_ADDR_SIZE (w2.env.rx.length + 1) w2 m2).w⟩
          else discoverLoop cfg hw NET_IF_ETHER_ADDR_SIZE n true
            (if d = true then DHCPc_CalcBackOff cfg ms else ms)
            (discoverRx cfg p2 hw NET_IF_ETHER_ADDR_SIZE (w2.env.rx.length + 1) w2 m2).err p2
            (discoverRx cfg p2 hw NET_IF_ETHER_ADDR_SIZE (w2.env.rx.length + 1) w2 m2).pmsg
            (discoverRx cfg p2 hw NET_IF_ETHER_ADDR_SIZE (w2.env.rx.length + 1) w2 m2).w := by
  generalize hms : (if d = true then DHCPc_CalcBackOff cfg ms else ms) = ms1
  generalize hD : (if d = true then [some (DHCPc_CalcBackOff cfg ms)] else []) = D
  have hw1 : sched (if d = true then backOffDly w ms1 else w).trace = sched w.trace ++ D
      ∧ txTypes (if d = true then backOffDly w ms1 else w).trace = txTypes w.trace
      ∧ (if d = true then backOffDly w ms1 else w).env = w.env
      ∧ msgPart (if d = true then backOffDly w ms1 else w) = msgPart w := by
    cases d <;> simp at hms hD ⊢ <;> simp [← hms, ← hD] <;> exact ⟨rfl, rfl⟩
  generalize hw1e : (if d = true then backOffDly w ms1 else w) = w1 at hw1
  obtain ⟨hs1, hk1, henv1, hmp1⟩ := hw1
  generalize hp1 : ({ p with TransactionID := (p.TransactionID + 1) % 2 ^ 32 }
    : DHCPc_IF_INFO) = p1
  have hp1q : p1.ParamReqQty = p.ParamReqQty := by rw [← hp1]
  have hp1t : p1.TransactionID = (p.TransactionID + 1) % 2 ^ 32 := by rw [← hp1]
  obtain ⟨he, -, hxt, hq⟩ := txPrepare_xid cfg w1 p1 DHCP_MSG_DISCOVER hw pmsg (Or.inl rfl)
    (by rw [henv1]; exact hname) (by rw [hp1q]; exact hqty)
  have hty := txPrepare_type cfg w1 p1 DHCP_MSG_DISCOVER hw pmsg (Or.inl rfl)
    (by rw [henv1]; exact hname) (by rw [hp1q]; exact hqty)
  obtain ⟨hr1, hr2, hr3, -⟩ := net_txPrepare cfg w1 p1 DHCP_MSG_DISCOVER hw
    NET_IF_ETHER_ADDR_SIZE pmsg
  have hcn := cpu_name_txPrepare cfg w1 p1 DHCP_MSG_DISCOVER hw NET_IF_ETHER_ADDR_SIZE pmsg
  have htr := trace_txPrepare cfg w1 p1 DHCP_MSG_DISCOVER hw NET_IF_ETHER_ADDR_SIZE pmsg
  rw [henv1] at hr1 hr2 hcn
  rw [hmp1] at hr3
  generalize hRe : txPrepare cfg w1 p1 DHCP_MSG_DISCOVER hw NET_IF_ETHER_ADDR_SIZE pmsg = R
    at he hq hxt hty hr1 hr2 hr3 hcn htr
  have hhead : R.2.2.env.tx.headD false = true := by
    rw [hr2]
    cases hl : w.env.tx with
    | nil => rw [hl] at htx; simp at htx
    | cons a l => rw [hl] at htx; simpa using htx
  have htx1 : (DHCPc_Tx R.2.2 (memBytes R.1.buf 0 R.1.msg_size) NET_IPv4_ADDR_BROADCAST).1
      = DHCPc_ERR_NONE := by
    show (if R.2.2.env.tx.headD false = true then DHCPc_ERR_NONE else DHCPc_ERR_TX)
      = DHCPc_ERR_NONE
    rw [if_pos hhead]
  have htx2 : (DHCPc_Tx R.2.2 (memBytes R.1.buf 0 R.1.msg_size) NET_IPv4_ADDR_BROADCAST).2.env.rx
      = w.env.rx := by
    rw [← hr1]; rfl
  have htx3 : (DHCPc_Tx R.2.2 (memBytes R.1.buf 0 R.1.msg_size) NET_IPv4_ADDR_BROADCAST).2.env.tx
      = w.env.tx.tail := by
    rw [← hr2]; rfl
  have htx4 : (DHCPc_Tx R.2.2 (memBytes R.1.buf 0 R.1.msg_size)
      NET_IPv4_ADDR_BROADCAST).2.env.cpu_name = w.env.cpu_name := by
    rw [← hcn]; rfl
  have htx5 : sched (DHCPc_Tx R.2.2 (memBytes R.1.buf 0 R.1.msg_size)
      NET_IPv4_ADDR_BROADCAST).2.trace = sched w.trace ++ (D ++ [none]) := by
    rw [sched_Tx, htr, hs1, List.append_assoc]
  have htx6 : txTypes (DHCPc_Tx R.2.2 (memBytes R.1.buf 0 R.1.msg_size)
      NET_IPv4_ADDR_BROADCAST).2.trace = txTypes w.trace ++ [DHCP_MSG_DISCOVER] := by
    rw [txTypes_Tx, htr, hk1, hty]
  have htx7 : msgPart (DHCPc_Tx R.2.2 (memBytes R.1.buf 0 R.1.msg_size)
      NET_IPv4_ADDR_BROADCAST).2 = msgPart w := by
    rw [← hr3]; rfl
  generalize hte : DHCPc_Tx R.2.2 (memBytes R.1.buf 0 R.1.msg_size) NET_IPv4_ADDR_BROADCAST = t
    at htx1 htx2 htx3 htx4 htx5 htx6 htx7
  refine ⟨R.2.1, ⟨pmsg.ID, R.1.buf, pmsg.MsgLen⟩, t.2, hxt.trans hp1t, hq.trans hp1q, rfl, htx2,
    htx3, htx4, htx7, htx5, htx6, ?_⟩
  intro n e
  rw [discoverLoop]
  simp only [hms, hw1e, hp1, hRe, hte]
  rw [if_neg (by simp [he]), if_neg (by simp [htx1])]

/-! ### Reception of datagrams by their contents -/

/-- The validation of a datagram of sufficient length that holds the header up to `chaddr`,
without server filter: the flags all hold exactly when the datagram passes the header checks
for the transaction identifier of the record. -/
theorem rxValidate_hdrOk (cfg : DHCPc_CFG) (p : DHCPc_IF_INFO) (hw : List Nat) (buf : Mem)
    (b : List Nat) (f : RxFlags) (hmin : cfg.DHCP_MSG_RX_MIN_LEN ≤ b.length)
    (h34 : hdr.chaddr + NET_IF_ETHER_ADDR_SIZE ≤ b.length) :
    (rxValidate cfg p NET_IPv4_ADDR_NONE hw (Mem_Copy buf 0 b) b.length f).all
      ↔ hdrOk hw p.TransactionID b = true := by
  have hag : ∀ i, i < b.length → Mem_Copy buf 0 b i = memOfList b i :=
    fun i hi => Mem_Copy_agree buf b i hi
  have h34b : 34 ≤ b.length := h34
  have hl : (hw.take NET_IF_ETHER_ADDR_SIZE).length ≤ 6 := by
    simp [NET_IF_ETHER_ADDR_SIZE]
  have h0 : Mem_Copy buf 0 b hdr.op = memOfList b hdr.op := hag _ (by show 0 < b.length; omega)
  have h1 := Mem_Cmp_agree (Mem_Copy buf 0 b) (memOfList b) b.length hdr.chaddr
    (hw.take NET_IF_ETHER_ADDR_SIZE) hag (by show 28 + _ ≤ _; omega)
  have h2 := getNet32_agree (Mem_Copy buf 0 b) (memOfList b) b.length hdr.xid hag
    (by show 4 + 4 ≤ _; omega)
  unfold RxFlags.all rxValidate hdrOk
  rw [if_pos hmin]
  simp only [h0, h1, h2, ne_eq, not_true_eq_false, if_false, decide_eq_true_eq, true_and,
    Bool.and_eq_true]
  tauto

/-- A datagram that is quiet for an exchange does not make the flags hold when they did not. -/
theorem rxValidate_quiet (cfg : DHCPc_CFG) (p : DHCPc_IF_INFO) (hw : List Nat) (xids : List Nat)
    (buf : Mem) (bytes : List Nat) (f : RxFlags) (hf : ¬ f.all)
    (hx : p.TransactionID ∈ xids)
    (hq : quiet cfg hw xids (RxEvent.data bytes) = true) :
    ¬ (rxValidate cfg p NET_IPv4_ADDR_NONE hw (Mem_Copy buf 0 (rxBytes bytes))
      (rxBytes bytes).length f).all := by
  unfold quiet at hq
  simp only [Bool.or_eq_true, decide_eq_true_eq, Bool.and_eq_true, List.all_eq_true,
    Bool.not_eq_true'] at hq
  rcases hq with hq | ⟨h34, hq⟩
  · have : ¬ ((rxBytes bytes).length ≥ cfg.DHCP_MSG_RX_MIN_LEN) := by omega
    unfold rxValidate
    rw [if_neg this]
    exact hf
  · by_cases hmin : cfg.DHCP_MSG_RX_MIN_LEN ≤ (rxBytes bytes).length
    · rw [rxValidate_hdrOk cfg p hw buf _ f hmin h34, hq _ hx]
      simp
    · have : ¬ ((rxBytes bytes).length ≥ cfg.DHCP_MSG_RX_MIN_LEN) := by omega
      unfold rxValidate
      rw [if_neg this]
      exact hf

/-- One step of the receive loop on a quiet datagram: the datagram is copied to the buffer and
the loop goes on with the events that follow. -/
theorem rxReplyLoop_skip (cfg : DHCPc_CFG) (p : DHCPc_IF_INFO) (hw : List Nat)
    (xids : List Nat) (bytes : List Nat) (rest : List RxEvent) (f : RxFlags) (buf : Mem)
    (tr : List Event) (hf : ¬ f.all) (hx : p.TransactionID ∈ xids)
    (hq : quiet cfg hw xids (RxEvent.data bytes) = true) :
    ∃ f1, ¬ f1.all ∧
      rxReplyLoop cfg p NET_IPv4_ADDR_NONE hw DHCP_MSG_BUF_SIZE (RxEvent.data bytes :: rest) f
          buf tr
        = rxReplyLoop cfg p NET_IPv4_ADDR_NONE hw DHCP_MSG_BUF_SIZE rest f1
          (Mem_Copy buf 0 (rxBytes bytes)) (tr ++ [Event.rx (RxEvent.data bytes)]) := by
  have hv := rxValidate_quiet cfg p hw xids buf bytes f hf hx hq
  refine ⟨_, hv, ?_⟩
  rw [rxReplyLoop]
  simp only [DHCPc_Rx, if_true]
  exact if_neg hv

/-- The receive loop on quiet datagrams `pre` followed by the events `tail`: the datagrams are
skipped and the loop goes on with `tail`. -/
theorem rxReplyLoop_skips (cfg : DHCPc_CFG) (p : DHCPc_IF_INFO) (hw : List Nat)
    (xids : List Nat) (pre : List (List Nat)) (tail : List RxEvent) (f : RxFlags) (buf : Mem)
    (tr : List Event) (hf : ¬ f.all) (hx : p.TransactionID ∈ xids)
    (hq : ∀ bytes ∈ pre, quiet cfg hw xids (RxEvent.data bytes) = true) :
    ∃ f1 buf1, ¬ f1.all ∧
      rxReplyLoop cfg p NET_IPv4_ADDR_NONE hw DHCP_MSG_BUF_SIZE
          (pre.map RxEvent.data ++ tail) f buf tr
        = rxReplyLoop cfg p NET_IPv4_ADDR_NONE hw DHCP_MSG_BUF_SIZE tail f1 buf1
          (tr ++ pre.map (fun bytes => Event.rx (RxEvent.data bytes))) := by
  induction pre generalizing f buf tr with
  | nil => exact ⟨f, buf, hf, by simp⟩
  | cons a l ih =>
    obtain ⟨f1, hf1, h1⟩ := rxReplyLoop_skip cfg p hw xids a (l.map RxEvent.data ++ tail) f buf
      tr hf hx (hq a (List.mem_cons_self _ _))
    obtain ⟨f2, buf2, hf2, h2⟩ := ih f1 (Mem_Copy buf 0 (rxBytes a))
      (tr ++ [Event.rx (RxEvent.data a)]) hf1 (fun b hb => hq b (List.mem_cons_of_mem _ hb))
    refine ⟨f2, buf2, hf2, ?_⟩
    simp only [List.map_cons, List.cons_append]
    rw [h1, h2]
    simp

/-- The receive loop on a datagram that passes the header checks: the loop ends without error
on it, the buffer holding the datagram. -/
theorem rxReplyLoop_accept (cfg : DHCPc_CFG) (p : DHCPc_IF_INFO) (hw : List Nat)
    (bytes : List Nat) (rest : List RxEvent) (f : RxFlags) (buf : Mem) (tr : List Event)
    (hmin : cfg.DHCP_MSG_RX_MIN_LEN ≤ (rxBytes bytes).length)
    (h34 : hdr.chaddr + NET_IF_ETHER_ADDR_SIZE ≤ (rxBytes bytes).length)
    (hok : hdrOk hw p.TransactionID (rxBytes bytes) = true) :
    rxReplyLoop cfg p NET_IPv4_ADDR_NONE hw DHCP_MSG_BUF_SIZE (RxEvent.data bytes :: rest) f
        buf tr
      = (DHCPc_ERR_NONE, (rxBytes bytes).length, Mem_Copy buf 0 (rxBytes bytes), rest,
          tr ++ [Event.rx (RxEvent.data bytes)]) := by
  have hv := (rxValidate_hdrOk cfg p hw buf (rxBytes bytes) f hmin h34).2 hok
  rw [rxReplyLoop]
  simp only [DHCPc_Rx, if_true]
  exact if_pos hv

/-- The events before the first receive error are datagrams. -/
theorem data_of_countP (pre : List RxEvent) (h : pre.countP rxFailed = 0) :
    ∃ l : List (List Nat), pre = l.map RxEvent.data := by
  induction pre with
  | nil => exact ⟨[], rfl⟩
  | cons ev l ih =>
    cases ev with
    | data b =>
      rw [List.countP_cons_of_neg _ _ (by simp [rxFailed])] at h
      obtain ⟨l1, hl1⟩ := ih h
      exact ⟨b :: l1, by rw [hl1]; rfl⟩
    | ovf => rw [List.countP_cons_of_pos _ _ (by simp [rxFailed])] at h; omega
    | err => rw [List.countP_cons_of_pos _ _ (by simp [rxFailed])] at h; omega

/-- The receive loop on quiet events `pre`, one of which at least is a receive error, followed
by the events `tail`: the loop ends with an error on the first receive error of `pre`, and the
events that follow it are left. -/
theorem rxReplyLoop_fails (cfg : DHCPc_CFG) (p : DHCPc_IF_INFO) (hw : List Nat)
    (xids : List Nat) (pre tail : List RxEvent) (f : RxFlags) (buf : Mem) (tr : List Event)
    (hf : ¬ f.all) (hx : p.TransactionID ∈ xids)
    (hq : ∀ ev ∈ pre, quiet cfg hw xids ev = true) (hc : 0 < pre.countP rxFailed) :
    (rxReplyLoop cfg p NET_IPv4_ADDR_NONE hw DHCP_MSG_BUF_SIZE (pre ++ tail) f buf tr).1
      ≠ DHCPc_ERR_NONE ∧
    ∃ pre1, (rxReplyLoop cfg p NET_IPv4_ADDR_NONE hw DHCP_MSG_BUF_SIZE (pre ++ tail) f buf
        tr).2.2.2.1 = pre1 ++ tail ∧
      (∀ ev ∈ pre1, ev ∈ pre) ∧ pre1.countP rxFailed + 1 = pre.countP rxFailed := by
  induction pre generalizing f buf tr with
  | nil => simp at hc
  | cons ev l ih =>
    cases ev with
    | data b =>
      obtain ⟨f1, hf1, h1⟩ := rxReplyLoop_skip cfg p hw xids b (l ++ tail) f buf tr hf hx
        (hq _ (List.mem_cons_self _ _))
      rw [List.countP_cons_of_neg _ _ (by simp [rxFailed])] at hc ⊢
      rw [List.cons_append, h1]
      obtain ⟨i1, pre1, i2, i3, i4⟩ := ih f1 (Mem_Copy buf 0 (rxBytes b))
        (tr ++ [Event.rx (RxEvent.data b)]) hf1 (fun e he => hq e (List.mem_cons_of_mem _ he)) hc
      exact ⟨i1, pre1, i2, (fun e he => List.mem_cons_of_mem _ (i3 e he)), i4⟩
    | ovf =>
      rw [List.countP_cons_of_pos _ _ (by simp [rxFailed])]
      exact ⟨by simp [rxReplyLoop, DHCPc_Rx], l, by simp [rxReplyLoop, DHCPc_Rx],
        (fun e he => List.mem_cons_of_mem _ he), rfl⟩
    | err =>
      rw [List.countP_cons_of_pos _ _ (by simp [rxFailed])]
      exact ⟨by simp [rxReplyLoop, DHCPc_Rx], l, by simp [rxReplyLoop, DHCPc_Rx],
        (fun e he => List.mem_cons_of_mem _ he), rfl⟩

/-- The receive loop on quiet events only: it ends with an error, on the first receive error
or when nothing is left to receive. -/
theorem rxReplyLoop_quiet (cfg : DHCPc_CFG) (p : DHCPc_IF_INFO) (hw : List Nat)
    (xids : List Nat) (rx : List RxEvent) (f : RxFlags) (buf : Mem) (tr : List Event)
    (hf : ¬ f.all) (hx : p.TransactionID ∈ xids)
    (hq : ∀ ev ∈ rx, quiet cfg hw xids ev = true) :
    (rxReplyLoop cfg p NET_IPv4_ADDR_NONE hw DHCP_MSG_BUF_SIZE rx f buf tr).1
      ≠ DHCPc_ERR_NONE ∧
    ∀ ev ∈ (rxReplyLoop cfg p NET_IPv4_ADDR_NONE hw DHCP_MSG_BUF_SIZE rx f buf tr).2.2.2.1,
      ev ∈ rx := by
  induction rx generalizing f buf tr with
  | nil => simp [rxReplyLoop, DHCPc_Rx]
  | cons ev l ih =>
    cases ev with
    | data b =>
      obtain ⟨f1, hf1, h1⟩ := rxReplyLoop_skip cfg p hw xids b l f buf tr hf hx
        (hq _ (List.mem_cons_self _ _))
      rw [h1]
      obtain ⟨i1, i2⟩ := ih f1 (Mem_Copy buf 0 (rxBytes b))
        (tr ++ [Event.rx (RxEvent.data b)]) hf1 (fun e he => hq e (List.mem_cons_of_mem _ he))
      exact ⟨i1, (fun e he => List.mem_cons_of_mem _ (i2 e he))⟩
    | ovf =>
      exact ⟨by simp [rxReplyLoop, DHCPc_Rx],
        (fun e he => List.mem_cons_of_mem _ (by simpa [rxReplyLoop, DHCPc_Rx] using he))⟩
    | err =>
      exact ⟨by simp [rxReplyLoop, DHCPc_Rx],
        (fun e he => List.mem_cons_of_mem _ (by simpa [rxReplyLoop, DHCPc_Rx] using he))⟩

/-- `DHCPc_RxReply` leaves the answers to the transmissions and the message pool alone. -/
theorem RxReply_frame (cfg : DHCPc_CFG) (w : Client) (p : DHCPc_IF_INFO) (sid : Nat)
    (hw : List Nat) (len : Nat) (buf : Mem) (n : Nat) :
    (DHCPc_RxReply cfg w p sid hw len buf n).2.env.tx = w.env.tx ∧
    msgPart (DHCPc_RxReply cfg w p sid hw len buf n).2 = msgPart w := by
  unfold DHCPc_RxReply
  dsimp only
  repeat' split
  all_goals exact ⟨rfl, rfl⟩

/-- When every event left is quiet for the exchange, `DHCPc_RxReply` reports an error, and
the events it leaves are among those it found. -/
theorem RxReply_quiet (cfg : DHCPc_CFG) (w : Client) (p : DHCPc_IF_INFO) (hw : List Nat)
    (len : Nat) (buf : Mem) (xids : List Nat) (hx : p.TransactionID ∈ xids)
    (hq : ∀ ev ∈ w.env.rx, quiet cfg hw xids ev = true) :
    (DHCPc_RxReply cfg w p NET_IPv4_ADDR_NONE hw len buf DHCP_MSG_BUF_SIZE).1.err
      ≠ DHCPc_ERR_NONE ∧
    ∀ ev ∈ (DHCPc_RxReply cfg w p NET_IPv4_ADDR_NONE hw len buf DHCP_MSG_BUF_SIZE).2.env.rx,
      ev ∈ w.env.rx := by
  have hl := rxReplyLoop_quiet cfg p hw xids w.env.rx ⟨false, false, false, false⟩ buf w.trace
    (by simp [RxFlags.all]) hx hq
  unfold DHCPc_RxReply
  dsimp only
  generalize rxReplyLoop cfg p NET_IPv4_ADDR_NONE hw DHCP_MSG_BUF_SIZE w.env.rx
    ⟨false, false, false, false⟩ buf w.trace = x at hl ⊢
  by_cases h1 : cfg.DHCPc_CFG_ARG_CHK_DBG_EN = true ∧ DHCP_MSG_BUF_SIZE < cfg.DHCP_MSG_RX_MIN_LEN
  · rw [if_pos h1]
    exact ⟨by simp, fun _ h => h⟩
  · rw [if_neg h1]
    by_cases h2 : cfg.DHCPc_CFG_ARG_CHK_DBG_EN = true ∧ len ≠ NET_IF_ETHER_ADDR_SIZE
    · rw [if_pos h2]
      exact ⟨by simp, fun _ h => h⟩
    · rw [if_neg h2, if_pos hl.1]
      exact ⟨hl.1, hl.2⟩

/-- When the events left start with quiet events `pre`, one of which at least is a receive
error, `DHCPc_RxReply` reports an error and leaves what follows the first receive error. -/
theorem RxReply_fails (cfg : DHCPc_CFG) (w : Client) (p : DHCPc_IF_INFO) (hw : List Nat)
    (buf : Mem) (xids : List Nat) (pre tail : List RxEvent)
    (hmin : cfg.DHCP_MSG_RX_MIN_LEN ≤ DHCP_MSG_BUF_SIZE)
    (hx : p.TransactionID ∈ xids) (hrx : w.env.rx = pre ++ tail)
    (hq : ∀ ev ∈ pre, quiet cfg hw xids ev = true) (hc : 0 < pre.countP rxFailed) :
    (DHCPc_RxReply cfg w p NET_IPv4_ADDR_NONE hw NET_IF_ETHER_ADDR_SIZE buf
      DHCP_MSG_BUF_SIZE).1.err ≠ DHCPc_ERR_NONE ∧
    ∃ pre1, (DHCPc_RxReply cfg w p NET_IPv4_ADDR_NONE hw NET_IF_ETHER_ADDR_SIZE buf
        DHCP_MSG_BUF_SIZE).2.env.rx = pre1 ++ tail ∧
      (∀ ev ∈ pre1, ev ∈ pre) ∧ pre1.countP rxFailed + 1 = pre.countP rxFailed := by
  have hl := rxReplyLoop_fails cfg p hw xids pre tail ⟨false, false, false, false⟩ buf w.trace
    (by simp [RxFlags.all]) hx hq hc
  unfold DHCPc_RxReply
  dsimp only
  rw [hrx]
  generalize rxReplyLoop cfg p NET_IPv4_ADDR_NONE hw DHCP_MSG_BUF_SIZE (pre ++ tail)
    ⟨false, false, false, false⟩ buf w.trace = x at hl ⊢
  rw [if_neg (by omega), if_neg (by simp), if_pos hl.1]
  exact ⟨hl.1, hl.2⟩

/-- When the events left start with quiet datagrams `pre` followed by a well-formed datagram
that passes the header checks and carries the message type `t`, `DHCPc_RxReply` skips the
datagrams of `pre` and returns without error the type `t`, the buffer holding the datagram and
nothing more being received. -/
theorem RxReply_accepts (cfg : DHCPc_CFG) (w : Client) (p : DHCPc_IF_INFO) (hw : List Nat)
    (buf : Mem) (xids : List Nat) (pre : List (List Nat)) (bytes : List Nat)
    (rest : List RxEvent) (items : List OptItem) (t : Nat)
    (hx : p.TransactionID ∈ xids)
    (hrx : w.env.rx = pre.map RxEvent.data ++ RxEvent.data bytes :: rest)
    (hq : ∀ b ∈ pre, quiet cfg hw xids (RxEvent.data b) = true)
    (hmin : cfg.DHCP_MSG_RX_MIN_LEN ≤ (rxBytes bytes).length)
    (hok : hdrOk hw p.TransactionID (rxBytes bytes) = true)
    (hd : dgramHas (rxBytes bytes) items) (ht : typeOf items = some t) :
    (DHCPc_RxReply cfg w p NET_IPv4_ADDR_NONE hw NET_IF_ETHER_ADDR_SIZE buf
      DHCP_MSG_BUF_SIZE).1.err = DHCPc_ERR_NONE ∧
    (DHCPc_RxReply cfg w p NET_IPv4_ADDR_NONE hw NET_IF_ETHER_ADDR_SIZE buf
      DHCP_MSG_BUF_SIZE).1.msg_type = t ∧
    (DHCPc_RxReply cfg w p NET_IPv4_ADDR_NONE hw NET_IF_ETHER_ADDR_SIZE buf
      DHCP_MSG_BUF_SIZE).1.len = (rxBytes bytes).length ∧
    (∀ i, i < (rxBytes bytes).length →
      (DHCPc_RxReply cfg w p NET_IPv4_ADDR_NONE hw NET_IF_ETHER_ADDR_SIZE buf
        DHCP_MSG_BUF_SIZE).1.buf i = (rxBytes bytes).getD i 0) ∧
    (DHCPc_RxReply cfg w p NET_IPv4_ADDR_NONE hw NET_IF_ETHER_ADDR_SIZE buf
      DHCP_MSG_BUF_SIZE).2.env.rx = rest ∧
    (DHCPc_RxReply cfg w p NET_IPv4_ADDR_NONE hw NET_IF_ETHER_ADDR_SIZE buf
      DHCP_MSG_BUF_SIZE).2.trace
      = w.trace ++ pre.map (fun b => Event.rx (RxEvent.data b))
        ++ [Event.rx (RxEvent.data bytes)] := by
  have hlen576 : (rxBytes bytes).length ≤ DHCP_MSG_BUF_SIZE := by
    unfold rxBytes; simp
  obtain ⟨f1, buf1, hf1, hs⟩ := rxReplyLoop_skips cfg p hw xids pre
    (RxEvent.data bytes :: rest) ⟨false, false, false, false⟩ buf w.trace
    (by simp [RxFlags.all]) hx hq
  have hag : ∀ i, i < (rxBytes bytes).length →
      Mem_Copy buf1 0 (rxBytes bytes) i = (rxBytes bytes).getD i 0 :=
    fun i hi => Mem_Copy_agree buf1 _ i hi
  obtain ⟨-, -, h3⟩ := dgramHas_mem _ _ items hag hd
  have h34 : hdr.chaddr + NET_IF_ETHER_ADDR_SIZE ≤ (rxBytes bytes).length := by
    show 28 + 6 ≤ _
    omega
  have ha := rxReplyLoop_accept cfg p hw bytes rest f1 buf1
    (w.trace ++ pre.map (fun b => Event.rx (RxEvent.data b))) hmin h34 hok
  obtain ⟨r, hr, hrt⟩ := dgram_type _ _ items t hag hd ht
  unfold DHCPc_RxReply
  dsimp only
  rw [hrx, hs, ha]
  rw [if_neg (by omega), if_neg (by simp)]
  dsimp only
  rw [if_neg (by simp), hr]
  exact ⟨rfl, hrt, rfl, hag, rfl, rfl⟩

/-- The wait for the reply of `DHCPc_Discover` when every event left is quiet: it ends, not
done, with an error. -/
theorem discoverRx_quiet (cfg : DHCPc_CFG) (p : DHCPc_IF_INFO) (hw : List Nat)
    (len fuel : Nat) (w : Client) (pmsg : DHCPc_MSG) (xids : List Nat)
    (hx : p.TransactionID ∈ xids) (hq : ∀ ev ∈ w.env.rx, quiet cfg hw xids ev = true) :
    (discoverRx cfg p hw len (fuel + 1) w pmsg).done = false ∧
    (discoverRx cfg p hw len (fuel + 1) w pmsg).err ≠ DHCPc_ERR_NONE ∧
    (discoverRx cfg p hw len (fuel + 1) w pmsg).pmsg.ID = pmsg.ID ∧
    (∀ ev ∈ (discoverRx cfg p hw len (fuel + 1) w pmsg).w.env.rx, ev ∈ w.env.rx) ∧
    (discoverRx cfg p hw len (fuel + 1) w pmsg).w.env.tx = w.env.tx ∧
    msgPart (discoverRx cfg p hw len (fuel + 1) w pmsg).w = msgPart w := by
  obtain ⟨h1, h2⟩ := RxReply_quiet cfg w p hw len pmsg.MsgBuf xids hx hq
  obtain ⟨h3, h4⟩ := RxReply_frame cfg w p NET_IPv4_ADDR_NONE hw len pmsg.MsgBuf
    DHCP_MSG_BUF_SIZE
  unfold discoverRx
  dsimp only
  rw [if_neg h1]
  exact ⟨rfl, h1, rfl, h2, h3, h4⟩

/-- The wait for the reply of `DHCPc_Discover` when the events left start with quiet events,
one of which at least is a receive error: it ends, not done, with an error, and leaves what
follows the first receive error. -/
theorem discoverRx_fails (cfg : DHCPc_CFG) (p : DHCPc_IF_INFO) (hw : List Nat) (fuel : Nat)
    (w : Client) (pmsg : DHCPc_MSG) (xids : List Nat) (pre tail : List RxEvent)
    (hmin : cfg.DHCP_MSG_RX_MIN_LEN ≤ DHCP_MSG_BUF_SIZE)
    (hx : p.TransactionID ∈ xids) (hrx : w.env.rx = pre ++ tail)
    (hq : ∀ ev ∈ pre, quiet cfg hw xids ev = true) (hc : 0 < pre.countP rxFailed) :
    (discoverRx cfg p hw NET_IF_ETHER_ADDR_SIZE (fuel + 1) w pmsg).done = false ∧
    (discoverRx cfg p hw NET_IF_ETHER_ADDR_SIZE (fuel + 1) w pmsg).err ≠ DHCPc_ERR_NONE ∧
    (discoverRx cfg p hw NET_IF_ETHER_ADDR_SIZE (fuel + 1) w pmsg).pmsg.ID = pmsg.ID ∧
    (∃ pre1, (discoverRx cfg p hw NET_IF_ETHER_ADDR_SIZE (fuel + 1) w pmsg).w.env.rx
        = pre1 ++ tail ∧
      (∀ ev ∈ pre1, ev ∈ pre) ∧ pre1.countP rxFailed + 1 = pre.countP rxFailed) ∧
    (discoverRx cfg p hw NET_IF_ETHER_ADDR_SIZE (fuel + 1) w pmsg).w.env.tx = w.env.tx := by
  obtain ⟨h1, h2⟩ := RxReply_fails cfg w p hw pmsg.MsgBuf xids pre tail hmin hx hrx hq hc
  obtain ⟨h3, -⟩ := RxReply_frame cfg w p NET_IPv4_ADDR_NONE hw NET_IF_ETHER_ADDR_SIZE
    pmsg.MsgBuf DHCP_MSG_BUF_SIZE
  unfold discoverRx
  dsimp only
  rw [if_neg h1]
  exact ⟨rfl, h1, rfl, h2, h3⟩

/-- The wait for the reply of `DHCPc_Discover` when the events left start with quiet datagrams
followed by a well-formed OFFER that passes the header checks: it ends, done, without error, the
message holding the OFFER and nothing more being received. -/
theorem discoverRx_accepts (cfg : DHCPc_CFG) (p : DHCPc_IF_INFO) (hw : List Nat) (fuel : Nat)
    (w : Client) (pmsg : DHCPc_MSG) (xids : List Nat) (pre : List (List Nat))
    (bytes : List Nat) (rest : List RxEvent) (items : List OptItem)
    (hx : p.TransactionID ∈ xids)
    (hrx : w.env.rx = pre.map RxEvent.data ++ RxEvent.data bytes :: rest)
    (hq : ∀ b ∈ pre, quiet cfg hw xids (RxEvent.data b) = true)
    (hmin : cfg.DHCP_MSG_RX_MIN_LEN ≤ (rxBytes bytes).length)
    (hok : hdrOk hw p.TransactionID (rxBytes bytes) = true)
    (hd : dgramHas (rxBytes bytes) items) (ht : typeOf items = some DHCP_MSG_OFFER) :
    (discoverRx cfg p hw NET_IF_ETHER_ADDR_SIZE (fuel + 1) w pmsg).done = true ∧
    (discoverRx cfg p hw NET_IF_ETHER_ADDR_SIZE (fuel + 1) w pmsg).err = DHCPc_ERR_NONE ∧
    (discoverRx cfg p hw NET_IF_ETHER_ADDR_SIZE (fuel + 1) w pmsg).pmsg.ID = pmsg.ID ∧
    (discoverRx cfg p hw NET_IF_ETHER_ADDR_SIZE (fuel + 1) w pmsg).pmsg.MsgLen
      = (rxBytes bytes).length ∧
    (∀ i, i < (rxBytes bytes).length →
      (discoverRx cfg p hw NET_IF_ETHER_ADDR_SIZE (fuel + 1) w pmsg).pmsg.MsgBuf i
        = (rxBytes bytes).getD i 0) ∧
    (discoverRx cfg p hw NET_IF_ETHER_ADDR_SIZE (fuel + 1) w pmsg).w.env.rx = rest ∧
    (discoverRx cfg p hw NET_IF_ETHER_ADDR_SIZE (fuel + 1) w pmsg).w.trace
      = w.trace ++ pre.map (fun b => Event.rx (RxEvent.data b))
        ++ [Event.rx (RxEvent.data bytes)] := by
  obtain ⟨h1, h2, h3, h4, h5, h6⟩ := RxReply_accepts cfg w p hw pmsg.MsgBuf xids pre bytes rest
    items DHCP_MSG_OFFER hx hrx hq hmin hok hd ht
  unfold discoverRx
  dsimp only
  rw [if_pos h1, if_pos h2]
  exact ⟨rfl, rfl, rfl, h3, h4, h5, h6⟩

/-- The retry loop of `DHCPc_Discover` when every event left is quiet for the transaction
identifiers of the attempts that remain and the transmissions succeed: every attempt is made,
with the back-off delays between them, and the loop ends with an error. -/
theorem discoverLoop_quiet (cfg : DHCPc_CFG) (hw : List Nat) (n : Nat) (d : Bool)
    (ms : Nat) (e : DHCPc_ERR) (p : DHCPc_IF_INFO) (pmsg : DHCPc_MSG) (w : Client)
    (hrx : ∀ ev ∈ w.env.rx, quiet cfg hw (nextXidVals p.TransactionID n) ev = true)
    (htx : ∀ i, i < n → w.env.tx.getD i false = true)
    (hname : ∀ nm, w.env.cpu_name = some nm → nm.length ≤ 255)
    (hqty : p.ParamReqQty ≤ 255)
    (h0 : 0 < n ∨ e ≠ DHCPc_ERR_NONE) :
    (discoverLoop cfg hw NET_IF_ETHER_ADDR_SIZE n d ms e p pmsg w).returned = false ∧
    (discoverLoop cfg hw NET_IF_ETHER_ADDR_SIZE n d ms e p pmsg w).err ≠ DHCPc_ERR_NONE ∧
    sched (discoverLoop cfg hw NET_IF_ETHER_ADDR_SIZE n d ms e p pmsg w).w.trace
      = sched w.trace ++ ((if d = true ∧ 0 < n then [some (DHCPc_CalcBackOff cfg ms)] else [])
          ++ backOffSched cfg n (if d = true then DHCPc_CalcBackOff cfg ms else ms)) ∧
    txTypes (discoverLoop cfg hw NET_IF_ETHER_ADDR_SIZE n d ms e p pmsg w).w.trace
      = txTypes w.trace ++ List.replicate n DHCP_MSG_DISCOVER := by
  induction n generalizing d ms e p pmsg w with
  | zero =>
    have he : e ≠ DHCPc_ERR_NONE := by
      rcases h0 with h | h
      · cases h
      · exact h
    exact ⟨rfl, he, by simp [discoverLoop, backOffSched], by simp [discoverLoop]⟩
  | succ n ih =>
    obtain ⟨p2, m2, w2, a1, a2, -, a4, a5, a6, -, a8, a9, a10⟩ := discover_attempt cfg hw d ms
      p pmsg w (htx 0 (Nat.succ_pos _)) hname hqty
    rw [nextXidVals_succ] at hrx
    have hx : p2.TransactionID ∈ [(p.TransactionID + 1) % 2 ^ 32] := by simp [a1]
    obtain ⟨x1, x2, -, x4, x5, -⟩ := discoverRx_quiet cfg p2 hw NET_IF_ETHER_ADDR_SIZE
      w2.env.rx.length w2 m2 _ hx
      (fun ev hev => quiet_mono cfg hw _ _ ev (by simp) (hrx ev (by rw [← a4]; exact hev)))
    have x6 := sched_discoverRx cfg p2 hw NET_IF_ETHER_ADDR_SIZE (w2.env.rx.length + 1) w2 m2
    have x7 := txTypes_discoverRx cfg p2 hw NET_IF_ETHER_ADDR_SIZE (w2.env.rx.length + 1) w2 m2
    have x8 := cpu_name_discoverRx cfg p2 hw NET_IF_ETHER_ADDR_SIZE (w2.env.rx.length + 1) w2 m2
    rw [a10 n e]
    generalize discoverRx cfg p2 hw NET_IF_ETHER_ADDR_SIZE (w2.env.rx.length + 1) w2 m2 = x
      at x1 x2 x4 x5 x6 x7 x8 ⊢
    rw [if_neg (by simp [x1])]
    have htl : ∀ i, i < n → w.env.tx.tail.getD i false = true := by
      intro i hi
      have := htx (i + 1) (by omega)
      cases hl : w.env.tx with
      | nil => rw [hl] at this; simp at this
      | cons a l => rw [hl] at this; simpa using this
    obtain ⟨i1, i2, i3, i4⟩ := ih true (if d = true then DHCPc_CalcBackOff cfg ms else ms) x.err
      p2 x.pmsg x.w
      (fun ev hev => quiet_mono cfg hw _ _ ev
        (by rw [a1]; exact fun y hy => List.mem_cons_of_mem _ hy)
        (hrx ev (by rw [← a4]; exact x4 ev hev)))
      (by rw [x5, a5]; exact htl) (by rw [x8, a6]; exact hname) (by rw [a2]; exact hqty)
      (Or.inr x2)
    refine ⟨i1, i2, ?_, ?_⟩
    · rw [i3, x6, a8, backOffSched_succ]
      cases d <;> simp
    · rw [i4, x7, a9, List.replicate_succ]; simp

/-- The retry loop of `DHCPc_Discover` when, after events that are quiet for the exchange and
hold `j` receive errors, fewer than the attempts that remain, a well-formed OFFER arrives that
passes the header checks for the transaction identifier of attempt `j + 1`, the first `j + 1`
transmissions succeeding: the loop ends without error at attempt `j + 1`, at the reception of
the OFFER, which the message holds. -/
theorem discoverLoop_offerAt (cfg : DHCPc_CFG) (hw : List Nat) (n : Nat) (d : Bool)
    (ms : Nat) (e : DHCPc_ERR) (p : DHCPc_IF_INFO) (pmsg : DHCPc_MSG) (w : Client)
    (j : Nat) (pre : List RxEvent) (bytes : List Nat) (rest : List RxEvent)
    (items : List OptItem) (hj : j < n)
    (hrx : w.env.rx = pre ++ RxEvent.data bytes :: rest)
    (hq : ∀ ev ∈ pre, quiet cfg hw (nextXidVals p.TransactionID n) ev = true)
    (hc : pre.countP rxFailed = j)
    (htx : ∀ i, i ≤ j → w.env.tx.getD i false = true)
    (hname : ∀ nm, w.env.cpu_name = some nm → nm.length ≤ 255)
    (hqty : p.ParamReqQty ≤ 255)
    (hmin : cfg.DHCP_MSG_RX_MIN_LEN ≤ (rxBytes bytes).length)
    (hok : hdrOk hw ((p.TransactionID + (j + 1)) % 2 ^ 32) (rxBytes bytes) = true)
    (hd : dgramHas (rxBytes bytes) items) (ht : typeOf items = some DHCP_MSG_OFFER) :
    (discoverLoop cfg hw NET_IF_ETHER_ADDR_SIZE n d ms e p pmsg w).returned = false ∧
    (discoverLoop cfg hw NET_IF_ETHER_ADDR_SIZE n d ms e p pmsg w).err = DHCPc_ERR_NONE ∧
    (discoverLoop cfg hw NET_IF_ETHER_ADDR_SIZE n d ms e p pmsg w).pmsg.ID = pmsg.ID ∧
    (discoverLoop cfg hw NET_IF_ETHER_ADDR_SIZE n d ms e p pmsg w).pmsg.MsgLen
      = (rxBytes bytes).length ∧
    (∀ i, i < (rxBytes bytes).length →
      (discoverLoop cfg hw NET_IF_ETHER_ADDR_SIZE n d ms e p pmsg w).pmsg.MsgBuf i
        = (rxBytes bytes).getD i 0) ∧
    (discoverLoop cfg hw NET_IF_ETHER_ADDR_SIZE n d ms e p pmsg w).w.env.rx = rest ∧
    (discoverLoop cfg hw NET_IF_ETHER_ADDR_SIZE n d ms e p pmsg w).w.trace.getLast?
      = some (Event.rx (RxEvent.data bytes)) ∧
    sched (discoverLoop cfg hw NET_IF_ETHER_ADDR_SIZE n d ms e p pmsg w).w.trace
      = sched w.trace ++ ((if d = true then [some (DHCPc_CalcBackOff cfg ms)] else [])
          ++ backOffSched cfg (j + 1) (if d = true then DHCPc_CalcBackOff cfg ms else ms)) ∧
    txTypes (discoverLoop cfg hw NET_IF_ETHER_ADDR_SIZE n d ms e p pmsg w).w.trace
      = txTypes w.trace ++ List.replicate (j + 1) DHCP_MSG_DISCOVER := by
  induction n generalizing d ms e p pmsg w j pre with
  | zero => omega
  | succ n ih =>
    obtain ⟨p2, m2, w2, a1, a2, a3, a4, a5, a6, -, a8, a9, a10⟩ := discover_attempt cfg hw d ms
      p pmsg w (htx 0 (Nat.zero_le _)) hname hqty
    rw [nextXidVals_succ] at hq
    have hx : p2.TransactionID ∈ [(p.TransactionID + 1) % 2 ^ 32] := by simp [a1]
    have hq1 : ∀ ev ∈ pre, quiet cfg hw [(p.TransactionID + 1) % 2 ^ 32] ev = true :=
      fun ev hev => quiet_mono cfg hw _ _ ev (by simp) (hq ev hev)
    have hlen576 : (rxBytes bytes).length ≤ DHCP_MSG_BUF_SIZE := by
      unfold rxBytes; simp
    rw [a10 n e]
    cases j with
    | zero =>
      obtain ⟨l, hl⟩ := data_of_countP pre hc
      obtain ⟨x1, x2, x3, x4, x5, x6, x7⟩ := discoverRx_accepts cfg p2 hw w2.env.rx.length w2 m2
        _ l bytes rest items hx (by rw [a4, hrx, hl])
        (fun b hb => hq1 _ (by rw [hl]; exact List.mem_map_of_mem _ hb)) hmin
        (by rw [a1]; exact hok) hd ht
      rw [if_pos x1]
      refine ⟨rfl, x2, x3.trans a3, x4, x5, x6, by rw [x7]; simp, ?_, ?_⟩
      · rw [x7]
        have : sched (l.map (fun b => Event.rx (RxEvent.data b))) = [] := by
          simp [sched, List.filterMap_eq_nil_iff, schedEntry]
        simp only [sched_append, a8, this, List.append_nil]
        simp [sched, schedEntry, backOffSched]
      · rw [x7]
        have : txTypes (l.map (fun b => Event.rx (RxEvent.data b))) = [] := by
          simp [txTypes, List.filterMap_eq_nil_iff]
        simp only [txTypes_append, a9, this, List.append_nil]
        simp [txTypes]
    | succ j =>
      obtain ⟨x1, x2, x3, ⟨pre1, x4, x5, x6⟩, x7⟩ := discoverRx_fails cfg p2 hw w2.env.rx.length
        w2 m2 _ pre (RxEvent.data bytes :: rest) (by omega) hx (by rw [a4, hrx]) hq1
        (by omega)
      have x8 := sched_discoverRx cfg p2 hw NET_IF_ETHER_ADDR_SIZE (w2.env.rx.length + 1) w2 m2
      have x9 := txTypes_discoverRx cfg p2 hw NET_IF_ETHER_ADDR_SIZE (w2.env.rx.length + 1) w2
        m2
      have x10 := cpu_name_discoverRx cfg p2 hw NET_IF_ETHER_ADDR_SIZE (w2.env.rx.length + 1)
        w2 m2
      generalize discoverRx cfg p2 hw NET_IF_ETHER_ADDR_SIZE (w2.env.rx.length + 1) w2 m2 = x
        at x1 x2 x3 x4 x7 x8 x9 x10 ⊢
      rw [if_neg (by simp [x1])]
      have htl : ∀ i, i ≤ j → w.env.tx.tail.getD i false = true := by
        intro i hi
        have := htx (i + 1) (by omega)
        cases hl : w.env.tx with
        | nil => rw [hl] at this; simp at this
        | cons a l => rw [hl] at this; simpa using this
      have hok2 : hdrOk hw ((p2.TransactionID + (j + 1)) % 2 ^ 32) (rxBytes bytes) = true := by
        rw [a1, Nat.mod_add_mod]
        have : p.TransactionID + 1 + (j + 1) = p.TransactionID + (j + 1 + 1) := by omega
        rw [this]; exact hok
      obtain ⟨i1, i2, i3, i4, i5, i6, i7, i8, i9⟩ := ih true
        (if d = true then DHCPc_CalcBackOff cfg ms else ms) x.err p2 x.pmsg x.w j pre1
        (by omega) x4
        (fun ev hev => quiet_mono cfg hw _ _ ev
          (by rw [a1]; exact fun y hy => List.mem_cons_of_mem _ hy) (hq ev (x5 ev hev)))
        (by omega) (by rw [x7, a5]; exact htl) (by rw [x10, a6]; exact hname)
        (by rw [a2]; exact hqty) hok2
      refine ⟨i1, i2, i3.trans (x3.trans a3), i4, i5, i6, i7, ?_, ?_⟩
      · rw [i8, x8, a8, backOffSched_succ (n := j + 1)]
        cases d <;> simp
      · rw [i9, x9, a9, List.replicate_succ (n := j + 1)]; simp

theorem MsgFree_pool_congr (cfg : DHCPc_CFG) (w1 w2 : Client) (m1 m2 : DHCPc_MSG)
    (h : msgPart w1 = msgPart w2) (hid : m1.ID = m2.ID) :
    (DHCPc_MsgFree cfg w1 m1).DHCPc_MsgPoolPtr = (DHCPc_MsgFree cfg w2 m2).DHCPc_MsgPoolPtr := by
  have ha : w1.DHCPc_MsgPoolPtr = w2.DHCPc_MsgPoolPtr := congrArg (fun x => x.1) h
  have hb : w1.DHCPc_MsgListHead = w2.DHCPc_MsgListHead := congrArg (fun x => x.2) h
  unfold DHCPc_MsgFree
  rw [hb, hid]
  split
  · exact ha
  · simp [ha]

/-- Freeing the message `DHCPc_MsgGet` has just handed out restores the message pool. -/
theorem MsgGet_free_pool (cfg : DHCPc_CFG) (w : Client) (pmsg : DHCPc_MSG)
    (h : (DHCPc_MsgGet w).1 = some pmsg) :
    (DHCPc_MsgFree cfg (DHCPc_MsgGet w).2.2 pmsg).DHCPc_MsgPoolPtr = w.DHCPc_MsgPoolPtr := by
  unfold DHCPc_MsgGet at h ⊢
  cases hp : w.DHCPc_MsgPoolPtr with
  | nil => rw [hp] at h; simp at h
  | cons a l =>
    rw [hp] at h
    simp only [Option.some.injEq] at h
    subst h
    simp [DHCPc_MsgFree]

theorem MsgGet_none_pool (w : Client) (h : (DHCPc_MsgGet w).1 = none) :
    (DHCPc_MsgGet w).2.2.DHCPc_MsgPoolPtr = w.DHCPc_MsgPoolPtr := by
  unfold DHCPc_MsgGet at h ⊢
  cases hp : w.DHCPc_MsgPoolPtr with
  | nil => simpa using hp
  | cons a l => rw [hp] at h; simp at h

/-- The wait for the reply of `DHCPc_Discover`: not done, it ends with an error; it keeps the
message it works on and the message pool. -/
theorem discoverRx_kept (cfg : DHCPc_CFG) (p : DHCPc_IF_INFO) (hw : List Nat)
    (len fuel : Nat) (w : Client) (pmsg : DHCPc_MSG) :
    ((discoverRx cfg p hw len fuel w pmsg).done = false →
      (discoverRx cfg p hw len fuel w pmsg).err ≠ DHCPc_ERR_NONE) ∧
    (discoverRx cfg p hw len fuel w pmsg).pmsg.ID = pmsg.ID ∧
    msgPart (discoverRx cfg p hw len fuel w pmsg).w = msgPart w := by
  induction fuel generalizing w pmsg with
  | zero => exact ⟨(fun _ => by simp [discoverRx]), rfl, rfl⟩
  | succ n ih =>
    have hm := (RxReply_frame cfg w p NET_IPv4_ADDR_NONE hw len pmsg.MsgBuf
      DHCP_MSG_BUF_SIZE).2
    unfold discoverRx
    dsimp only
    split
    · split
      · exact ⟨(fun h => by cases h), rfl, hm⟩
      · obtain ⟨i1, i3, i4⟩ := ih (DHCPc_RxReply cfg w p NET_IPv4_ADDR_NONE hw len pmsg.MsgBuf
          DHCP_MSG_BUF_SIZE).2 ⟨pmsg.ID, (DHCPc_RxReply cfg w p NET_IPv4_ADDR_NONE hw len
          pmsg.MsgBuf DHCP_MSG_BUF_SIZE).1.buf, (DHCPc_RxReply cfg w p NET_IPv4_ADDR_NONE hw len
          pmsg.MsgBuf DHCP_MSG_BUF_SIZE).1.len⟩
        exact ⟨i1, i3, i4.trans hm⟩
    · rename_i h1
      exact ⟨(fun _ => h1), rfl, hm⟩

/-- The retry loop of `DHCPc_Discover`: when it returns from inside the loop it reports an
error and has freed the message; otherwise it keeps the message pool; it keeps the message it
works on and the stored message and the server identifier of the record. -/
theorem discoverLoop_kept (cfg : DHCPc_CFG) (hw : List Nat) (len n : Nat) (d : Bool) (ms : Nat)
    (e : DHCPc_ERR) (p : DHCPc_IF_INFO) (pmsg : DHCPc_MSG) (w : Client) :
    ((discoverLoop cfg hw len n d ms e p pmsg w).returned = true →
      (discoverLoop cfg hw len n d ms e p pmsg w).err ≠ DHCPc_ERR_NONE ∧
      (discoverLoop cfg hw len n d ms e p pmsg w).w.DHCPc_MsgPoolPtr
        = (DHCPc_MsgFree cfg w pmsg).DHCPc_MsgPoolPtr) ∧
    ((discoverLoop cfg hw len n d ms e p pmsg w).returned = false →
      msgPart (discoverLoop cfg hw len n d ms e p pmsg w).w = msgPart w) ∧
    (discoverLoop cfg hw len n d ms e p pmsg w).pmsg.ID = pmsg.ID ∧
    (discoverLoop cfg hw len n d ms e p pmsg w).pif_info.MsgPtr = p.MsgPtr ∧
    (discoverLoop cfg hw len n d ms e p pmsg w).pif_info.ServerID = p.ServerID := by
  induction n generalizing d ms e p pmsg w with
  | zero =>
    exact ⟨(fun h => by simp [discoverLoop] at h), (fun _ => rfl), rfl, rfl, rfl⟩
  | succ n ih =>
    unfold discoverLoop
    dsimp only
    generalize (if d = true then DHCPc_CalcBackOff cfg ms else ms) = ms1
    have hw1 : msgPart (if d = true then backOffDly w ms1 else w) = msgPart w := by
      cases d <;> rfl
    generalize (if d = true then backOffDly w ms1 else w) = w1 at hw1 ⊢
    generalize hp1 : ({ p with TransactionID := (p.TransactionID + 1) % 2 ^ 32 }
      : DHCPc_IF_INFO) = p1
    have hp1m : p1.MsgPtr = p.MsgPtr := by rw [← hp1]
    have hp1s : p1.ServerID = p.ServerID := by rw [← hp1]
    obtain ⟨-, -, hr3, hr4⟩ := net_txPrepare cfg w1 p1 DHCP_MSG_DISCOVER hw len pmsg
    have hr5 := MsgPtr_txPrepare cfg w1 p1 DHCP_MSG_DISCOVER hw len pmsg
    rw [hw1] at hr3
    rw [hp1s] at hr4
    rw [hp1m] at hr5
    generalize txPrepare cfg w1 p1 DHCP_MSG_DISCOVER hw len pmsg = R at hr3 hr4 hr5 ⊢
    have ht : msgPart (DHCPc_Tx R.2.2 (memBytes R.1.buf 0 R.1.msg_size)
        NET_IPv4_ADDR_BROADCAST).2 = msgPart w := by
      rw [← hr3]; rfl
    generalize DHCPc_Tx R.2.2 (memBytes R.1.buf 0 R.1.msg_size) NET_IPv4_ADDR_BROADCAST = t
      at ht ⊢
    have hX := discoverRx_kept cfg R.2.1 hw len (t.2.env.rx.length + 1) t.2
      ⟨pmsg.ID, R.1.buf, pmsg.MsgLen⟩
    generalize discoverRx cfg R.2.1 hw len (t.2.env.rx.length + 1) t.2
      ⟨pmsg.ID, R.1.buf, pmsg.MsgLen⟩ = x at hX ⊢
    obtain ⟨-, hX3, hX4⟩ := hX
    split
    · rename_i h1
      exact ⟨(fun _ => ⟨h1, MsgFree_pool_congr cfg R.2.2 w pmsg pmsg hr3 rfl⟩),
        (fun h => by cases h), rfl, hr5, hr4⟩
    · split
      · exact ⟨(fun h => by cases h), (fun _ => ht), rfl, hr5, hr4⟩
      · split
        · exact ⟨(fun h => by cases h), (fun _ => hX4.trans ht), hX3, hr5, hr4⟩
        · obtain ⟨i1, i2, i4, i5, i6⟩ := ih true ms1 x.err R.2.1 x.pmsg x.w
          exact ⟨(fun h => ⟨(i1 h).1, (i1 h).2.trans
              (MsgFree_pool_congr cfg x.w w x.pmsg pmsg (hX4.trans ht) hX3)⟩),
            (fun h => (i2 h).trans (hX4.trans ht)), i4.trans hX3, i5.trans hr5, i6.trans hr4⟩

theorem MsgGet_some (w : Client) (h : w.DHCPc_MsgPoolPtr ≠ []) :
    ∃ pmsg, (DHCPc_MsgGet w).1 = some pmsg := by
  unfold DHCPc_MsgGet
  cases hp : w.DHCPc_MsgPoolPtr with
  | nil => exact absurd hp h
  | cons a l => exact ⟨_, rfl⟩

theorem env_MsgGet (w : Client) : (DHCPc_MsgGet w).2.2.env = w.env := by
  unfold DHCPc_MsgGet; split <;> rfl

theorem env_storeMsg (cfg : DHCPc_CFG) (w : Client) (p : DHCPc_IF_INFO) (m : DHCPc_MSG) :
    (storeMsg cfg w p m).2.env = w.env := by
  unfold storeMsg DHCPc_MsgFree
  dsimp only
  repeat' split
  all_goals rfl

/-- The server identifier that `DHCPc_Discover` reads in a well-formed message is the one the
message carries; it reads none when the message carries no SERVER-IDENTIFIER option. -/
theorem dgram_serverId (m : DHCPc_MSG) (b : List Nat) (items : List OptItem)
    (hl : m.MsgLen = b.length) (hag : ∀ i, i < b.length → m.MsgBuf i = b.getD i 0)
    (hd : dgramHas b items) :
    (∀ id, serverIdOf items = some id → msgOpt32 DHCP_OPT_SERVER_IDENTIFIER m = some id) ∧
    (firstOpt DHCP_OPT_SERVER_IDENTIFIER items = none →
      msgOpt32 DHCP_OPT_SERVER_IDENTIFIER m = none) := by
  have h := dgram_decode m.MsgBuf b items DHCP_OPT_SERVER_IDENTIFIER (by decide) hag hd
  unfold msgOpt32
  rw [hl]
  constructor
  · intro id hid
    unfold serverIdOf at hid
    cases hfo : firstOpt DHCP_OPT_SERVER_IDENTIFIER items with
    | none => rw [hfo] at hid; cases hid
    | some v =>
      rw [hfo] at hid h
      dsimp only at hid
      by_cases h4 : 4 ≤ v.length
      · rw [if_pos h4] at hid
        cases hr : DHCPc_MsgGetOpt DHCP_OPT_SERVER_IDENTIFIER m.MsgBuf b.length with
        | none => rw [hr] at h; simp [optValBytes] at h
        | some r =>
          rw [hr] at h
          simp only [optValBytes, Option.map_some', Option.some.injEq] at h
          have hlen : r.2 = v.length := by
            have := congrArg List.length h
            simpa [memBytes] using this
          have hg : ∀ i, i < 4 → m.MsgBuf (r.1 + i) = memOfList v (0 + i) := by
            intro i hi
            have := memBytes_getD m.MsgBuf r.1 r.2 i (by omega)
            rw [h] at this
            rw [← this]
            simp [memOfList]
          have e0 := hg 0 (by omega)
          have e1 := hg 1 (by omega)
          have e2 := hg 2 (by omega)
          have e3 := hg 3 (by omega)
          simp only [Nat.add_zero] at e0
          simp only [Option.map_some', Option.some.injEq] at hid ⊢
          rw [← hid]
          unfold getNet32
          rw [e0, e1, e2, e3]
      · rw [if_neg h4] at hid; cases hid
  · intro hfo
    rw [hfo] at h
    cases hr : DHCPc_MsgGetOpt DHCP_OPT_SERVER_IDENTIFIER m.MsgBuf b.length with
    | none => rfl
    | some r => rw [hr] at h; simp [optValBytes] at h

/-! ### The REQUEST exchange without answer -/

/-- The wait for the reply of `DHCPc_Req` when every event left is quiet: it ends, not done,
with an error. -/
theorem reqRx_quiet (cfg : DHCPc_CFG) (p : DHCPc_IF_INFO) (hw : List Nat)
    (len fuel : Nat) (w : Client) (pmsg : DHCPc_MSG) (xids : List Nat)
    (hx : p.TransactionID ∈ xids) (hq : ∀ ev ∈ w.env.rx, quiet cfg hw xids ev = true) :
    (reqRx cfg p hw len (fuel + 1) w pmsg).done = false ∧
    (reqRx cfg p hw len (fuel + 1) w pmsg).err ≠ DHCPc_ERR_NONE ∧
    (∀ ev ∈ (reqRx cfg p hw len (fuel + 1) w pmsg).w.env.rx, ev ∈ w.env.rx) ∧
    (reqRx cfg p hw len (fuel + 1) w pmsg).w.env.tx = w.env.tx := by
  obtain ⟨h1, h2⟩ := RxReply_quiet cfg w p hw len pmsg.MsgBuf xids hx hq
  obtain ⟨h3, -⟩ := RxReply_frame cfg w p NET_IPv4_ADDR_NONE hw len pmsg.MsgBuf
    DHCP_MSG_BUF_SIZE
  unfold reqRx
  dsimp only
  rw [if_neg h1]
  exact ⟨rfl, h1, h2, h3⟩

/-- One attempt of the retry loop of `DHCPc_Req` whose transmission succeeds, up to the wait
for the reply: the delay, if one is due, the REQUEST message and its transmission; then the
loop ends if the wait for the reply is done and goes on with the next attempt otherwise. -/
theorem req_attempt (cfg : DHCPc_CFG) (hw : List Nat) (d : Bool) (ms : Nat)
    (p : DHCPc_IF_INFO) (pmsg : DHCPc_MSG) (w : Client)
    (htx : w.env.tx.getD 0 false = true)
    (hname : ∀ nm, w.env.cpu_name = some nm → nm.length ≤ 255)
    (hqty : p.ParamReqQty ≤ 255) :
    ∃ (p2 : DHCPc_IF_INFO) (m2 : DHCPc_MSG) (w2 : Client),
      p2.TransactionID = p.TransactionID ∧
      p2.ParamReqQty = p.ParamReqQty ∧
      w2.env.rx = w.env.rx ∧ w2.env.tx = w.env.tx.tail ∧
      w2.env.cpu_name = w.env.cpu_name ∧
      sched w2.trace = sched w.trace
        ++ ((if d = true then [some (DHCPc_CalcBackOff cfg ms)] else []) ++ [none]) ∧
      txTypes w2.trace = txTypes w.trace ++ [DHCP_MSG_REQUEST] ∧
      ∀ n e, reqLoop cfg hw NET_IF_ETHER_ADDR_SIZE (n + 1) d ms e p pmsg w
        = if (reqRx cfg p2 hw NET_IF_ETHER_ADDR_SIZE (w2.env.rx.length + 1) w2 m2).done
            = true then
            ⟨false, (reqRx cfg p2 hw NET_IF_ETHER_ADDR_SIZE (w2.env.rx.length + 1) w2 m2).err,
              p2, (reqRx cfg p2 hw NET_IF_ETHER_ADDR_SIZE (w2.env.rx.length + 1) w2 m2).pmsg,
              (reqRx cfg p2 hw NET_IF_ETHER_ADDR_SIZE (w2.env.rx.length + 1) w2 m2).w⟩
          else reqLoop cfg hw NET_IF_ETHER_ADDR_SIZE n true
            (if d = true then DHCPc_CalcBackOff cfg ms else ms)
            (reqRx cfg p2 hw NET_IF_ETHER_ADDR_SIZE (w2.env.rx.length + 1) w2 m2).err p2
            (reqRx cfg p2 hw NET_IF_ETHER_ADDR_SIZE (w2.env.rx.length + 1) w2 m2).pmsg
            (reqRx cfg p2 hw NET_IF_ETHER_ADDR_SIZE (w2.env.rx.length + 1) w2 m2).w := by
  generalize hms : (if d = true then DHCPc_CalcBackOff cfg ms else ms) = ms1
  generalize hD : (if d = true then [some (DHCPc_CalcBackOff cfg ms)] else []) = D
  have hw1 : sched (if d = true then backOffDly w ms1 else w).trace = sched w.trace ++ D
      ∧ txTypes (if d = true then backOffDly w ms1 else w).trace = txTypes w.trace
      ∧ (if d = true then backOffDly w ms1 else w).env = w.env := by
    cases d <;> simp at hms hD ⊢ <;> simp [← hms, ← hD] <;> rfl
  generalize hw1e : (if d = true then backOffDly w ms1 else w) = w1 at hw1
  obtain ⟨hs1, hk1, henv1⟩ := hw1
  obtain ⟨he, -, hxt, hq⟩ := txPrepare_xid cfg w1 p DHCP_MSG_REQUEST hw pmsg
    (Or.inr (Or.inl rfl)) (by rw [henv1]; exact hname) hqty
  have hty := txPrepare_type cfg w1 p DHCP_MSG_REQUEST hw pmsg (Or.inr (Or.inl rfl))
    (by rw [henv1]; exact hname) hqty
  obtain ⟨hr1, hr2, -, -⟩ := net_txPrepare cfg w1 p DHCP_MSG_REQUEST hw
    NET_IF_ETHER_ADDR_SIZE pmsg
  have hcn := cpu_name_txPrepare cfg w1 p DHCP_MSG_REQUEST hw NET_IF_ETHER_ADDR_SIZE pmsg
  have htr := trace_txPrepare cfg w1 p DHCP_MSG_REQUEST hw NET_IF_ETHER_ADDR_SIZE pmsg
  rw [henv1] at hr1 hr2 hcn
  generalize hRe : txPrepare cfg w1 p DHCP_MSG_REQUEST hw NET_IF_ETHER_ADDR_SIZE pmsg = R
    at he hq hxt hty hr1 hr2 hcn htr
  generalize hae : (if p.ClientState = DHCP_STATE_RENEWING then p.ServerID
    else NET_IPv4_ADDR_BROADCAST) = addr
  have hhead : R.2.2.env.tx.headD false = true := by
    rw [hr2]
    cases hl : w.env.tx with
    | nil => rw [hl] at htx; simp at htx
    | cons a l => rw [hl] at htx; simpa using htx
  have htx1 : (DHCPc_Tx R.2.2 (memBytes R.1.buf 0 R.1.msg_size) addr).1 = DHCPc_ERR_NONE := by
    show (if R.2.2.env.tx.headD false = true then DHCPc_ERR_NONE else DHCPc_ERR_TX)
      = DHCPc_ERR_NONE
    rw [if_pos hhead]
  have htx2 : (DHCPc_Tx R.2.2 (memBytes R.1.buf 0 R.1.msg_size) addr).2.env.rx = w.env.rx := by
    rw [← hr1]; rfl
  have htx3 : (DHCPc_Tx R.2.2 (memBytes R.1.buf 0 R.1.msg_size) addr).2.env.tx
      = w.env.tx.tail := by
    rw [← hr2]; rfl
  have htx4 : (DHCPc_Tx R.2.2 (memBytes R.1.buf 0 R.1.msg_size) addr).2.env.cpu_name
      = w.env.cpu_name := by
    rw [← hcn]; rfl
  have htx5 : sched (DHCPc_Tx R.2.2 (memBytes R.1.buf 0 R.1.msg_size) addr).2.trace
      = sched w.trace ++ (D ++ [none]) := by
    rw [sched_Tx, htr, hs1, List.append_assoc]
  have htx6 : txTypes (DHCPc_Tx R.2.2 (memBytes R.1.buf 0 R.1.msg_size) addr).2.trace
      = txTypes w.trace ++ [DHCP_MSG_REQUEST] := by
    rw [txTypes_Tx, htr, hk1, hty]
  generalize hte : DHCPc_Tx R.2.2 (memBytes R.1.buf 0 R.1.msg_size) addr = t
    at htx1 htx2 htx3 htx4 htx5 htx6
  refine ⟨R.2.1, ⟨pmsg.ID, R.1.buf, pmsg.MsgLen⟩, t.2, hxt, hq, htx2, htx3, htx4, htx5, htx6,
    ?_⟩
  intro n e
  rw [reqLoop]
  simp only [hms, hw1e, hRe, hae, hte]
  rw [if_neg (by simp [he]), if_neg (by simp [htx1])]

/-- The retry loop of `DHCPc_Req` when every event left is quiet for the transaction identifier
of the record and the transmissions succeed: every attempt is made, with the back-off delays
between them, and the loop ends with an error. -/
theorem reqLoop_quiet (cfg : DHCPc_CFG) (hw : List Nat) (n : Nat) (d : Bool)
    (ms : Nat) (e : DHCPc_ERR) (p : DHCPc_IF_INFO) (pmsg : DHCPc_MSG) (w : Client)
    (hrx : ∀ ev ∈ w.env.rx, quiet cfg hw [p.TransactionID] ev = true)
    (htx : ∀ i, i < n → w.env.tx.getD i false = true)
    (hname : ∀ nm, w.env.cpu_name = some nm → nm.length ≤ 255)
    (hqty : p.ParamReqQty ≤ 255)
    (h0 : 0 < n ∨ e ≠ DHCPc_ERR_NONE) :
    (reqLoop cfg hw NET_IF_ETHER_ADDR_SIZE n d ms e p pmsg w).returned = false ∧
    (reqLoop cfg hw NET_IF_ETHER_ADDR_SIZE n d ms e p pmsg w).err ≠ DHCPc_ERR_NONE ∧
    sched (reqLoop cfg hw NET_IF_ETHER_ADDR_SIZE n d ms e p pmsg w).w.trace
      = sched w.trace ++ ((if d = true ∧ 0 < n then [some (DHCPc_CalcBackOff cfg ms)] else [])
          ++ backOffSched cfg n (if d = true then DHCPc_CalcBackOff cfg ms else ms)) ∧
    txTypes (reqLoop cfg hw NET_IF_ETHER_ADDR_SIZE n d ms e p pmsg w).w.trace
      = txTypes w.trace ++ List.replicate n DHCP_MSG_REQUEST := by
  induction n generalizing d ms e p pmsg w with
  | zero =>
    have he : e ≠ DHCPc_ERR_NONE := by
      rcases h0 with h | h
      · cases h
      · exact h
    exact ⟨rfl, he, by simp [reqLoop, backOffSched], by simp [reqLoop]⟩
  | succ n ih =>
    obtain ⟨p2, m2, w2, a1, a2, a4, a5, a6, a8, a9, a10⟩ := req_attempt cfg hw d ms
      p pmsg w (htx 0 (Nat.succ_pos _)) hname hqty
    have hx : p2.TransactionID ∈ [p.TransactionID] := by simp [a1]
    obtain ⟨x1, x2, x4, x5⟩ := reqRx_quiet cfg p2 hw NET_IF_ETHER_ADDR_SIZE
      w2.env.rx.length w2 m2 _ hx (fun ev hev => hrx ev (by rw [← a4]; exact hev))
    have x6 := sched_reqRx cfg p2 hw NET_IF_ETHER_ADDR_SIZE (w2.env.rx.length + 1) w2 m2
    have x7 := txTypes_reqRx cfg p2 hw NET_IF_ETHER_ADDR_SIZE (w2.env.rx.length + 1) w2 m2
    have x8 := cpu_name_reqRx cfg p2 hw NET_IF_ETHER_ADDR_SIZE (w2.env.rx.length + 1) w2 m2
    rw [a10 n e]
    generalize reqRx cfg p2 hw NET_IF_ETHER_ADDR_SIZE (w2.env.rx.length + 1) w2 m2 = x
      at x1 x2 x4 x5 x6 x7 x8 ⊢
    rw [if_neg (by simp [x1])]
    have htl : ∀ i, i < n → w.env.tx.tail.getD i false = true := by
      intro i hi
      have := htx (i + 1) (by omega)
      cases hl : w.env.tx with
      | nil => rw [hl] at this; simp at this
      | cons a l => rw [hl] at this; simpa using this
    obtain ⟨i1, i2, i3, i4⟩ := ih true (if d = true then DHCPc_CalcBackOff cfg ms else ms) x.err
      p2 x.pmsg x.w
      (fun ev hev => by rw [a1]; exact hrx ev (by rw [← a4]; exact x4 ev hev))
      (by rw [x5, a5]; exact htl) (by rw [x8, a6]; exact hname) (by rw [a2]; exact hqty)
      (Or.inr x2)
    refine ⟨i1, i2, ?_, ?_⟩
    · rw [i3, x6, a8, backOffSched_succ]
      cases d <;> simp
    · rw [i4, x7, a9, List.replicate_succ]; simp

/-- `DHCPc_Discover` without any reply: when every event of `NetApp_SockRx` is quiet for the
exchange, the transmissions succeed, a message buffer is free and the message can be built,
the function reports an error after exactly the configured number of DISCOVER messages, with
the back-off delays between them. -/
theorem Discover_quiet (cfg : DHCPc_CFG) (w : Client) (p : DHCPc_IF_INFO) (hw : List Nat)
    (hcnt : 0 < cfg.DHCPc_CFG_DISCOVER_RETRY_CNT)
    (hrx : ∀ ev ∈ w.env.rx, quiet cfg hw
      (nextXidVals p.TransactionID cfg.DHCPc_CFG_DISCOVER_RETRY_CNT) ev = true)
    (htx : ∀ i, i < cfg.DHCPc_CFG_DISCOVER_RETRY_CNT → w.env.tx.getD i false = true)
    (hpool : w.DHCPc_MsgPoolPtr ≠ [])
    (hname : ∀ nm, w.env.cpu_name = some nm → nm.length ≤ 255)
    (hqty : p.ParamReqQty ≤ 255) :
    (DHCPc_Discover cfg w p hw NET_IF_ETHER_ADDR_SIZE).1 ≠ DHCPc_ERR_NONE ∧
    sched (DHCPc_Discover cfg w p hw NET_IF_ETHER_ADDR_SIZE).2.2.trace
      = sched w.trace ++ backOffSched cfg cfg.DHCPc_CFG_DISCOVER_RETRY_CNT 0 ∧
    txTypes (DHCPc_Discover cfg w p hw NET_IF_ETHER_ADDR_SIZE).2.2.trace
      = txTypes w.trace
        ++ List.replicate cfg.DHCPc_CFG_DISCOVER_RETRY_CNT DHCP_MSG_DISCOVER := by
  obtain ⟨pmsg, hg⟩ := MsgGet_some w hpool
  have henv := env_MsgGet w
  obtain ⟨i1, i2, i3, i4⟩ := discoverLoop_quiet cfg hw cfg.DHCPc_CFG_DISCOVER_RETRY_CNT
    false 0 DHCPc_ERR_NONE p pmsg (DHCPc_MsgGet w).2.2 (by rw [henv]; exact hrx)
    (by rw [henv]; exact htx) (by rw [henv]; exact hname) hqty (Or.inl hcnt)
  simp only [Bool.false_eq_true, false_and, if_false, List.nil_append, trace_MsgGet] at i3 i4
  unfold DHCPc_Discover
  rw [if_neg (by simp)]
  dsimp only
  rw [hg]
  dsimp only
  rw [if_neg (by simp [i1]), if_pos i2]
  exact ⟨i2, by simpa using i3, by simpa using i4⟩

/-- `DHCPc_Req` without any reply: when every event of `NetApp_SockRx` is quiet for the
exchange, the transmissions succeed, a message buffer is free and the message can be built,
the function reports an error after exactly the configured number of REQUEST messages, with
the back-off delays between them. -/
theorem Req_quiet (cfg : DHCPc_CFG) (w : Client) (p : DHCPc_IF_INFO) (hw : List Nat)
    (hcnt : 0 < cfg.DHCPc_CFG_REQUEST_RETRY_CNT)
    (hrx : ∀ ev ∈ w.env.rx, quiet cfg hw [p.TransactionID] ev = true)
    (htx : ∀ i, i < cfg.DHCPc_CFG_REQUEST_RETRY_CNT → w.env.tx.getD i false = true)
    (hpool : w.DHCPc_MsgPoolPtr ≠ [])
    (hname : ∀ nm, w.env.cpu_name = some nm → nm.length ≤ 255)
    (hqty : p.ParamReqQty ≤ 255) :
    (DHCPc_Req cfg w p hw NET_IF_ETHER_ADDR_SIZE).1 ≠ DHCPc_ERR_NONE ∧
    sched (DHCPc_Req cfg w p hw NET_IF_ETHER_ADDR_SIZE).2.2.trace
      = sched w.trace ++ backOffSched cfg cfg.DHCPc_CFG_REQUEST_RETRY_CNT 0 ∧
    txTypes (DHCPc_Req cfg w p hw NET_IF_ETHER_ADDR_SIZE).2.2.trace
      = txTypes w.trace
        ++ List.replicate cfg.DHCPc_CFG_REQUEST_RETRY_CNT DHCP_MSG_REQUEST := by
  obtain ⟨pmsg, hg⟩ := MsgGet_some w hpool
  have henv := env_MsgGet w
  obtain ⟨i1, i2, i3, i4⟩ := reqLoop_quiet cfg hw cfg.DHCPc_CFG_REQUEST_RETRY_CNT
    false 0 DHCPc_ERR_NONE p pmsg (DHCPc_MsgGet w).2.2 (by rw [henv]; exact hrx)
    (by rw [henv]; exact htx) (by rw [henv]; exact hname) hqty (Or.inl hcnt)
  simp only [Bool.false_eq_true, false_and, if_false, List.nil_append, trace_MsgGet] at i3 i4
  unfold DHCPc_Req
  rw [if_neg (by simp)]
  dsimp only
  rw [hg]
  dsimp only
  rw [if_neg (by simp [i1]), if_pos i2]
  exact ⟨i2, by simpa using i3, by simpa using i4⟩

/-- An initial part of a back-off schedule that holds two transmissions starts with a
transmission, the first back-off delay and a transmission. -/
theorem backOffSched_second (cfg : DHCPc_CFG) (n : Nat) (l : List (Option Nat))
    (hl : l <+: backOffSched cfg n 0) (h2 : 2 ≤ l.count none) :
    ∃ l1, l = none :: some (DHCPc_CalcBackOff cfg 0) :: none :: l1 := by
  match n, hl with
  | 0, hl =>
    have : l = [] := by simpa [backOffSched] using hl
    rw [this] at h2; simp at h2
  | 1, hl =>
    have hlen := hl.length_le
    simp only [backOffSched, if_true, List.length_singleton] at hlen
    have := List.count_le_length none l
    omega
  | k + 2, hl =>
    obtain ⟨t, ht⟩ := hl
    have hfull : backOffSched cfg (k + 2) 0 = none :: some (DHCPc_CalcBackOff cfg 0)
        :: none :: (if k = 0 then [] else some (DHCPc_CalcBackOff cfg (DHCPc_CalcBackOff cfg 0))
          :: backOffSched cfg k (DHCPc_CalcBackOff cfg (DHCPc_CalcBackOff cfg 0))) := by
      simp [backOffSched]
    rw [hfull] at ht
    match l, ht, h2 with
    | [], _, h2 => simp at h2
    | [a], ht, h2 =>
      have := List.count_le_length none [a]
      simp at this; omega
    | [a, b], ht, h2 =>
      simp only [List.cons_append, List.cons.injEq] at ht
      obtain ⟨ha, hb, -⟩ := ht
      subst ha hb
      simp at h2
    | a :: b :: c :: l1, ht, _ =>
      simp only [List.cons_append, List.cons.injEq] at ht
      obtain ⟨ha, hb, hc, -⟩ := ht
      subst ha hb hc
      exact ⟨l1, rfl⟩

/-- C17 (as the code has it).  `DHCPc_CalcBackOff(0)` returns `DHCPc_BACKOFF_DLY_INITIAL_MS`,
kept in 16 bits, whatever the value of that constant.  In every exchange of `DHCPc_Discover`
or `DHCPc_Req` in which a second datagram is transmitted, the transmissions and delays start
with a transmission, a delay of `DHCPc_CalcBackOff(0)` milliseconds and a transmission: the
delay slept between the first and the second DISCOVER (or REQUEST) is that constant.  Such
exchanges exist: when at least two attempts are configured, every event of `NetApp_SockRx` is
quiet for the exchange, the transmissions succeed, a message buffer is free and the message can
be built, the exchange makes every attempt and starts in that way. -/
theorem C17_first_backoff_delay (cfg : DHCPc_CFG) :
    DHCPc_CalcBackOff cfg 0 = cfg.DHCPc_BACKOFF_DLY_INITIAL_MS % 2 ^ 32 % 2 ^ 16 ∧
    (∀ w p hw len l,
      sched (DHCPc_Discover cfg w p hw len).2.2.trace = sched w.trace ++ l →
      2 ≤ l.count none →
      ∃ l1, l = none :: some (DHCPc_CalcBackOff cfg 0) :: none :: l1) ∧
    (∀ w p hw len l,
      sched (DHCPc_Req cfg w p hw len).2.2.trace = sched w.trace ++ l →
      2 ≤ l.count none →
      ∃ l1, l = none :: some (DHCPc_CalcBackOff cfg 0) :: none :: l1) ∧
    (∀ w p hw,
      2 ≤ cfg.DHCPc_CFG_DISCOVER_RETRY_CNT →
      (∀ ev ∈ w.env.rx, quiet cfg hw
        (nextXidVals p.TransactionID cfg.DHCPc_CFG_DISCOVER_RETRY_CNT) ev = true) →
      (∀ i, i < cfg.DHCPc_CFG_DISCOVER_RETRY_CNT → w.env.tx.getD i false = true) →
      w.DHCPc_MsgPoolPtr ≠ [] →
      (∀ nm, w.env.cpu_name = some nm → nm.length ≤ 255) →
      p.ParamReqQty ≤ 255 →
      ∃ l1, sched (DHCPc_Discover cfg w p hw NET_IF_ETHER_ADDR_SIZE).2.2.trace
        = sched w.trace ++ none :: some (DHCPc_CalcBackOff cfg 0) :: none :: l1) ∧
    (∀ w p hw,
      2 ≤ cfg.DHCPc_CFG_REQUEST_RETRY_CNT →
      (∀ ev ∈ w.env.rx, quiet cfg hw [p.TransactionID] ev = true) →
      (∀ i, i < cfg.DHCPc_CFG_REQUEST_RETRY_CNT → w.env.tx.getD i false = true) →
      w.DHCPc_MsgPoolPtr ≠ [] →
      (∀ nm, w.env.cpu_name = some nm → nm.length ≤ 255) →
      p.ParamReqQty ≤ 255 →
      ∃ l1, sched (DHCPc_Req cfg w p hw NET_IF_ETHER_ADDR_SIZE).2.2.trace
        = sched w.trace ++ none :: some (DHCPc_CalcBackOff cfg 0) :: none :: l1) := by
  have hfull : ∀ k, ∃ l1, backOffSched cfg (k + 2) 0
      = none :: some (DHCPc_CalcBackOff cfg 0) :: none :: l1 := by
    intro k
    exact ⟨_, by simp only [backOffSched, Nat.add_eq_zero, OfNat.ofNat_ne_zero, and_false,
      if_false, Nat.succ_ne_zero]; rfl⟩
  refine ⟨by simp [DHCPc_CalcBackOff], ?_, ?_, ?_, ?_⟩
  · intro w p hw len l hs h2
    obtain ⟨l0, hl0, hs0⟩ := sched_Discover cfg w p hw len
    rw [hs0] at hs
    rw [← List.append_cancel_left hs]
    exact backOffSched_second cfg _ l0 hl0 (by rw [List.append_cancel_left hs]; exact h2)
  · intro w p hw len l hs h2
    obtain ⟨l0, hl0, hs0⟩ := sched_Req cfg w p hw len
    rw [hs0] at hs
    rw [← List.append_cancel_left hs]
    exact backOffSched_second cfg _ l0 hl0 (by rw [List.append_cancel_left hs]; exact h2)
  · intro w p hw h2 hrx htx hpool hname hqty
    obtain ⟨-, hs, -⟩ := Discover_quiet cfg w p hw (by omega) hrx htx hpool hname hqty
    obtain ⟨k, hk⟩ : ∃ k, cfg.DHCPc_CFG_DISCOVER_RETRY_CNT = k + 2 :=
      ⟨cfg.DHCPc_CFG_DISCOVER_RETRY_CNT - 2, by omega⟩
    obtain ⟨l1, hl1⟩ := hfull k
    exact ⟨l1, by rw [hs, hk, hl1]⟩
  · intro w p hw h2 hrx htx hpool hname hqty
    obtain ⟨-, hs, -⟩ := Req_quiet cfg w p hw (by omega) hrx htx hpool hname hqty
    obtain ⟨k, hk⟩ : ∃ k, cfg.DHCPc_CFG_REQUEST_RETRY_CNT = k + 2 :=
      ⟨cfg.DHCPc_CFG_REQUEST_RETRY_CNT - 2, by omega⟩
    obtain ⟨l1, hl1⟩ := hfull k
    exact ⟨l1, by rw [hs, hk, hl1]⟩

/-- Witness of C17: with the initial delay of 2 seconds of the note, a stray OFFER, a receive
error, a short datagram and then silence, the first DISCOVER is followed by a delay of 2000 ms
and the second DISCOVER, and likewise for the REQUEST. -/
theorem C17_first_backoff_delay_witness :
    DHCPc_CalcBackOff noteCfg 0 = 2000 ∧
    (∃ l1, sched (DHCPc_Discover noteCfg (startedClient strayEnv) startedIf hwAddr
        NET_IF_ETHER_ADDR_SIZE).2.2.trace = none :: some 2000 :: none :: l1) ∧
    (∃ l1, sched (DHCPc_Req noteCfg (startedClient strayEnv) (ackIf leaseOpt600) hwAddr
        NET_IF_ETHER_ADDR_SIZE).2.2.trace = none :: some 2000 :: none :: l1) := by
  have h := C17_first_backoff_delay noteCfg
  have h0 : DHCPc_CalcBackOff noteCfg 0 = 2000 := h.1.trans (by decide)
  have hd := h.2.2.2.1 (startedClient strayEnv) startedIf hwAddr (by decide) (by decide!)
    (by decide!) (by decide!) (by decide!) (by decide!)
  have hr := h.2.2.2.2 (startedClient strayEnv) (ackIf leaseOpt600) hwAddr (by decide)
    (by decide!) (by decide!) (by decide!) (by decide!) (by decide!)
  rw [h0] at hd hr
  exact ⟨h0, hd, hr⟩

/-- C17 (counterexample).  With the initial delay that Note (1) of `DHCPc_CalcBackOff` states,
2 seconds, `DHCPc_CalcBackOff(0)` is 2000, not 4000, and when the server stays silent the
DISCOVER messages, and the REQUEST messages, are transmitted 2000 ms and then 4000 ms apart. -/
theorem C17_first_delay_of_the_note :
    DHCPc_CalcBackOff noteCfg 0 = 2000 ∧
    DHCPc_CalcBackOff noteCfg 0 ≠ 4000 ∧
    sched (DHCPc_Discover noteCfg (startedClient silentEnv) startedIf hwAddr 6).2.2.trace
      = [none, some 2000, none, some 4000, none] ∧
    sched (DHCPc_Req noteCfg (startedClient silentEnv) (ackIf leaseOpt600) hwAddr 6).2.2.trace
      = [none, some 2000, none, some 4000, none] := by
  refine ⟨?_, ?_, ?_, ?_⟩ <;> decide!

/-- When the receive loop of `DHCPc_RxReply` ends without error, the last event is the
reception of a datagram and the buffer holds it, cut to the size of the buffer. -/
theorem rxReplyLoop_rxd (cfg : DHCPc_CFG) (p : DHCPc_IF_INFO) (sid : Nat) (hw : List Nat)
    (n : Nat) (rx : List RxEvent) (f : RxFlags) (buf : Mem) (tr : List Event)
    (h : (rxReplyLoop cfg p sid hw n rx f buf tr).1 = DHCPc_ERR_NONE) :
    ∃ bytes, (rxReplyLoop cfg p sid hw n rx f buf tr).2.2.2.2.getLast?
        = some (Event.rx (RxEvent.data bytes)) ∧
      memBytes (rxReplyLoop cfg p sid hw n rx f buf tr).2.2.1 0
        (rxReplyLoop cfg p sid hw n rx f buf tr).2.1 = bytes.take n := by
  induction rx generalizing f buf tr with
  | nil => simp [rxReplyLoop, DHCPc_Rx] at h
  | cons ev rest ih =>
    cases ev with
    | data b =>
      unfold rxReplyLoop at h ⊢
      simp only [DHCPc_Rx, if_true] at h ⊢
      split
      · exact ⟨b, by simp, (Mem_Copy_bytes buf (b.take n)).1⟩
      · rename_i hacc
        rw [if_neg hacc] at h
        exact ih _ _ _ h
    | ovf => simp [rxReplyLoop, DHCPc_Rx] at h
    | err => simp [rxReplyLoop, DHCPc_Rx] at h


/-! ### The receive loop of `DHCPc_RxReply` -/

/-- The header checks of the receive loop: when the loop, entered with flags that do not all
hold, ends without error, the datagram in the buffer is at least `DHCP_MSG_RX_MIN_LEN` bytes
long, its `op` is REPLY, its `chaddr` starts with the 6 bytes of the hardware address and its
`xid` is the transaction identifier of the record. -/
theorem rxReplyLoop_checks (cfg : DHCPc_CFG) (p : DHCPc_IF_INFO) (sid : Nat) (hw : List Nat)
    (n : Nat) (rx : List RxEvent) (f : RxFlags) (buf : Mem) (tr : List Event)
    (hf : ¬ (f.remote_match = true ∧ f.opcode_reply = true ∧ f.addr_hw_match = true
      ∧ f.transaction_id_match = true))
    (h : (rxReplyLoop cfg p sid hw n rx f buf tr).1 = DHCPc_ERR_NONE) :
    cfg.DHCP_MSG_RX_MIN_LEN ≤ (rxReplyLoop cfg p sid hw n rx f buf tr).2.1 ∧
    (rxReplyLoop cfg p sid hw n rx f buf tr).2.2.1 hdr.op = DHCP_OP_REPLY ∧
    Mem_Cmp (rxReplyLoop cfg p sid hw n rx f buf tr).2.2.1 hdr.chaddr
      (hw.take NET_IF_ETHER_ADDR_SIZE) = true ∧
    getNet32 (rxReplyLoop cfg p sid hw n rx f buf tr).2.2.1 hdr.xid = p.TransactionID := by
  induction rx generalizing f buf tr with
  | nil => simp [rxReplyLoop, DHCPc_Rx] at h
  | cons ev rest ih =>
    cases ev with
    | data b =>
      unfold rxReplyLoop at h ⊢
      simp only [DHCPc_Rx, if_true] at h ⊢
      split
      · rename_i hacc
        by_cases hlen : (b.take n).length ≥ cfg.DHCP_MSG_RX_MIN_LEN
        · simp only [rxValidate, if_pos hlen, decide_eq_true_eq] at hacc
          exact ⟨hlen, hacc.2.1, hacc.2.2.1, hacc.2.2.2⟩
        · simp only [rxValidate, if_neg hlen] at hacc
          exact absurd hacc hf
      · rename_i hacc
        rw [if_neg hacc] at h
        exact ih _ _ _ hacc h
    | ovf => simp [rxReplyLoop, DHCPc_Rx] at h
    | err => simp [rxReplyLoop, DHCPc_Rx] at h

/-- The header checks of `DHCPc_RxReply`: whenever it returns without error, the message it
leaves in the buffer is the datagram received last, which is at least `DHCP_MSG_RX_MIN_LEN`
bytes long, has the `op` REPLY, the hardware address of the interface in `chaddr` and the
transaction identifier of the record, and the returned type is the byte at the place where
`DHCPc_MsgGetOpt` finds a DHCP-MESSAGE-TYPE option. -/
theorem RxReply_checks (cfg : DHCPc_CFG) (w : Client) (p : DHCPc_IF_INFO) (sid : Nat)
    (hw : List Nat) (len : Nat) (buf : Mem) (n : Nat)
    (h : (DHCPc_RxReply cfg w p sid hw len buf n).1.err = DHCPc_ERR_NONE) :
    cfg.DHCP_MSG_RX_MIN_LEN ≤ (DHCPc_RxReply cfg w p sid hw len buf n).1.len ∧
    (DHCPc_RxReply cfg w p sid hw len buf n).1.buf hdr.op = DHCP_OP_REPLY ∧
    Mem_Cmp (DHCPc_RxReply cfg w p sid hw len buf n).1.buf hdr.chaddr
      (hw.take NET_IF_ETHER_ADDR_SIZE) = true ∧
    getNet32 (DHCPc_RxReply cfg w p sid hw len buf n).1.buf hdr.xid = p.TransactionID ∧
    (∃ bytes, (DHCPc_RxReply cfg w p sid hw len buf n).2.trace.getLast?
        = some (Event.rx (RxEvent.data bytes)) ∧
      memBytes (DHCPc_RxReply cfg w p sid hw len buf n).1.buf 0
        (DHCPc_RxReply cfg w p sid hw len buf n).1.len = bytes.take n) ∧
    ∃ r, DHCPc_MsgGetOpt DHCP_OPT_DHCP_MESSAGE_TYPE (DHCPc_RxReply cfg w p sid hw len buf n).1.buf
        (DHCPc_RxReply cfg w p sid hw len buf n).1.len = some r ∧
      (DHCPc_RxReply cfg w p sid hw len buf n).1.msg_type
        = (DHCPc_RxReply cfg w p sid hw len buf n).1.buf r.1 % 256 := by
  have hx := rxReplyLoop_rxd cfg p sid hw n w.env.rx ⟨false, false, false, false⟩ buf w.trace
  have hc := rxReplyLoop_checks cfg p sid hw n w.env.rx ⟨false, false, false, false⟩ buf w.trace
    (by simp)
  unfold DHCPc_RxReply at h ⊢
  dsimp only at h ⊢
  generalize rxReplyLoop cfg p sid hw n w.env.rx ⟨false, false, false, false⟩ buf w.trace = x
    at h hx hc ⊢
  by_cases h1 : cfg.DHCPc_CFG_ARG_CHK_DBG_EN = true ∧ n < cfg.DHCP_MSG_RX_MIN_LEN
  · rw [if_pos h1] at h; cases h
  · rw [if_neg h1] at h ⊢
    by_cases h2 : cfg.DHCPc_CFG_ARG_CHK_DBG_EN = true ∧ len ≠ NET_IF_ETHER_ADDR_SIZE
    · rw [if_pos h2] at h; cases h
    · rw [if_neg h2] at h ⊢
      by_cases h3 : x.1 ≠ DHCPc_ERR_NONE
      · rw [if_pos h3] at h; exact absurd h h3
      · rw [if_neg h3] at h ⊢
        obtain ⟨bytes, hl, hb⟩ := hx (by simpa using h3)
        obtain ⟨c1, c2, c3, c4⟩ := hc (by simpa using h3)
        cases hr : DHCPc_MsgGetOpt DHCP_OPT_DHCP_MESSAGE_TYPE x.2.2.1 x.2.1 with
        | none => rw [hr] at h; cases h
        | some r =>
          dsimp only
          exact ⟨c1, c2, c3, c4, ⟨bytes, hl, hb⟩, r, hr, rfl⟩

/-- C25, evaluation at the failing input.  `DHCPc_RxReply` receives an ACK with another
transaction identifier, which it skips, and then a reply of 240 bytes with the identifier of the
record that ends with the magic cookie and holds no option.  It returns without error the type
ACK and the length 240: `DHCPc_MsgGetOpt` finds the DHCP-MESSAGE-TYPE option at the offsets 240
to 242 of the buffer, which are past the datagram and still hold the bytes of the skipped ACK.
In a negotiation the same two datagrams after the OFFER leave the interface configured, the
stored message being the 240 bytes without option. -/
theorem C25_type_from_skipped_datagram :
    staleTypeRx.1.err = DHCPc_ERR_NONE ∧
    staleTypeRx.1.msg_type = DHCP_MSG_ACK ∧
    staleTypeRx.1.len = 240 ∧
    memBytes staleTypeRx.1.buf 0 staleTypeRx.1.len = bareReply 0x3C4D5E01 ∧
    (bareReply 0x3C4D5E01).drop 236 = DHCP_MAGIC_COOKIE ∧
    DHCPc_MsgGetOpt DHCP_OPT_DHCP_MESSAGE_TYPE staleTypeRx.1.buf staleTypeRx.1.len
      = some (242, 1) ∧
    memBytes staleTypeRx.1.buf 240 3 = [DHCP_OPT_DHCP_MESSAGE_TYPE, 1, DHCP_MSG_ACK] ∧
    staleTypeRx.2.trace = [Event.rx (serverMsg DHCP_MSG_ACK 0x3C4D5E00 serverOpts),
      Event.rx (RxEvent.data (bareReply 0x3C4D5E01))] ∧
    (runStart staleRunEnv).DHCPc_InfoListHead.map
        (fun r => (r.LeaseStatus, r.ClientState, r.MsgPtr.map (fun m => m.MsgLen)))
      = [(DHCP_STATUS_CFGD, DHCP_STATE_BOUND, some 240)] := by
  refine ⟨?_, ?_, ?_, ?_, ?_, ?_, ?_, ?_, ?_⟩ <;> decide!

end DHCPc
